import Mathlib

/-!
# srsRAN scheduler core: UE cell grid allocator

Shallow embedding of `lib/scheduler/ue_scheduling/ue_cell_grid_allocator.cpp`
(`allocate_dl_grant`, `allocate_ul_grant`, `is_csi_slot`) and of the inline
members of `lib/scheduler/ue_scheduling/ue_cell.h`.

Conventions of the embedding.

* Mutable C++ objects become values that are passed in and returned.  The
  allocator object together with everything it references (UE repository,
  per-cell PDCCH scheduler, UCI allocator and resource allocator ring) is the
  record `ue_cell_grid_allocator`.
* A call returns an `alloc_run`: how the call ended (`return true`,
  `return false` at a given return site, or an abort on a failed assertion),
  the ordered list of state-changing calls made on collaborators, and the
  state at the end of the call.
* Machine integers are natural numbers; the one accumulation done in `unsigned`
  arithmetic (the total DAI) is reduced modulo `2 ^ 32` explicitly.
* Collaborators whose implementation is not part of the sources at hand (resource
  grid, PDCCH allocator, UCI allocator, HARQ process, DCI and PDU builders) are
  modelled from the specification; each such definition says so.
-/

namespace srsran

/-! ## Basic types -/

/-- Modelled from the spec: `interval<unsigned>` of `srsran/adt/interval.h` (missing),
a half-open range `[start, stop)` of resource blocks or OFDM symbols. -/
structure interval where
  start : Nat
  stop : Nat
deriving DecidableEq, Repr

/-- Length `stop - start` of an interval. -/
def interval.length (i : interval) : Nat := i.stop - i.start

/-- Containment `i.contains other`: `other` lies inside `i`. -/
def interval.contains (i other : interval) : Bool :=
  decide (i.start ≤ other.start) && decide (other.stop ≤ i.stop)

/-- Membership of a single index in a half-open interval. -/
def interval.has (i : interval) (x : Nat) : Prop := i.start ≤ x ∧ x < i.stop

/-- Modelled from the spec: `crb_to_prb` of `support/bwp_helpers.h` (missing): CRBs are
re-indexed relative to the first CRB of the bandwidth part. -/
def crb_to_prb (bwp_crb_lims crbs : interval) : interval :=
  ⟨crbs.start - bwp_crb_lims.start, crbs.stop - bwp_crb_lims.start⟩

/-- Modelled from the spec: `slot_point` (missing), "a (numerology, SFN, subframe, slot)
tuple with modular arithmetic over a hyperframe of 1024 SFNs", kept as the
slot count inside the hyperframe. -/
structure slot_point where
  numerology : Nat
  count : Nat
deriving DecidableEq, Repr

/-- Number of slots in a hyperframe: 1024 frames of 10 subframes of `2 ^ numerology` slots. -/
def slot_point.nof_slots_per_hyperframe (s : slot_point) : Nat := 10240 * 2 ^ s.numerology

/-- The operation `slot + k`. -/
def slot_point.add (s : slot_point) (k : Nat) : slot_point :=
  { s with count := (s.count + k) % s.nof_slots_per_hyperframe }

/-- The operation `slot - k`. -/
def slot_point.sub (s : slot_point) (k : Nat) : slot_point :=
  { s with count := (s.count + s.nof_slots_per_hyperframe - k % s.nof_slots_per_hyperframe)
                      % s.nof_slots_per_hyperframe }

/-- The conversion `to_uint()`. -/
def slot_point.to_uint (s : slot_point) : Nat := s.count

/-- The enumeration `dci_dl_rnti_config_type`. -/
inductive dci_dl_rnti_config_type
  | si_f1_0 | ra_f1_0 | c_rnti_f1_0 | tc_rnti_f1_0 | p_rnti_f1_0 | c_rnti_f1_1
deriving DecidableEq, Repr

/-- The enumeration `dci_ul_rnti_config_type`. -/
inductive dci_ul_rnti_config_type
  | tc_rnti_f0_0 | c_rnti_f0_0 | c_rnti_f0_1
deriving DecidableEq, Repr

/-- The record `sch_mcs_tbs`: an MCS index and a transport block size in bytes. -/
structure sch_mcs_tbs where
  mcs : Nat
  tbs : Nat
deriving DecidableEq, Repr

/-- The record `grant_info`: a span of the resource grid. -/
structure grant_info where
  scs : Nat
  symbols : interval
  crbs : interval
deriving DecidableEq, Repr

/-! ## Resource grid -/

/-- The grid cells (symbol, RB) covered by a span. -/
def span_cells (symbols crbs : interval) : List (Nat × Nat) :=
  (List.range' symbols.start symbols.length).flatMap
    (fun s => (List.range' crbs.start crbs.length).map (fun r => (s, r)))

/-- Modelled from the spec: `cell_slot_resource_grid` (missing), "a bitmap over
(symbol 0..13) × (RB 0..N_RB-1)"; the bitmap is kept as the list of its set bits.
Numerology is fixed per cell, so one bitmap serves every `scs`. -/
structure cell_slot_resource_grid where
  cells : List (Nat × Nat)
deriving DecidableEq, Repr

/-- Modelled from the spec: `collides(scs, symbols, rbs)` "returns whether any bit in the
span is set". -/
def cell_slot_resource_grid.collides (g : cell_slot_resource_grid) (_scs : Nat)
    (symbols crbs : interval) : Bool :=
  (span_cells symbols crbs).any (fun c => g.cells.contains c)

/-- Modelled from the spec: `fill(scs, symbols, rbs)` "sets those bits, failing (programming
error) if any were already set"; `none` is the fatal assertion. -/
def cell_slot_resource_grid.fill (g : cell_slot_resource_grid) (gr : grant_info) :
    Option cell_slot_resource_grid :=
  if g.collides gr.scs gr.symbols gr.crbs then none
  else some ⟨span_cells gr.symbols gr.crbs ++ g.cells⟩

/-- Clearing of the bits of a list of cells (inverse of a reservation). -/
def cell_slot_resource_grid.clear (g : cell_slot_resource_grid) (cs : List (Nat × Nat)) :
    cell_slot_resource_grid :=
  ⟨g.cells.filter (fun c => !cs.contains c)⟩

/-! ## Configuration -/

/-- Modelled from the spec: `cell_configuration` (missing); the members read by the allocator
are taken as parameters. -/
structure cell_configuration where
  /-- The field `dl_cfg_common.init_dl_bwp.pdcch_common.ra_search_space_id`. -/
  ra_search_space_id : Nat
  is_dl_enabled : slot_point → Bool
  is_ul_enabled : slot_point → Bool
  is_fully_ul_enabled : slot_point → Bool

/-- A bandwidth part: its id and the subcarrier spacing of `dl_common->generic_params`
and of `ul_common->generic_params`. -/
structure bwp_info where
  bwp_id : Nat
  dl_scs : Nat
  ul_scs : Nat
deriving DecidableEq, Repr

/-- The record `pdsch_time_domain_resource_allocation`. -/
structure pdsch_time_domain_resource_allocation where
  k0 : Nat
  symbols : interval
deriving DecidableEq, Repr

/-- The record `pusch_time_domain_resource_allocation`. -/
structure pusch_time_domain_resource_allocation where
  k2 : Nat
  symbols : interval
deriving DecidableEq, Repr

/-- Modelled from the spec: `search_space_info` (missing); one field per member or getter
read by the allocator. -/
structure search_space_info where
  /-- The field `cfg->id`. -/
  cfg_id : Nat
  bwp : bwp_info
  get_crnti_dl_dci_format : dci_dl_rnti_config_type
  get_crnti_ul_dci_format : dci_ul_rnti_config_type
  pdsch_time_domain_list : List pdsch_time_domain_resource_allocation
  pusch_time_domain_list : List pusch_time_domain_resource_allocation
  dl_crb_lims : interval
  ul_crb_lims : interval
  get_k1_candidates : List Nat
deriving DecidableEq, Repr

/-- The first CSI report configuration, periodic on PUCCH: `report_slot_offset` and the
period `csi_report_periodicity_to_uint(report_slot_period)`. -/
structure csi_report_config where
  report_slot_offset : Nat
  report_slot_period : Nat
deriving DecidableEq, Repr

/-- The record `serving_cell_config` (the dedicated configuration), reduced to
`csi_meas_cfg`. -/
structure serving_cell_config where
  csi_meas_cfg : Option csi_report_config
deriving DecidableEq, Repr

/-- Modelled from the spec: `ue_cell_configuration` (missing). -/
structure ue_cell_configuration where
  cell_cfg_common : cell_configuration
  cfg_dedicated : serving_cell_config
  bwp_table : List bwp_info
  search_spaces : List search_space_info

/-- The lookup `find_search_space(ss_id)`; `none` is `nullptr`. -/
def ue_cell_configuration.find_search_space (c : ue_cell_configuration) (ss_id : Nat) :
    Option search_space_info :=
  c.search_spaces.find? (fun s => s.cfg_id == ss_id)

/-- The lookup `bwp(bwp_id)`; `none` is the failed bounds assertion. -/
def ue_cell_configuration.bwp_lookup (c : ue_cell_configuration) (id : Nat) : Option bwp_info :=
  c.bwp_table.find? (fun b => b.bwp_id == id)

/-- The record `scheduler_ue_expert_config`. -/
structure scheduler_ue_expert_config where
  max_nof_harq_retxs : Nat
  pdsch_rv_sequence : List Nat
  pusch_rv_sequence : List Nat
deriving DecidableEq, Repr

/-- Helper of `ue_cell_grid_allocator.cpp`: whether the slot is a candidate for CSI
reporting of the user. -/
def is_csi_slot (ue_cfg : serving_cell_config) (sl_tx : slot_point) : Bool :=
  match ue_cfg.csi_meas_cfg with
  | some csi_report_cfg =>
    let csi_offset := csi_report_cfg.report_slot_offset
    let csi_period := csi_report_cfg.report_slot_period
    if (sl_tx.sub csi_offset).to_uint % csi_period == 0 then true else false
  | none => false

/-! ## HARQ processes -/

/-- Modelled from the spec: HARQ process state, "State = {empty, waiting-ack, pending-retx}". -/
inductive harq_state
  | empty | waiting_ack | pending_retx
deriving DecidableEq, Repr

/-- Parameters of the last DL transmission kept by a DL HARQ process
(`last_alloc_params()`): DCI format, type-1 RB allocation, MCS and TBS of `tb[0]`. -/
structure dl_harq_alloc_params where
  dci_cfg_type : dci_dl_rnti_config_type
  rbs : interval
  mcs : Nat
  tbs_bytes : Nat
deriving DecidableEq, Repr

/-- Parameters of the last UL transmission kept by an UL HARQ process
(`last_tx_params()`). -/
structure ul_harq_alloc_params where
  dci_cfg_type : dci_ul_rnti_config_type
  rbs : interval
  mcs : Nat
  tbs_bytes : Nat
deriving DecidableEq, Repr

/-- Modelled from the spec: `dl_harq_process` (missing): "process-id, transport-block size,
MCS, RB allocation, number of retransmissions, acknowledgement slot (PDSCH+k1), DAI,
last DCI format". -/
structure dl_harq_process where
  id : Nat
  state : harq_state
  ndi : Bool
  nof_retxs : Nat
  max_nof_harq_retxs : Nat
  slot_tx : slot_point
  slot_ack : slot_point
  dai : Nat
  last_alloc_params : dl_harq_alloc_params
deriving DecidableEq, Repr

/-- Modelled from the spec: `ul_harq_process` (missing); the acknowledgement slot is the
PUSCH slot. -/
structure ul_harq_process where
  id : Nat
  state : harq_state
  ndi : Bool
  nof_retxs : Nat
  max_nof_harq_retxs : Nat
  slot_tx : slot_point
  last_tx_params : ul_harq_alloc_params
deriving DecidableEq, Repr

/-- The query `empty()` of a DL HARQ process. -/
def dl_harq_process.empty (h : dl_harq_process) : Bool := h.state == harq_state.empty

/-- The query `empty()` of an UL HARQ process. -/
def ul_harq_process.empty (h : ul_harq_process) : Bool := h.state == harq_state.empty

/-- Modelled from the spec: `new_tx(pdsch_slot, k1, max_harq_nof_retxs, dai)`, the
transition "new-tx → waiting-ack": a fresh transport block, NDI toggled, no
retransmission yet. -/
def dl_harq_process.new_tx (h : dl_harq_process) (pdsch_slot : slot_point) (k1 : Nat)
    (max_harq_nof_retxs : Nat) (dai : Nat) : dl_harq_process :=
  { h with state := harq_state.waiting_ack, ndi := !h.ndi, nof_retxs := 0,
           max_nof_harq_retxs := max_harq_nof_retxs, slot_tx := pdsch_slot,
           slot_ack := pdsch_slot.add k1, dai := dai }

/-- Modelled from the spec: `new_retx(pdsch_slot, k1, dai)`: one more retransmission of the
same transport block, back to waiting-ack. -/
def dl_harq_process.new_retx (h : dl_harq_process) (pdsch_slot : slot_point) (k1 : Nat)
    (dai : Nat) : dl_harq_process :=
  { h with state := harq_state.waiting_ack, nof_retxs := h.nof_retxs + 1,
           slot_tx := pdsch_slot, slot_ack := pdsch_slot.add k1, dai := dai }

/-- Modelled from the spec: `new_tx(pusch_slot, max_harq_nof_retxs)` of an UL process. -/
def ul_harq_process.new_tx (h : ul_harq_process) (pusch_slot : slot_point)
    (max_harq_nof_retxs : Nat) : ul_harq_process :=
  { h with state := harq_state.waiting_ack, ndi := !h.ndi, nof_retxs := 0,
           max_nof_harq_retxs := max_harq_nof_retxs, slot_tx := pusch_slot }

/-- Modelled from the spec: `new_retx(pusch_slot)` of an UL process. -/
def ul_harq_process.new_retx (h : ul_harq_process) (pusch_slot : slot_point) : ul_harq_process :=
  { h with state := harq_state.waiting_ack, nof_retxs := h.nof_retxs + 1, slot_tx := pusch_slot }

/-- The record `harq_entity`: the DL and the UL process tables of a UE cell. -/
structure harq_entity where
  dl_harqs : List dl_harq_process
  ul_harqs : List ul_harq_process
deriving DecidableEq, Repr

/-- The accessor `dl_harq(h_id)`; `none` is the failed bounds assertion. -/
def harq_entity.dl_harq (e : harq_entity) (h_id : Nat) : Option dl_harq_process := e.dl_harqs[h_id]?

/-- The accessor `ul_harq(h_id)`; `none` is the failed bounds assertion. -/
def harq_entity.ul_harq (e : harq_entity) (h_id : Nat) : Option ul_harq_process := e.ul_harqs[h_id]?

/-! ## Scheduler results -/

/-- Modelled from the spec: `dci_dl_info` (missing, as are the builders `build_dci_f1_0_tc_rnti`,
`build_dci_f1_0_c_rnti` and `build_dci_f1_1_c_rnti`): the DL DCI payload is kept as the
record of the arguments handed to its builder.  `rbs` is the frequency-domain
argument, `dai` is absent for the TC-RNTI format whose builder takes none. -/
structure dci_dl_info where
  type : dci_dl_rnti_config_type
  rbs : interval
  time_resource : Nat
  k1 : Nat
  pucch_res_indicator : Nat
  dai : Option Nat
  mcs : Nat
  rv : Nat
  harq_id : Nat
  ndi : Bool
deriving DecidableEq, Repr

/-- Modelled from the spec: `dci_ul_info` (missing, as are the builders `build_dci_f0_0_tc_rnti`,
`build_dci_f0_0_c_rnti` and `build_dci_f0_1_c_rnti`): the UL DCI payload as the record of
the arguments handed to its builder; only the format 0_1 builder takes a DAI. -/
structure dci_ul_info where
  type : dci_ul_rnti_config_type
  crbs : interval
  time_resource : Nat
  mcs : Nat
  rv : Nat
  harq_id : Nat
  ndi : Bool
  dai : Option Nat
deriving DecidableEq, Repr

/-- The record `pdcch_dl_information`: allocation context and DCI; the DCI is `none` until a
builder has filled it. -/
structure pdcch_dl_information where
  rnti : Nat
  ss_id : Nat
  aggr_lvl : Nat
  /-- The field `ctx.context.harq_feedback_timing`. -/
  harq_feedback_timing : Nat
  dci : Option dci_dl_info
deriving DecidableEq, Repr

/-- The record `pdcch_ul_information`. -/
structure pdcch_ul_information where
  rnti : Nat
  ss_id : Nat
  aggr_lvl : Nat
  dci : Option dci_ul_info
deriving DecidableEq, Repr

/-- Modelled from the spec: `pdsch_config_params` (missing, as are `get_pdsch_config_f1_0_tc_rnti`,
`get_pdsch_config_f1_0_c_rnti` and `get_pdsch_config_f1_1_c_rnti`): the getter that was
used and the time-domain entry it was given. -/
structure pdsch_config_params where
  dci_fmt : dci_dl_rnti_config_type
  symbols : interval
deriving DecidableEq, Repr

/-- Modelled from the spec: `pusch_config_params` (missing, as are the three
`get_pusch_config_*` getters). -/
structure pusch_config_params where
  dci_fmt : dci_ul_rnti_config_type
  symbols : interval
deriving DecidableEq, Repr

/-- Modelled from the spec: `pdsch_information` (missing, as are the builders
`build_pdsch_f1_0_tc_rnti`, `build_pdsch_f1_0_c_rnti` and `build_pdsch_f1_1_c_rnti`): the PDSCH
descriptor as the record of what its builder is handed. -/
structure pdsch_information where
  rnti : Nat
  dci_fmt : dci_dl_rnti_config_type
  symbols : interval
  rbs : interval
  mcs : Nat
  tb_size_bytes : Nat
  rv : Nat
  harq_id : Nat
  new_data : Bool
deriving DecidableEq, Repr

/-- Modelled from the spec: `pusch_information` (missing, as are the `build_pusch_*` builders). -/
structure pusch_information where
  rnti : Nat
  dci_fmt : dci_ul_rnti_config_type
  symbols : interval
  rbs : interval
  mcs : Nat
  tb_size_bytes : Nat
  rv : Nat
  harq_id : Nat
  new_data : Bool
deriving DecidableEq, Repr

/-- The record `dl_msg_tb_info`: logical channels scheduled in a transport block, as
(LCID, bytes) pairs. -/
structure dl_msg_tb_info where
  lc_chs_to_sched : List (Nat × Nat)
deriving DecidableEq, Repr

/-- The record `dl_msg_alloc`: one UE PDSCH grant. -/
structure dl_msg_alloc where
  ue_index : Nat
  k1 : Nat
  ss_id : Nat
  nof_retxs : Nat
  pdsch_cfg : pdsch_information
  tb_list : List dl_msg_tb_info
deriving DecidableEq, Repr

/-- UCI carried by a PUSCH after multiplexing. -/
structure uci_info where
  harq_ack_nof_bits : Nat
deriving DecidableEq, Repr

/-- The record `ul_sched_info`: one PUSCH grant. -/
structure ul_sched_info where
  ue_index : Nat
  ss_id : Nat
  k2 : Nat
  nof_retxs : Nat
  pusch_cfg : pusch_information
  uci : Option uci_info
deriving DecidableEq, Repr

/-- The record `pucch_info`: one PUCCH grant carrying HARQ-ACK bits of a UE. -/
structure pucch_info where
  crnti : Nat
  harq_ack_nof_bits : Nat
  pucch_res_indicator : Nat
deriving DecidableEq, Repr

/-- The record `dl_sched_result`. -/
structure dl_sched_result where
  dl_pdcchs : List pdcch_dl_information
  ul_pdcchs : List pdcch_ul_information
  ue_grants : List dl_msg_alloc
  csi_rs : List Nat
deriving DecidableEq, Repr

/-- The record `ul_sched_result`. -/
structure ul_sched_result where
  pucchs : List pucch_info
  puschs : List ul_sched_info
deriving DecidableEq, Repr

/-- The record `sched_result`. -/
structure sched_result where
  dl : dl_sched_result
  ul : ul_sched_result
deriving DecidableEq, Repr

/-- The record `cell_slot_resource_allocator`: grids and result of one slot. -/
structure cell_slot_resource_allocator where
  slot : slot_point
  dl_res_grid : cell_slot_resource_grid
  ul_res_grid : cell_slot_resource_grid
  result : sched_result
deriving DecidableEq, Repr

/-- Modelled from the spec: `cell_resource_allocator` (missing), "a circular buffer of slot
grids, accessed by non-negative offset from now"; position `k` of the list is the
slot `now + k`. -/
structure cell_resource_allocator where
  slots : List cell_slot_resource_allocator
deriving DecidableEq, Repr

/-- The access `res_alloc[offset]`; `none` is the failed assertion on an offset outside
the ring. -/
def cell_resource_allocator.at_offset (r : cell_resource_allocator) (k : Nat) :
    Option cell_slot_resource_allocator := r.slots[k]?

/-- The access `res_alloc[slot]` by slot point; `none` is the failed assertion on a slot
outside the ring. -/
def cell_resource_allocator.at_slot (r : cell_resource_allocator) (sl : slot_point) :
    Option cell_slot_resource_allocator := r.slots.find? (fun sa => sa.slot == sl)

/-- Write-back of the slot at an offset. -/
def cell_resource_allocator.set_offset (r : cell_resource_allocator) (k : Nat)
    (sa : cell_slot_resource_allocator) : cell_resource_allocator := ⟨r.slots.set k sa⟩

/-! ## PDCCH allocator -/

/-- One reservation remembered by the PDCCH allocator: its slot, whether it is a DL or an
UL PDCCH, and the grid cells of its CCEs. -/
structure pdcch_alloc_record where
  slot : slot_point
  is_dl : Bool
  cells : List (Nat × Nat)
deriving DecidableEq, Repr

/-- Modelled from the spec: `pdcch_resource_allocator` (missing).  The candidate positions of
TS 38.213 §10.1 for a slot, RNTI, search space and aggregation level are a parameter,
each candidate given as the grid span "symbols × CORESET-RBs" of its CCEs; the
allocator remembers its reservations, most recent first. -/
structure pdcch_resource_allocator where
  candidates : slot_point → Nat → Nat → Nat → List grant_info
  records : List pdcch_alloc_record

/-- Modelled from the spec: the candidate search of the PDCCH allocator (missing): the first
candidate, in the order of TS 38.213 §10.1, whose cells are all free in the DL grid of
the slot; `none` when there is no space. -/
def pdcch_candidate (p : pdcch_resource_allocator) (slot_alloc : cell_slot_resource_allocator)
    (rnti ss_id aggr_lvl : Nat) : Option grant_info :=
  (p.candidates slot_alloc.slot rnti ss_id aggr_lvl).find?
    (fun g => !slot_alloc.dl_res_grid.collides g.scs g.symbols g.crbs)

/-- Modelled from the spec: `alloc_dl_pdcch_ue(slot, rnti, ue-cfg, ss-id, L)` "returns a
non-owning handle into the slot's PDCCH list or nullptr on no-space"; it "reserves L
consecutive CCEs and records them in the grid".  The handle is the last entry of
`dl_pdcchs`; `none` is `nullptr`. -/
def alloc_dl_pdcch_ue (p : pdcch_resource_allocator) (slot_alloc : cell_slot_resource_allocator)
    (rnti ss_id aggr_lvl : Nat) :
    Option (pdcch_resource_allocator × cell_slot_resource_allocator) :=
  match pdcch_candidate p slot_alloc rnti ss_id aggr_lvl with
  | none => none
  | some g =>
    some ({ p with records := ⟨slot_alloc.slot, true, span_cells g.symbols g.crbs⟩ :: p.records },
          { slot_alloc with
            dl_res_grid := ⟨span_cells g.symbols g.crbs ++ slot_alloc.dl_res_grid.cells⟩,
            result.dl.dl_pdcchs :=
              slot_alloc.result.dl.dl_pdcchs ++ [⟨rnti, ss_id, aggr_lvl, 0, none⟩] })

/-- Modelled from the spec: `alloc_ul_pdcch_ue`, the UL counterpart of `alloc_dl_pdcch_ue`; the
handle is the last entry of `ul_pdcchs`. -/
def alloc_ul_pdcch_ue (p : pdcch_resource_allocator) (slot_alloc : cell_slot_resource_allocator)
    (rnti ss_id aggr_lvl : Nat) :
    Option (pdcch_resource_allocator × cell_slot_resource_allocator) :=
  match pdcch_candidate p slot_alloc rnti ss_id aggr_lvl with
  | none => none
  | some g =>
    some ({ p with records := ⟨slot_alloc.slot, false, span_cells g.symbols g.crbs⟩ :: p.records },
          { slot_alloc with
            dl_res_grid := ⟨span_cells g.symbols g.crbs ++ slot_alloc.dl_res_grid.cells⟩,
            result.dl.ul_pdcchs :=
              slot_alloc.result.dl.ul_pdcchs ++ [⟨rnti, ss_id, aggr_lvl, none⟩] })

/-- Modelled from the spec: `cancel_last_pdcch(slot)` "reverses the most recent reservation
atomically": the record is dropped, its PDCCH is removed from the result list and its
cells are cleared.  Without a reservation in that slot nothing happens. -/
def cancel_last_pdcch (p : pdcch_resource_allocator) (slot_alloc : cell_slot_resource_allocator) :
    pdcch_resource_allocator × cell_slot_resource_allocator :=
  match p.records with
  | [] => (p, slot_alloc)
  | r :: rs =>
    if r.slot == slot_alloc.slot then
      ({ p with records := rs },
       if r.is_dl then
         { slot_alloc with
           dl_res_grid := slot_alloc.dl_res_grid.clear r.cells,
           result.dl.dl_pdcchs := slot_alloc.result.dl.dl_pdcchs.dropLast }
       else
         { slot_alloc with
           dl_res_grid := slot_alloc.dl_res_grid.clear r.cells,
           result.dl.ul_pdcchs := slot_alloc.result.dl.ul_pdcchs.dropLast })
    else (p, slot_alloc)

/-! ## UCI allocator -/

/-- Book-keeping entry of the UCI allocator: HARQ-ACK bits bound to a UE in an UL slot. -/
structure uci_record where
  slot : slot_point
  rnti : Nat
  scheduled_dl_pdcch_counter : Nat
deriving DecidableEq, Repr

/-- The record `uci_allocation` returned by `alloc_uci_harq_ue`; `pucch_res_indicator` is
`pucch_grant.pucch_res_indicator`.  The default value is the one of `uci_allocation{}`. -/
structure uci_allocation where
  alloc_successful : Bool := false
  dai : Nat := 0
  pucch_res_indicator : Nat := 0
deriving DecidableEq, Repr

/-- Modelled from the spec: `uci_allocator` (missing).  Whether the PUCCH allocator finds a
resource for one more HARQ-ACK bit of a UE in a slot (given the bits already bound),
and which resource indicator it returns, is a parameter; the RB placement of the PUCCH
in the UL grid is not modelled. -/
structure uci_allocator where
  pucch_resource : slot_point → Nat → Nat → Option Nat
  uci_alloc_grid : List uci_record

/-- Modelled from the spec: `get_scheduled_pdsch_counter_in_ue_uci(slot_alloc, crnti)`, the
number of HARQ-ACK bits already bound to the UE's UCI in that slot. -/
def get_scheduled_pdsch_counter_in_ue_uci (uci : uci_allocator)
    (slot_alloc : cell_slot_resource_allocator) (crnti : Nat) : Nat :=
  match uci.uci_alloc_grid.find? (fun r => r.slot == slot_alloc.slot && r.rnti == crnti) with
  | some r => r.scheduled_dl_pdcch_counter
  | none => 0

/-- Modelled from the spec: `alloc_uci_harq_ue(res-alloc, rnti, ue-cfg, k0, k1) → {success,
pucch-resource-indicator, dai}` "reserves a PUCCH opportunity at slot now+k0+k1 and
records the HARQ-ACK bit-count it now carries"; the DAI follows "the per-UL-slot
counter (mod 4)".  A refused request changes nothing.  `none` is the failed assertion
on an offset outside the ring. -/
def alloc_uci_harq_ue (uci : uci_allocator) (res_alloc : cell_resource_allocator)
    (crnti k0 k1 : Nat) : Option (uci_allocation × uci_allocator × cell_resource_allocator) :=
  match res_alloc.at_offset (k0 + k1) with
  | none => none
  | some slot_alloc =>
    let n := get_scheduled_pdsch_counter_in_ue_uci uci slot_alloc crnti
    match uci.pucch_resource slot_alloc.slot crnti n with
    | none => some ({}, uci, res_alloc)
    | some res_indicator =>
      let grid := uci.uci_alloc_grid.filter (fun r => !(r.slot == slot_alloc.slot && r.rnti == crnti))
      let pucchs := slot_alloc.result.ul.pucchs.filter (fun q => !(q.crnti == crnti))
      some ({ alloc_successful := true, dai := n % 4, pucch_res_indicator := res_indicator },
            { uci with uci_alloc_grid := ⟨slot_alloc.slot, crnti, n + 1⟩ :: grid },
            res_alloc.set_offset (k0 + k1)
              { slot_alloc with result.ul.pucchs := ⟨crnti, n + 1, res_indicator⟩ :: pucchs })

/-- Modelled from the spec: `multiplex_uci_on_pusch(pusch, slot, ue-cfg, rnti)` "moves any
previously reserved PUCCH content into the PUSCH on that slot and releases the
PUCCH". -/
def multiplex_uci_on_pusch (msg : ul_sched_info) (slot_alloc : cell_slot_resource_allocator)
    (crnti : Nat) : ul_sched_info × cell_slot_resource_allocator :=
  match slot_alloc.result.ul.pucchs.find? (fun q => q.crnti == crnti) with
  | none => (msg, slot_alloc)
  | some q =>
    ({ msg with uci := some ⟨q.harq_ack_nof_bits⟩ },
     { slot_alloc with
       result.ul.pucchs := slot_alloc.result.ul.pucchs.filter (fun q => !(q.crnti == crnti)) })

/-! ## UE and UE cell (`ue_cell.h`) -/

/-- The record `ue_cell::metrics` without its floating-point member `pusch_snr_db`.  The
defaults stand for the values given by the constructor of `ue_cell` (missing). -/
structure ue_cell_metrics where
  consecutive_pusch_kos : Nat := 0
  latest_wb_cqi : Nat := 0
deriving DecidableEq, Repr

/-- The class `ue_cell`: context of a UE in one serving cell. -/
structure ue_cell where
  ue_index : Nat
  cell_index : Nat
  harqs : harq_entity
  crnti_ : Nat
  expert_cfg : scheduler_ue_expert_config
  ue_cfg : ue_cell_configuration
  ue_metrics : ue_cell_metrics := {}

/-- The member `rnti()`. -/
def ue_cell.rnti (c : ue_cell) : Nat := c.crnti_

/-- The member `active_bwp_id()`: always `to_bwp_id(0)`. -/
def ue_cell.active_bwp_id (_c : ue_cell) : Nat := 0

/-- The member `is_active()`: always true. -/
def ue_cell.is_active (_c : ue_cell) : Bool := true

/-- The member `cfg()`. -/
def ue_cell.cfg (c : ue_cell) : ue_cell_configuration := c.ue_cfg

/-- The member `get_latest_wb_cqi()`. -/
def ue_cell.get_latest_wb_cqi (c : ue_cell) : Nat := c.ue_metrics.latest_wb_cqi

/-- Modelled from the spec: `set_latest_wb_cqi(wb_cqi)` (declared in `ue_cell.h`, defined in the
missing `ue_cell.cpp`): the UE holds its "CSI state (latest wideband CQI)", which the
setter overwrites. -/
def ue_cell.set_latest_wb_cqi (c : ue_cell) (wb_cqi : Nat) : ue_cell :=
  { c with ue_metrics := { c.ue_metrics with latest_wb_cqi := wb_cqi } }

/-- The member `get_pdsch_rv(h_dl)`:
`expert_cfg.pdsch_rv_sequence[h_dl.tb(0).nof_retxs % expert_cfg.pdsch_rv_sequence.size()]`.
The result is `none` exactly when the sequence is empty (remainder by zero). -/
def ue_cell.get_pdsch_rv (c : ue_cell) (h_dl : dl_harq_process) : Option Nat :=
  c.expert_cfg.pdsch_rv_sequence[h_dl.nof_retxs % c.expert_cfg.pdsch_rv_sequence.length]?

/-- The member `get_pusch_rv(h_ul)`:
`expert_cfg.pusch_rv_sequence[h_ul.tb().nof_retxs % expert_cfg.pusch_rv_sequence.size()]`. -/
def ue_cell.get_pusch_rv (c : ue_cell) (h_ul : ul_harq_process) : Option Nat :=
  c.expert_cfg.pusch_rv_sequence[h_ul.nof_retxs % c.expert_cfg.pusch_rv_sequence.length]?

/-- Modelled from the spec: the class `ue` (missing): DU-local index, C-RNTI, serving cells
(the primary cell first), pending scheduling-request flag and per-logical-channel DL
buffer counters as (LCID, bytes) pairs in priority order. -/
structure ue where
  ue_index : Nat
  crnti : Nat
  ue_cells : List ue_cell
  sr_indication : Bool
  dl_lc_ch : List (Nat × Nat)

/-- The lookup `find_cell(cell_index)`; `none` is `nullptr`. -/
def ue.find_cell (u : ue) (cell_index : Nat) : Option ue_cell :=
  u.ue_cells.find? (fun c => c.cell_index == cell_index)

/-- The accessor `get_pcell()`. -/
def ue.get_pcell (u : ue) : Option ue_cell := u.ue_cells.head?

/-- The member `nof_cells()`. -/
def ue.nof_cells (u : ue) : Nat := u.ue_cells.length

/-- The member `reset_sr_indication()`. -/
def ue.reset_sr_indication (u : ue) : ue := { u with sr_indication := false }

/-- Write-back of a modified UE cell into its UE. -/
def ue.set_cell (u : ue) (c : ue_cell) : ue :=
  { u with ue_cells := u.ue_cells.map (fun x => if x.cell_index == c.cell_index then c else x) }

/-- Distribution of a byte budget over logical channels in priority order: each channel
gets what it has pending, up to what is left of the budget.  Returns the scheduled
(LCID, bytes) pairs and the remaining buffers. -/
def fill_lc_chs : List (Nat × Nat) → Nat → List (Nat × Nat) × List (Nat × Nat)
  | [], _ => ([], [])
  | (lcid, pending) :: rest, budget =>
    let taken := min pending budget
    let r := fill_lc_chs rest (budget - taken)
    (if taken == 0 then r.1 else (lcid, taken) :: r.1, (lcid, pending - taken) :: r.2)

/-- Modelled from the spec: `build_dl_transport_block_info(tb_info, tb_size_bytes)`, "fill the
DL transport block with logical-channel bytes in priority order until the TB is full or
buffers empty". -/
def ue.build_dl_transport_block_info (u : ue) (tb_size_bytes : Nat) : dl_msg_tb_info × ue :=
  let r := fill_lc_chs u.dl_lc_ch tb_size_bytes
  (⟨r.1⟩, { u with dl_lc_ch := r.2 })

/-! ## The allocator object -/

/-- The record `cell_t` of the allocator: the collaborators of one cell. -/
structure cell_t where
  cell_index : Nat
  pdcch_sched : pdcch_resource_allocator
  uci_alloc : uci_allocator
  cell_alloc : cell_resource_allocator

/-- The class `ue_cell_grid_allocator` with the objects it references.  `ues` and `cells`
are slotted arrays indexed by UE index and by cell index.  The MCS/TBS calculators
(`support/mcs_tbs_calculator.h`, missing) and the capacities of the bounded result lists
are parameters. -/
structure ue_cell_grid_allocator where
  expert_cfg : scheduler_ue_expert_config
  ues : List (Option ue)
  cells : List (Option cell_t)
  compute_dl_mcs_tbs : pdsch_config_params → ue_cell_configuration → Nat → Nat → Option sch_mcs_tbs
  compute_ul_mcs_tbs : pusch_config_params → ue_cell_configuration → Nat → Nat → Option sch_mcs_tbs
  MAX_DL_PDCCH_PDUS_PER_SLOT : Nat
  MAX_UE_PDUS_PER_SLOT : Nat
  MAX_PUSCH_PDUS_PER_SLOT : Nat

/-- Write-back of a UE into the repository. -/
def ue_cell_grid_allocator.set_ue (a : ue_cell_grid_allocator) (ue_index : Nat) (u : ue) :
    ue_cell_grid_allocator := { a with ues := a.ues.set ue_index (some u) }

/-- Write-back of the collaborators of a cell. -/
def ue_cell_grid_allocator.set_cell (a : ue_cell_grid_allocator) (cell_index : Nat) (c : cell_t) :
    ue_cell_grid_allocator := { a with cells := a.cells.set cell_index (some c) }

/-- The record `ue_pdsch_grant`; `user_ue_index` is `grant.user->ue_index`. -/
structure ue_pdsch_grant where
  user_ue_index : Nat
  cell_index : Nat
  h_id : Nat
  ss_id : Nat
  time_res_index : Nat
  crbs : interval
  aggr_lvl : Nat
  mcs : Nat
deriving DecidableEq, Repr

/-- The record `ue_pusch_grant`. -/
structure ue_pusch_grant where
  user_ue_index : Nat
  cell_index : Nat
  h_id : Nat
  crbs : interval
  ss_id : Nat
  time_res_index : Nat
  aggr_lvl : Nat
  mcs : Nat
deriving DecidableEq, Repr

/-! ## Outcome of a call -/

/-- The `return false` sites of the two entry points, named after the logged cause. -/
inductive alloc_failure
  | inactive_carrier | no_search_space | search_space_not_in_active_bwp | dci_format_mismatch
  | ra_search_space_mismatch | pdcch_slot_not_dl | pdsch_slot_not_dl | pusch_slot_not_ul
  | output_list_full | crbs_outside_limits | retx_nof_rbs_changed | grid_collision
  | no_pdcch_space | no_pucch_space | no_mcs
deriving DecidableEq, Repr

/-- The ways a call aborts the process: a failed `srsran_assert`, a failed bounds check of
a container access, `report_fatal_error`, the double fill of a grid cell, a remainder by
the size of an empty RV sequence. -/
inductive abort_cause
  | invalid_ue_index | invalid_cell_index | index_out_of_bounds | unsupported_dci_format
  | grid_double_fill | empty_rv_sequence
deriving DecidableEq, Repr

/-- How a call ended. -/
inductive alloc_exit
  | success
  | failure (c : alloc_failure)
  | abort (c : abort_cause)
deriving DecidableEq, Repr

/-- The returned boolean; `none` when the call aborted. -/
def alloc_exit.ret : alloc_exit → Option Bool
  | .success => some true
  | .failure _ => some false
  | .abort _ => none

/-- State-changing calls made on the collaborators, with their arguments. -/
inductive call_event
  | alloc_dl_pdcch_ue (rnti ss_id aggr_lvl : Nat)
  | alloc_ul_pdcch_ue (rnti ss_id aggr_lvl : Nat)
  | cancel_last_pdcch
  | alloc_uci_harq_ue (rnti k0 k1 : Nat)
  | dl_res_grid_fill (g : grant_info)
  | ul_res_grid_fill (g : grant_info)
  | multiplex_uci_on_pusch (rnti : Nat)
deriving DecidableEq, Repr

/-- Result of running an entry point. -/
structure alloc_run where
  exit : alloc_exit
  calls : List call_event
  st : ue_cell_grid_allocator

/-- The returned boolean of a run. -/
def alloc_run.ret (r : alloc_run) : Option Bool := r.exit.ret

/-- Result of the validation steps that precede every reservation: an abort, a
`return false`, or the values resolved so far. -/
inductive precheck (α : Type)
  | abort (c : abort_cause)
  | fail (c : alloc_failure)
  | ok (x : α)

/-- Sequencing of validation steps: the first abort or `return false` ends the sequence. -/
def precheck.bind {α β : Type} (x : precheck α) (f : α → precheck β) : precheck β :=
  match x with
  | .abort c => .abort c
  | .fail c => .fail c
  | .ok v => f v

instance : Monad precheck where
  pure := precheck.ok
  bind := precheck.bind

/-- An assertion on a look-up: the process aborts when nothing is found. -/
def assert_some {α : Type} (o : Option α) (c : abort_cause) : precheck α :=
  match o with
  | some x => .ok x
  | none => .abort c

/-- A look-up whose failure makes the entry point return false. -/
def require_some {α : Type} (o : Option α) (c : alloc_failure) : precheck α :=
  match o with
  | some x => .ok x
  | none => .fail c

/-- The pattern `if (cond) { log; return false; }`. -/
def reject_if (cond : Bool) (c : alloc_failure) : precheck Unit :=
  if cond then .fail c else .ok ()

/-! ## Helpers on references into the state -/

/-- Update through a handle to the last entry of a result list (the entry returned by the
latest `emplace_back`). -/
def modify_last {α : Type} (f : α → α) (l : List α) : List α :=
  match l.getLast? with
  | none => l
  | some x => l.dropLast ++ [f x]

/-- The call `get_pdcch_sched(cell_index).cancel_last_pdcch(pdcch_alloc)`, where
`pdcch_alloc` is `get_res_alloc(cell_index)[0]`. -/
def cell_t.cancel_last_pdcch (c : cell_t) : cell_t :=
  match c.cell_alloc.at_offset 0 with
  | none => c
  | some pdcch_alloc =>
    let r := srsran.cancel_last_pdcch c.pdcch_sched pdcch_alloc
    { c with pdcch_sched := r.1, cell_alloc := c.cell_alloc.set_offset 0 r.2 }

/-- Update of a slot of the ring through a reference to it. -/
def cell_t.modify_offset (c : cell_t) (k : Nat)
    (f : cell_slot_resource_allocator → cell_slot_resource_allocator) : cell_t :=
  match c.cell_alloc.at_offset k with
  | none => c
  | some sa => { c with cell_alloc := c.cell_alloc.set_offset k (f sa) }

/-- Update of the DL PDCCH behind the handle `pdcch` (the last entry of `dl_pdcchs` of the
PDCCH slot). -/
def cell_t.modify_dl_pdcch (c : cell_t) (f : pdcch_dl_information → pdcch_dl_information) :
    cell_t :=
  c.modify_offset 0 (fun sa => { sa with result.dl.dl_pdcchs := modify_last f sa.result.dl.dl_pdcchs })

/-- Update of the UL PDCCH behind the handle `pdcch` (the last entry of `ul_pdcchs` of the
PDCCH slot). -/
def cell_t.modify_ul_pdcch (c : cell_t) (f : pdcch_ul_information → pdcch_ul_information) :
    cell_t :=
  c.modify_offset 0 (fun sa => { sa with result.dl.ul_pdcchs := modify_last f sa.result.dl.ul_pdcchs })

/-- Write-back of a HARQ process into the DL table of a UE cell. -/
def ue_cell.set_dl_harq (c : ue_cell) (h_id : Nat) (h : dl_harq_process) : ue_cell :=
  { c with harqs := { c.harqs with dl_harqs := c.harqs.dl_harqs.set h_id h } }

/-- Write-back of a HARQ process into the UL table of a UE cell. -/
def ue_cell.set_ul_harq (c : ue_cell) (h_id : Nat) (h : ul_harq_process) : ue_cell :=
  { c with harqs := { c.harqs with ul_harqs := c.harqs.ul_harqs.set h_id h } }

/-! ## `allocate_dl_grant` -/

/-- What the validation steps of `allocate_dl_grant` have resolved when they all pass. -/
structure dl_grant_ctx where
  u : ue
  cell : cell_t
  ue_cc : ue_cell
  init_dl_bwp : bwp_info
  bwp_dl_cmn : bwp_info
  h_dl : dl_harq_process
  ss_info : search_space_info
  dci_type : dci_dl_rnti_config_type
  pdsch_td_cfg : pdsch_time_domain_resource_allocation
  pdcch_alloc : cell_slot_resource_allocator
  pdsch_alloc : cell_slot_resource_allocator

/-- Lines 75-167 of `allocate_dl_grant`: assertions, look-ups and validation, up to and
including the grid collision check.  Nothing is written. -/
def dl_grant_prechecks (a : ue_cell_grid_allocator) (grant : ue_pdsch_grant) :
    precheck dl_grant_ctx := do
  -- srsran_assert(ues.contains(grant.user->ue_index))
  let u ← assert_some (a.ues.getD grant.user_ue_index none) .invalid_ue_index
  -- srsran_assert(has_cell(grant.cell_index))
  let cell ← assert_some (a.cells.getD grant.cell_index none) .invalid_cell_index
  -- Verify UE carrier is active.
  let ue_cc ← require_some (u.find_cell grant.cell_index) .inactive_carrier
  reject_if (!ue_cc.is_active) .inactive_carrier
  let init_dl_bwp ← assert_some (ue_cc.cfg.bwp_lookup 0) .index_out_of_bounds
  let bwp_dl_cmn ← assert_some (ue_cc.cfg.bwp_lookup ue_cc.active_bwp_id) .index_out_of_bounds
  let h_dl ← assert_some (ue_cc.harqs.dl_harq grant.h_id) .index_out_of_bounds
  -- Find a SearchSpace candidate.
  let ss_info ← require_some (ue_cc.cfg.find_search_space grant.ss_id) .no_search_space
  reject_if (ss_info.bwp.bwp_id != ue_cc.active_bwp_id) .search_space_not_in_active_bwp
  -- In case of re-transmission DCI format must remain same.
  reject_if (!h_dl.empty && h_dl.last_alloc_params.dci_cfg_type != ss_info.get_crnti_dl_dci_format)
    .dci_format_mismatch
  let dci_type := ss_info.get_crnti_dl_dci_format
  reject_if (dci_type == .tc_rnti_f1_0 &&
      grant.ss_id != ue_cc.cfg.cell_cfg_common.ra_search_space_id) .ra_search_space_mismatch
  let pdsch_td_cfg ←
    assert_some ss_info.pdsch_time_domain_list[grant.time_res_index]? .index_out_of_bounds
  -- Fetch PDCCH and PDSCH resource grid allocators.
  let pdcch_alloc ← assert_some (cell.cell_alloc.at_offset 0) .index_out_of_bounds
  let pdsch_alloc ← assert_some (cell.cell_alloc.at_offset pdsch_td_cfg.k0) .index_out_of_bounds
  reject_if (!ue_cc.cfg.cell_cfg_common.is_dl_enabled pdcch_alloc.slot) .pdcch_slot_not_dl
  reject_if (!ue_cc.cfg.cell_cfg_common.is_dl_enabled pdsch_alloc.slot) .pdsch_slot_not_dl
  -- Verify there is space in PDSCH and PDCCH result lists for new allocations.
  reject_if (decide (pdsch_alloc.result.dl.ue_grants.length ≥ a.MAX_UE_PDUS_PER_SLOT) ||
      decide (pdcch_alloc.result.dl.dl_pdcchs.length ≥ a.MAX_DL_PDCCH_PDUS_PER_SLOT))
    .output_list_full
  -- Verify CRBs fit in the chosen BWP.
  reject_if (!ss_info.dl_crb_lims.contains grant.crbs) .crbs_outside_limits
  -- In case of retx, ensure the number of PRBs for the grant did not change.
  reject_if (!h_dl.empty && grant.crbs.length != h_dl.last_alloc_params.rbs.length)
    .retx_nof_rbs_changed
  -- Verify there is no RB collision.
  reject_if (pdsch_alloc.dl_res_grid.collides bwp_dl_cmn.dl_scs pdsch_td_cfg.symbols grant.crbs)
    .grid_collision
  pure ⟨u, cell, ue_cc, init_dl_bwp, bwp_dl_cmn, h_dl, ss_info, dci_type, pdsch_td_cfg,
        pdcch_alloc, pdsch_alloc⟩

/-- The constant `max_harq_bits_per_uci` of `allocate_dl_grant`. -/
def max_harq_bits_per_uci : Nat := 2

/-- The loop condition
`is_csi_slot(u.get_pcell().cfg().cfg_dedicated(), uci_slot) and
 get_uci_alloc(cell).get_scheduled_pdsch_counter_in_ue_uci(get_res_alloc(cell)[uci_slot], crnti)
   >= max_harq_bits_per_uci`;
the counter is read only in a CSI slot; `none` is the failed assertion of the ring access. -/
def csi_slot_harq_bits_full (pcell : ue_cell) (cell : cell_t) (uci_slot : slot_point)
    (crnti : Nat) : Option Bool :=
  if is_csi_slot pcell.cfg.cfg_dedicated uci_slot then
    match cell.cell_alloc.at_slot uci_slot with
    | none => none
    | some slot_alloc =>
      some (decide (get_scheduled_pdsch_counter_in_ue_uci cell.uci_alloc slot_alloc crnti
                      ≥ max_harq_bits_per_uci))
  else some false

/-- State of `allocate_dl_grant` when the loop over the k1 candidates is left: whether an
assertion failed inside it, the variables `k1` and `uci`, the collaborators of the cell,
and the calls made. -/
structure k1_loop_result where
  aborted : Bool
  k1 : Nat
  uci : uci_allocation
  cell : cell_t
  calls : List call_event

/-- Lines 184-205 of `allocate_dl_grant`: the loop over `k1_list`. -/
def dl_uci_k1_loop (cell_cfg : cell_configuration) (u : ue) (k0 : Nat) (pdsch_slot : slot_point) :
    cell_t → List Nat → k1_loop_result
  | cell, [] => ⟨false, 0, {}, cell, []⟩
  | cell, k1_candidate :: rest =>
    let uci_slot := pdsch_slot.add k1_candidate
    if !cell_cfg.is_fully_ul_enabled uci_slot then
      dl_uci_k1_loop cell_cfg u k0 pdsch_slot cell rest
    else
      match u.get_pcell with
      | none => ⟨true, 0, {}, cell, []⟩
      | some pcell =>
        match csi_slot_harq_bits_full pcell cell uci_slot u.crnti with
        | none => ⟨true, 0, {}, cell, []⟩
        | some true => dl_uci_k1_loop cell_cfg u k0 pdsch_slot cell rest
        | some false =>
          match alloc_uci_harq_ue cell.uci_alloc cell.cell_alloc u.crnti k0 k1_candidate with
          | none => ⟨true, 0, {}, cell, [.alloc_uci_harq_ue u.crnti k0 k1_candidate]⟩
          | some r =>
            let cell1 : cell_t := { cell with uci_alloc := r.2.1, cell_alloc := r.2.2 }
            if r.1.alloc_successful then
              ⟨false, k1_candidate, r.1,
               cell1.modify_dl_pdcch (fun pd => { pd with harq_feedback_timing := k1_candidate }),
               [.alloc_uci_harq_ue u.crnti k0 k1_candidate]⟩
            else
              let l := dl_uci_k1_loop cell_cfg u k0 pdsch_slot cell1 rest
              { l with calls := .alloc_uci_harq_ue u.crnti k0 k1_candidate :: l.calls }

/-- Lines 212-225: the `switch (dci_type)` that selects the PDSCH parameter getter; `none`
is `report_fatal_error`. -/
def get_pdsch_config (dci_type : dci_dl_rnti_config_type)
    (pdsch_td_cfg : pdsch_time_domain_resource_allocation) : Option pdsch_config_params :=
  match dci_type with
  | .tc_rnti_f1_0 => some ⟨.tc_rnti_f1_0, pdsch_td_cfg.symbols⟩
  | .c_rnti_f1_0 => some ⟨.c_rnti_f1_0, pdsch_td_cfg.symbols⟩
  | .c_rnti_f1_1 => some ⟨.c_rnti_f1_1, pdsch_td_cfg.symbols⟩
  | _ => none

/-- Lines 227-231: the MCS is reduced by one, down to 0, when a CSI-RS is sent in the PDSCH
slot. -/
def adjust_mcs_for_csi_rs (grant_mcs : Nat) (csi_rs : List Nat) : Nat :=
  if !csi_rs.isEmpty then (if grant_mcs == 0 then grant_mcs else grant_mcs - 1) else grant_mcs

/-- Lines 264-305: the `switch (dci_type)` that fills the DL DCI; `none` is
`report_fatal_error`. -/
def build_dl_dci (dci_type : dci_dl_rnti_config_type) (ss_info : search_space_info)
    (grant : ue_pdsch_grant) (k1 : Nat) (uci : uci_allocation) (mcs rv : Nat)
    (h_dl : dl_harq_process) : Option dci_dl_info :=
  match dci_type with
  | .tc_rnti_f1_0 =>
    some { type := .tc_rnti_f1_0, rbs := grant.crbs, time_resource := grant.time_res_index,
           k1 := k1, pucch_res_indicator := uci.pucch_res_indicator, dai := none,
           mcs := mcs, rv := rv, harq_id := h_dl.id, ndi := h_dl.ndi }
  | .c_rnti_f1_0 =>
    some { type := .c_rnti_f1_0, rbs := grant.crbs, time_resource := grant.time_res_index,
           k1 := k1, pucch_res_indicator := uci.pucch_res_indicator, dai := some uci.dai,
           mcs := mcs, rv := rv, harq_id := h_dl.id, ndi := h_dl.ndi }
  | .c_rnti_f1_1 =>
    some { type := .c_rnti_f1_1, rbs := crb_to_prb ss_info.dl_crb_lims grant.crbs,
           time_resource := grant.time_res_index,
           k1 := k1, pucch_res_indicator := uci.pucch_res_indicator, dai := some uci.dai,
           mcs := mcs, rv := rv, harq_id := h_dl.id, ndi := h_dl.ndi }
  | _ => none

/-- Lines 313-348: the `switch (pdcch->dci.type)` that fills the PDSCH PDU.  The format 1_0
builders take the TBS and the DCI, the format 1_1 builder takes MCS and TBS; `none` is
`report_fatal_error`. -/
def build_pdsch (dci : dci_dl_info) (pdsch_cfg : pdsch_config_params) (mcs_tbs : sch_mcs_tbs)
    (crnti : Nat) (crbs : interval) (h_dl : dl_harq_process) : Option pdsch_information :=
  match dci.type with
  | .tc_rnti_f1_0 =>
    some { rnti := crnti, dci_fmt := .tc_rnti_f1_0, symbols := pdsch_cfg.symbols, rbs := crbs,
           mcs := dci.mcs, tb_size_bytes := mcs_tbs.tbs, rv := dci.rv, harq_id := dci.harq_id,
           new_data := h_dl.nof_retxs == 0 }
  | .c_rnti_f1_0 =>
    some { rnti := crnti, dci_fmt := .c_rnti_f1_0, symbols := pdsch_cfg.symbols, rbs := crbs,
           mcs := dci.mcs, tb_size_bytes := mcs_tbs.tbs, rv := dci.rv, harq_id := dci.harq_id,
           new_data := h_dl.nof_retxs == 0 }
  | .c_rnti_f1_1 =>
    some { rnti := crnti, dci_fmt := .c_rnti_f1_1, symbols := pdsch_cfg.symbols, rbs := crbs,
           mcs := mcs_tbs.mcs, tb_size_bytes := mcs_tbs.tbs, rv := dci.rv, harq_id := dci.harq_id,
           new_data := h_dl.nof_retxs == 0 }
  | _ => none

/-- Modelled from the spec: `save_alloc_params(dci_type, pdsch)` of a DL HARQ process (missing):
the process keeps "transport-block size, MCS, RB allocation, last DCI format". -/
def dl_harq_process.save_alloc_params (h : dl_harq_process) (dci_type : dci_dl_rnti_config_type)
    (pdsch : pdsch_information) : dl_harq_process :=
  { h with last_alloc_params := ⟨dci_type, pdsch.rbs, pdsch.mcs, pdsch.tb_size_bytes⟩ }

/-- Modelled from the spec: `save_alloc_params(dci_type, pusch)` of an UL HARQ process
(missing). -/
def ul_harq_process.save_alloc_params (h : ul_harq_process) (dci_type : dci_ul_rnti_config_type)
    (pusch : pusch_information) : ul_harq_process :=
  { h with last_tx_params := ⟨dci_type, pusch.rbs, pusch.mcs, pusch.tb_size_bytes⟩ }

/-- Lines 253-261 of `allocate_dl_grant`: `new_tx` on an empty process, `new_retx`
otherwise. -/
def dl_alloc_harq (h_dl : dl_harq_process) (pdsch_slot : slot_point) (k1 : Nat)
    (max_nof_harq_retxs : Nat) (dai : Nat) : dl_harq_process :=
  if h_dl.empty then h_dl.new_tx pdsch_slot k1 max_nof_harq_retxs dai
  else h_dl.new_retx pdsch_slot k1 dai

/-- The UE after lines 350-356 of `allocate_dl_grant`: the HARQ process `h_dl2` is written
back and, for a new transmission (`nof_retxs == 0`), the logical-channel buffers are
consumed by `build_dl_transport_block_info`. -/
def dl_grant_ue (grant : ue_pdsch_grant) (ctx : dl_grant_ctx) (h_dl2 : dl_harq_process)
    (tb_size_bytes : Nat) : ue :=
  if h_dl2.nof_retxs == 0 then
    ((ctx.u.set_cell (ctx.ue_cc.set_dl_harq grant.h_id h_dl2)).build_dl_transport_block_info
      tb_size_bytes).2
  else ctx.u.set_cell (ctx.ue_cc.set_dl_harq grant.h_id h_dl2)

/-- The entry appended to `ue_grants` by lines 307-356 of `allocate_dl_grant`: context, PDSCH
PDU and, for a new transmission only, one transport block. -/
def dl_grant_msg (grant : ue_pdsch_grant) (ctx : dl_grant_ctx) (k1 : Nat)
    (h_dl2 : dl_harq_process) (pdsch : pdsch_information) : dl_msg_alloc :=
  { ue_index := ctx.u.ue_index, k1 := k1, ss_id := ctx.ss_info.cfg_id,
    nof_retxs := h_dl2.nof_retxs, pdsch_cfg := pdsch,
    tb_list :=
      if h_dl2.nof_retxs == 0 then
        [((ctx.u.set_cell (ctx.ue_cc.set_dl_harq grant.h_id h_dl2)).build_dl_transport_block_info
            pdsch.tb_size_bytes).1]
      else [] }

/-- Lines 250-358 of `allocate_dl_grant`: grid fill, HARQ update, DCI, PDSCH PDU, saved
parameters, transport block.  `cell2` holds the collaborators after the PDCCH and UCI
reservations, `pdsch_alloc` is the current content of the PDSCH slot. -/
def dl_grant_commit (a : ue_cell_grid_allocator) (grant : ue_pdsch_grant) (ctx : dl_grant_ctx)
    (cell2 : cell_t) (pdsch_alloc : cell_slot_resource_allocator) (k1 : Nat) (uci : uci_allocation)
    (pdsch_cfg : pdsch_config_params) (mcs_tbs : sch_mcs_tbs) (calls : List call_event) :
    alloc_run :=
  -- Mark resources as occupied in the ResourceGrid.
  match pdsch_alloc.dl_res_grid.fill
      ⟨ctx.bwp_dl_cmn.dl_scs, ctx.pdsch_td_cfg.symbols, grant.crbs⟩ with
  | none =>
    ⟨.abort .grid_double_fill,
     calls ++ [.dl_res_grid_fill ⟨ctx.bwp_dl_cmn.dl_scs, ctx.pdsch_td_cfg.symbols, grant.crbs⟩],
     a.set_cell grant.cell_index cell2⟩
  | some grid =>
  -- Allocate UE DL HARQ.
  -- Fill DL PDCCH DCI PDU.
  match ctx.ue_cc.get_pdsch_rv
      (dl_alloc_harq ctx.h_dl pdsch_alloc.slot k1 a.expert_cfg.max_nof_harq_retxs uci.dai) with
  | none =>
    ⟨.abort .empty_rv_sequence,
     calls ++ [.dl_res_grid_fill ⟨ctx.bwp_dl_cmn.dl_scs, ctx.pdsch_td_cfg.symbols, grant.crbs⟩],
     a.set_cell grant.cell_index cell2⟩
  | some rv =>
  match build_dl_dci ctx.dci_type ctx.ss_info grant k1 uci mcs_tbs.mcs rv
      (dl_alloc_harq ctx.h_dl pdsch_alloc.slot k1 a.expert_cfg.max_nof_harq_retxs uci.dai) with
  | none =>
    ⟨.abort .unsupported_dci_format,
     calls ++ [.dl_res_grid_fill ⟨ctx.bwp_dl_cmn.dl_scs, ctx.pdsch_td_cfg.symbols, grant.crbs⟩],
     a.set_cell grant.cell_index cell2⟩
  | some dci =>
  -- Fill PDSCH PDU.
  match build_pdsch dci pdsch_cfg mcs_tbs ctx.u.crnti grant.crbs
      (dl_alloc_harq ctx.h_dl pdsch_alloc.slot k1 a.expert_cfg.max_nof_harq_retxs uci.dai) with
  | none =>
    ⟨.abort .unsupported_dci_format,
     calls ++ [.dl_res_grid_fill ⟨ctx.bwp_dl_cmn.dl_scs, ctx.pdsch_td_cfg.symbols, grant.crbs⟩],
     a.set_cell grant.cell_index cell2⟩
  | some pdsch =>
  -- Save set PDCCH and PDSCH PDU parameters in HARQ process.
  -- Set MAC logical channels to schedule in this PDU if it is a newtx.
  ⟨.success,
   calls ++ [.dl_res_grid_fill ⟨ctx.bwp_dl_cmn.dl_scs, ctx.pdsch_td_cfg.symbols, grant.crbs⟩],
   (a.set_ue grant.user_ue_index
      (dl_grant_ue grant ctx
        ((dl_alloc_harq ctx.h_dl pdsch_alloc.slot k1 a.expert_cfg.max_nof_harq_retxs
            uci.dai).save_alloc_params dci.type pdsch)
        pdsch.tb_size_bytes)).set_cell grant.cell_index
     (((cell2.modify_offset ctx.pdsch_td_cfg.k0 (fun sa => { sa with dl_res_grid := grid })).modify_dl_pdcch
         (fun pd => { pd with dci := some dci })).modify_offset ctx.pdsch_td_cfg.k0
        (fun sa => { sa with result.dl.ue_grants := sa.result.dl.ue_grants ++
          [dl_grant_msg grant ctx k1
            ((dl_alloc_harq ctx.h_dl pdsch_alloc.slot k1 a.expert_cfg.max_nof_harq_retxs
                uci.dai).save_alloc_params dci.type pdsch) pdsch] }))⟩

/-- Lines 212-248 of `allocate_dl_grant`: PDSCH parameters, CSI-RS adjustment of the MCS,
MCS/TBS selection with its roll-back exit; then the commit.  `cell2` holds the
collaborators after the PDCCH and UCI reservations. -/
def dl_grant_mcs (a : ue_cell_grid_allocator) (grant : ue_pdsch_grant) (ctx : dl_grant_ctx)
    (cell2 : cell_t) (k1 : Nat) (uci : uci_allocation) (calls : List call_event) : alloc_run :=
  match get_pdsch_config ctx.dci_type ctx.pdsch_td_cfg with
  | none => ⟨.abort .unsupported_dci_format, calls, a.set_cell grant.cell_index cell2⟩
  | some pdsch_cfg =>
  match cell2.cell_alloc.at_offset ctx.pdsch_td_cfg.k0 with
  | none => ⟨.abort .index_out_of_bounds, calls, a.set_cell grant.cell_index cell2⟩
  | some pdsch_alloc =>
  -- Reduce estimated MCS by 1 whenever CSI-RS is sent over a particular slot.
  -- If it is a new Tx, compute the MCS and TBS; a retx keeps those of the last transmission.
  match (if ctx.h_dl.empty then
           a.compute_dl_mcs_tbs pdsch_cfg ctx.ue_cc.cfg
             (adjust_mcs_for_csi_rs grant.mcs pdsch_alloc.result.dl.csi_rs) grant.crbs.length
         else some ⟨ctx.h_dl.last_alloc_params.mcs, ctx.h_dl.last_alloc_params.tbs_bytes⟩) with
  | none =>
    ⟨.failure .no_mcs, calls ++ [.cancel_last_pdcch],
     a.set_cell grant.cell_index cell2.cancel_last_pdcch⟩
  | some mcs_tbs =>
    dl_grant_commit a grant ctx cell2 pdsch_alloc k1 uci pdsch_cfg mcs_tbs calls

/-- Lines 177-210 of `allocate_dl_grant`: UCI reservation over the k1 candidates with its
roll-back exit.  `cell1` holds the collaborators after the PDCCH reservation. -/
def dl_grant_uci (a : ue_cell_grid_allocator) (grant : ue_pdsch_grant) (ctx : dl_grant_ctx)
    (cell1 : cell_t) (calls : List call_event) : alloc_run :=
  let lp := dl_uci_k1_loop ctx.ue_cc.cfg.cell_cfg_common ctx.u ctx.pdsch_td_cfg.k0
    ctx.pdsch_alloc.slot cell1 ctx.ss_info.get_k1_candidates
  if lp.aborted then
    ⟨.abort .index_out_of_bounds, calls ++ lp.calls, a.set_cell grant.cell_index lp.cell⟩
  else if !lp.uci.alloc_successful then
    ⟨.failure .no_pucch_space, calls ++ lp.calls ++ [.cancel_last_pdcch],
     a.set_cell grant.cell_index lp.cell.cancel_last_pdcch⟩
  else dl_grant_mcs a grant ctx lp.cell lp.k1 lp.uci (calls ++ lp.calls)

/-- Lines 169-175 of `allocate_dl_grant`: PDCCH reservation; then the UCI reservation. -/
def dl_grant_alloc (a : ue_cell_grid_allocator) (grant : ue_pdsch_grant) (ctx : dl_grant_ctx) :
    alloc_run :=
  -- Allocate PDCCH position.
  match alloc_dl_pdcch_ue ctx.cell.pdcch_sched ctx.pdcch_alloc ctx.u.crnti ctx.ss_info.cfg_id
      grant.aggr_lvl with
  | none =>
    ⟨.failure .no_pdcch_space, [.alloc_dl_pdcch_ue ctx.u.crnti ctx.ss_info.cfg_id grant.aggr_lvl], a⟩
  | some r =>
    dl_grant_uci a grant ctx
      { ctx.cell with pdcch_sched := r.1, cell_alloc := ctx.cell.cell_alloc.set_offset 0 r.2 }
      [.alloc_dl_pdcch_ue ctx.u.crnti ctx.ss_info.cfg_id grant.aggr_lvl]

/-- The entry point `ue_cell_grid_allocator::allocate_dl_grant(const ue_pdsch_grant& grant)`. -/
def allocate_dl_grant (a : ue_cell_grid_allocator) (grant : ue_pdsch_grant) : alloc_run :=
  match dl_grant_prechecks a grant with
  | .abort c => ⟨.abort c, [], a⟩
  | .fail c => ⟨.failure c, [], a⟩
  | .ok ctx => dl_grant_alloc a grant ctx

/-! ## `allocate_ul_grant` -/

/-- What the validation steps of `allocate_ul_grant` have resolved when they all pass. -/
structure ul_grant_ctx where
  u : ue
  cell : cell_t
  ue_cc : ue_cell
  h_ul : ul_harq_process
  ss_info : search_space_info
  dci_type : dci_ul_rnti_config_type
  scs : Nat
  pusch_td_cfg : pusch_time_domain_resource_allocation
  pdcch_alloc : cell_slot_resource_allocator
  pusch_alloc : cell_slot_resource_allocator

/-- The constant `pdcch_delay_in_slots` of `allocate_ul_grant`. -/
def pdcch_delay_in_slots : Nat := 0

/-- Lines 363-455 of `allocate_ul_grant`: assertions, look-ups and validation, up to and
including the grid collision check.  Nothing is written. -/
def ul_grant_prechecks (a : ue_cell_grid_allocator) (grant : ue_pusch_grant) :
    precheck ul_grant_ctx := do
  -- srsran_assert(ues.contains(grant.user->ue_index))
  let u ← assert_some (a.ues.getD grant.user_ue_index none) .invalid_ue_index
  -- srsran_assert(has_cell(grant.cell_index))
  let cell ← assert_some (a.cells.getD grant.cell_index none) .invalid_cell_index
  -- Verify UE carrier is active.
  let ue_cc ← require_some (u.find_cell grant.cell_index) .inactive_carrier
  reject_if (!ue_cc.is_active) .inactive_carrier
  let h_ul ← assert_some (ue_cc.harqs.ul_harq grant.h_id) .index_out_of_bounds
  -- Find a SearchSpace candidate.
  let ss_info ← require_some (ue_cc.cfg.find_search_space grant.ss_id) .no_search_space
  reject_if (ss_info.bwp.bwp_id != ue_cc.active_bwp_id) .search_space_not_in_active_bwp
  let dci_type0 := ss_info.get_crnti_ul_dci_format
  let scs := ss_info.bwp.ul_scs
  let pusch_td_cfg ←
    assert_some ss_info.pusch_time_domain_list[grant.time_res_index]? .index_out_of_bounds
  -- In case of retx, verify whether DCI format match the DCI format supported by SearchSpace.
  reject_if (!h_ul.empty && h_ul.last_tx_params.dci_cfg_type != dci_type0) .dci_format_mismatch
  let dci_type := if !h_ul.empty then h_ul.last_tx_params.dci_cfg_type else dci_type0
  -- Fetch PDCCH and PDSCH resource grid allocators.
  let pdcch_alloc ← assert_some (cell.cell_alloc.at_offset pdcch_delay_in_slots) .index_out_of_bounds
  let pusch_alloc ←
    assert_some (cell.cell_alloc.at_offset (pdcch_delay_in_slots + pusch_td_cfg.k2))
      .index_out_of_bounds
  reject_if (!ue_cc.cfg.cell_cfg_common.is_dl_enabled pdcch_alloc.slot) .pdcch_slot_not_dl
  reject_if (!ue_cc.cfg.cell_cfg_common.is_ul_enabled pusch_alloc.slot) .pusch_slot_not_ul
  -- Verify there is space in PUSCH and PDCCH result lists for new allocations.
  reject_if (decide (pusch_alloc.result.ul.puschs.length ≥ a.MAX_PUSCH_PDUS_PER_SLOT) ||
      decide (pdcch_alloc.result.dl.dl_pdcchs.length ≥ a.MAX_DL_PDCCH_PDUS_PER_SLOT))
    .output_list_full
  -- Verify CRBs allocation.
  reject_if (!ss_info.ul_crb_lims.contains grant.crbs) .crbs_outside_limits
  -- In case of retx, ensure the number of PRBs for the grant did not change.
  reject_if (!h_ul.empty && grant.crbs.length != h_ul.last_tx_params.rbs.length)
    .retx_nof_rbs_changed
  -- Verify there is no RB collision.
  reject_if (pusch_alloc.ul_res_grid.collides scs pusch_td_cfg.symbols grant.crbs) .grid_collision
  pure ⟨u, cell, ue_cc, h_ul, ss_info, dci_type, scs, pusch_td_cfg, pdcch_alloc, pusch_alloc⟩

/-- Lines 466-479: the `switch (ss_info->get_crnti_ul_dci_format())` that selects the PUSCH
parameter getter; the three formats are all the values of the enumeration. -/
def get_pusch_config (fmt : dci_ul_rnti_config_type)
    (pusch_td_cfg : pusch_time_domain_resource_allocation) : pusch_config_params :=
  match fmt with
  | .tc_rnti_f0_0 => ⟨.tc_rnti_f0_0, pusch_td_cfg.symbols⟩
  | .c_rnti_f0_0 => ⟨.c_rnti_f0_0, pusch_td_cfg.symbols⟩
  | .c_rnti_f0_1 => ⟨.c_rnti_f0_1, pusch_td_cfg.symbols⟩

/-- Lines 522-527: the accumulation, in `unsigned` arithmetic, of the scheduled-PDSCH counters
of the UE in the PUSCH slot over the serving cells of the UE; the UCI allocator of each
cell is `get_uci_alloc(ue_cell_info.cell_index)`, `none` is its failed assertion. -/
def total_harq_ack_in_uci (cells : List (Option cell_t)) (pusch_alloc : cell_slot_resource_allocator)
    (crnti : Nat) : List ue_cell → Nat → Option Nat
  | [], acc => some acc
  | ue_cell_info :: rest, acc =>
    match cells.getD ue_cell_info.cell_index none with
    | none => none
    | some c =>
      total_harq_ack_in_uci cells pusch_alloc crnti rest
        ((acc + get_scheduled_pdsch_counter_in_ue_uci c.uci_alloc pusch_alloc crnti) % 2 ^ 32)

/-- Lines 520-532: the total DAI from the accumulated counter: `dai = 3`, and for format 0_1
with a non-zero total `dai = (total_harq_ack_in_uci - 1) % 4`. -/
def compute_ul_dai (dci_type : dci_ul_rnti_config_type) (total : Nat) : Nat :=
  if dci_type == .c_rnti_f0_1 then
    if total != 0 then (total - 1) % 4 else 3
  else 3

/-- Lines 536-564: the `switch (dci_type)` that fills the UL DCI.  The TC-RNTI builder
reads the bandwidth parts `bwp(to_bwp_id(0))` and `bwp(active_bwp_id())`; `none` is the
failed assertion of that access. -/
def build_ul_dci (dci_type : dci_ul_rnti_config_type) (ue_cc : ue_cell) (grant : ue_pusch_grant)
    (mcs rv : Nat) (h_ul : ul_harq_process) (dai : Nat) : Option dci_ul_info :=
  match dci_type with
  | .tc_rnti_f0_0 =>
    match ue_cc.cfg.bwp_lookup 0, ue_cc.cfg.bwp_lookup ue_cc.active_bwp_id with
    | some _, some _ =>
      some { type := .tc_rnti_f0_0, crbs := grant.crbs, time_resource := grant.time_res_index,
             mcs := mcs, rv := rv, harq_id := h_ul.id, ndi := h_ul.ndi, dai := none }
    | _, _ => none
  | .c_rnti_f0_0 =>
    some { type := .c_rnti_f0_0, crbs := grant.crbs, time_resource := grant.time_res_index,
           mcs := mcs, rv := rv, harq_id := h_ul.id, ndi := h_ul.ndi, dai := none }
  | .c_rnti_f0_1 =>
    some { type := .c_rnti_f0_1, crbs := grant.crbs, time_resource := grant.time_res_index,
           mcs := mcs, rv := rv, harq_id := h_ul.id, ndi := h_ul.ndi, dai := some dai }

/-- Lines 572-607: the `switch (pdcch->dci.type)` that fills the PUSCH PDU.  The format 0_0
builders take the TBS and the DCI, the format 0_1 builder takes MCS and TBS. -/
def build_pusch (dci : dci_ul_info) (pusch_cfg : pusch_config_params) (mcs_tbs : sch_mcs_tbs)
    (crnti : Nat) (crbs : interval) (h_ul : ul_harq_process) : pusch_information :=
  match dci.type with
  | .tc_rnti_f0_0 =>
    { rnti := crnti, dci_fmt := .tc_rnti_f0_0, symbols := pusch_cfg.symbols, rbs := crbs,
      mcs := dci.mcs, tb_size_bytes := mcs_tbs.tbs, rv := dci.rv, harq_id := dci.harq_id,
      new_data := h_ul.nof_retxs == 0 }
  | .c_rnti_f0_0 =>
    { rnti := crnti, dci_fmt := .c_rnti_f0_0, symbols := pusch_cfg.symbols, rbs := crbs,
      mcs := dci.mcs, tb_size_bytes := mcs_tbs.tbs, rv := dci.rv, harq_id := dci.harq_id,
      new_data := h_ul.nof_retxs == 0 }
  | .c_rnti_f0_1 =>
    { rnti := crnti, dci_fmt := .c_rnti_f0_1, symbols := pusch_cfg.symbols, rbs := crbs,
      mcs := mcs_tbs.mcs, tb_size_bytes := mcs_tbs.tbs, rv := dci.rv, harq_id := dci.harq_id,
      new_data := h_ul.nof_retxs == 0 }

/-- Lines 502-509 of `allocate_ul_grant`: `new_tx` on an empty process, `new_retx`
otherwise. -/
def ul_alloc_harq (h_ul : ul_harq_process) (pusch_slot : slot_point) (max_nof_harq_retxs : Nat) :
    ul_harq_process :=
  if h_ul.empty then h_ul.new_tx pusch_slot max_nof_harq_retxs else h_ul.new_retx pusch_slot

/-- Lines 520-532 of `allocate_ul_grant`: the total DAI.  The counters are read, for format
0_1 only, from the UCI allocators of the serving cells of the UE; `none` is the failed
assertion of `get_uci_alloc`. -/
def ul_grant_dai (cells : List (Option cell_t)) (dci_type : dci_ul_rnti_config_type)
    (pusch_alloc : cell_slot_resource_allocator) (u : ue) : Option Nat :=
  if dci_type == .c_rnti_f0_1 then
    (total_harq_ack_in_uci cells pusch_alloc u.crnti u.ue_cells 0).map (compute_ul_dai dci_type)
  else some (compute_ul_dai dci_type 0)

/-- The PUSCH entry filled by lines 566-607 of `allocate_ul_grant`, before the UCI
multiplexing. -/
def ul_grant_msg (grant : ue_pusch_grant) (ctx : ul_grant_ctx) (h_ul1 : ul_harq_process)
    (dci : dci_ul_info) (pusch_cfg : pusch_config_params) (mcs_tbs : sch_mcs_tbs) : ul_sched_info :=
  { ue_index := ctx.u.ue_index, ss_id := ctx.ss_info.cfg_id, k2 := ctx.pusch_td_cfg.k2,
    nof_retxs := h_ul1.nof_retxs,
    pusch_cfg := build_pusch dci pusch_cfg mcs_tbs ctx.u.crnti grant.crbs h_ul1,
    uci := none }

/-- The PUSCH slot after lines 566-610 of `allocate_ul_grant`: `multiplex_uci_on_pusch` is run
on the new entry `msg` and the slot, and the entry is the last one of `puschs`. -/
def emplace_pusch (msg : ul_sched_info) (crnti : Nat) (sa : cell_slot_resource_allocator) :
    cell_slot_resource_allocator :=
  { (multiplex_uci_on_pusch msg sa crnti).2 with
    result.ul.puschs :=
      (multiplex_uci_on_pusch msg sa crnti).2.result.ul.puschs ++
        [(multiplex_uci_on_pusch msg sa crnti).1] }

/-- Lines 499-618 of `allocate_ul_grant`: grid fill, HARQ update, total DAI, DCI, PUSCH PDU,
UCI multiplexing, saved parameters, reset of the SR indication.  `cell1` holds the
collaborators after the PDCCH reservation, `pusch_alloc` is the current content of the
PUSCH slot. -/
def ul_grant_commit (a : ue_cell_grid_allocator) (grant : ue_pusch_grant) (ctx : ul_grant_ctx)
    (cell1 : cell_t) (pusch_alloc : cell_slot_resource_allocator)
    (pusch_cfg : pusch_config_params) (mcs_tbs : sch_mcs_tbs) (calls : List call_event) :
    alloc_run :=
  -- Mark resources as occupied in the ResourceGrid.
  match pusch_alloc.ul_res_grid.fill ⟨ctx.scs, ctx.pusch_td_cfg.symbols, grant.crbs⟩ with
  | none =>
    ⟨.abort .grid_double_fill,
     calls ++ [.ul_res_grid_fill ⟨ctx.scs, ctx.pusch_td_cfg.symbols, grant.crbs⟩],
     a.set_cell grant.cell_index cell1⟩
  | some grid =>
  -- Allocate UE UL HARQ.
  -- Compute total DAI.
  match ul_grant_dai
      (a.cells.set grant.cell_index
        (some (cell1.modify_offset (pdcch_delay_in_slots + ctx.pusch_td_cfg.k2)
          (fun sa => { sa with ul_res_grid := grid }))))
      ctx.dci_type pusch_alloc ctx.u with
  | none =>
    ⟨.abort .invalid_cell_index,
     calls ++ [.ul_res_grid_fill ⟨ctx.scs, ctx.pusch_td_cfg.symbols, grant.crbs⟩],
     a.set_cell grant.cell_index cell1⟩
  | some dai =>
  -- Fill UL PDCCH DCI.
  match ctx.ue_cc.get_pusch_rv
      (ul_alloc_harq ctx.h_ul pusch_alloc.slot a.expert_cfg.max_nof_harq_retxs) with
  | none =>
    ⟨.abort .empty_rv_sequence,
     calls ++ [.ul_res_grid_fill ⟨ctx.scs, ctx.pusch_td_cfg.symbols, grant.crbs⟩],
     a.set_cell grant.cell_index cell1⟩
  | some rv =>
  match build_ul_dci ctx.dci_type ctx.ue_cc grant mcs_tbs.mcs rv
      (ul_alloc_harq ctx.h_ul pusch_alloc.slot a.expert_cfg.max_nof_harq_retxs) dai with
  | none =>
    ⟨.abort .index_out_of_bounds,
     calls ++ [.ul_res_grid_fill ⟨ctx.scs, ctx.pusch_td_cfg.symbols, grant.crbs⟩],
     a.set_cell grant.cell_index cell1⟩
  | some dci =>
  -- Fill PUSCH.
  -- Check if there is any UCI grant allocated on the PUCCH that can be moved to the PUSCH.
  -- Save set PDCCH and PUSCH PDU parameters in HARQ process.
  -- In case there is a SR pending. Reset it.
  ⟨.success,
   calls ++ [.ul_res_grid_fill ⟨ctx.scs, ctx.pusch_td_cfg.symbols, grant.crbs⟩,
             .multiplex_uci_on_pusch ctx.u.crnti],
   (a.set_ue grant.user_ue_index
      (ctx.u.set_cell (ctx.ue_cc.set_ul_harq grant.h_id
        ((ul_alloc_harq ctx.h_ul pusch_alloc.slot
            a.expert_cfg.max_nof_harq_retxs).save_alloc_params dci.type
          (build_pusch dci pusch_cfg mcs_tbs ctx.u.crnti grant.crbs
            (ul_alloc_harq ctx.h_ul pusch_alloc.slot
              a.expert_cfg.max_nof_harq_retxs))))).reset_sr_indication).set_cell
     grant.cell_index
     (((cell1.modify_offset (pdcch_delay_in_slots + ctx.pusch_td_cfg.k2)
          (fun sa => { sa with ul_res_grid := grid })).modify_ul_pdcch
         (fun pd => { pd with dci := some dci })).modify_offset
        (pdcch_delay_in_slots + ctx.pusch_td_cfg.k2)
        (emplace_pusch
          (ul_grant_msg grant ctx
            (ul_alloc_harq ctx.h_ul pusch_alloc.slot a.expert_cfg.max_nof_harq_retxs)
            dci pusch_cfg mcs_tbs)
          ctx.u.crnti))⟩

/-- Lines 465-497 of `allocate_ul_grant`: PUSCH parameters and MCS/TBS selection with its
roll-back exit; then the commit.  `cell1` holds the collaborators after the PDCCH
reservation. -/
def ul_grant_mcs (a : ue_cell_grid_allocator) (grant : ue_pusch_grant) (ctx : ul_grant_ctx)
    (cell1 : cell_t) (calls : List call_event) : alloc_run :=
  -- Fetch PUSCH parameters based on type of transmission.
  -- Compute MCS and TBS for this transmission; a reTx keeps those of the previous one.
  match (if ctx.h_ul.empty then
           a.compute_ul_mcs_tbs (get_pusch_config ctx.ss_info.get_crnti_ul_dci_format ctx.pusch_td_cfg)
             ctx.ue_cc.cfg grant.mcs grant.crbs.length
         else some ⟨ctx.h_ul.last_tx_params.mcs, ctx.h_ul.last_tx_params.tbs_bytes⟩) with
  | none =>
    ⟨.failure .no_mcs, calls ++ [.cancel_last_pdcch],
     a.set_cell grant.cell_index cell1.cancel_last_pdcch⟩
  | some mcs_tbs =>
  match cell1.cell_alloc.at_offset (pdcch_delay_in_slots + ctx.pusch_td_cfg.k2) with
  | none => ⟨.abort .index_out_of_bounds, calls, a.set_cell grant.cell_index cell1⟩
  | some pusch_alloc =>
    ul_grant_commit a grant ctx cell1 pusch_alloc
      (get_pusch_config ctx.ss_info.get_crnti_ul_dci_format ctx.pusch_td_cfg) mcs_tbs calls

/-- Lines 457-463 of `allocate_ul_grant`: PDCCH reservation; then the MCS/TBS selection. -/
def ul_grant_alloc (a : ue_cell_grid_allocator) (grant : ue_pusch_grant) (ctx : ul_grant_ctx) :
    alloc_run :=
  -- Allocate PDCCH position.
  match alloc_ul_pdcch_ue ctx.cell.pdcch_sched ctx.pdcch_alloc ctx.u.crnti ctx.ss_info.cfg_id
      grant.aggr_lvl with
  | none =>
    ⟨.failure .no_pdcch_space, [.alloc_ul_pdcch_ue ctx.u.crnti ctx.ss_info.cfg_id grant.aggr_lvl], a⟩
  | some r =>
    ul_grant_mcs a grant ctx
      { ctx.cell with pdcch_sched := r.1,
                      cell_alloc := ctx.cell.cell_alloc.set_offset pdcch_delay_in_slots r.2 }
      [.alloc_ul_pdcch_ue ctx.u.crnti ctx.ss_info.cfg_id grant.aggr_lvl]

/-- The entry point `ue_cell_grid_allocator::allocate_ul_grant(const ue_pusch_grant& grant)`. -/
def allocate_ul_grant (a : ue_cell_grid_allocator) (grant : ue_pusch_grant) : alloc_run :=
  match ul_grant_prechecks a grant with
  | .abort c => ⟨.abort c, [], a⟩
  | .fail c => ⟨.failure c, [], a⟩
  | .ok ctx => ul_grant_alloc a grant ctx

/-! ## Observations on the state -/

/-- The slot allocator `get_res_alloc(cell_index)[offset]` of a state. -/
def ue_cell_grid_allocator.slot_at (a : ue_cell_grid_allocator) (cell_index offset : Nat) :
    Option cell_slot_resource_allocator :=
  (a.cells.getD cell_index none).bind (fun c => c.cell_alloc.at_offset offset)

/-- The DL PDCCH list of a slot. -/
def ue_cell_grid_allocator.dl_pdcchs_at (a : ue_cell_grid_allocator) (cell_index offset : Nat) :
    List pdcch_dl_information :=
  ((a.slot_at cell_index offset).map (fun sa => sa.result.dl.dl_pdcchs)).getD []

/-- The UL PDCCH list of a slot. -/
def ue_cell_grid_allocator.ul_pdcchs_at (a : ue_cell_grid_allocator) (cell_index offset : Nat) :
    List pdcch_ul_information :=
  ((a.slot_at cell_index offset).map (fun sa => sa.result.dl.ul_pdcchs)).getD []

/-- The UE PDSCH grants of a slot. -/
def ue_cell_grid_allocator.ue_grants_at (a : ue_cell_grid_allocator) (cell_index offset : Nat) :
    List dl_msg_alloc :=
  ((a.slot_at cell_index offset).map (fun sa => sa.result.dl.ue_grants)).getD []

/-- The PUSCH grants of a slot. -/
def ue_cell_grid_allocator.puschs_at (a : ue_cell_grid_allocator) (cell_index offset : Nat) :
    List ul_sched_info :=
  ((a.slot_at cell_index offset).map (fun sa => sa.result.ul.puschs)).getD []

/-- The PUCCH grants of a slot. -/
def ue_cell_grid_allocator.pucchs_at (a : ue_cell_grid_allocator) (cell_index offset : Nat) :
    List pucch_info :=
  ((a.slot_at cell_index offset).map (fun sa => sa.result.ul.pucchs)).getD []

/-- The DL resource grid of a slot. -/
def ue_cell_grid_allocator.dl_grid_at (a : ue_cell_grid_allocator) (cell_index offset : Nat) :
    Option cell_slot_resource_grid :=
  (a.slot_at cell_index offset).map (fun sa => sa.dl_res_grid)

/-- The UL resource grid of a slot. -/
def ue_cell_grid_allocator.ul_grid_at (a : ue_cell_grid_allocator) (cell_index offset : Nat) :
    Option cell_slot_resource_grid :=
  (a.slot_at cell_index offset).map (fun sa => sa.ul_res_grid)

/-- The reservations remembered by the PDCCH allocator of a cell. -/
def ue_cell_grid_allocator.pdcch_records (a : ue_cell_grid_allocator) (cell_index : Nat) :
    List pdcch_alloc_record :=
  ((a.cells.getD cell_index none).map (fun c => c.pdcch_sched.records)).getD []

/-- The book-keeping of the UCI allocator of a cell. -/
def ue_cell_grid_allocator.uci_grid (a : ue_cell_grid_allocator) (cell_index : Nat) :
    List uci_record :=
  ((a.cells.getD cell_index none).map (fun c => c.uci_alloc.uci_alloc_grid)).getD []

/-- The HARQ-ACK bit count of a UE in the slot at an offset, as kept by the UCI allocator of
the cell. -/
def ue_cell_grid_allocator.harq_ack_bits (a : ue_cell_grid_allocator) (cell_index offset : Nat)
    (crnti : Nat) : Nat :=
  match a.cells.getD cell_index none with
  | none => 0
  | some c =>
    match c.cell_alloc.at_offset offset with
    | none => 0
    | some sa => get_scheduled_pdsch_counter_in_ue_uci c.uci_alloc sa crnti

/-- The HARQ entity of a UE in a cell. -/
def ue_cell_grid_allocator.harqs_of (a : ue_cell_grid_allocator) (ue_index cell_index : Nat) :
    Option harq_entity :=
  ((a.ues.getD ue_index none).bind (fun u => u.find_cell cell_index)).map (fun c => c.harqs)

/-- The DL HARQ process of a grant. -/
def ue_cell_grid_allocator.dl_harq_of (a : ue_cell_grid_allocator) (ue_index cell_index h_id : Nat) :
    Option dl_harq_process :=
  (a.harqs_of ue_index cell_index).bind (fun e => e.dl_harq h_id)

/-- The UL HARQ process of a grant. -/
def ue_cell_grid_allocator.ul_harq_of (a : ue_cell_grid_allocator) (ue_index cell_index h_id : Nat) :
    Option ul_harq_process :=
  (a.harqs_of ue_index cell_index).bind (fun e => e.ul_harq h_id)

/-- The pending scheduling-request flag of a UE. -/
def ue_cell_grid_allocator.sr_indication_of (a : ue_cell_grid_allocator) (ue_index : Nat) :
    Option Bool :=
  (a.ues.getD ue_index none).map (fun u => u.sr_indication)

/-! ## A small scenario used to exercise the definitions -/

/-- A cell where every slot is DL-enabled and fully UL-enabled. -/
def demo_cell_cfg : cell_configuration :=
  { ra_search_space_id := 1, is_dl_enabled := fun _ => true, is_ul_enabled := fun _ => true,
    is_fully_ul_enabled := fun _ => true }

/-- A search space of BWP 0 with formats 1_0 and 0_1.  PDSCH time-domain entries: index 0 is
k0 = 0 on symbols 2..13, index 1 is k0 = 1, index 2 is k0 = 0 on symbols 0..13. -/
def demo_ss : search_space_info :=
  { cfg_id := 2, bwp := ⟨0, 1, 1⟩,
    get_crnti_dl_dci_format := .c_rnti_f1_0, get_crnti_ul_dci_format := .c_rnti_f0_1,
    pdsch_time_domain_list := [⟨0, ⟨2, 14⟩⟩, ⟨1, ⟨2, 14⟩⟩, ⟨0, ⟨0, 14⟩⟩],
    pusch_time_domain_list := [⟨4, ⟨0, 14⟩⟩],
    dl_crb_lims := ⟨0, 52⟩, ul_crb_lims := ⟨0, 52⟩, get_k1_candidates := [4] }

/-- The UE cell configuration of the scenario. -/
def demo_ue_cell_cfg : ue_cell_configuration :=
  { cell_cfg_common := demo_cell_cfg, cfg_dedicated := ⟨none⟩, bwp_table := [⟨0, 1, 1⟩],
    search_spaces := [demo_ss] }

/-- Expert configuration with the RV sequence {0, 2, 3, 1}. -/
def demo_expert_cfg : scheduler_ue_expert_config :=
  { max_nof_harq_retxs := 4, pdsch_rv_sequence := [0, 2, 3, 1], pusch_rv_sequence := [0, 2, 3, 1] }

/-- An empty DL HARQ process. -/
def demo_dl_harq (id : Nat) : dl_harq_process :=
  { id := id, state := .empty, ndi := false, nof_retxs := 0, max_nof_harq_retxs := 4,
    slot_tx := ⟨1, 0⟩, slot_ack := ⟨1, 0⟩, dai := 0,
    last_alloc_params := ⟨.c_rnti_f1_0, ⟨0, 0⟩, 0, 0⟩ }

/-- An empty UL HARQ process. -/
def demo_ul_harq (id : Nat) : ul_harq_process :=
  { id := id, state := .empty, ndi := false, nof_retxs := 0, max_nof_harq_retxs := 4,
    slot_tx := ⟨1, 0⟩, last_tx_params := ⟨.c_rnti_f0_1, ⟨0, 0⟩, 0, 0⟩ }

/-- A UE with one serving cell, no HARQ process in use and 1000 bytes pending on LCID 4. -/
def demo_ue : ue :=
  { ue_index := 0, crnti := 17921,
    ue_cells := [{ ue_index := 0, cell_index := 0,
                   harqs := ⟨[demo_dl_harq 0, demo_dl_harq 1], [demo_ul_harq 0, demo_ul_harq 1]⟩,
                   crnti_ := 17921, expert_cfg := demo_expert_cfg, ue_cfg := demo_ue_cell_cfg }],
    sr_indication := true, dl_lc_ch := [(4, 1000)] }

/-- An empty slot of the ring. -/
def demo_slot (count : Nat) : cell_slot_resource_allocator :=
  { slot := ⟨1, count⟩, dl_res_grid := ⟨[]⟩, ul_res_grid := ⟨[]⟩,
    result := ⟨⟨[], [], [], []⟩, ⟨[], []⟩⟩ }

/-- A cell with a ring of eight empty slots.  Two PDCCH candidates on symbol 0 (CRBs 0..5 and
6..11); the PUCCH allocator accepts up to two HARQ-ACK bits per UE and slot. -/
def demo_cell : cell_t :=
  { cell_index := 0,
    pdcch_sched := ⟨fun _ _ _ _ => [⟨1, ⟨0, 1⟩, ⟨0, 6⟩⟩, ⟨1, ⟨0, 1⟩, ⟨6, 12⟩⟩], []⟩,
    uci_alloc := ⟨fun _ _ n => if n < 2 then some 0 else none, []⟩,
    cell_alloc := ⟨(List.range 8).map demo_slot⟩ }

/-- The allocator of the scenario.  The MCS/TBS calculators find no MCS for a single RB. -/
def demo_alloc : ue_cell_grid_allocator :=
  { expert_cfg := demo_expert_cfg, ues := [some demo_ue], cells := [some demo_cell],
    compute_dl_mcs_tbs := fun _ _ mcs n => if n < 2 then none else some ⟨mcs, 10 * n⟩,
    compute_ul_mcs_tbs := fun _ _ mcs n => if n < 2 then none else some ⟨mcs, 10 * n⟩,
    MAX_DL_PDCCH_PDUS_PER_SLOT := 8, MAX_UE_PDUS_PER_SLOT := 8, MAX_PUSCH_PDUS_PER_SLOT := 8 }

/-- A DL grant of the scenario. -/
def demo_dl_grant (time_res_index : Nat) (crbs : interval) : ue_pdsch_grant :=
  { user_ue_index := 0, cell_index := 0, h_id := 0, ss_id := 2, time_res_index := time_res_index,
    crbs := crbs, aggr_lvl := 4, mcs := 10 }

/-- An UL grant of the scenario. -/
def demo_ul_grant (crbs : interval) : ue_pusch_grant :=
  { user_ue_index := 0, cell_index := 0, h_id := 0, crbs := crbs, ss_id := 2, time_res_index := 0,
    aggr_lvl := 4, mcs := 10 }

/-- A DL HARQ process waiting for a retransmission: the last transmission used ten RBs,
MCS 9 and 100 bytes, and `n` retransmissions were made so far. -/
def demo_retx_dl_harq (n : Nat) : dl_harq_process :=
  { id := 0, state := .pending_retx, ndi := true, nof_retxs := n, max_nof_harq_retxs := 4,
    slot_tx := ⟨1, 0⟩, slot_ack := ⟨1, 0⟩, dai := 0,
    last_alloc_params := ⟨.c_rnti_f1_0, ⟨0, 10⟩, 9, 100⟩ }

/-- An UL HARQ process waiting for a retransmission, with the same history. -/
def demo_retx_ul_harq (n : Nat) : ul_harq_process :=
  { id := 0, state := .pending_retx, ndi := true, nof_retxs := n, max_nof_harq_retxs := 4,
    slot_tx := ⟨1, 0⟩, last_tx_params := ⟨.c_rnti_f0_1, ⟨0, 10⟩, 9, 100⟩ }

/-- The UE of the scenario with the HARQ processes 0 waiting for a retransmission. -/
def demo_retx_ue (n : Nat) : ue :=
  { ue_index := 0, crnti := 17921,
    ue_cells := [{ ue_index := 0, cell_index := 0,
                   harqs := ⟨[demo_retx_dl_harq n, demo_dl_harq 1],
                             [demo_retx_ul_harq n, demo_ul_harq 1]⟩,
                   crnti_ := 17921, expert_cfg := demo_expert_cfg, ue_cfg := demo_ue_cell_cfg }],
    sr_indication := true, dl_lc_ch := [(4, 1000)] }

/-- The allocator of the scenario with the UE waiting for retransmissions. -/
def demo_retx_alloc (n : Nat) : ue_cell_grid_allocator :=
  { demo_alloc with ues := [some (demo_retx_ue n)] }

/-- The UE of the scenario with the HARQ processes 0 waiting for a retransmission whose last
transmission used the DCI formats 1_1 and 0_0, which the search space does not use. -/
def demo_other_format_ue : ue :=
  { ue_index := 0, crnti := 17921,
    ue_cells := [{ ue_index := 0, cell_index := 0,
                   harqs := ⟨[{ demo_retx_dl_harq 0 with
                                last_alloc_params := ⟨.c_rnti_f1_1, ⟨0, 10⟩, 9, 100⟩ }],
                             [{ demo_retx_ul_harq 0 with
                                last_tx_params := ⟨.c_rnti_f0_0, ⟨0, 10⟩, 9, 100⟩ }]⟩,
                   crnti_ := 17921, expert_cfg := demo_expert_cfg, ue_cfg := demo_ue_cell_cfg }],
    sr_indication := true, dl_lc_ch := [(4, 1000)] }

/-- The allocator of the scenario with that UE. -/
def demo_other_format_alloc : ue_cell_grid_allocator :=
  { demo_alloc with ues := [some demo_other_format_ue] }

/-- The allocator of the scenario after five HARQ-ACK bits of the UE were bound to the slot
at offset 4, the PUSCH slot of the UL grants of the scenario. -/
def demo_five_acks_alloc : ue_cell_grid_allocator :=
  { demo_alloc with
    cells := [some { demo_cell with
                     uci_alloc := ⟨demo_cell.uci_alloc.pucch_resource, [⟨⟨1, 4⟩, 17921, 5⟩]⟩ }] }

/-- The cell of the scenario after two HARQ-ACK bits of the UE were bound to the slot at
offset 4, with a PUCCH allocator that accepts a third bit. -/
def demo_two_acks_cell : cell_t :=
  { demo_cell with
    uci_alloc := ⟨fun _ _ n => if n < 3 then some 0 else none, [⟨⟨1, 4⟩, 17921, 2⟩]⟩ }

/-- The allocator of the scenario with that cell; the UE has no CSI report configured. -/
def demo_two_acks_alloc : ue_cell_grid_allocator :=
  { demo_alloc with cells := [some demo_two_acks_cell] }

/-- The UE of the scenario with a CSI report every eight slots at offset 4. -/
def demo_csi_ue : ue :=
  { ue_index := 0, crnti := 17921,
    ue_cells := [{ ue_index := 0, cell_index := 0,
                   harqs := ⟨[demo_dl_harq 0, demo_dl_harq 1], [demo_ul_harq 0, demo_ul_harq 1]⟩,
                   crnti_ := 17921, expert_cfg := demo_expert_cfg,
                   ue_cfg := { demo_ue_cell_cfg with cfg_dedicated := ⟨some ⟨4, 8⟩⟩ } }],
    sr_indication := true, dl_lc_ch := [(4, 1000)] }

/-- The allocator of the scenario with the CSI-reporting UE and two HARQ-ACK bits already
bound to the slot at offset 4, which is a CSI slot. -/
def demo_csi_alloc : ue_cell_grid_allocator :=
  { demo_alloc with ues := [some demo_csi_ue], cells := [some demo_two_acks_cell] }

/-! ## Event manager (`ue_event_manager.cpp`): messages and collaborators -/

/-- Modelled from the spec: the constant `MAX_NOF_DU_UES` (its header is missing), the
UE index that no UE has and that `handle_ue_creation_request` gives to creation events. -/
def MAX_NOF_DU_UES : Nat := 1024

/-- Modelled from the spec: the constant `MAX_NOF_DU_CELLS` (its header is missing), the
size of the arrays `du_cells` and `cell_specific_events`. -/
def MAX_NOF_DU_CELLS : Nat := 16

/-- Modelled from the spec: the constant `LCID_SRB0` (its header is missing). -/
def LCID_SRB0 : Nat := 0

/-- The fields of `sched_ue_creation_request_message` read by the event manager; `cells`
holds `cfg.cells[i].serv_cell_cfg.cell_index`. -/
structure sched_ue_creation_request_message where
  ue_index : Nat
  crnti : Nat
  cells : List Nat
deriving DecidableEq, Repr

/-- The fields of `sched_ue_reconfiguration_message` read by the event manager. -/
structure sched_ue_reconfiguration_message where
  ue_index : Nat
  crnti : Nat
deriving DecidableEq, Repr

/-- The message `ul_bsr_indication_message`; `reported_lcgs` as (LCG id, bytes) pairs. -/
structure ul_bsr_indication_message where
  cell_index : Nat
  ue_index : Nat
  crnti : Nat
  type : Nat
  reported_lcgs : List (Nat × Nat)
deriving DecidableEq, Repr

/-- The message `ul_crc_pdu_indication`; the SINR is kept as an integer. -/
structure ul_crc_pdu_indication where
  rnti : Nat
  ue_index : Nat
  harq_id : Nat
  tb_crc_success : Bool
  ul_sinr_metric : Option Int
deriving DecidableEq, Repr

/-- The message `ul_crc_indication`. -/
structure ul_crc_indication where
  cell_index : Nat
  sl_rx : slot_point
  crcs : List ul_crc_pdu_indication
deriving DecidableEq, Repr

/-- The enumeration `mac_harq_ack_report_status`. -/
inductive mac_harq_ack_report_status
  | nack
  | ack
  | dtx
deriving DecidableEq, Repr

/-- The variant `uci_indication::uci_pdu::pdu` with the members read by the event manager;
bitsets are lists of bits, bit 0 first. -/
inductive uci_pdu_variant
  | uci_pucch_f0_or_f1_pdu (sr_detected : Bool) (harqs : List mac_harq_ack_report_status)
      (ul_sinr : Option Int)
  | uci_pusch_pdu (harqs : List mac_harq_ack_report_status) (csi_part1 : List Bool)
  | uci_pucch_f2_or_f3_or_f4_pdu (sr_info : List Bool)
      (harqs : List mac_harq_ack_report_status) (csi_part1 : List Bool) (ul_sinr : Option Int)
deriving DecidableEq, Repr

/-- The record `uci_indication::uci_pdu`. -/
structure uci_pdu where
  ue_index : Nat
  crnti : Nat
  pdu : uci_pdu_variant
deriving DecidableEq, Repr

/-- The message `uci_indication`. -/
structure uci_indication where
  cell_index : Nat
  slot_rx : slot_point
  ucis : List uci_pdu
deriving DecidableEq, Repr

/-- The message `dl_mac_ce_indication`. -/
structure dl_mac_ce_indication where
  ue_index : Nat
  ce_lcid : Nat
deriving DecidableEq, Repr

/-- The message `dl_buffer_state_indication_message`. -/
structure dl_buffer_state_indication_message where
  ue_index : Nat
  lcid : Nat
  bs : Nat
deriving DecidableEq, Repr

/-- Calls made by the event manager on its collaborators, in the order they are made:
`ev_*` are `ev_logger.enqueue(...)` with the logged record, `metrics_*` are calls of
`metrics_handler`, `mac_ue_config_complete` is `mac_notifier.on_ue_config_complete`,
`srb0_dl_buffer_state` is `du_cells[cell].srb0_sched->handle_dl_buffer_state_indication`.
The two first constructors are not calls: they mark the start of the callback of the
common event or cell event with the given label (see `common_event_t.seq`).  Warnings
written to the text logger are not recorded. -/
inductive em_notification
  | common_callback (seq : Nat)
  | cell_callback (seq : Nat)
  | ev_ue_creation (ue_index rnti pcell_index : Nat)
  | ev_ue_reconfiguration (req : sched_ue_reconfiguration_message)
  | ev_ue_delete (ue_index rnti : Nat)
  | ev_bsr (ue_index rnti type : Nat) (reported_lcgs : List (Nat × Nat))
      (tot_ul_pending_bytes : Nat)
  | ev_crc (ue_index rnti cell_index : Nat) (sl_rx : slot_point) (harq_id : Nat)
      (tb_crc_success : Bool) (ul_sinr_metric : Option Int)
  | ev_harq_ack (ue_index rnti cell_index : Nat) (uci_sl : slot_point) (h_id : Nat)
      (ack_value : mac_harq_ack_report_status) (tbs : Nat)
  | ev_csi_report (ue_index rnti wb_cqi : Nat)
  | ev_sr (ue_index rnti : Nat)
  | ev_dl_mac_ce (ce : dl_mac_ce_indication)
  | ev_dl_buffer_state (bs : dl_buffer_state_indication_message)
  | metrics_ue_creation (ue_index crnti : Nat)
  | metrics_ue_deletion (ue_index : Nat)
  | metrics_ul_bsr (bsr : ul_bsr_indication_message)
  | metrics_crc (crc : ul_crc_pdu_indication) (tbs : Nat)
  | metrics_dl_harq_ack (ue_index : Nat) (ack : Bool) (tbs : Nat)
  | metrics_csi_report (ue_index : Nat) (csi_bits : List Bool)
  | metrics_pucch_sinr (ue_index : Nat) (ul_sinr : Option Int)
  | mac_ue_config_complete (ue_index : Nat)
  | srb0_dl_buffer_state (cell_index ue_index : Nat)
deriving DecidableEq, Repr

/-- Modelled from the spec: the members of `ue`, `ue_cell` and `harq_entity` that the
event manager calls and whose definitions are missing (`ue.cpp`, `ue_cell.cpp`,
`harq_process.cpp`), and the constructor of `ue`.  They are parameters: each takes the
object it is called on and returns the object it leaves.  `handle_crc_pdu` also returns
the transport-block size (negative when the CRC matches no HARQ process), `dl_ack_info`
the HARQ process that was acknowledged (`none` is `nullptr`). -/
structure ue_methods where
  make_ue : sched_ue_creation_request_message → ue
  handle_reconfiguration_request : ue → sched_ue_reconfiguration_message → ue
  handle_bsr_indication : ue → ul_bsr_indication_message → ue
  pending_ul_newtx_bytes : ue → Nat
  handle_dl_mac_ce_indication : ue → dl_mac_ce_indication → ue
  handle_dl_buffer_state_indication : ue → dl_buffer_state_indication_message → ue
  handle_crc_pdu : ue_cell → slot_point → ul_crc_pdu_indication → Int × ue_cell
  dl_ack_info : harq_entity → slot_point → mac_harq_ack_report_status → Nat →
    Option dl_harq_process × harq_entity

/-- Modelled from the spec: `ue::handle_sr_indication()` (missing): records that the UE has
a scheduling request pending, the flag that `reset_sr_indication()` lowers. -/
def ue.handle_sr_indication (u : ue) : ue := { u with sr_indication := true }

/-- Modelled from the spec: the class `ue_repository` (missing): the UEs by DU-local
index (`none` is a free entry) and the indices of the UEs whose removal was scheduled. -/
structure ue_repository where
  ues : List (Option ue)
  ues_to_rem : List Nat

/-- The member `contains(ue_index)`. -/
def ue_repository.contains (r : ue_repository) (ue_index : Nat) : Bool :=
  (r.ues.getD ue_index none).isSome

/-- The access `ue_db[ue_index]`; `none` where the repository has no such UE. -/
def ue_repository.get (r : ue_repository) (ue_index : Nat) : Option ue :=
  r.ues.getD ue_index none

/-- Write-back of a modified UE. -/
def ue_repository.set (r : ue_repository) (ue_index : Nat) (u : ue) : ue_repository :=
  { r with ues := r.ues.set ue_index (some u) }

/-- The member `add_ue(u)`: the UE is stored under its own index. -/
def ue_repository.add_ue (r : ue_repository) (u : ue) : ue_repository :=
  { r with
    ues := List.set (r.ues ++ List.replicate (u.ue_index + 1 - r.ues.length) none)
      u.ue_index (some u) }

/-- The member `schedule_ue_rem(ue_index)`: the UE is marked for removal. -/
def ue_repository.schedule_ue_rem (r : ue_repository) (ue_index : Nat) : ue_repository :=
  { r with ues_to_rem := r.ues_to_rem ++ [ue_index] }

/-- Modelled from the spec: the class template `slot_event_list` (missing): events pushed
by the producers wait in `pending_events` until `slot_indication()` makes them the
events of the current slot, which `get_events()` returns. -/
structure slot_event_list (α : Type) where
  pending_events : List α
  current_events : List α

/-- The member `emplace(...)`. -/
def slot_event_list.emplace {α : Type} (l : slot_event_list α) (ev : α) : slot_event_list α :=
  { l with pending_events := l.pending_events ++ [ev] }

/-- The member `slot_indication()`. -/
def slot_event_list.slot_indication {α : Type} (l : slot_event_list α) : slot_event_list α :=
  { pending_events := [], current_events := l.pending_events }

/-- The member `get_events()`. -/
def slot_event_list.get_events {α : Type} (l : slot_event_list α) : List α := l.current_events

/-! ## Event manager: events and state -/

/-- The closures pushed in `common_events`, by the function that builds them, with the
values they capture. -/
inductive common_callback
  | ue_creation (u : ue)
  | ue_reconfiguration (ue_request : sched_ue_reconfiguration_message)
  | ue_removal (ue_index : Nat)
  | ul_bsr (bsr_ind : ul_bsr_indication_message)
  | dl_mac_ce (ce : dl_mac_ce_indication)
  | dl_buffer_state (bs : dl_buffer_state_indication_message)

/-- The closures pushed in `cell_specific_events`, by the function that builds them, with
the values they capture. -/
inductive cell_callback
  | crc (sl_rx : slot_point) (crc : ul_crc_pdu_indication)
  | uci (uci_sl : slot_point) (uci_pdu : uci_pdu_variant)

/-- The record `common_event_t`; `callback = none` is the empty `unique_function`.  The
label `seq` is not in the source: it numbers the events in the order they were pushed,
so that statements can tell them apart; no function reads it except to copy it. -/
structure common_event_t where
  ue_index : Nat
  callback : Option common_callback
  seq : Nat

/-- The record `cell_event_t`, with the same label as `common_event_t`. -/
structure cell_event_t where
  ue_index : Nat
  callback : cell_callback
  seq : Nat

/-- The class `ue_event_manager` with the collaborators it holds by reference: the UE
repository, and the calls received by the event logger, the metrics handler, the MAC
notifier and the SRB0 schedulers (`out`).  `du_cells i` tells whether `add_cell` has set
the pointers of cell `i`; the arrays `du_cells` and `cell_specific_events` are functions
of the index, used below `MAX_NOF_DU_CELLS` only; `sanity_checks` tells whether the build
keeps `srsran_sanity_check`; `last_sl = none` is the invalid slot of a new manager;
`next_seq` is the next event label; `failed` is raised by a failed assertion, the use of
a null pointer or an access outside an array, after which the manager does nothing more. -/
structure ue_event_manager where
  methods : ue_methods
  ev_logger_enabled : Bool
  sanity_checks : Bool
  ue_db : ue_repository
  du_cells : Nat → Bool
  common_events : slot_event_list common_event_t
  cell_specific_events : Nat → slot_event_list cell_event_t
  last_sl : Option slot_point
  next_seq : Nat
  out : List em_notification
  failed : Bool

/-- A failed assertion. -/
def ue_event_manager.fail (m : ue_event_manager) : ue_event_manager := { m with failed := true }

/-- Calls on the collaborators. -/
def ue_event_manager.notify (m : ue_event_manager) (l : List em_notification) :
    ue_event_manager := { m with out := m.out ++ l }

/-- The member `cell_exists(cell_index)`. -/
def ue_event_manager.cell_exists (m : ue_event_manager) (cell_index : Nat) : Bool :=
  decide (cell_index < MAX_NOF_DU_CELLS) && m.du_cells cell_index

/-- Whether `srsran_sanity_check(cell_exists(cell_index), ...)` followed by an access to
entry `cell_index` of an array of `MAX_NOF_DU_CELLS` entries goes wrong. -/
def ue_event_manager.cell_check_fails (m : ue_event_manager) (cell_index : Nat) : Bool :=
  (m.sanity_checks && !m.cell_exists cell_index) || decide (MAX_NOF_DU_CELLS ≤ cell_index)

/-- The call `common_events.emplace(ue_index, callback)`. -/
def ue_event_manager.emplace_common (m : ue_event_manager) (ue_index : Nat)
    (cb : common_callback) : ue_event_manager :=
  { m with
    common_events := m.common_events.emplace ⟨ue_index, some cb, m.next_seq⟩
    next_seq := m.next_seq + 1 }

/-- The call `cell_specific_events[cell_index].emplace(ue_index, callback)`. -/
def ue_event_manager.emplace_cell (m : ue_event_manager) (cell_index ue_index : Nat)
    (cb : cell_callback) : ue_event_manager :=
  { m with
    cell_specific_events := Function.update m.cell_specific_events cell_index
      ((m.cell_specific_events cell_index).emplace ⟨ue_index, cb, m.next_seq⟩)
    next_seq := m.next_seq + 1 }

/-! ## Event manager: the callbacks -/

/-- The body of the closure of a common event. -/
def ue_event_manager.run_common_callback (m : ue_event_manager) :
    common_callback → ue_event_manager
  | .ue_creation u =>
    match u.get_pcell with
    | none => m.fail
    | some pcell =>
      let m1 := { m with ue_db := m.ue_db.add_ue u }
      match m1.ue_db.get u.ue_index with
      | none => m1.fail
      | some inserted_ue =>
        match inserted_ue.get_pcell with
        | none => m1.fail
        | some _ =>
          m1.notify [.ev_ue_creation u.ue_index u.crnti pcell.cell_index,
            .metrics_ue_creation inserted_ue.ue_index inserted_ue.crnti,
            .mac_ue_config_complete u.ue_index]
  | .ue_reconfiguration ue_request =>
    if !m.ue_db.contains ue_request.ue_index then m
    else
      match m.ue_db.get ue_request.ue_index with
      | none => m.fail
      | some u =>
        let m1 := { m with
          ue_db := m.ue_db.set ue_request.ue_index
            (m.methods.handle_reconfiguration_request u ue_request) }
        m1.notify [.ev_ue_reconfiguration ue_request,
          .mac_ue_config_complete ue_request.ue_index]
  | .ue_removal ue_index =>
    if !m.ue_db.contains ue_index then m
    else
      match m.ue_db.get ue_index with
      | none => m.fail
      | some u =>
        let m1 := { m with ue_db := m.ue_db.schedule_ue_rem ue_index }
        m1.notify [.ev_ue_delete ue_index u.crnti, .metrics_ue_deletion ue_index]
  | .ul_bsr bsr_ind =>
    if !m.ue_db.contains bsr_ind.ue_index then m
    else
      match m.ue_db.get bsr_ind.ue_index with
      | none => m.fail
      | some u0 =>
        let u := m.methods.handle_bsr_indication u0 bsr_ind
        let m1 := { m with ue_db := m.ue_db.set bsr_ind.ue_index u }
        let m2 := if m.ev_logger_enabled then
            m1.notify [.ev_bsr bsr_ind.ue_index bsr_ind.crnti bsr_ind.type bsr_ind.reported_lcgs
              (m.methods.pending_ul_newtx_bytes u)]
          else m1
        m2.notify [.metrics_ul_bsr bsr_ind]
  | .dl_mac_ce ce =>
    if !m.ue_db.contains ce.ue_index then m
    else
      match m.ue_db.get ce.ue_index with
      | none => m.fail
      | some u =>
        let m1 := { m with
          ue_db := m.ue_db.set ce.ue_index (m.methods.handle_dl_mac_ce_indication u ce) }
        m1.notify [.ev_dl_mac_ce ce]
  | .dl_buffer_state bs =>
    if !m.ue_db.contains bs.ue_index then m
    else
      match m.ue_db.get bs.ue_index with
      | none => m.fail
      | some u0 =>
        let u := m.methods.handle_dl_buffer_state_indication u0 bs
        let m1 := { m with ue_db := m.ue_db.set bs.ue_index u }
        if bs.lcid == LCID_SRB0 then
          match u.get_pcell with
          | none => m1.fail
          | some pcell =>
            if !m1.cell_exists pcell.cell_index then m1.fail
            else m1.notify [.srb0_dl_buffer_state pcell.cell_index bs.ue_index,
              .ev_dl_buffer_state bs]
        else m1.notify [.ev_dl_buffer_state bs]

/-- What the closure of a cell event does with the `ue_cell` it is given: the UE cell
it leaves, whether it called `ue_db[ue_cc.ue_index].handle_sr_indication()`, and its
calls on the collaborators. -/
structure cell_callback_result where
  ue_cc : ue_cell
  sr_indication : Bool
  out : List em_notification

/-- The loop of `handle_harq_ind` from bit `harq_idx` on. -/
def ue_event_manager.handle_harq_ind_from (methods : ue_methods) (uci_sl : slot_point) :
    Nat → List mac_harq_ack_report_status → ue_cell → ue_cell × List em_notification
  | _, [], ue_cc => (ue_cc, [])
  | harq_idx, ack_value :: rest, ue_cc =>
    let r := methods.dl_ack_info ue_cc.harqs uci_sl ack_value (harq_idx % 4)
    let ue_cc1 := { ue_cc with harqs := r.2 }
    let out1 :=
      match r.1 with
      | none => []
      | some h_dl =>
        let tbs := h_dl.last_alloc_params.tbs_bytes
        [em_notification.ev_harq_ack ue_cc1.ue_index ue_cc1.rnti ue_cc1.cell_index uci_sl
          h_dl.id ack_value tbs] ++
        (if ack_value != mac_harq_ack_report_status.dtx then
          [em_notification.metrics_dl_harq_ack ue_cc1.ue_index
            (ack_value == mac_harq_ack_report_status.ack) tbs]
        else [])
    let r2 := ue_event_manager.handle_harq_ind_from methods uci_sl (harq_idx + 1) rest ue_cc1
    (r2.1, out1 ++ r2.2)

/-- The member `handle_harq_ind(ue_cc, uci_sl, harq_bits)`. -/
def ue_event_manager.handle_harq_ind (methods : ue_methods) (ue_cc : ue_cell)
    (uci_sl : slot_point) (harq_bits : List mac_harq_ack_report_status) :
    ue_cell × List em_notification :=
  ue_event_manager.handle_harq_ind_from methods uci_sl 0 harq_bits ue_cc

/-- The member `handle_csi(ue_cc, csi_bits)`; `csi_bits.test(i)` is bit `i` of the list
and the sum is taken in `unsigned`. -/
def ue_event_manager.handle_csi (ue_cc : ue_cell) (csi_bits : List Bool) :
    ue_cell × List em_notification :=
  if csi_bits.length < 4 then (ue_cc, [])
  else
    let wb_cqi := (((csi_bits.getD 0 false).toNat <<< 3) + ((csi_bits.getD 1 false).toNat <<< 2) +
      ((csi_bits.getD 2 false).toNat <<< 1) + (csi_bits.getD 3 false).toNat) % 2 ^ 32
    let ue_cc1 := ue_cc.set_latest_wb_cqi wb_cqi
    (ue_cc1, [.ev_csi_report ue_cc1.ue_index ue_cc1.rnti wb_cqi,
      .metrics_csi_report ue_cc1.ue_index csi_bits])

/-- The body of the closure of a cell event, called on `ue_cc`. -/
def ue_event_manager.run_cell_callback (methods : ue_methods) (ue_cc : ue_cell) :
    cell_callback → cell_callback_result
  | .crc sl_rx crc =>
    let r := methods.handle_crc_pdu ue_cc sl_rx crc
    if r.1 < 0 then ⟨r.2, false, []⟩
    else
      ⟨r.2, false, [.ev_crc crc.ue_index crc.rnti r.2.cell_index sl_rx crc.harq_id
        crc.tb_crc_success crc.ul_sinr_metric, .metrics_crc crc r.1.toNat]⟩
  | .uci uci_sl (.uci_pucch_f0_or_f1_pdu sr_detected harqs ul_sinr) =>
    let r1 := if !harqs.isEmpty then ue_event_manager.handle_harq_ind methods ue_cc uci_sl harqs
      else (ue_cc, [])
    let out2 := if sr_detected then [em_notification.ev_sr r1.1.ue_index r1.1.rnti] else []
    ⟨r1.1, sr_detected, r1.2 ++ out2 ++ [.metrics_pucch_sinr r1.1.ue_index ul_sinr]⟩
  | .uci uci_sl (.uci_pusch_pdu harqs csi_part1) =>
    let r1 := if harqs.length > 0 then ue_event_manager.handle_harq_ind methods ue_cc uci_sl harqs
      else (ue_cc, [])
    let r2 := if csi_part1.length > 0 then ue_event_manager.handle_csi r1.1 csi_part1
      else (r1.1, [])
    ⟨r2.1, false, r1.2 ++ r2.2⟩
  | .uci uci_sl (.uci_pucch_f2_or_f3_or_f4_pdu sr_info harqs csi_part1 ul_sinr) =>
    let r1 := if harqs.length > 0 then ue_event_manager.handle_harq_ind methods ue_cc uci_sl harqs
      else (ue_cc, [])
    let sr := decide (sr_info.length > 0) && sr_info.getD 0 false
    let out2 := if sr then [em_notification.ev_sr r1.1.ue_index r1.1.rnti] else []
    let r2 := if csi_part1.length > 0 then ue_event_manager.handle_csi r1.1 csi_part1
      else (r1.1, [])
    ⟨r2.1, sr, r1.2 ++ out2 ++ r2.2 ++ [.metrics_pucch_sinr r2.1.ue_index ul_sinr]⟩

/-! ## Event manager: `process_common`, `process_cell_specific`, `run` -/

/-- The body of the loop of `process_common` for one event: the manager and the event it
leaves. -/
def ue_event_manager.process_common_event (m : ue_event_manager) (cell_index : Nat)
    (ev : common_event_t) : ue_event_manager × common_event_t :=
  match ev.callback with
  | none => (m, ev)
  | some cb =>
    if ev.ue_index == MAX_NOF_DU_UES then
      ((m.notify [.common_callback ev.seq]).run_common_callback cb, { ev with callback := none })
    else if !m.ue_db.contains ev.ue_index then (m, { ev with callback := none })
    else
      match m.ue_db.get ev.ue_index with
      | none => (m.fail, ev)
      | some u =>
        match u.get_pcell with
        | none => (m.fail, ev)
        | some pcell =>
          if pcell.cell_index == cell_index then
            ((m.notify [.common_callback ev.seq]).run_common_callback cb,
              { ev with callback := none })
          else (m, ev)

/-- The loop of `process_common` over the events of the current slot. -/
def ue_event_manager.process_common_events (m : ue_event_manager) (cell_index : Nat) :
    List common_event_t → ue_event_manager × List common_event_t
  | [] => (m, [])
  | ev :: rest =>
    if m.failed then (m, ev :: rest)
    else
      let r := m.process_common_event cell_index ev
      let r2 := ue_event_manager.process_common_events r.1 cell_index rest
      (r2.1, r.2 :: r2.2)

/-- The member `process_common(sl, cell_index)`. -/
def ue_event_manager.process_common (m : ue_event_manager) (sl : slot_point)
    (cell_index : Nat) : ue_event_manager :=
  let m1 := if m.last_sl != some sl then
      { m with common_events := m.common_events.slot_indication, last_sl := some sl }
    else m
  let r := m1.process_common_events cell_index m1.common_events.get_events
  { r.1 with common_events := { r.1.common_events with current_events := r.2 } }

/-- The body of the loop of `process_cell_specific` for one event.  The closure works on
`ue_cc`, a reference into `ue_db[ev.ue_index]`; its effect is written back here. -/
def ue_event_manager.process_cell_event (m : ue_event_manager) (cell_index : Nat)
    (ev : cell_event_t) : ue_event_manager :=
  if !m.ue_db.contains ev.ue_index then m
  else
    match m.ue_db.get ev.ue_index with
    | none => m.fail
    | some u =>
      match u.find_cell cell_index with
      | none => m
      | some ue_cc =>
        let r := ue_event_manager.run_cell_callback m.methods ue_cc ev.callback
        let m1 := { m with ue_db := m.ue_db.set ev.ue_index (u.set_cell r.ue_cc) }
        let m2 := m1.notify (.cell_callback ev.seq :: r.out)
        if r.sr_indication then
          match m2.ue_db.get r.ue_cc.ue_index with
          | none => m2.fail
          | some u1 => { m2 with ue_db := m2.ue_db.set r.ue_cc.ue_index u1.handle_sr_indication }
        else m2

/-- The loop of `process_cell_specific` over the events of the current slot. -/
def ue_event_manager.process_cell_events (m : ue_event_manager) (cell_index : Nat) :
    List cell_event_t → ue_event_manager
  | [] => m
  | ev :: rest =>
    if m.failed then m
    else ue_event_manager.process_cell_events (m.process_cell_event cell_index ev) cell_index rest

/-- The member `process_cell_specific(cell_index)`. -/
def ue_event_manager.process_cell_specific (m : ue_event_manager) (cell_index : Nat) :
    ue_event_manager :=
  let l := (m.cell_specific_events cell_index).slot_indication
  let m1 := { m with cell_specific_events := Function.update m.cell_specific_events cell_index l }
  m1.process_cell_events cell_index l.get_events

/-- The member `run(sl, cell_index)`. -/
def ue_event_manager.run (m : ue_event_manager) (sl : slot_point) (cell_index : Nat) :
    ue_event_manager :=
  if m.cell_check_fails cell_index then m.fail
  else
    let m1 := m.process_common sl cell_index
    if m1.failed then m1 else m1.process_cell_specific cell_index

/-! ## Event manager: the producers -/

/-- The member `handle_ue_creation_request(ue_request)`: the UE object is built at once
(for which the configuration of `cells[0]` is read), its insertion is deferred. -/
def ue_event_manager.handle_ue_creation_request (m : ue_event_manager)
    (ue_request : sched_ue_creation_request_message) : ue_event_manager :=
  match ue_request.cells.head? with
  | none => m.fail
  | some cell_index =>
    if !m.cell_exists cell_index then m.fail
    else m.emplace_common MAX_NOF_DU_UES (.ue_creation (m.methods.make_ue ue_request))

/-- The member `handle_ue_reconfiguration_request(ue_request)`. -/
def ue_event_manager.handle_ue_reconfiguration_request (m : ue_event_manager)
    (ue_request : sched_ue_reconfiguration_message) : ue_event_manager :=
  m.emplace_common ue_request.ue_index (.ue_reconfiguration ue_request)

/-- The member `handle_ue_removal_request(ue_index)`. -/
def ue_event_manager.handle_ue_removal_request (m : ue_event_manager) (ue_index : Nat) :
    ue_event_manager := m.emplace_common ue_index (.ue_removal ue_index)

/-- The member `handle_ul_bsr_indication(bsr_ind)`. -/
def ue_event_manager.handle_ul_bsr_indication (m : ue_event_manager)
    (bsr_ind : ul_bsr_indication_message) : ue_event_manager :=
  if m.sanity_checks && !m.cell_exists bsr_ind.cell_index then m.fail
  else m.emplace_common bsr_ind.ue_index (.ul_bsr bsr_ind)

/-- The member `handle_crc_indication(crc_ind)`. -/
def ue_event_manager.handle_crc_indication (m : ue_event_manager)
    (crc_ind : ul_crc_indication) : ue_event_manager :=
  if !m.cell_exists crc_ind.cell_index then m.fail
  else
    crc_ind.crcs.foldl
      (fun m1 crc => m1.emplace_cell crc_ind.cell_index crc.ue_index (.crc crc_ind.sl_rx crc)) m

/-- The member `handle_uci_indication(ind)`. -/
def ue_event_manager.handle_uci_indication (m : ue_event_manager) (ind : uci_indication) :
    ue_event_manager :=
  if m.cell_check_fails ind.cell_index then m.fail
  else
    ind.ucis.foldl
      (fun m1 uci => m1.emplace_cell ind.cell_index uci.ue_index (.uci ind.slot_rx uci.pdu)) m

/-- The member `handle_dl_mac_ce_indication(ce)`. -/
def ue_event_manager.handle_dl_mac_ce_indication (m : ue_event_manager)
    (ce : dl_mac_ce_indication) : ue_event_manager := m.emplace_common ce.ue_index (.dl_mac_ce ce)

/-- The member `handle_dl_buffer_state_indication(bs)`. -/
def ue_event_manager.handle_dl_buffer_state_indication (m : ue_event_manager)
    (bs : dl_buffer_state_indication_message) : ue_event_manager :=
  m.emplace_common bs.ue_index (.dl_buffer_state bs)

/-- The member `add_cell(cell_cfg, srb0_sched)`. -/
def ue_event_manager.add_cell (m : ue_event_manager) (cell_index : Nat) : ue_event_manager :=
  if m.cell_exists cell_index || decide (MAX_NOF_DU_CELLS ≤ cell_index) then m.fail
  else { m with du_cells := Function.update m.du_cells cell_index true }

/-- A call of a public member of the event manager. -/
inductive em_op
  | add_cell (cell_index : Nat)
  | ue_creation_request (ue_request : sched_ue_creation_request_message)
  | ue_reconfiguration_request (ue_request : sched_ue_reconfiguration_message)
  | ue_removal_request (ue_index : Nat)
  | ul_bsr_indication (bsr_ind : ul_bsr_indication_message)
  | crc_indication (crc_ind : ul_crc_indication)
  | uci_indication (ind : uci_indication)
  | dl_mac_ce_indication (ce : dl_mac_ce_indication)
  | dl_buffer_state_indication (bs : dl_buffer_state_indication_message)
  | run (sl : slot_point) (cell_index : Nat)

/-- One call on the manager; nothing runs after a failed assertion. -/
def ue_event_manager.step (m : ue_event_manager) (op : em_op) : ue_event_manager :=
  if m.failed then m
  else
    match op with
    | .add_cell cell_index => m.add_cell cell_index
    | .ue_creation_request ue_request => m.handle_ue_creation_request ue_request
    | .ue_reconfiguration_request ue_request => m.handle_ue_reconfiguration_request ue_request
    | .ue_removal_request ue_index => m.handle_ue_removal_request ue_index
    | .ul_bsr_indication bsr_ind => m.handle_ul_bsr_indication bsr_ind
    | .crc_indication crc_ind => m.handle_crc_indication crc_ind
    | .uci_indication ind => m.handle_uci_indication ind
    | .dl_mac_ce_indication ce => m.handle_dl_mac_ce_indication ce
    | .dl_buffer_state_indication bs => m.handle_dl_buffer_state_indication bs
    | .run sl cell_index => m.run sl cell_index

/-- A sequence of calls on the manager. -/
def ue_event_manager.exec (m : ue_event_manager) (ops : List em_op) : ue_event_manager :=
  ops.foldl ue_event_manager.step m

/-- The labels of the common events whose callback was started, in order. -/
def executed_common (out : List em_notification) : List Nat :=
  out.filterMap (fun n => match n with
    | .common_callback seq => some seq
    | _ => none)

/-- The labels of the cell events whose callback was started, in order. -/
def executed_cell (out : List em_notification) : List Nat :=
  out.filterMap (fun n => match n with
    | .cell_callback seq => some seq
    | _ => none)

/-- The labels of the events of a list that still have a callback. -/
def live_seqs (l : List common_event_t) : List Nat :=
  (l.filter (fun ev => ev.callback.isSome)).map (fun ev => ev.seq)

/-! ## Event manager: observations and a small scenario -/

/-- The labels of a list of common events. -/
def common_seqs (l : List common_event_t) : List Nat := l.map (fun ev => ev.seq)

/-- The labels of a list of cell events. -/
def cell_seqs (l : List cell_event_t) : List Nat := l.map (fun ev => ev.seq)

/-- A manager that holds no event and has made no call yet. -/
def ue_event_manager.no_events (m : ue_event_manager) : Prop :=
  m.common_events.pending_events = [] ∧ m.common_events.current_events = [] ∧
  (∀ c, (m.cell_specific_events c).pending_events = []) ∧ m.out = []

/-- No label occurs twice among the pending common events, the common events of the
current slot that still have a callback and the callbacks already started, and every
such label was given out already. -/
def ue_event_manager.labels_distinct (m : ue_event_manager) : Prop :=
  ∀ s, (common_seqs m.common_events.pending_events).count s +
      (live_seqs m.common_events.current_events).count s +
      (executed_common m.out).count s ≤ if s < m.next_seq then 1 else 0

/-- The events of each list carry increasing labels (the lists are in push order), and
pending events carry labels given out already. -/
def ue_event_manager.labels_in_push_order (m : ue_event_manager) : Prop :=
  (common_seqs m.common_events.pending_events).Pairwise (· < ·) ∧
  (∀ s ∈ common_seqs m.common_events.pending_events, s < m.next_seq) ∧
  (common_seqs m.common_events.current_events).Pairwise (· < ·) ∧
  ∀ c, (cell_seqs (m.cell_specific_events c).pending_events).Pairwise (· < ·) ∧
    ∀ s ∈ cell_seqs (m.cell_specific_events c).pending_events, s < m.next_seq

/-- A UE cell of the scenario. -/
def demo_em_ue_cell (ue_index cell_index crnti : Nat) : ue_cell :=
  ⟨ue_index, cell_index, ⟨[], []⟩, crnti, demo_expert_cfg, demo_ue_cell_cfg, {}⟩

/-- Stand-ins for the missing members of the UE: the constructor gives the UE a cell per
configured serving cell, the handlers leave the UE as it is, every CRC is for a transport
block of 100 bytes, no HARQ process is acknowledged. -/
def demo_ue_methods : ue_methods where
  make_ue := fun req =>
    ⟨req.ue_index, req.crnti, req.cells.map (fun c => demo_em_ue_cell req.ue_index c req.crnti),
      false, []⟩
  handle_reconfiguration_request := fun u _ => u
  handle_bsr_indication := fun u _ => u
  pending_ul_newtx_bytes := fun _ => 0
  handle_dl_mac_ce_indication := fun u _ => u
  handle_dl_buffer_state_indication := fun u _ => u
  handle_crc_pdu := fun c _ _ => (100, c)
  dl_ack_info := fun e _ _ _ => (none, e)

/-- A new manager with cells 0 and 1 added. -/
def demo_event_manager : ue_event_manager where
  methods := demo_ue_methods
  ev_logger_enabled := true
  sanity_checks := true
  ue_db := ⟨[], []⟩
  du_cells := fun i => decide (i < 2)
  common_events := ⟨[], []⟩
  cell_specific_events := fun _ => ⟨[], []⟩
  last_sl := none
  next_seq := 0
  out := []
  failed := false

/-- Stand-ins as `demo_ue_methods`, except that every HARQ bit is taken to acknowledge the
empty DL HARQ process 0 of the scenario. -/
def demo_ack_methods : ue_methods :=
  { demo_ue_methods with dl_ack_info := fun e _ _ _ => (some (demo_dl_harq 0), e) }

/-! ## Open Fronthaul: block floating point compression (`iq_compression_bfp_impl.cpp`) -/

/-- Modelled from the spec: the constant `MAX_IQ_WIDTH` (its header is missing); the
assertion of `determine_exponent` names it: "Passed IQ data width exceeds 16 bits". -/
def MAX_IQ_WIDTH : Nat := 16

/-- Modelled from the spec: the constant `NOF_SAMPLES_PER_PRB` (its header is missing):
twelve subcarriers, I and Q. -/
def NOF_SAMPLES_PER_PRB : Nat := 24

/-- Modelled from the spec: the constant `NOF_SUBCARRIERS_PER_RB` (its header is missing). -/
def NOF_SUBCARRIERS_PER_RB : Nat := 12

/-- Conversion of an integer to `int16_t` (modulo `2 ^ 16`). -/
def to_int16 (v : Int) : Int := (v + 32768) % 65536 - 32768

/-- Conversion of an unsigned value to `int` (modulo `2 ^ 32`). -/
def to_int32 (n : Nat) : Int :=
  if n % 2 ^ 32 < 2 ^ 31 then ((n % 2 ^ 32 : Nat) : Int) else ((n % 2 ^ 32 : Nat) : Int) - 2 ^ 32

/-- Number of significant bits of `x`, counted by halving at most `width` times: the
position of the highest set bit among the `width` low bits, plus one; 0 for 0. -/
def bit_length_upto : Nat → Nat → Nat
  | 0, _ => 0
  | width + 1, x => if x = 0 then 0 else bit_length_upto width (x / 2) + 1

/-- The compiler builtin `__builtin_clz(x)`: the number of leading zero bits of the
32-bit value `x` (the builtin is undefined for 0, which the caller excludes). -/
def builtin_clz (x : Nat) : Nat := 32 - bit_length_upto 32 (x % 2 ^ 32)

/-- The function `iq_compression_bfp_impl::determine_exponent(uint16_t x, unsigned
data_width)`; `none` is the failed assertion.  The argument is converted to `uint16_t`,
the subtractions on `unsigned` are modulo `2 ^ 32`. -/
def iq_compression_bfp_impl.determine_exponent (x data_width : Nat) : Option Nat :=
  if ¬ data_width < 17 then none
  else
    let x16 := x % 2 ^ 16
    let max_shift := (MAX_IQ_WIDTH + 2 ^ 32 - data_width) % 2 ^ 32
    let lz_without_sign :=
      if x16 > 0 ∧ max_shift > 0 then
        (((builtin_clz x16 + 2 ^ 32 - 16) % 2 ^ 32) + 2 ^ 32 - 1) % 2 ^ 32
      else max_shift
    let raw_exp : Int := to_int32 (min max_shift lz_without_sign)
    some ((max 0 (to_int32 ((MAX_IQ_WIDTH + 2 ^ 32 - data_width) % 2 ^ 32) - raw_exp)).toNat
      % 2 ^ 32)

/-- The value of `*std::max_element(first, last)`; `none` for an empty range. -/
def max_element : List Int → Option Int
  | [] => none
  | x :: xs => some (xs.foldl max x)

/-- The value of `*std::min_element(first, last)`; `none` for an empty range. -/
def min_element : List Int → Option Int
  | [] => none
  | x :: xs => some (xs.foldl min x)

/-- What `compress_prb_generic` passes to `c_prb.pack_compressed_data` (the class
`compressed_prb` is missing): the compressed samples and the exponent. -/
structure bfp_compressed_prb where
  compressed_samples : List Int
  data_width : Nat
  exponent : Nat
deriving DecidableEq, Repr

/-- The function `iq_compression_bfp_impl::compress_prb_generic(c_prb, input_quantized,
data_width)` on the `int16_t` samples `input_quantized`; `none` is a span of fewer than
`NOF_SAMPLES_PER_PRB` samples or the failed assertion of `determine_exponent`.  The
absolute values are taken in `int`, the exponent is kept in `uint8_t`, `>>` on a negative
sample is the arithmetic shift. -/
def iq_compression_bfp_impl.compress_prb_generic (input_quantized : List Int)
    (data_width : Nat) : Option bfp_compressed_prb :=
  if input_quantized.length < NOF_SAMPLES_PER_PRB then none
  else
    match max_element (input_quantized.take NOF_SAMPLES_PER_PRB),
        min_element (input_quantized.take NOF_SAMPLES_PER_PRB) with
    | some max_it, some min_it =>
      let max_abs := ((max (Int.natAbs max_it : Int) ((Int.natAbs min_it : Int) - 1)) % 2 ^ 32).toNat
      match iq_compression_bfp_impl.determine_exponent max_abs data_width with
      | none => none
      | some e =>
        let exponent := e % 2 ^ 8
        some ⟨(input_quantized.take NOF_SAMPLES_PER_PRB).map
            (fun s => to_int16 (Int.shiftRight s exponent)),
          data_width, exponent⟩
    | _, _ => none

/-- The scaling factor of `decompress_prb_generic`: `int16_t scaler = 1 << exponent`, the
shift being made on the `int` 1 and its value narrowed to 16 bits; `none` where the shift
is undefined (a count of 32 or more, the width of `int`). -/
def iq_compression_bfp_impl.decompress_scaler (exponent : Nat) : Option Int :=
  if exponent < 32 then some (to_int16 (to_int32 (2 ^ exponent))) else none

/-! ## Open Fronthaul: User-Plane message decoder (`ofh_uplane_message_decoder_impl.cpp`) -/

/-- Number of bytes of the User-Plane header. -/
def NOF_BYTES_UP_HEADER : Nat := 4

/-- Size in bytes of a section ID header with no compression. -/
def SECTION_ID_HEADER_NO_COMPRESSION_SIZE : Nat := 4

/-- Modelled from the spec: the constant `OFH_PAYLOAD_VERSION` (`ofh_uplane_constants.h` is
missing). -/
def OFH_PAYLOAD_VERSION : Nat := 1

/-- Modelled from the spec: the class `network_order_binary_deserializer` (missing): the
bytes of the message that were not read yet.  A byte is read as `uint8_t`. -/
structure network_order_binary_deserializer where
  bytes : List Nat
deriving DecidableEq, Repr

/-- The member `remaining_bytes()`. -/
def network_order_binary_deserializer.remaining_bytes (d : network_order_binary_deserializer) :
    Nat := d.bytes.length

/-- The member `read<uint8_t>()`; the callers check the size before. -/
def network_order_binary_deserializer.read_uint8 (d : network_order_binary_deserializer) :
    Nat × network_order_binary_deserializer := (d.bytes.headD 0 % 256, ⟨d.bytes.tail⟩)

/-- The member `read<uint16_t>()`: two bytes, the most significant first. -/
def network_order_binary_deserializer.read_uint16 (d : network_order_binary_deserializer) :
    Nat × network_order_binary_deserializer :=
  ((d.bytes.headD 0 % 256) * 256 + d.bytes.tail.headD 0 % 256, ⟨d.bytes.tail.tail⟩)

/-- The member `read<uint8_t>(span)`: as many bytes as the span holds. -/
def network_order_binary_deserializer.read_bytes (d : network_order_binary_deserializer)
    (n : Nat) : List Nat × network_order_binary_deserializer :=
  ((d.bytes.take n).map (fun b => b % 256), ⟨d.bytes.drop n⟩)

/-- Modelled from the spec: the enumeration `data_direction` (its header is missing). -/
inductive data_direction
  | uplink
  | downlink
deriving DecidableEq, Repr

/-- Modelled from the spec: `static_cast<data_direction>(v)` for the one-bit value `v`, the
enumerators taken in the order uplink, downlink. -/
def to_data_direction (v : Nat) : data_direction := if v = 0 then .uplink else .downlink

/-- Modelled from the spec: the enumeration `filter_index_type` (its header is missing); this
file names the enumerator `reserved` only, the others are kept by their index. -/
inductive filter_index_type
  | reserved
  | filter (index : Nat)
deriving DecidableEq, Repr

/-- Modelled from the spec: the enumeration `compression_type` (its header is missing): the
five enumerators named in this file, and `other` for every further one. -/
inductive compression_type
  | none
  | BFP
  | block_scaling
  | mu_law
  | modulation
  | other (code : Nat)
deriving DecidableEq, Repr

/-- The fields of `ru_compression_params` read by the decoder. -/
structure ru_compression_params where
  type : compression_type
  data_width : Nat
deriving DecidableEq, Repr

/-- Modelled from the spec: the class `compressed_prb` (missing): the compression parameter
and the packed bytes of a resource block. -/
structure compressed_prb where
  compression_param : Nat := 0
  buffer : List Nat := []
deriving DecidableEq, Repr

/-- A complex sample `cf_t`, kept as a pair of integers; the samples of a section are
whatever the decompressor returns. -/
abbrev cf_t := Int × Int

/-- Modelled from the spec: the four-argument constructor of `slot_point` (missing):
`slot_point(numerology, sfn, subframe, slot)`. -/
def slot_point.of_fields (numerology sfn subframe slot : Nat) : slot_point :=
  ⟨numerology, ((sfn * 10 + subframe) * 2 ^ numerology + slot) % (10240 * 2 ^ numerology)⟩

/-- The record `uplane_message_params`. -/
structure uplane_message_params where
  direction : data_direction
  payload_version : Nat
  filter_index : filter_index_type
  slot : slot_point
  symbol_id : Nat
deriving DecidableEq, Repr

/-- The record `uplane_section_params`. -/
structure uplane_section_params where
  section_id : Nat
  is_every_rb_used : Bool
  use_current_symbol_number : Bool
  start_prb : Nat
  nof_prbs : Nat
  ud_comp_len : Option Nat
  iq_samples : List cf_t
deriving DecidableEq, Repr

/-- The record `uplane_message_decoder_results`. -/
structure uplane_message_decoder_results where
  params : uplane_message_params
  sections : List uplane_section_params
deriving DecidableEq, Repr

/-- The members of `uplane_message_decoder_static_compression_impl` and of its base class
`uplane_message_decoder_impl` (the header is missing): the numerology of `scs`, the number
of symbols, the number of PRBs of the RU, the compression parameters, and the decompressor
as a function from the compressed PRBs to the samples.  The free function
`to_filter_index_type` of a missing header is a parameter as well.  The logger is left
out; containers of bounded capacity are lists. -/
structure uplane_message_decoder_static_compression_impl where
  numerology : Nat
  nof_symbols : Nat
  ru_nof_prbs : Nat
  compression_params : ru_compression_params
  decompress : List compressed_prb → ru_compression_params → List cf_t
  to_filter_index_type : Nat → filter_index_type

/-- The function `is_header_valid(params, logger, nof_symbols)`. -/
def is_header_valid (params : uplane_message_params) (nof_symbols : Nat) : Bool :=
  if params.direction != data_direction.uplink then false
  else if params.payload_version != OFH_PAYLOAD_VERSION then false
  else if params.filter_index == filter_index_type.reserved then false
  else if params.symbol_id ≥ nof_symbols then false
  else true

/-- The member `decode_header(results, deserializer)`: the return value, the results and
the deserializer it leaves. -/
def uplane_message_decoder_impl.decode_header
    (dec : uplane_message_decoder_static_compression_impl)
    (results : uplane_message_decoder_results) (deserializer : network_order_binary_deserializer) :
    Bool × uplane_message_decoder_results × network_order_binary_deserializer :=
  if deserializer.remaining_bytes < NOF_BYTES_UP_HEADER then (false, results, deserializer)
  else
    let r0 := deserializer.read_uint8
    let value := r0.1
    let direction := to_data_direction (value >>> 7)
    let payload_version := (value >>> 4) &&& 7
    let filter_index := dec.to_filter_index_type (value &&& 0xf)
    -- Slot.
    let r1 := r0.2.read_uint8
    let frame := r1.1
    let r2 := r1.2.read_uint8
    let subframe_and_slot := r2.1
    let subframe := subframe_and_slot >>> 4
    let slot_id0 := 0 ||| ((subframe_and_slot &&& 0x0f) <<< 2)
    let r3 := r2.2.read_uint8
    let slot_and_symbol := r3.1
    let symbol_id := slot_and_symbol &&& 0x3f
    let slot_id := slot_id0 ||| (slot_and_symbol >>> 6)
    let params : uplane_message_params :=
      { direction := direction, payload_version := payload_version, filter_index := filter_index,
        slot := slot_point.of_fields dec.numerology frame subframe slot_id,
        symbol_id := symbol_id }
    (is_header_valid params dec.nof_symbols, { results with params := params }, r3.2)

/-- The member `decode_section_header(results, deserializer)`; the section it fills starts
empty. -/
def uplane_message_decoder_impl.decode_section_header
    (dec : uplane_message_decoder_static_compression_impl)
    (results : uplane_section_params) (deserializer : network_order_binary_deserializer) :
    Bool × uplane_section_params × network_order_binary_deserializer :=
  if deserializer.remaining_bytes < SECTION_ID_HEADER_NO_COMPRESSION_SIZE then
    (false, results, deserializer)
  else
    let r0 := deserializer.read_uint8
    let section_id0 := 0 ||| (r0.1 <<< 4)
    let r1 := r0.2.read_uint8
    let section_and_others := r1.1
    let section_id := section_id0 ||| (section_and_others >>> 4)
    let is_every_rb_used := ((section_and_others >>> 3) &&& 1) == 0
    let use_current_symbol_number := ((section_and_others >>> 2) &&& 1) == 0
    let start_prb0 := 0 ||| ((section_and_others &&& 0x03) <<< 8)
    let r2 := r1.2.read_uint8
    let start_prb := start_prb0 ||| r2.1
    let r3 := r2.2.read_uint8
    let nof_prb := if r3.1 == 0 then dec.ru_nof_prbs else r3.1
    (true,
      { results with
        section_id := section_id, is_every_rb_used := is_every_rb_used,
        use_current_symbol_number := use_current_symbol_number, start_prb := start_prb,
        nof_prbs := nof_prb },
      r3.2)

/-- The member `decode_compression_header(results, deserializer)` of the decoder for static
compression. -/
def uplane_message_decoder_static_compression_impl.decode_compression_header
    (dec : uplane_message_decoder_static_compression_impl)
    (results : uplane_section_params) (deserializer : network_order_binary_deserializer) :
    Bool × uplane_section_params × network_order_binary_deserializer :=
  match dec.compression_params.type with
  | .none | .BFP | .block_scaling | .mu_law | .modulation => (true, results, deserializer)
  | .other _ =>
    if deserializer.remaining_bytes < 2 then (false, results, deserializer)
    else
      let r := deserializer.read_uint16
      (true, { results with ud_comp_len := some r.1 }, r.2)

/-- The value of `prb_iq_data_size.round_up_to_bytes()` for a size in bits. -/
def round_up_to_bytes (bits : Nat) : Nat := (bits + 7) / 8

/-- The loop of `decode_prbs_no_ud_comp_param_field` over the PRBs. -/
def read_prbs_no_ud_comp_param (nof_bytes : Nat) :
    Nat → network_order_binary_deserializer → List compressed_prb × network_order_binary_deserializer
  | 0, d => ([], d)
  | n + 1, d =>
    let r := d.read_bytes nof_bytes
    let rest := read_prbs_no_ud_comp_param nof_bytes n r.2
    ({ compression_param := 0, buffer := r.1 } :: rest.1, rest.2)

/-- The function `decode_prbs_no_ud_comp_param_field(comp_prb, deserializer,
prb_iq_data_size, logger)` for `nof_prbs` PRBs; the PRBs are returned. -/
def decode_prbs_no_ud_comp_param_field (nof_prbs : Nat)
    (deserializer : network_order_binary_deserializer) (prb_iq_data_size : Nat) :
    Bool × List compressed_prb × network_order_binary_deserializer :=
  if deserializer.remaining_bytes < round_up_to_bytes prb_iq_data_size * nof_prbs then
    (false, List.replicate nof_prbs {}, deserializer)
  else
    let r := read_prbs_no_ud_comp_param (round_up_to_bytes prb_iq_data_size) nof_prbs deserializer
    (true, r.1, r.2)

/-- The loop of `decode_prbs_with_ud_comp_param_field` over the PRBs. -/
def read_prbs_with_ud_comp_param (nof_bytes : Nat) :
    Nat → network_order_binary_deserializer → List compressed_prb × network_order_binary_deserializer
  | 0, d => ([], d)
  | n + 1, d =>
    let p := d.read_uint8
    let r := p.2.read_bytes nof_bytes
    let rest := read_prbs_with_ud_comp_param nof_bytes n r.2
    ({ compression_param := p.1, buffer := r.1 } :: rest.1, rest.2)

/-- The function `decode_prbs_with_ud_comp_param_field(comp_prb, deserializer,
prb_iq_data_size, logger)` for `nof_prbs` PRBs; the PRBs are returned. -/
def decode_prbs_with_ud_comp_param_field (nof_prbs : Nat)
    (deserializer : network_order_binary_deserializer) (prb_iq_data_size : Nat) :
    Bool × List compressed_prb × network_order_binary_deserializer :=
  -- Add 1 byte to the PRB size as the udComParam must be decoded.
  let prb_bytes := round_up_to_bytes prb_iq_data_size + 1
  if deserializer.remaining_bytes < prb_bytes * nof_prbs then
    (false, List.replicate nof_prbs {}, deserializer)
  else
    let r := read_prbs_with_ud_comp_param (round_up_to_bytes prb_iq_data_size) nof_prbs deserializer
    (true, r.1, r.2)

/-- The first part of `decode_iq_data`: the compressed PRBs read from the message. -/
def uplane_message_decoder_static_compression_impl.decode_comp_prbs
    (dec : uplane_message_decoder_static_compression_impl)
    (results : uplane_section_params) (deserializer : network_order_binary_deserializer) :
    Bool × List compressed_prb × network_order_binary_deserializer :=
  let prb_iq_data_size_bits := NOF_SUBCARRIERS_PER_RB * 2 * dec.compression_params.data_width
  -- udCompParam field is not present when compression type is none or modulation.
  if dec.compression_params.type == compression_type.none ||
      dec.compression_params.type == compression_type.modulation then
    decode_prbs_no_ud_comp_param_field results.nof_prbs deserializer prb_iq_data_size_bits
  else
    decode_prbs_with_ud_comp_param_field results.nof_prbs deserializer prb_iq_data_size_bits

/-- The member `decode_iq_data(results, deserializer)` of the decoder for static
compression. -/
def uplane_message_decoder_static_compression_impl.decode_iq_data
    (dec : uplane_message_decoder_static_compression_impl)
    (results : uplane_section_params) (deserializer : network_order_binary_deserializer) :
    Bool × uplane_section_params × network_order_binary_deserializer :=
  let r := dec.decode_comp_prbs results deserializer
  if !r.1 then (false, results, r.2.2)
  else
    -- Decompress the samples.
    (true, { results with iq_samples := dec.decompress r.2.1 dec.compression_params }, r.2.2)

/-- The member `decode_section(results, deserializer)`. -/
def uplane_message_decoder_impl.decode_section
    (dec : uplane_message_decoder_static_compression_impl)
    (results : uplane_message_decoder_results) (deserializer : network_order_binary_deserializer) :
    Bool × uplane_message_decoder_results × network_order_binary_deserializer :=
  -- Add a section to the results.
  let ofh_up_section : uplane_section_params := ⟨0, false, false, 0, 0, none, []⟩
  let r1 := uplane_message_decoder_impl.decode_section_header dec ofh_up_section deserializer
  if !r1.1 then (false, results, r1.2.2)
  else
    let r2 := dec.decode_compression_header r1.2.1 r1.2.2
    if !r2.1 then (false, results, r2.2.2)
    else
      let r3 := dec.decode_iq_data r2.2.1 r2.2.2
      if !r3.1 then (false, results, r3.2.2)
      else (true, { results with sections := results.sections ++ [r3.2.1] }, r3.2.2)

/-- The loop of `decode_all_sections`, for at most `fuel` turns; `none` when the turns
run out before the loop is left. -/
def uplane_message_decoder_impl.decode_sections_loop
    (dec : uplane_message_decoder_static_compression_impl) :
    Nat → uplane_message_decoder_results → network_order_binary_deserializer →
      Option (uplane_message_decoder_results × network_order_binary_deserializer)
  | fuel, results, deserializer =>
    -- Decode sections while the message has remaining bytes.
    if deserializer.remaining_bytes = 0 then some (results, deserializer)
    else
      match fuel with
      | 0 => none
      | fuel + 1 =>
        -- Try to decode section.
        let r := uplane_message_decoder_impl.decode_section dec results deserializer
        if !r.1 then some (r.2.1, r.2.2)
        else uplane_message_decoder_impl.decode_sections_loop dec fuel r.2.1 r.2.2

/-- The member `decode_all_sections(results, deserializer)`, with as many turns of its loop
as the message has bytes left. -/
def uplane_message_decoder_impl.decode_all_sections
    (dec : uplane_message_decoder_static_compression_impl)
    (results : uplane_message_decoder_results) (deserializer : network_order_binary_deserializer) :
    Option (Bool × uplane_message_decoder_results × network_order_binary_deserializer) :=
  (uplane_message_decoder_impl.decode_sections_loop dec deserializer.remaining_bytes results
    deserializer).map (fun r => (!r.1.sections.isEmpty, r.1, r.2))

/-- The member `decode(results, message)`: the return value and the results; `none` when the
loop over the sections did not end. -/
def uplane_message_decoder_impl.decode (dec : uplane_message_decoder_static_compression_impl)
    (results : uplane_message_decoder_results) (message : List Nat) :
    Option (Bool × uplane_message_decoder_results) :=
  -- Decode the header.
  let h := uplane_message_decoder_impl.decode_header dec results ⟨message⟩
  if !h.1 then some (false, h.2.1)
  else
    -- Decode the sections from the message.
    (uplane_message_decoder_impl.decode_all_sections dec h.2.1 h.2.2).map
      (fun s => if !s.1 then (false, s.2.1) else (true, s.2.1))

/-! ## Open Fronthaul: a small scenario -/

/-- A decoder for 14 symbols and an RU of 2 PRBs, with samples of 9 bits.  The filter
indices below 5 are taken as not reserved; the stand-in for the decompressor returns, for
each PRB, its compression parameter and the number of bytes of its buffer. -/
def demo_decoder (type : compression_type) : uplane_message_decoder_static_compression_impl :=
  { numerology := 1, nof_symbols := 14, ru_nof_prbs := 2, compression_params := ⟨type, 9⟩,
    decompress := fun prbs _ => prbs.map (fun p => ((p.compression_param : Int), (p.buffer.length : Int))),
    to_filter_index_type := fun v => if v < 5 then .filter v else .reserved }

/-- Results before a message is decoded: no section. -/
def demo_results : uplane_message_decoder_results :=
  ⟨⟨.downlink, 0, .reserved, ⟨0, 0⟩, 0⟩, []⟩

/-- An uplink header of payload version 1 for frame 3, subframe 2, slot 1, symbol 5. -/
def demo_header : List Nat := [0x10, 3, 0x20, 0x45]

/-- A section of one PRB starting at PRB 0, with the given udCompParam byte and 27 bytes
of samples. -/
def demo_section (ud_comp_param : Nat) : List Nat :=
  [0, 0, 0, 1, ud_comp_param] ++ List.replicate 27 0

/-- The results of decoding `demo_header` followed by one `demo_section`: the return value
true and one section of one PRB, whose samples show the compression parameter handed to
the decompressor of `demo_decoder`. -/
def demo_decoded (ud_comp_param : Nat) : Bool × uplane_message_decoder_results :=
  (true, ⟨⟨.uplink, 1, .filter 0, slot_point.of_fields 1 3 2 1, 5⟩,
    [⟨0, true, true, 0, 1, none, [((ud_comp_param : Int), 27)]⟩]⟩)

/-! ## UE removal: the slot boundary of the UE repository and the slot of the scheduler -/

/-- Modelled from the spec: whether "the user has [an] outstanding HARQ process" (the HARQ
code is missing): a DL or UL HARQ process of one of its cells is not empty. -/
def ue.has_outstanding_harq (u : ue) : Bool :=
  u.ue_cells.any (fun c =>
    c.harqs.dl_harqs.any (fun h => !h.empty) || c.harqs.ul_harqs.any (fun h => !h.empty))

/-- Whether the repository holds a UE under the index and this UE has no outstanding HARQ
process. -/
def ue_repository.removable (r : ue_repository) (ue_index : Nat) : Bool :=
  match r.get ue_index with
  | some u => !u.has_outstanding_harq
  | none => false

/-- Modelled from the spec: the turn of `ue_repository::slot_indication` (missing) for one UE
index whose removal was scheduled: "repository deletes the user at the next slot boundary
at which the user has no outstanding HARQ process", and the deletion is notified upstream
(the second component collects the indices notified); a UE with an outstanding HARQ
process stays and stays scheduled for removal; an index without UE is dropped. -/
def ue_repository.slot_indication_step (st : ue_repository × List Nat) (ue_index : Nat) :
    ue_repository × List Nat :=
  match st.1.get ue_index with
  | none => st
  | some u =>
    if u.has_outstanding_harq then
      ({ st.1 with ues_to_rem := st.1.ues_to_rem ++ [ue_index] }, st.2)
    else ({ st.1 with ues := st.1.ues.set ue_index none }, st.2 ++ [ue_index])

/-- Modelled from the spec: `ue_repository::slot_indication` (missing): the UEs scheduled for
removal are gone through in the order of the requests; the repository it leaves and the
UE indices whose deletion it notifies upstream. -/
def ue_repository.slot_indication (r : ue_repository) : ue_repository × List Nat :=
  r.ues_to_rem.foldl ue_repository.slot_indication_step ({ r with ues_to_rem := [] }, [])

/-- Modelled from the spec: the part of the scheduler (`ue_scheduler_impl`, missing) that
deals with the UEs: the event manager with the repository, and the upstream deletion
notifications made so far (`on_ue_delete_response`), in order. -/
structure ue_scheduler where
  event_mng : ue_event_manager
  deleted : List Nat

/-- Modelled from the spec: the slot of the scheduler (`run_slot`, missing) as far as the UEs
go: the events of the slot are processed by `run`, then the repository passes the slot
boundary.  This is the order under which one slot after the request is enough for the
notification, as the test `when_ue_has_no_pending_txs_then_ue_removal_is_immediate`
requires. -/
def ue_scheduler.run_slot (s : ue_scheduler) (sl : slot_point) (cell_index : Nat) :
    ue_scheduler :=
  let m := s.event_mng.run sl cell_index
  if m.failed then { s with event_mng := m }
  else
    let r := m.ue_db.slot_indication
    { event_mng := { m with ue_db := r.1 }, deleted := s.deleted ++ r.2 }

/-- A call on the scheduler: a call of a producer of the event manager, or a slot. -/
inductive sched_op
  | request (op : em_op)
  | run_slot (sl : slot_point) (cell_index : Nat)

/-- One call on the scheduler. -/
def ue_scheduler.step (s : ue_scheduler) : sched_op → ue_scheduler
  | .request op => { s with event_mng := s.event_mng.step op }
  | .run_slot sl cell_index => s.run_slot sl cell_index

/-- A sequence of calls on the scheduler. -/
def ue_scheduler.exec (s : ue_scheduler) (ops : List sched_op) : ue_scheduler :=
  ops.foldl ue_scheduler.step s

/-- Stand-ins for the missing members of the UE, as `demo_ue_methods`, except that a new UE
has its DL HARQ process 0 waiting for a retransmission and that a HARQ-ACK bit empties
the DL HARQ processes. -/
def demo_busy_methods : ue_methods :=
  { demo_ue_methods with
    make_ue := fun req =>
      ⟨req.ue_index, req.crnti,
        req.cells.map (fun c =>
          { demo_em_ue_cell req.ue_index c req.crnti with
            harqs := ⟨[demo_retx_dl_harq 0], []⟩ }),
        false, []⟩
    dl_ack_info := fun e _ _ _ =>
      (e.dl_harqs.head?,
        { e with dl_harqs := e.dl_harqs.map (fun h => { h with state := harq_state.empty }) }) }

/-- A scheduler with cells 0 and 1 and no UE, whose UEs have no HARQ process in use. -/
def demo_scheduler : ue_scheduler := ⟨demo_event_manager, []⟩

/-- A scheduler with cells 0 and 1 and no UE, whose UEs start with a HARQ process in use. -/
def demo_busy_scheduler : ue_scheduler :=
  ⟨{ demo_event_manager with methods := demo_busy_methods }, []⟩

/-- The repository neither holds a UE under the index nor has its removal scheduled. -/
def ue_repository.gone (r : ue_repository) (ue_index : Nat) : Prop :=
  r.get ue_index = none ∧ ue_index ∉ r.ues_to_rem

/-- Whether the closure of a common event is the creation of a UE with the given index. -/
def common_callback.creates : common_callback → Nat → Bool
  | .ue_creation u, i => u.ue_index == i
  | _, _ => false

/-- No common event held by the manager is the creation of a UE with the given index. -/
def ue_event_manager.no_creation_of (m : ue_event_manager) (ue_index : Nat) : Prop :=
  ∀ ev ∈ m.common_events.pending_events ++ m.common_events.current_events,
    ∀ cb, ev.callback = some cb → cb.creates ue_index = false

/-- The UE PDSCH grants and the PUCCH grants of a slot that carry the given C-RNTI. -/
def grants_of (crnti : Nat) (sa : cell_slot_resource_allocator) :
    List dl_msg_alloc × List pucch_info :=
  (sa.result.dl.ue_grants.filter (fun x => x.pdsch_cfg.rnti == crnti),
    sa.result.ul.pucchs.filter (fun q => q.crnti == crnti))

/-- Two rings hold, in every slot, the same PDSCH and PUCCH grants for the C-RNTI. -/
def same_grants_of (crnti : Nat) (r r' : cell_resource_allocator) : Prop :=
  ∀ j, (r'.at_offset j).map (grants_of crnti) = (r.at_offset j).map (grants_of crnti)

/-! ## Predicates used in the statements -/

/-- The return sites that lie before the PDCCH reservation step. -/
def alloc_failure.before_pdcch : alloc_failure → Bool
  | .no_pdcch_space => false
  | .no_pucch_space => false
  | .no_mcs => false
  | _ => true

/-- Facts established by a successful validation of a DL grant. -/
structure dl_prechecks_ok (a : ue_cell_grid_allocator) (g : ue_pdsch_grant) (ctx : dl_grant_ctx) :
    Prop where
  h_ue : a.ues.getD g.user_ue_index none = some ctx.u
  h_cell : a.cells.getD g.cell_index none = some ctx.cell
  h_ue_cc : ctx.u.find_cell g.cell_index = some ctx.ue_cc
  h_init_bwp : ctx.ue_cc.cfg.bwp_lookup 0 = some ctx.init_dl_bwp
  h_bwp : ctx.ue_cc.cfg.bwp_lookup ctx.ue_cc.active_bwp_id = some ctx.bwp_dl_cmn
  h_harq : ctx.ue_cc.harqs.dl_harq g.h_id = some ctx.h_dl
  h_ss : ctx.ue_cc.cfg.find_search_space g.ss_id = some ctx.ss_info
  h_ss_bwp : ctx.ss_info.bwp.bwp_id = ctx.ue_cc.active_bwp_id
  h_dci_type : ctx.dci_type = ctx.ss_info.get_crnti_dl_dci_format
  h_retx_fmt : ctx.h_dl.empty = false →
    ctx.h_dl.last_alloc_params.dci_cfg_type = ctx.ss_info.get_crnti_dl_dci_format
  h_ra_ss : ctx.dci_type = .tc_rnti_f1_0 → g.ss_id = ctx.ue_cc.cfg.cell_cfg_common.ra_search_space_id
  h_td : ctx.ss_info.pdsch_time_domain_list[g.time_res_index]? = some ctx.pdsch_td_cfg
  h_pdcch_alloc : ctx.cell.cell_alloc.at_offset 0 = some ctx.pdcch_alloc
  h_pdsch_alloc : ctx.cell.cell_alloc.at_offset ctx.pdsch_td_cfg.k0 = some ctx.pdsch_alloc
  h_pdcch_slot : ctx.ue_cc.cfg.cell_cfg_common.is_dl_enabled ctx.pdcch_alloc.slot = true
  h_pdsch_slot : ctx.ue_cc.cfg.cell_cfg_common.is_dl_enabled ctx.pdsch_alloc.slot = true
  h_grants_space : ctx.pdsch_alloc.result.dl.ue_grants.length < a.MAX_UE_PDUS_PER_SLOT
  h_pdcchs_space : ctx.pdcch_alloc.result.dl.dl_pdcchs.length < a.MAX_DL_PDCCH_PDUS_PER_SLOT
  h_crbs : ctx.ss_info.dl_crb_lims.contains g.crbs = true
  h_retx_len : ctx.h_dl.empty = false → g.crbs.length = ctx.h_dl.last_alloc_params.rbs.length
  h_no_collision :
    ctx.pdsch_alloc.dl_res_grid.collides ctx.bwp_dl_cmn.dl_scs ctx.pdsch_td_cfg.symbols g.crbs = false

/-- Facts established by a successful validation of an UL grant. -/
structure ul_prechecks_ok (a : ue_cell_grid_allocator) (g : ue_pusch_grant) (ctx : ul_grant_ctx) :
    Prop where
  h_ue : a.ues.getD g.user_ue_index none = some ctx.u
  h_cell : a.cells.getD g.cell_index none = some ctx.cell
  h_ue_cc : ctx.u.find_cell g.cell_index = some ctx.ue_cc
  h_harq : ctx.ue_cc.harqs.ul_harq g.h_id = some ctx.h_ul
  h_ss : ctx.ue_cc.cfg.find_search_space g.ss_id = some ctx.ss_info
  h_ss_bwp : ctx.ss_info.bwp.bwp_id = ctx.ue_cc.active_bwp_id
  h_scs : ctx.scs = ctx.ss_info.bwp.ul_scs
  h_dci_type : ctx.dci_type = ctx.ss_info.get_crnti_ul_dci_format
  h_retx_fmt : ctx.h_ul.empty = false →
    ctx.h_ul.last_tx_params.dci_cfg_type = ctx.ss_info.get_crnti_ul_dci_format
  h_td : ctx.ss_info.pusch_time_domain_list[g.time_res_index]? = some ctx.pusch_td_cfg
  h_pdcch_alloc : ctx.cell.cell_alloc.at_offset pdcch_delay_in_slots = some ctx.pdcch_alloc
  h_pusch_alloc :
    ctx.cell.cell_alloc.at_offset (pdcch_delay_in_slots + ctx.pusch_td_cfg.k2) = some ctx.pusch_alloc
  h_pdcch_slot : ctx.ue_cc.cfg.cell_cfg_common.is_dl_enabled ctx.pdcch_alloc.slot = true
  h_pusch_slot : ctx.ue_cc.cfg.cell_cfg_common.is_ul_enabled ctx.pusch_alloc.slot = true
  h_puschs_space : ctx.pusch_alloc.result.ul.puschs.length < a.MAX_PUSCH_PDUS_PER_SLOT
  h_pdcchs_space : ctx.pdcch_alloc.result.dl.dl_pdcchs.length < a.MAX_DL_PDCCH_PDUS_PER_SLOT
  h_crbs : ctx.ss_info.ul_crb_lims.contains g.crbs = true
  h_retx_len : ctx.h_ul.empty = false → g.crbs.length = ctx.h_ul.last_tx_params.rbs.length
  h_no_collision :
    ctx.pusch_alloc.ul_res_grid.collides ctx.scs ctx.pusch_td_cfg.symbols g.crbs = false

/-- A validation sequence whose `return false` exits all lie before the PDCCH reservation
step. -/
def precheck.fails_early {α : Type} (x : precheck α) : Prop :=
  ∀ c, x = precheck.fail c → c.before_pdcch = true

/-- A slot with its PUCCH list blanked: what remains is everything the UCI allocator
leaves untouched. -/
def erase_pucchs (sa : cell_slot_resource_allocator) : cell_slot_resource_allocator :=
  { sa with result.ul.pucchs := [] }

/-- Two rings agree in every slot on everything but the PUCCH lists. -/
def pucch_frame (r r' : cell_resource_allocator) : Prop :=
  ∀ j, (r'.at_offset j).map erase_pucchs = (r.at_offset j).map erase_pucchs

/-- What the loop over the k1 candidates has done when it is left without abort: either no
request succeeded and the collaborators are as before, or the request for `lp.k1`
succeeded and the feedback timing of the PDCCH was set. -/
def k1_loop_ok (u : ue) (k0 : Nat) (ks : List Nat) (cell : cell_t) (lp : k1_loop_result) : Prop :=
  (lp.uci.alloc_successful = false → lp.cell = cell) ∧
  (lp.uci.alloc_successful = true →
    lp.k1 ∈ ks ∧
    ∃ res, alloc_uci_harq_ue cell.uci_alloc cell.cell_alloc u.crnti k0 lp.k1 = some res ∧
      res.1 = lp.uci ∧
      lp.cell =
        ({ cell with uci_alloc := res.2.1, cell_alloc := res.2.2 } : cell_t).modify_dl_pdcch
          (fun pd => { pd with harq_feedback_timing := lp.k1 }))
/-- The content of the slot at offset `j` after a successful `allocate_dl_grant`, from its
content `y` before the call: the PDCCH slot (offset 0) gets the cells of the PDCCH
candidate `cand` and the new PDCCH `pd`, the PDSCH slot (offset `k0`) gets the cells of the
PDSCH span and the new grant `msg`; `p` is the PUCCH list left by the UCI allocator. -/
def dl_final_slot (k0 : Nat) (cand : grant_info) (pd : pdcch_dl_information)
    (symbols crbs : interval) (msg : dl_msg_alloc) (p : List pucch_info) (j : Nat)
    (y : cell_slot_resource_allocator) : cell_slot_resource_allocator :=
  { slot := y.slot,
    dl_res_grid :=
      ⟨(if j = k0 then span_cells symbols crbs else []) ++
        ((if j = 0 then span_cells cand.symbols cand.crbs else []) ++ y.dl_res_grid.cells)⟩,
    ul_res_grid := y.ul_res_grid,
    result :=
      { dl := { dl_pdcchs := y.result.dl.dl_pdcchs ++ (if j = 0 then [pd] else []),
                ul_pdcchs := y.result.dl.ul_pdcchs,
                ue_grants := y.result.dl.ue_grants ++ (if j = k0 then [msg] else []),
                csi_rs := y.result.dl.csi_rs },
        ul := { pucchs := p, puschs := y.result.ul.puschs } } }

/-- What a successful `allocate_dl_grant` has done: the values it resolved and computed, and
the state and calls at its end, in terms of the state `a` before the call. -/
structure dl_grant_done (a : ue_cell_grid_allocator) (g : ue_pdsch_grant) (run : alloc_run)
    (ctx : dl_grant_ctx) (cand : grant_info) (k1 : Nat) (uci : uci_allocation)
    (pdsch_cfg : pdsch_config_params) (mcs_tbs : sch_mcs_tbs) (rv : Nat) (dci : dci_dl_info)
    (pdsch : pdsch_information) : Prop where
  pre : dl_prechecks_ok a g ctx
  h_cand : pdcch_candidate ctx.cell.pdcch_sched ctx.pdcch_alloc ctx.u.crnti ctx.ss_info.cfg_id
    g.aggr_lvl = some cand
  h_k1 : k1 ∈ ctx.ss_info.get_k1_candidates
  h_uci : uci.alloc_successful = true
  h_dai : ∃ sa, ctx.cell.cell_alloc.at_offset (ctx.pdsch_td_cfg.k0 + k1) = some sa ∧
    uci.dai = get_scheduled_pdsch_counter_in_ue_uci ctx.cell.uci_alloc sa ctx.u.crnti % 4
  h_pdsch_cfg : get_pdsch_config ctx.dci_type ctx.pdsch_td_cfg = some pdsch_cfg
  h_mcs :
    (if ctx.h_dl.empty then
       a.compute_dl_mcs_tbs pdsch_cfg ctx.ue_cc.cfg
         (adjust_mcs_for_csi_rs g.mcs ctx.pdsch_alloc.result.dl.csi_rs) g.crbs.length
     else some ⟨ctx.h_dl.last_alloc_params.mcs, ctx.h_dl.last_alloc_params.tbs_bytes⟩)
      = some mcs_tbs
  h_rv : ctx.ue_cc.get_pdsch_rv
    (dl_alloc_harq ctx.h_dl ctx.pdsch_alloc.slot k1 a.expert_cfg.max_nof_harq_retxs uci.dai)
      = some rv
  h_dci : build_dl_dci ctx.dci_type ctx.ss_info g k1 uci mcs_tbs.mcs rv
    (dl_alloc_harq ctx.h_dl ctx.pdsch_alloc.slot k1 a.expert_cfg.max_nof_harq_retxs uci.dai)
      = some dci
  h_pdsch : build_pdsch dci pdsch_cfg mcs_tbs ctx.u.crnti g.crbs
    (dl_alloc_harq ctx.h_dl ctx.pdsch_alloc.slot k1 a.expert_cfg.max_nof_harq_retxs uci.dai)
      = some pdsch
  h_slots : ∀ j, ∃ p, run.st.slot_at g.cell_index j =
    (a.slot_at g.cell_index j).map
      (dl_final_slot ctx.pdsch_td_cfg.k0 cand
        ⟨ctx.u.crnti, ctx.ss_info.cfg_id, g.aggr_lvl, k1, some dci⟩
        ctx.pdsch_td_cfg.symbols g.crbs
        (dl_grant_msg g ctx k1
          ((dl_alloc_harq ctx.h_dl ctx.pdsch_alloc.slot k1 a.expert_cfg.max_nof_harq_retxs
              uci.dai).save_alloc_params dci.type pdsch) pdsch) p j)
  h_records : run.st.pdcch_records g.cell_index =
    ⟨ctx.pdcch_alloc.slot, true, span_cells cand.symbols cand.crbs⟩ ::
      a.pdcch_records g.cell_index
  h_other_cells : ∀ c, c ≠ g.cell_index → run.st.cells.getD c none = a.cells.getD c none
  h_ue : run.st.ues.getD g.user_ue_index none =
    some (dl_grant_ue g ctx
      ((dl_alloc_harq ctx.h_dl ctx.pdsch_alloc.slot k1 a.expert_cfg.max_nof_harq_retxs
          uci.dai).save_alloc_params dci.type pdsch) pdsch.tb_size_bytes)
  h_other_ues : ∀ i, i ≠ g.user_ue_index → run.st.ues.getD i none = a.ues.getD i none
  h_calls : ∃ uci_calls, run.calls =
      .alloc_dl_pdcch_ue ctx.u.crnti ctx.ss_info.cfg_id g.aggr_lvl :: uci_calls ++
        [.dl_res_grid_fill ⟨ctx.bwp_dl_cmn.dl_scs, ctx.pdsch_td_cfg.symbols, g.crbs⟩] ∧
    ∀ e ∈ uci_calls, ∃ k, k ∈ ctx.ss_info.get_k1_candidates ∧
      e = .alloc_uci_harq_ue ctx.u.crnti ctx.pdsch_td_cfg.k0 k

/-- The content of the slot at offset `j` after a successful `allocate_ul_grant`, from its
content `y` before the call: the PDCCH slot (offset 0) gets the cells of the PDCCH
candidate `cand` and the new UL PDCCH `pd`, the PUSCH slot (offset `k2`) gets the cells of
the PUSCH span in its UL grid and the new PUSCH entry, on which the UCI of the UE is
multiplexed. -/
def ul_final_slot (k2 : Nat) (cand : grant_info) (pd : pdcch_ul_information)
    (symbols crbs : interval) (msg : ul_sched_info) (crnti : Nat) (j : Nat)
    (y : cell_slot_resource_allocator) : cell_slot_resource_allocator :=
  if j = k2 then
    emplace_pusch msg crnti
      { slot := y.slot,
        dl_res_grid :=
          ⟨(if j = 0 then span_cells cand.symbols cand.crbs else []) ++ y.dl_res_grid.cells⟩,
        ul_res_grid := ⟨span_cells symbols crbs ++ y.ul_res_grid.cells⟩,
        result :=
          { dl := { y.result.dl with
                    ul_pdcchs := y.result.dl.ul_pdcchs ++ (if j = 0 then [pd] else []) },
            ul := y.result.ul } }
  else
    { slot := y.slot,
      dl_res_grid :=
        ⟨(if j = 0 then span_cells cand.symbols cand.crbs else []) ++ y.dl_res_grid.cells⟩,
      ul_res_grid := y.ul_res_grid,
      result :=
        { dl := { y.result.dl with
                  ul_pdcchs := y.result.dl.ul_pdcchs ++ (if j = 0 then [pd] else []) },
          ul := y.result.ul } }

/-- What a successful `allocate_ul_grant` has done: the values it resolved and computed, and
the state and calls at its end, in terms of the state `a` before the call. -/
structure ul_grant_done (a : ue_cell_grid_allocator) (g : ue_pusch_grant) (run : alloc_run)
    (ctx : ul_grant_ctx) (cand : grant_info) (mcs_tbs : sch_mcs_tbs) (dai rv : Nat)
    (dci : dci_ul_info) : Prop where
  pre : ul_prechecks_ok a g ctx
  h_cand : pdcch_candidate ctx.cell.pdcch_sched ctx.pdcch_alloc ctx.u.crnti ctx.ss_info.cfg_id
    g.aggr_lvl = some cand
  h_mcs :
    (if ctx.h_ul.empty then
       a.compute_ul_mcs_tbs (get_pusch_config ctx.ss_info.get_crnti_ul_dci_format ctx.pusch_td_cfg)
         ctx.ue_cc.cfg g.mcs g.crbs.length
     else some ⟨ctx.h_ul.last_tx_params.mcs, ctx.h_ul.last_tx_params.tbs_bytes⟩) = some mcs_tbs
  h_dai : ul_grant_dai a.cells ctx.dci_type ctx.pusch_alloc ctx.u = some dai
  h_rv : ctx.ue_cc.get_pusch_rv
    (ul_alloc_harq ctx.h_ul ctx.pusch_alloc.slot a.expert_cfg.max_nof_harq_retxs) = some rv
  h_dci : build_ul_dci ctx.dci_type ctx.ue_cc g mcs_tbs.mcs rv
    (ul_alloc_harq ctx.h_ul ctx.pusch_alloc.slot a.expert_cfg.max_nof_harq_retxs) dai = some dci
  h_slots : ∀ j, run.st.slot_at g.cell_index j =
    (a.slot_at g.cell_index j).map
      (ul_final_slot (pdcch_delay_in_slots + ctx.pusch_td_cfg.k2) cand
        ⟨ctx.u.crnti, ctx.ss_info.cfg_id, g.aggr_lvl, some dci⟩
        ctx.pusch_td_cfg.symbols g.crbs
        (ul_grant_msg g ctx
          (ul_alloc_harq ctx.h_ul ctx.pusch_alloc.slot a.expert_cfg.max_nof_harq_retxs)
          dci (get_pusch_config ctx.ss_info.get_crnti_ul_dci_format ctx.pusch_td_cfg) mcs_tbs)
        ctx.u.crnti j)
  h_records : run.st.pdcch_records g.cell_index =
    ⟨ctx.pdcch_alloc.slot, false, span_cells cand.symbols cand.crbs⟩ ::
      a.pdcch_records g.cell_index
  h_uci_grid : ∀ c, run.st.uci_grid c = a.uci_grid c
  h_other_cells : ∀ c, c ≠ g.cell_index → run.st.cells.getD c none = a.cells.getD c none
  h_ue : run.st.ues.getD g.user_ue_index none =
    some (ctx.u.set_cell (ctx.ue_cc.set_ul_harq g.h_id
      ((ul_alloc_harq ctx.h_ul ctx.pusch_alloc.slot
          a.expert_cfg.max_nof_harq_retxs).save_alloc_params dci.type
        (build_pusch dci (get_pusch_config ctx.ss_info.get_crnti_ul_dci_format ctx.pusch_td_cfg)
          mcs_tbs ctx.u.crnti g.crbs
          (ul_alloc_harq ctx.h_ul ctx.pusch_alloc.slot
            a.expert_cfg.max_nof_harq_retxs))))).reset_sr_indication
  h_other_ues : ∀ i, i ≠ g.user_ue_index → run.st.ues.getD i none = a.ues.getD i none
  h_calls : run.calls =
    [.alloc_ul_pdcch_ue ctx.u.crnti ctx.ss_info.cfg_id g.aggr_lvl,
     .ul_res_grid_fill ⟨ctx.scs, ctx.pusch_td_cfg.symbols, g.crbs⟩,
     .multiplex_uci_on_pusch ctx.u.crnti]

/-- The C-RNTI of the UE of a grant. -/
def ue_cell_grid_allocator.crnti_of (a : ue_cell_grid_allocator) (ue_index : Nat) : Option Nat :=
  (a.ues.getD ue_index none).map (fun u => u.crnti)

/-- The search space chosen by a grant: `ue_cell_cfg.find_search_space(grant.ss_id)` on the
serving cell `grant.cell_index` of the UE `grant.user_ue_index`. -/
def ue_cell_grid_allocator.search_space_of (a : ue_cell_grid_allocator)
    (ue_index cell_index ss_id : Nat) : Option search_space_info :=
  ((a.ues.getD ue_index none).bind (fun u => u.find_cell cell_index)).bind
    (fun cc => cc.cfg.find_search_space ss_id)

/-- A validation sequence that never aborts on a grid double fill. -/
def precheck.no_double_fill {α : Type} (x : precheck α) : Prop :=
  x ≠ precheck.abort abort_cause.grid_double_fill

/-- The sum, over the serving cells of a UE, of the number of HARQ-ACK bits bound to the UCI
of the UE in the slot `pusch_alloc`, as counted by the UCI allocator of each cell. -/
def ue_cell_grid_allocator.total_harq_ack_bits (a : ue_cell_grid_allocator) (u : ue)
    (pusch_alloc : cell_slot_resource_allocator) : Nat :=
  (u.ue_cells.map (fun c =>
    match a.cells.getD c.cell_index none with
    | some ct => get_scheduled_pdsch_counter_in_ue_uci ct.uci_alloc pusch_alloc u.crnti
    | none => 0)).sum

/-- The context of the UE of a grant in the serving cell of the grant. -/
def ue_cell_grid_allocator.ue_cell_of (a : ue_cell_grid_allocator) (ue_index cell_index : Nat) :
    Option ue_cell :=
  (a.ues.getD ue_index none).bind (fun u => u.find_cell cell_index)

/-- The k1 values of the PUCCH reservation requests (`alloc_uci_harq_ue`) in a list of calls,
in the order of the calls. -/
def uci_requests (calls : List call_event) : List Nat :=
  calls.filterMap (fun e =>
    match e with
    | .alloc_uci_harq_ue _ _ k1 => some k1
    | _ => none)

/-- The HARQ-ACK bit count of a UE in the slot `sl` of a cell, as kept by the UCI allocator
of the cell; 0 when the slot is outside the ring. -/
def ue_cell_grid_allocator.harq_ack_bits_in_slot (a : ue_cell_grid_allocator) (cell_index : Nat)
    (sl : slot_point) (crnti : Nat) : Nat :=
  match a.cells.getD cell_index none with
  | none => 0
  | some c =>
    match c.cell_alloc.at_slot sl with
    | none => 0
    | some sa => get_scheduled_pdsch_counter_in_ue_uci c.uci_alloc sa crnti

/-- Whether the loop over the k1 candidates asks for a PUCCH reservation for the candidate
(lines 185-196): its UCI slot, the PDSCH slot + k1, is fully UL-enabled and is not a CSI
slot that already carries the maximum of HARQ-ACK bits of the UE. -/
def k1_candidate_requested (cell_cfg : cell_configuration) (u : ue) (pdsch_slot : slot_point)
    (cell : cell_t) (k1 : Nat) : Bool :=
  cell_cfg.is_fully_ul_enabled (pdsch_slot.add k1) &&
    match u.get_pcell with
    | some pcell => csi_slot_harq_bits_full pcell cell (pdsch_slot.add k1) u.crnti == some false
    | none => false

/-- Whether `alloc_uci_harq_ue` accepts the request for the candidate (`alloc_successful`). -/
def k1_request_accepted (u : ue) (k0 : Nat) (cell : cell_t) (k1 : Nat) : Bool :=
  match alloc_uci_harq_ue cell.uci_alloc cell.cell_alloc u.crnti k0 k1 with
  | some r => r.1.alloc_successful
  | none => false

/-- What the loop over the k1 candidates `ks` has done when it is left without failed
assertion with the result `lp`, the collaborators of the cell being `cell` when it was
entered.  If a request was accepted, it is the one for `lp.k1`, the requests are those for
the candidates before it that pass the tests of the loop, in list order, followed by
the one for `lp.k1`, each of the former was refused, and no candidate after `lp.k1` was
requested.  If no request was accepted, every candidate that passes the tests was
requested, in list order, and refused. -/
def k1_loop_stops_at_first (cell_cfg : cell_configuration) (u : ue) (k0 : Nat)
    (pdsch_slot : slot_point) (cell : cell_t) (ks : List Nat) (lp : k1_loop_result) : Prop :=
  (lp.uci.alloc_successful = true →
    ∃ pre post,
      ks = pre ++ lp.k1 :: post ∧
      uci_requests lp.calls =
        pre.filter (k1_candidate_requested cell_cfg u pdsch_slot cell) ++ [lp.k1] ∧
      k1_candidate_requested cell_cfg u pdsch_slot cell lp.k1 = true ∧
      k1_request_accepted u k0 cell lp.k1 = true ∧
      ∀ k ∈ pre, k1_candidate_requested cell_cfg u pdsch_slot cell k = true →
        k1_request_accepted u k0 cell k = false) ∧
  (lp.uci.alloc_successful = false →
    uci_requests lp.calls = ks.filter (k1_candidate_requested cell_cfg u pdsch_slot cell) ∧
    ∀ k ∈ ks, k1_candidate_requested cell_cfg u pdsch_slot cell k = true →
      k1_request_accepted u k0 cell k = false)

/-- A cell as `demo_cell_cfg`, except that the slot with count 2 is not fully UL-enabled. -/
def demo_k1_cell_cfg : cell_configuration :=
  { demo_cell_cfg with is_fully_ul_enabled := fun sl => sl.count != 2 }

/-- The search space of the scenario with the k1 candidates 2, 3, 4 and 5. -/
def demo_k1_ss : search_space_info := { demo_ss with get_k1_candidates := [2, 3, 4, 5] }

/-- The UE cell of the scenario with these k1 candidates in this cell. -/
def demo_k1_ue_cell : ue_cell :=
  { ue_index := 0, cell_index := 0,
    harqs := ⟨[demo_dl_harq 0, demo_dl_harq 1], [demo_ul_harq 0, demo_ul_harq 1]⟩,
    crnti_ := 17921, expert_cfg := demo_expert_cfg,
    ue_cfg := { demo_ue_cell_cfg with
      cell_cfg_common := demo_k1_cell_cfg, search_spaces := [demo_k1_ss] } }

/-- The UE of the scenario with this UE cell. -/
def demo_k1_ue : ue := { demo_ue with ue_cells := [demo_k1_ue_cell] }

/-- The cell of the scenario with a PUCCH allocator that refuses every request for the slot
with count 3. -/
def demo_k1_cell : cell_t :=
  { demo_cell with
    uci_alloc := ⟨fun sl _ n => if sl.count = 3 then none else if n < 2 then some 0 else none, []⟩ }

/-- The allocator of the scenario with four k1 candidates: the UCI slot of 2 is not fully
UL-enabled, the request for 3 is refused, the request for 4 is accepted. -/
def demo_k1_alloc : ue_cell_grid_allocator :=
  { demo_alloc with ues := [some demo_k1_ue], cells := [some demo_k1_cell] }

/-- What `alloc_dl_pdcch_ue` returns in this scenario: the first PDCCH candidate is taken in
the slot of offset 0. -/
def demo_k1_pdcch : pdcch_resource_allocator × cell_slot_resource_allocator :=
  ({ demo_k1_cell.pdcch_sched with
      records := [⟨⟨1, 0⟩, true, span_cells ⟨0, 1⟩ ⟨0, 6⟩⟩] },
   { demo_slot 0 with
      dl_res_grid := ⟨span_cells ⟨0, 1⟩ ⟨0, 6⟩ ++ []⟩,
      result.dl.dl_pdcchs := [⟨17921, 2, 4, 0, none⟩] })

/-! ## UE removal: scheduling while the removal is pending -/

/-- The PDSCH grants of a slot that start a new transmission (`nof_retxs == 0`) for the
C-RNTI. -/
def new_pdschs_of (crnti : Nat) (sa : cell_slot_resource_allocator) : List dl_msg_alloc :=
  sa.result.dl.ue_grants.filter (fun x => x.pdsch_cfg.rnti == crnti && x.nof_retxs == 0)

/-- Whether the slot holds a PUCCH grant for the C-RNTI. -/
def has_pucch_of (crnti : Nat) (sa : cell_slot_resource_allocator) : Bool :=
  sa.result.ul.pucchs.any (fun q => q.crnti == crnti)

/-- Every slot of the first ring that holds a PUCCH grant for the C-RNTI holds one in the
second ring. -/
def keeps_pucch_of (crnti : Nat) (r r' : cell_resource_allocator) : Prop :=
  ∀ j, (r.at_offset j).map (has_pucch_of crnti) = some true →
    (r'.at_offset j).map (has_pucch_of crnti) = some true

/-- Whether a DL or UL HARQ process of a cell of the UE waits for a retransmission. -/
def ue.has_pending_retx (u : ue) : Bool :=
  u.ue_cells.any (fun c =>
    c.harqs.dl_harqs.any (fun h => h.state == harq_state.pending_retx) ||
      c.harqs.ul_harqs.any (fun h => h.state == harq_state.pending_retx))

/-- A candidate grant of the scheduling of a slot: a PDSCH grant or a PUSCH grant. -/
inductive sched_grant
  | pdsch (g : ue_pdsch_grant)
  | pusch (g : ue_pusch_grant)

/-- The index of the UE of a candidate grant. -/
def sched_grant.user_ue_index : sched_grant → Nat
  | .pdsch g => g.user_ue_index
  | .pusch g => g.user_ue_index

/-- Whether the HARQ process named by the candidate grant waits for a retransmission. -/
def ue_cell_grid_allocator.is_retx (a : ue_cell_grid_allocator) : sched_grant → Bool
  | .pdsch g =>
    match a.dl_harq_of g.user_ue_index g.cell_index g.h_id with
    | some h => h.state == harq_state.pending_retx
    | none => false
  | .pusch g =>
    match a.ul_harq_of g.user_ue_index g.cell_index g.h_id with
    | some h => h.state == harq_state.pending_retx
    | none => false

/-- The call of the allocator for a candidate grant: `allocate_dl_grant` or
`allocate_ul_grant`. -/
def ue_cell_grid_allocator.allocate (a : ue_cell_grid_allocator) : sched_grant → alloc_run
  | .pdsch g => allocate_dl_grant a g
  | .pusch g => allocate_ul_grant a g

/-- Modelled from the spec: whether the scheduling hands a candidate grant to the allocator
(the scheduling policy is missing).  For a UE scheduled for removal "the user is not
scheduled for new transmissions; retransmissions may be allowed to conclude": its grant
is handed on only when the HARQ process of the grant waits for a retransmission. -/
def schedule_grant_allowed (ues_to_rem : List Nat) (a : ue_cell_grid_allocator)
    (sg : sched_grant) : Bool :=
  !ues_to_rem.contains sg.user_ue_index || a.is_retx sg

/-- The allocator after the scheduling of a slot, and whether a call of the allocator
aborted. -/
structure sched_run where
  st : ue_cell_grid_allocator
  aborted : Bool

/-- Modelled from the spec: the scheduling of a slot (the scheduling policy is missing), for
any list of candidate grants and the UE indices scheduled for removal: the candidates are
gone through in order, the ones allowed are handed to the allocator, whatever it
returns, and a failed assertion of the allocator ends the scheduling. -/
def schedule_grants (ues_to_rem : List Nat) :
    ue_cell_grid_allocator → List sched_grant → sched_run
  | a, [] => ⟨a, false⟩
  | a, sg :: gs =>
    if schedule_grant_allowed ues_to_rem a sg then
      match (a.allocate sg).exit with
      | .abort _ => ⟨(a.allocate sg).st, true⟩
      | _ => schedule_grants ues_to_rem (a.allocate sg).st gs
    else schedule_grants ues_to_rem a gs

/-- The second UE of the scenario of the scheduling: index 1, C-RNTI 17922, no HARQ process
in use. -/
def demo_second_ue : ue :=
  { ue_index := 1, crnti := 17922,
    ue_cells := [{ ue_index := 1, cell_index := 0,
                   harqs := ⟨[demo_dl_harq 0, demo_dl_harq 1], [demo_ul_harq 0, demo_ul_harq 1]⟩,
                   crnti_ := 17922, expert_cfg := demo_expert_cfg, ue_cfg := demo_ue_cell_cfg }],
    sr_indication := false, dl_lc_ch := [(4, 1000)] }

/-- The allocator of the scenario of the scheduling, after a PDSCH of ten RBs was granted
to the UE 0 on its HARQ process 0: this process waits for the HARQ-ACK, the slot of
offset 0 holds the PDSCH grant and the slot of offset 4 the PUCCH grant of the UE. -/
def demo_rem_alloc : ue_cell_grid_allocator :=
  (allocate_dl_grant { demo_alloc with ues := [some demo_ue, some demo_second_ue] }
    (demo_dl_grant 0 ⟨0, 10⟩)).st

/-- A scheduler whose repository holds the UEs of this allocator, with the removal of the
UE 0 scheduled. -/
def demo_rem_scheduler : ue_scheduler :=
  ⟨{ demo_event_manager with ue_db := ⟨demo_rem_alloc.ues, [0]⟩ }, []⟩

/-- The candidate grants of the scenario: a PDSCH on the empty HARQ process 1 of the UE 0,
then a PDSCH on the empty HARQ process 0 of the UE 1. -/
def demo_rem_grants : List sched_grant :=
  [.pdsch { demo_dl_grant 0 ⟨10, 20⟩ with h_id := 1 },
   .pdsch { demo_dl_grant 0 ⟨20, 30⟩ with user_ue_index := 1 }]

/-! # Theorems -/
/-! ## Sequencing of validation steps -/

theorem precheck.bind_eq_ok {α β : Type} (x : precheck α) (f : α → precheck β) (y : β) :
    (x >>= f) = precheck.ok y ↔ ∃ v, x = precheck.ok v ∧ f v = precheck.ok y := by
  cases x <;> simp [Bind.bind, precheck.bind]

theorem precheck.bind_eq_fail {α β : Type} (x : precheck α) (f : α → precheck β) (c : alloc_failure) :
    (x >>= f) = precheck.fail c ↔ x = precheck.fail c ∨ ∃ v, x = precheck.ok v ∧ f v = precheck.fail c := by
  cases x <;> simp [Bind.bind, precheck.bind]

theorem precheck.pure_eq_ok {α : Type} (x y : α) :
    (pure x : precheck α) = precheck.ok y ↔ x = y := by
  simp [pure]

theorem precheck.pure_ne_fail {α : Type} (x : α) (c : alloc_failure) :
    (pure x : precheck α) = precheck.fail c ↔ False := by
  simp [pure]

theorem assert_some_eq_ok {α : Type} (o : Option α) (c : abort_cause) (x : α) :
    assert_some o c = precheck.ok x ↔ o = some x := by
  cases o <;> simp [assert_some]

theorem assert_some_ne_fail {α : Type} (o : Option α) (c : abort_cause) (d : alloc_failure) :
    assert_some o c = precheck.fail d ↔ False := by
  cases o <;> simp [assert_some]

theorem require_some_eq_ok {α : Type} (o : Option α) (c : alloc_failure) (x : α) :
    require_some o c = precheck.ok x ↔ o = some x := by
  cases o <;> simp [require_some]

theorem require_some_eq_fail {α : Type} (o : Option α) (c d : alloc_failure) :
    require_some o c = precheck.fail d ↔ o = none ∧ c = d := by
  cases o <;> simp [require_some]

theorem reject_if_eq_ok (b : Bool) (c : alloc_failure) (x : Unit) :
    reject_if b c = precheck.ok x ↔ b = false := by
  cases b <;> simp [reject_if]

theorem reject_if_eq_fail (b : Bool) (c d : alloc_failure) :
    reject_if b c = precheck.fail d ↔ b = true ∧ c = d := by
  cases b <;> simp [reject_if]

/-! ## Validation of a DL grant -/

theorem dl_grant_prechecks_ok {a : ue_cell_grid_allocator} {g : ue_pdsch_grant} {ctx : dl_grant_ctx}
    (h : dl_grant_prechecks a g = .ok ctx) : dl_prechecks_ok a g ctx := by
  unfold dl_grant_prechecks at h
  simp only [precheck.bind_eq_ok, assert_some_eq_ok, require_some_eq_ok, reject_if_eq_ok,
    precheck.pure_eq_ok, exists_and_left, exists_eq_left', exists_const] at h
  obtain ⟨u, h1, cell, h2, ue_cc, h3, -, b0, h4, b1, h5, hd, h6, ss, h7, h8, h9, h10, td, h11,
    pa, h12, sa, h13, h14, h15, h16, h17, h18, h19, rfl⟩ := h
  simp only [Bool.not_eq_false', Bool.and_eq_false_iff, Bool.or_eq_false_iff, bne_eq_false_iff_eq,
    Bool.not_eq_eq_eq_not, Bool.not_true, Bool.not_false, decide_eq_false_iff_not, ge_iff_le,
    not_le, beq_eq_false_iff_ne, ne_eq] at h8 h9 h10 h14 h15 h16 h17 h18
  exact
    { h_ue := h1, h_cell := h2, h_ue_cc := h3, h_init_bwp := h4, h_bwp := h5, h_harq := h6,
      h_ss := h7, h_ss_bwp := h8, h_dci_type := rfl,
      h_retx_fmt := fun he => h9.resolve_left (by simp [he]),
      h_ra_ss := fun he => h10.resolve_left (fun hn => hn he),
      h_td := h11, h_pdcch_alloc := h12, h_pdsch_alloc := h13, h_pdcch_slot := h14,
      h_pdsch_slot := h15, h_grants_space := h16.1, h_pdcchs_space := h16.2, h_crbs := h17,
      h_retx_len := fun he => h18.resolve_left (by simp [he]),
      h_no_collision := h19 }

theorem fails_early_bind {α β : Type} {x : precheck α} {f : α → precheck β}
    (hx : x.fails_early) (hf : ∀ v, (f v).fails_early) : (x >>= f).fails_early := by
  intro c h
  rcases (precheck.bind_eq_fail x f c).1 h with h | ⟨v, -, h⟩
  · exact hx c h
  · exact hf v c h

theorem fails_early_pure {α : Type} (x : α) : (pure x : precheck α).fails_early := by
  intro c h; simp [pure] at h

theorem fails_early_assert {α : Type} (o : Option α) (c : abort_cause) :
    (assert_some o c).fails_early := by
  intro d h; exact absurd h (by simp [assert_some_ne_fail])

theorem fails_early_require {α : Type} (o : Option α) (c : alloc_failure)
    (hc : c.before_pdcch = true) : (require_some o c).fails_early := by
  intro d h; rw [require_some_eq_fail] at h; rw [← h.2]; exact hc

theorem fails_early_reject (b : Bool) (c : alloc_failure) (hc : c.before_pdcch = true) :
    (reject_if b c).fails_early := by
  intro d h; rw [reject_if_eq_fail] at h; rw [← h.2]; exact hc

theorem dl_grant_prechecks_fail {a : ue_cell_grid_allocator} {g : ue_pdsch_grant} {c : alloc_failure}
    (h : dl_grant_prechecks a g = .fail c) : c.before_pdcch = true := by
  have key : (dl_grant_prechecks a g).fails_early := by
    unfold dl_grant_prechecks
    repeat' first
      | exact fails_early_pure _
      | exact fails_early_assert _ _
      | exact fails_early_require _ _ rfl
      | exact fails_early_reject _ _ rfl
      | apply fails_early_bind
      | intro _
  exact key c h

/-! ## Validation of an UL grant -/

theorem ul_grant_prechecks_ok {a : ue_cell_grid_allocator} {g : ue_pusch_grant} {ctx : ul_grant_ctx}
    (h : ul_grant_prechecks a g = .ok ctx) : ul_prechecks_ok a g ctx := by
  unfold ul_grant_prechecks at h
  simp only [precheck.bind_eq_ok, assert_some_eq_ok, require_some_eq_ok, reject_if_eq_ok,
    precheck.pure_eq_ok, exists_and_left, exists_eq_left', exists_const] at h
  obtain ⟨u, h1, cell, h2, ue_cc, h3, -, hu, h6, ss, h7, h8, td, h11, h9,
    pa, h12, sa, h13, h14, h15, h16, h17, h18, h19, rfl⟩ := h
  simp only [Bool.not_eq_false', Bool.and_eq_false_iff, Bool.or_eq_false_iff, bne_eq_false_iff_eq,
    Bool.not_eq_eq_eq_not, Bool.not_true, Bool.not_false, decide_eq_false_iff_not, ge_iff_le,
    not_le, beq_eq_false_iff_ne, ne_eq] at h8 h9 h14 h15 h16 h17 h18
  exact
    { h_ue := h1, h_cell := h2, h_ue_cc := h3, h_harq := h6,
      h_ss := h7, h_ss_bwp := h8, h_scs := rfl,
      h_dci_type := by
        rcases h9 with h9 | h9
        · simp [h9]
        · by_cases he : hu.empty = true <;> simp [he, h9],
      h_retx_fmt := fun he => h9.resolve_left (by simp [he]),
      h_td := h11, h_pdcch_alloc := h12, h_pusch_alloc := h13, h_pdcch_slot := h14,
      h_pusch_slot := h15, h_puschs_space := h16.1, h_pdcchs_space := h16.2, h_crbs := h17,
      h_retx_len := fun he => h18.resolve_left (by simp [he]),
      h_no_collision := h19 }

theorem ul_grant_prechecks_fail {a : ue_cell_grid_allocator} {g : ue_pusch_grant} {c : alloc_failure}
    (h : ul_grant_prechecks a g = .fail c) : c.before_pdcch = true := by
  have key : (ul_grant_prechecks a g).fails_early := by
    unfold ul_grant_prechecks
    repeat' first
      | exact fails_early_pure _
      | exact fails_early_assert _ _
      | exact fails_early_require _ _ rfl
      | exact fails_early_reject _ _ rfl
      | apply fails_early_bind
      | intro _
  exact key c h

/-! ## Ring accesses and updates -/

theorem at_offset_set_offset (r : cell_resource_allocator) (k j : Nat)
    (x : cell_slot_resource_allocator) :
    (r.set_offset k x).at_offset j = if k = j then (r.at_offset j).map (fun _ => x) else r.at_offset j := by
  simp only [cell_resource_allocator.set_offset, cell_resource_allocator.at_offset,
    List.getElem?_set']
  split <;> rfl

theorem set_offset_self (r : cell_resource_allocator) (k : Nat) (x : cell_slot_resource_allocator)
    (h : r.at_offset k = some x) : r.set_offset k x = r := by
  cases r with
  | mk slots =>
    simp only [cell_resource_allocator.set_offset, cell_resource_allocator.at_offset] at *
    congr 1
    apply List.ext_getElem?
    intro n
    rw [List.getElem?_set']
    split
    · subst_vars; simp [h]
    · rfl

theorem set_offset_set_offset (r : cell_resource_allocator) (k : Nat)
    (x y : cell_slot_resource_allocator) :
    (r.set_offset k x).set_offset k y = r.set_offset k y := by
  simp [cell_resource_allocator.set_offset, List.set_set]

theorem modify_offset_cell_alloc (c : cell_t) (k j : Nat)
    (f : cell_slot_resource_allocator → cell_slot_resource_allocator) :
    (c.modify_offset k f).cell_alloc.at_offset j =
      if k = j then (c.cell_alloc.at_offset j).map f else c.cell_alloc.at_offset j := by
  unfold cell_t.modify_offset
  cases h : c.cell_alloc.at_offset k with
  | none =>
    simp only
    split
    · subst_vars; simp [h]
    · rfl
  | some sa =>
    simp only [at_offset_set_offset]
    split
    · subst_vars; simp [h]
    · rfl

theorem modify_offset_pdcch_sched (c : cell_t) (k : Nat)
    (f : cell_slot_resource_allocator → cell_slot_resource_allocator) :
    (c.modify_offset k f).pdcch_sched = c.pdcch_sched := by
  unfold cell_t.modify_offset; split <;> rfl

theorem modify_offset_uci_alloc (c : cell_t) (k : Nat)
    (f : cell_slot_resource_allocator → cell_slot_resource_allocator) :
    (c.modify_offset k f).uci_alloc = c.uci_alloc := by
  unfold cell_t.modify_offset; split <;> rfl

theorem modify_offset_cell_index (c : cell_t) (k : Nat)
    (f : cell_slot_resource_allocator → cell_slot_resource_allocator) :
    (c.modify_offset k f).cell_index = c.cell_index := by
  unfold cell_t.modify_offset; split <;> rfl

theorem modify_last_concat {α : Type} (f : α → α) (l : List α) (x : α) :
    modify_last f (l ++ [x]) = l ++ [f x] := by
  simp [modify_last]

theorem dropLast_modify_last {α : Type} (f : α → α) (l : List α) :
    (modify_last f l).dropLast = l.dropLast := by
  unfold modify_last
  cases h : l.getLast? with
  | none => rfl
  | some x => simp

theorem length_modify_last {α : Type} (f : α → α) (l : List α) :
    (modify_last f l).length = l.length := by
  unfold modify_last
  cases h : l.getLast? with
  | none => rfl
  | some x =>
    have hne : l ≠ [] := by intro hl; simp [hl] at h
    simp [List.length_dropLast]
    have := List.length_pos.2 hne
    omega

/-! ## Frame of the UCI allocator -/

theorem pucch_frame_refl (r : cell_resource_allocator) : pucch_frame r r := fun _ => rfl

theorem pucch_frame_some {r r' : cell_resource_allocator} (h : pucch_frame r r') {j : Nat}
    {y : cell_slot_resource_allocator} (hy : r.at_offset j = some y) :
    ∃ p, r'.at_offset j = some { y with result.ul.pucchs := p } := by
  have hj := h j
  rw [hy] at hj
  cases hx : r'.at_offset j with
  | none => rw [hx] at hj; simp at hj
  | some x =>
    rw [hx] at hj
    simp only [Option.map_some', Option.some.injEq, erase_pucchs] at hj
    refine ⟨x.result.ul.pucchs, ?_⟩
    congr 1
    cases x with
    | mk s dg ug res =>
      cases res with
      | mk dl ul =>
        cases ul with
        | mk pucchs puschs =>
          cases y with
          | mk s' dg' ug' res' =>
            cases res' with
            | mk dl' ul' =>
              cases ul' with
              | mk pucchs' puschs' =>
                simp only [cell_slot_resource_allocator.mk.injEq, sched_result.mk.injEq,
                  ul_sched_result.mk.injEq, true_and] at hj ⊢
                obtain ⟨h1, h2, h3, h4, h5⟩ := hj
                exact ⟨h1, h2, h3, h4, h5⟩

theorem pucch_frame_none {r r' : cell_resource_allocator} (h : pucch_frame r r') {j : Nat}
    (hy : r.at_offset j = none) : r'.at_offset j = none := by
  have hj := h j
  rw [hy] at hj
  simpa using hj

theorem alloc_uci_harq_ue_frame {uci : uci_allocator} {r : cell_resource_allocator}
    {crnti k0 k1 : Nat} {res : uci_allocation × uci_allocator × cell_resource_allocator}
    (h : alloc_uci_harq_ue uci r crnti k0 k1 = some res) :
    pucch_frame r res.2.2 ∧ (res.1.alloc_successful = false → res.2.1 = uci ∧ res.2.2 = r) := by
  unfold alloc_uci_harq_ue at h
  cases hsa : r.at_offset (k0 + k1) with
  | none => simp [hsa] at h
  | some sa =>
    simp only [hsa] at h
    cases hp : uci.pucch_resource sa.slot crnti (get_scheduled_pdsch_counter_in_ue_uci uci sa crnti) with
    | none =>
      simp only [hp, Option.some.injEq] at h
      subst h
      exact ⟨pucch_frame_refl r, fun _ => ⟨rfl, rfl⟩⟩
    | some ri =>
      simp only [hp, Option.some.injEq] at h
      subst h
      refine ⟨?_, fun hf => by simp at hf⟩
      intro j
      simp only [at_offset_set_offset]
      split
      · subst_vars; simp [hsa, erase_pucchs]
      · rfl

theorem alloc_uci_harq_ue_counter {uci : uci_allocator} {r : cell_resource_allocator}
    {crnti k0 k1 : Nat} {res : uci_allocation × uci_allocator × cell_resource_allocator}
    (h : alloc_uci_harq_ue uci r crnti k0 k1 = some res) (hs : res.1.alloc_successful = true) :
    ∃ sa, r.at_offset (k0 + k1) = some sa ∧
      get_scheduled_pdsch_counter_in_ue_uci res.2.1 sa crnti =
        get_scheduled_pdsch_counter_in_ue_uci uci sa crnti + 1 ∧
      res.1.dai = get_scheduled_pdsch_counter_in_ue_uci uci sa crnti % 4 := by
  unfold alloc_uci_harq_ue at h
  cases hsa : r.at_offset (k0 + k1) with
  | none => simp [hsa] at h
  | some sa =>
    simp only [hsa] at h
    cases hp : uci.pucch_resource sa.slot crnti (get_scheduled_pdsch_counter_in_ue_uci uci sa crnti) with
    | none =>
      simp only [hp, Option.some.injEq] at h
      subst h
      simp at hs
    | some ri =>
      simp only [hp, Option.some.injEq] at h
      subst h
      refine ⟨sa, rfl, ?_, rfl⟩
      simp [get_scheduled_pdsch_counter_in_ue_uci]

/-! ## The loop over the k1 candidates -/

theorem dl_uci_k1_loop_calls (cell_cfg : cell_configuration) (u : ue) (k0 : Nat)
    (pdsch_slot : slot_point) (ks : List Nat) (cell : cell_t) :
    ∀ e ∈ (dl_uci_k1_loop cell_cfg u k0 pdsch_slot cell ks).calls,
      ∃ k1, k1 ∈ ks ∧ e = call_event.alloc_uci_harq_ue u.crnti k0 k1 := by
  induction ks generalizing cell with
  | nil => intro e he; simp [dl_uci_k1_loop] at he
  | cons k rest ih =>
    intro e he
    unfold dl_uci_k1_loop at he
    simp only at he
    have lift : ∀ c, e ∈ (dl_uci_k1_loop cell_cfg u k0 pdsch_slot c rest).calls →
        ∃ k1, k1 ∈ k :: rest ∧ e = call_event.alloc_uci_harq_ue u.crnti k0 k1 := by
      intro c hc
      obtain ⟨k1, hk, he⟩ := ih c e hc
      exact ⟨k1, List.mem_cons_of_mem _ hk, he⟩
    by_cases hen : (!cell_cfg.is_fully_ul_enabled (pdsch_slot.add k)) = true
    · rw [if_pos hen] at he; exact lift _ he
    · rw [if_neg hen] at he
      cases hp : u.get_pcell with
      | none => simp [hp] at he
      | some pcell =>
        simp only [hp] at he
        cases hc : csi_slot_harq_bits_full pcell cell (pdsch_slot.add k) u.crnti with
        | none => simp [hc] at he
        | some b =>
          cases b with
          | true => simp only [hc] at he; exact lift _ he
          | false =>
            simp only [hc] at he
            cases ha : alloc_uci_harq_ue cell.uci_alloc cell.cell_alloc u.crnti k0 k with
            | none =>
              simp only [ha, List.mem_singleton] at he
              exact ⟨k, List.mem_cons_self _ _, he⟩
            | some r =>
              simp only [ha] at he
              by_cases hs : r.1.alloc_successful = true
              · rw [if_pos hs] at he
                simp only [List.mem_singleton] at he
                exact ⟨k, List.mem_cons_self _ _, he⟩
              · rw [if_neg hs] at he
                simp only [List.mem_cons] at he
                rcases he with he | he
                · exact ⟨k, List.mem_cons_self _ _, he⟩
                · exact lift _ he

theorem k1_loop_ok_cons {u : ue} {k0 k : Nat} {rest : List Nat} {cell : cell_t}
    {lp : k1_loop_result} (h : k1_loop_ok u k0 rest cell lp) : k1_loop_ok u k0 (k :: rest) cell lp :=
  ⟨h.1, fun hs => ⟨List.mem_cons_of_mem _ (h.2 hs).1, (h.2 hs).2⟩⟩

theorem dl_uci_k1_loop_spec (cell_cfg : cell_configuration) (u : ue) (k0 : Nat)
    (pdsch_slot : slot_point) (ks : List Nat) (cell : cell_t)
    (hna : (dl_uci_k1_loop cell_cfg u k0 pdsch_slot cell ks).aborted = false) :
    k1_loop_ok u k0 ks cell (dl_uci_k1_loop cell_cfg u k0 pdsch_slot cell ks) := by
  induction ks with
  | nil => simp [dl_uci_k1_loop, k1_loop_ok]
  | cons k rest ih =>
    by_cases hen : (!cell_cfg.is_fully_ul_enabled (pdsch_slot.add k)) = true
    · have heq : dl_uci_k1_loop cell_cfg u k0 pdsch_slot cell (k :: rest) =
          dl_uci_k1_loop cell_cfg u k0 pdsch_slot cell rest := by
        rw [dl_uci_k1_loop]; simp only [if_pos hen]
      rw [heq] at hna ⊢
      exact k1_loop_ok_cons (ih hna)
    · cases hp : u.get_pcell with
      | none =>
        rw [dl_uci_k1_loop] at hna; simp [hen, hp] at hna
      | some pcell =>
        cases hc : csi_slot_harq_bits_full pcell cell (pdsch_slot.add k) u.crnti with
        | none => rw [dl_uci_k1_loop] at hna; simp [hen, hp, hc] at hna
        | some b =>
          cases b with
          | true =>
            have heq : dl_uci_k1_loop cell_cfg u k0 pdsch_slot cell (k :: rest) =
                dl_uci_k1_loop cell_cfg u k0 pdsch_slot cell rest := by
              rw [dl_uci_k1_loop]; simp only [if_neg hen, hp, hc]
            rw [heq] at hna ⊢
            exact k1_loop_ok_cons (ih hna)
          | false =>
            cases ha : alloc_uci_harq_ue cell.uci_alloc cell.cell_alloc u.crnti k0 k with
            | none => rw [dl_uci_k1_loop] at hna; simp [hen, hp, hc, ha] at hna
            | some r =>
              by_cases hs : r.1.alloc_successful = true
              · have heq : dl_uci_k1_loop cell_cfg u k0 pdsch_slot cell (k :: rest) =
                    ⟨false, k, r.1,
                      ({ cell with uci_alloc := r.2.1, cell_alloc := r.2.2 } : cell_t).modify_dl_pdcch
                        (fun pd => { pd with harq_feedback_timing := k }),
                      [.alloc_uci_harq_ue u.crnti k0 k]⟩ := by
                  rw [dl_uci_k1_loop]; simp only [if_neg hen, hp, hc, ha, if_pos hs]
                rw [heq]
                refine ⟨fun hf => ?_, fun _ => ⟨List.mem_cons_self _ _, r, ha, rfl, rfl⟩⟩
                simp only at hf
                rw [hf] at hs
                exact absurd hs (by simp)
              · have hr := (alloc_uci_harq_ue_frame ha).2 (by simpa using hs)
                have hcell : ({ cell with uci_alloc := r.2.1, cell_alloc := r.2.2 } : cell_t) = cell := by
                  rw [hr.1, hr.2]
                have heq : dl_uci_k1_loop cell_cfg u k0 pdsch_slot cell (k :: rest) =
                    { dl_uci_k1_loop cell_cfg u k0 pdsch_slot cell rest with
                      calls := .alloc_uci_harq_ue u.crnti k0 k ::
                        (dl_uci_k1_loop cell_cfg u k0 pdsch_slot cell rest).calls } := by
                  rw [dl_uci_k1_loop]; simp only [if_neg hen, hp, hc, ha, if_neg hs, hcell]
                rw [heq] at hna ⊢
                exact k1_loop_ok_cons (ih hna)

/-! ## PDCCH reservation and its cancellation -/

theorem pdcch_candidate_free {p : pdcch_resource_allocator} {sa : cell_slot_resource_allocator}
    {rnti ss_id aggr_lvl : Nat} {g : grant_info}
    (h : pdcch_candidate p sa rnti ss_id aggr_lvl = some g) :
    sa.dl_res_grid.collides g.scs g.symbols g.crbs = false := by
  unfold pdcch_candidate at h
  have := List.find?_some h
  simpa using this

theorem clear_fill (g : cell_slot_resource_grid) (scs : Nat) (symbols crbs : interval)
    (h : g.collides scs symbols crbs = false) :
    (⟨span_cells symbols crbs ++ g.cells⟩ : cell_slot_resource_grid).clear (span_cells symbols crbs)
      = g := by
  cases g with
  | mk cells =>
    simp only [cell_slot_resource_grid.clear, cell_slot_resource_grid.mk.injEq, List.filter_append]
    simp only [cell_slot_resource_grid.collides, List.any_eq_false] at h
    have h1 : List.filter (fun c => !(span_cells symbols crbs).contains c) (span_cells symbols crbs)
        = [] := by
      rw [List.filter_eq_nil_iff]
      intro a ha
      simp [ha]
    have h2 : List.filter (fun c => !(span_cells symbols crbs).contains c) cells = cells := by
      rw [List.filter_eq_self]
      intro a ha
      simp only [Bool.not_eq_true']
      cases hc : (span_cells symbols crbs).contains a with
      | false => rfl
      | true =>
        have hmem : a ∈ span_cells symbols crbs := by simpa using hc
        have := h a hmem
        simp [ha] at this
    rw [h1, h2, List.nil_append]

theorem cancel_after_alloc_dl (p : pdcch_resource_allocator) (sa : cell_slot_resource_allocator)
    (g : grant_info)
    (pa : cell_slot_resource_allocator) (hslot : pa.slot = sa.slot) :
    cancel_last_pdcch
        { p with records := ⟨sa.slot, true, span_cells g.symbols g.crbs⟩ :: p.records } pa =
      (p, { pa with dl_res_grid := pa.dl_res_grid.clear (span_cells g.symbols g.crbs),
                    result.dl.dl_pdcchs := pa.result.dl.dl_pdcchs.dropLast }) := by
  simp [cancel_last_pdcch, hslot]

theorem cancel_after_alloc_ul (p : pdcch_resource_allocator) (sa : cell_slot_resource_allocator)
    (g : grant_info)
    (pa : cell_slot_resource_allocator) (hslot : pa.slot = sa.slot) :
    cancel_last_pdcch
        { p with records := ⟨sa.slot, false, span_cells g.symbols g.crbs⟩ :: p.records } pa =
      (p, { pa with dl_res_grid := pa.dl_res_grid.clear (span_cells g.symbols g.crbs),
                    result.dl.ul_pdcchs := pa.result.dl.ul_pdcchs.dropLast }) := by
  simp [cancel_last_pdcch, hslot]

/-! ## Exits of the stages of `allocate_dl_grant` -/

theorem dl_grant_commit_exit (a : ue_cell_grid_allocator) (grant : ue_pdsch_grant) (ctx : dl_grant_ctx)
    (cell2 : cell_t) (pdsch_alloc : cell_slot_resource_allocator) (k1 : Nat) (uci : uci_allocation)
    (pdsch_cfg : pdsch_config_params) (mcs_tbs : sch_mcs_tbs) (calls : List call_event) :
    (dl_grant_commit a grant ctx cell2 pdsch_alloc k1 uci pdsch_cfg mcs_tbs calls).exit = .success ∨
    ∃ c, (dl_grant_commit a grant ctx cell2 pdsch_alloc k1 uci pdsch_cfg mcs_tbs calls).exit = .abort c := by
  unfold dl_grant_commit
  simp only
  cases h1 : pdsch_alloc.dl_res_grid.fill
      ⟨ctx.bwp_dl_cmn.dl_scs, ctx.pdsch_td_cfg.symbols, grant.crbs⟩ with
  | none => exact Or.inr ⟨_, rfl⟩
  | some grid =>
    simp only
    split
    · exact Or.inr ⟨_, rfl⟩
    · split
      · exact Or.inr ⟨_, rfl⟩
      · split
        · exact Or.inr ⟨_, rfl⟩
        · exact Or.inl rfl

theorem dl_grant_mcs_failure {a : ue_cell_grid_allocator} {grant : ue_pdsch_grant} {ctx : dl_grant_ctx}
    {cell2 : cell_t} {k1 : Nat} {uci : uci_allocation} {calls : List call_event} {c : alloc_failure}
    (h : (dl_grant_mcs a grant ctx cell2 k1 uci calls).exit = .failure c) :
    c = .no_mcs ∧ ctx.h_dl.empty = true ∧
    dl_grant_mcs a grant ctx cell2 k1 uci calls =
      ⟨.failure .no_mcs, calls ++ [.cancel_last_pdcch],
       a.set_cell grant.cell_index cell2.cancel_last_pdcch⟩ ∧
    ∃ pdsch_cfg pdsch_alloc, get_pdsch_config ctx.dci_type ctx.pdsch_td_cfg = some pdsch_cfg ∧
      cell2.cell_alloc.at_offset ctx.pdsch_td_cfg.k0 = some pdsch_alloc ∧
      a.compute_dl_mcs_tbs pdsch_cfg ctx.ue_cc.cfg
        (adjust_mcs_for_csi_rs grant.mcs pdsch_alloc.result.dl.csi_rs) grant.crbs.length = none := by
  cases h1 : get_pdsch_config ctx.dci_type ctx.pdsch_td_cfg with
  | none => simp [dl_grant_mcs, h1] at h
  | some pdsch_cfg =>
    cases h2 : cell2.cell_alloc.at_offset ctx.pdsch_td_cfg.k0 with
    | none => simp [dl_grant_mcs, h1, h2] at h
    | some pdsch_alloc =>
      by_cases he : ctx.h_dl.empty = true
      · cases h3 : a.compute_dl_mcs_tbs pdsch_cfg ctx.ue_cc.cfg
            (adjust_mcs_for_csi_rs grant.mcs pdsch_alloc.result.dl.csi_rs) grant.crbs.length with
        | none =>
          have heq : dl_grant_mcs a grant ctx cell2 k1 uci calls =
              ⟨.failure .no_mcs, calls ++ [.cancel_last_pdcch],
               a.set_cell grant.cell_index cell2.cancel_last_pdcch⟩ := by
            simp [dl_grant_mcs, h1, h2, he, h3]
          rw [heq] at h
          simp only [alloc_exit.failure.injEq] at h
          exact ⟨h.symm, he, heq, pdsch_cfg, pdsch_alloc, rfl, rfl, h3⟩
        | some mcs_tbs =>
          have heq : dl_grant_mcs a grant ctx cell2 k1 uci calls =
              dl_grant_commit a grant ctx cell2 pdsch_alloc k1 uci pdsch_cfg mcs_tbs calls := by
            simp [dl_grant_mcs, h1, h2, he, h3]
          rw [heq] at h
          rcases dl_grant_commit_exit a grant ctx cell2 pdsch_alloc k1 uci pdsch_cfg mcs_tbs calls
            with h4 | ⟨c', h4⟩ <;> rw [h4] at h <;> cases h
      · have heq : dl_grant_mcs a grant ctx cell2 k1 uci calls =
            dl_grant_commit a grant ctx cell2 pdsch_alloc k1 uci pdsch_cfg
              ⟨ctx.h_dl.last_alloc_params.mcs, ctx.h_dl.last_alloc_params.tbs_bytes⟩ calls := by
          simp [dl_grant_mcs, h1, h2, he]
        rw [heq] at h
        rcases dl_grant_commit_exit a grant ctx cell2 pdsch_alloc k1 uci pdsch_cfg
            ⟨ctx.h_dl.last_alloc_params.mcs, ctx.h_dl.last_alloc_params.tbs_bytes⟩ calls
          with h4 | ⟨c', h4⟩ <;> rw [h4] at h <;> cases h

theorem dl_grant_mcs_success {a : ue_cell_grid_allocator} {grant : ue_pdsch_grant} {ctx : dl_grant_ctx}
    {cell2 : cell_t} {k1 : Nat} {uci : uci_allocation} {calls : List call_event}
    (h : (dl_grant_mcs a grant ctx cell2 k1 uci calls).exit = .success) :
    ∃ pdsch_cfg pdsch_alloc mcs_tbs, get_pdsch_config ctx.dci_type ctx.pdsch_td_cfg = some pdsch_cfg ∧
      cell2.cell_alloc.at_offset ctx.pdsch_td_cfg.k0 = some pdsch_alloc ∧
      (if ctx.h_dl.empty then
         a.compute_dl_mcs_tbs pdsch_cfg ctx.ue_cc.cfg
           (adjust_mcs_for_csi_rs grant.mcs pdsch_alloc.result.dl.csi_rs) grant.crbs.length
       else some ⟨ctx.h_dl.last_alloc_params.mcs, ctx.h_dl.last_alloc_params.tbs_bytes⟩)
        = some mcs_tbs ∧
      dl_grant_mcs a grant ctx cell2 k1 uci calls =
        dl_grant_commit a grant ctx cell2 pdsch_alloc k1 uci pdsch_cfg mcs_tbs calls := by
  cases h1 : get_pdsch_config ctx.dci_type ctx.pdsch_td_cfg with
  | none => simp [dl_grant_mcs, h1] at h
  | some pdsch_cfg =>
    cases h2 : cell2.cell_alloc.at_offset ctx.pdsch_td_cfg.k0 with
    | none => simp [dl_grant_mcs, h1, h2] at h
    | some pdsch_alloc =>
      cases h3 : (if ctx.h_dl.empty then
         a.compute_dl_mcs_tbs pdsch_cfg ctx.ue_cc.cfg
           (adjust_mcs_for_csi_rs grant.mcs pdsch_alloc.result.dl.csi_rs) grant.crbs.length
       else some ⟨ctx.h_dl.last_alloc_params.mcs, ctx.h_dl.last_alloc_params.tbs_bytes⟩) with
      | none =>
        unfold dl_grant_mcs at h
        simp only [h1, h2, h3] at h
        cases h
      | some mcs_tbs =>
        refine ⟨pdsch_cfg, pdsch_alloc, mcs_tbs, rfl, rfl, h3, ?_⟩
        unfold dl_grant_mcs
        simp only [h1, h2, h3]

theorem dl_grant_uci_failure {a : ue_cell_grid_allocator} {grant : ue_pdsch_grant} {ctx : dl_grant_ctx}
    {cell1 : cell_t} {calls : List call_event} {c : alloc_failure}
    {lp : k1_loop_result}
    (hlp : dl_uci_k1_loop ctx.ue_cc.cfg.cell_cfg_common ctx.u ctx.pdsch_td_cfg.k0
        ctx.pdsch_alloc.slot cell1 ctx.ss_info.get_k1_candidates = lp)
    (h : (dl_grant_uci a grant ctx cell1 calls).exit = .failure c) :
    lp.aborted = false ∧
    ((c = .no_pucch_space ∧ lp.uci.alloc_successful = false ∧
      dl_grant_uci a grant ctx cell1 calls =
        ⟨.failure .no_pucch_space, calls ++ lp.calls ++ [.cancel_last_pdcch],
         a.set_cell grant.cell_index lp.cell.cancel_last_pdcch⟩) ∨
     (c = .no_mcs ∧ lp.uci.alloc_successful = true ∧
      dl_grant_uci a grant ctx cell1 calls =
        dl_grant_mcs a grant ctx lp.cell lp.k1 lp.uci (calls ++ lp.calls))) := by
  by_cases hab : lp.aborted = true
  · simp [dl_grant_uci, hlp, hab] at h
  · by_cases hs : lp.uci.alloc_successful = true
    · have heq : dl_grant_uci a grant ctx cell1 calls =
          dl_grant_mcs a grant ctx lp.cell lp.k1 lp.uci (calls ++ lp.calls) := by
        simp [dl_grant_uci, hlp, hab, hs]
      rw [heq] at h
      exact ⟨by simpa using hab, Or.inr ⟨(dl_grant_mcs_failure h).1, hs, heq⟩⟩
    · have heq : dl_grant_uci a grant ctx cell1 calls =
          ⟨.failure .no_pucch_space, calls ++ lp.calls ++ [.cancel_last_pdcch],
           a.set_cell grant.cell_index lp.cell.cancel_last_pdcch⟩ := by
        simp [dl_grant_uci, hlp, hab, hs]
      rw [heq] at h
      simp only [alloc_exit.failure.injEq] at h
      exact ⟨by simpa using hab, Or.inl ⟨h.symm, by simpa using hs, heq⟩⟩

theorem dl_grant_uci_success {a : ue_cell_grid_allocator} {grant : ue_pdsch_grant} {ctx : dl_grant_ctx}
    {cell1 : cell_t} {calls : List call_event} {lp : k1_loop_result}
    (hlp : dl_uci_k1_loop ctx.ue_cc.cfg.cell_cfg_common ctx.u ctx.pdsch_td_cfg.k0
        ctx.pdsch_alloc.slot cell1 ctx.ss_info.get_k1_candidates = lp)
    (h : (dl_grant_uci a grant ctx cell1 calls).exit = .success) :
    lp.aborted = false ∧ lp.uci.alloc_successful = true ∧
      dl_grant_uci a grant ctx cell1 calls =
        dl_grant_mcs a grant ctx lp.cell lp.k1 lp.uci (calls ++ lp.calls) := by
  by_cases hab : lp.aborted = true
  · simp [dl_grant_uci, hlp, hab] at h
  · by_cases hs : lp.uci.alloc_successful = true
    · have heq : dl_grant_uci a grant ctx cell1 calls =
          dl_grant_mcs a grant ctx lp.cell lp.k1 lp.uci (calls ++ lp.calls) := by
        simp [dl_grant_uci, hlp, hab, hs]
      exact ⟨by simpa using hab, hs, heq⟩
    · simp [dl_grant_uci, hlp, hab, hs] at h

/-! ## Roll-back of the PDCCH reservation -/

theorem cancel_right_after_alloc_dl (cell : cell_t) (pdcch_alloc : cell_slot_resource_allocator)
    (g : grant_info) (new : pdcch_dl_information)
    (h0 : cell.cell_alloc.at_offset 0 = some pdcch_alloc)
    (hg : pdcch_alloc.dl_res_grid.collides g.scs g.symbols g.crbs = false) :
    ({ cell with
        pdcch_sched := { cell.pdcch_sched with
          records := ⟨pdcch_alloc.slot, true, span_cells g.symbols g.crbs⟩ ::
            cell.pdcch_sched.records },
        cell_alloc := cell.cell_alloc.set_offset 0
          { pdcch_alloc with
            dl_res_grid := ⟨span_cells g.symbols g.crbs ++ pdcch_alloc.dl_res_grid.cells⟩,
            result.dl.dl_pdcchs := pdcch_alloc.result.dl.dl_pdcchs ++ [new] } } :
      cell_t).cancel_last_pdcch = cell := by
  unfold cell_t.cancel_last_pdcch
  simp only [at_offset_set_offset, h0, if_true, Option.map_some']
  simp only [cancel_last_pdcch, beq_self_eq_true, if_true]
  simp only [set_offset_set_offset, List.dropLast_concat, clear_fill _ _ _ _ hg]
  rw [set_offset_self _ _ _ h0]

theorem cancel_after_uci_dl (cell : cell_t) (pdcch_alloc : cell_slot_resource_allocator)
    (g : grant_info) (new : pdcch_dl_information)
    (h0 : cell.cell_alloc.at_offset 0 = some pdcch_alloc)
    (hg : pdcch_alloc.dl_res_grid.collides g.scs g.symbols g.crbs = false)
    (uci' : uci_allocator) (ring' : cell_resource_allocator)
    (hframe : pucch_frame
      (cell.cell_alloc.set_offset 0
        { pdcch_alloc with
          dl_res_grid := ⟨span_cells g.symbols g.crbs ++ pdcch_alloc.dl_res_grid.cells⟩,
          result.dl.dl_pdcchs := pdcch_alloc.result.dl.dl_pdcchs ++ [new] }) ring')
    (f : pdcch_dl_information → pdcch_dl_information) :
    ∃ R, ((({ cell_index := cell.cell_index,
              pdcch_sched := { cell.pdcch_sched with
                records := ⟨pdcch_alloc.slot, true, span_cells g.symbols g.crbs⟩ ::
                  cell.pdcch_sched.records },
              uci_alloc := uci', cell_alloc := ring' } : cell_t).modify_dl_pdcch f).cancel_last_pdcch
          = { cell with uci_alloc := uci', cell_alloc := R }) ∧
      pucch_frame cell.cell_alloc R := by
  have h1 : (cell.cell_alloc.set_offset 0
        { pdcch_alloc with
          dl_res_grid := ⟨span_cells g.symbols g.crbs ++ pdcch_alloc.dl_res_grid.cells⟩,
          result.dl.dl_pdcchs := pdcch_alloc.result.dl.dl_pdcchs ++ [new] }).at_offset 0 = some
        { pdcch_alloc with
          dl_res_grid := ⟨span_cells g.symbols g.crbs ++ pdcch_alloc.dl_res_grid.cells⟩,
          result.dl.dl_pdcchs := pdcch_alloc.result.dl.dl_pdcchs ++ [new] } := by
    simp [at_offset_set_offset, h0]
  obtain ⟨pp, h2⟩ := pucch_frame_some hframe h1
  unfold cell_t.cancel_last_pdcch
  simp only [cell_t.modify_dl_pdcch, modify_offset_cell_alloc, modify_offset_pdcch_sched,
    modify_offset_uci_alloc, modify_offset_cell_index, h2, if_true, Option.map_some']
  simp only [cancel_last_pdcch, beq_self_eq_true, if_true]
  simp only [modify_last_concat, List.dropLast_concat, clear_fill _ _ _ _ hg]
  refine ⟨_, rfl, ?_⟩
  intro j
  simp only [at_offset_set_offset, modify_offset_cell_alloc]
  by_cases hj : 0 = j
  · subst hj
    simp [h2, h0, erase_pucchs]
  · simp only [hj, if_false]
    have := hframe j
    rw [at_offset_set_offset] at this
    simpa [hj] using this

/-! ## State after a `return false` of `allocate_dl_grant` -/

theorem list_set_self {α : Type} (l : List α) (k : Nat) (x : α) (h : l[k]? = some x) :
    l.set k x = l := by
  apply List.ext_getElem?
  intro n
  rw [List.getElem?_set']
  split
  · subst_vars; simp [h]
  · rfl

theorem set_cell_self (a : ue_cell_grid_allocator) (k : Nat) (c : cell_t)
    (h : a.cells.getD k none = some c) : a.set_cell k c = a := by
  have h' : a.cells[k]? = some (some c) := by
    rw [List.getD_eq_getElem?_getD] at h
    cases hk : a.cells[k]? with
    | none => rw [hk] at h; simp at h
    | some x => rw [hk] at h; simp at h; rw [h]
  unfold ue_cell_grid_allocator.set_cell
  rw [list_set_self _ _ _ h']

theorem allocate_dl_grant_early {a : ue_cell_grid_allocator} {g : ue_pdsch_grant} {c : alloc_failure}
    (h : (allocate_dl_grant a g).exit = .failure c) (hc : c.before_pdcch = true) :
    (allocate_dl_grant a g).st = a ∧ (allocate_dl_grant a g).calls = [] := by
  unfold allocate_dl_grant at h ⊢
  cases hp : dl_grant_prechecks a g with
  | abort c' => exact ⟨rfl, rfl⟩
  | fail c' => exact ⟨rfl, rfl⟩
  | ok ctx =>
    simp only [hp] at h
    exfalso
    unfold dl_grant_alloc at h
    cases hr : alloc_dl_pdcch_ue ctx.cell.pdcch_sched ctx.pdcch_alloc ctx.u.crnti ctx.ss_info.cfg_id
        g.aggr_lvl with
    | none =>
      simp only [hr, alloc_exit.failure.injEq] at h
      subst h; simp [alloc_failure.before_pdcch] at hc
    | some r =>
      simp only [hr] at h
      rcases (dl_grant_uci_failure rfl h).2 with ⟨h1, -⟩ | ⟨h1, -⟩ <;>
        (subst h1; simp [alloc_failure.before_pdcch] at hc)

theorem allocate_dl_grant_late {a : ue_cell_grid_allocator} {g : ue_pdsch_grant} {c : alloc_failure}
    (h : (allocate_dl_grant a g).exit = .failure c) (hc : c.before_pdcch = false) :
    ∃ ctx, dl_grant_prechecks a g = .ok ctx ∧
      allocate_dl_grant a g = dl_grant_alloc a g ctx := by
  unfold allocate_dl_grant at h ⊢
  cases hp : dl_grant_prechecks a g with
  | abort c' => simp [hp] at h
  | fail c' =>
    simp only [hp, alloc_exit.failure.injEq] at h
    subst h
    rw [dl_grant_prechecks_fail hp] at hc
    cases hc
  | ok ctx => exact ⟨ctx, rfl, rfl⟩

theorem allocate_dl_grant_no_pdcch {a : ue_cell_grid_allocator} {g : ue_pdsch_grant}
    (h : (allocate_dl_grant a g).exit = .failure .no_pdcch_space) :
    (allocate_dl_grant a g).st = a ∧
    ∃ ctx, dl_grant_prechecks a g = .ok ctx ∧
      (allocate_dl_grant a g).calls = [.alloc_dl_pdcch_ue ctx.u.crnti ctx.ss_info.cfg_id g.aggr_lvl] := by
  obtain ⟨ctx, hp, heq⟩ := allocate_dl_grant_late h rfl
  rw [heq] at h ⊢
  unfold dl_grant_alloc at h ⊢
  cases hr : alloc_dl_pdcch_ue ctx.cell.pdcch_sched ctx.pdcch_alloc ctx.u.crnti ctx.ss_info.cfg_id
      g.aggr_lvl with
  | none => exact ⟨rfl, ctx, hp, rfl⟩
  | some r =>
    simp only [hr] at h
    rcases (dl_grant_uci_failure rfl h).2 with ⟨h1, -⟩ | ⟨h1, -⟩ <;> cases h1

theorem allocate_dl_grant_no_pucch {a : ue_cell_grid_allocator} {g : ue_pdsch_grant}
    (h : (allocate_dl_grant a g).exit = .failure .no_pucch_space) :
    (allocate_dl_grant a g).st = a ∧
    ∃ ctx uci_calls, dl_grant_prechecks a g = .ok ctx ∧
      (allocate_dl_grant a g).calls =
        .alloc_dl_pdcch_ue ctx.u.crnti ctx.ss_info.cfg_id g.aggr_lvl :: uci_calls
          ++ [.cancel_last_pdcch] ∧
      ∀ e ∈ uci_calls, ∃ k1, k1 ∈ ctx.ss_info.get_k1_candidates ∧
        e = .alloc_uci_harq_ue ctx.u.crnti ctx.pdsch_td_cfg.k0 k1 := by
  obtain ⟨ctx, hp, heq⟩ := allocate_dl_grant_late h rfl
  have pre := dl_grant_prechecks_ok hp
  rw [heq] at h ⊢
  unfold dl_grant_alloc at h ⊢
  cases hr : pdcch_candidate ctx.cell.pdcch_sched ctx.pdcch_alloc ctx.u.crnti ctx.ss_info.cfg_id
      g.aggr_lvl with
  | none => simp [alloc_dl_pdcch_ue, hr] at h
  | some cand =>
    simp only [alloc_dl_pdcch_ue, hr] at h ⊢
    obtain ⟨hna, hcase⟩ := dl_grant_uci_failure rfl h
    rcases hcase with ⟨-, hns, hrun⟩ | ⟨h1, -⟩
    · rw [hrun]
      have hcell := (dl_uci_k1_loop_spec _ _ _ _ _ _ hna).1 hns
      simp only [hcell]
      refine ⟨?_, ctx, _, hp, rfl, dl_uci_k1_loop_calls _ _ _ _ _ _⟩
      rw [cancel_right_after_alloc_dl ctx.cell ctx.pdcch_alloc cand _ pre.h_pdcch_alloc
        (pdcch_candidate_free hr)]
      exact set_cell_self a _ _ pre.h_cell
    · cases h1

theorem dl_grant_uci_no_mcs {a : ue_cell_grid_allocator} {g : ue_pdsch_grant} {ctx : dl_grant_ctx}
    {cell1 : cell_t} {calls : List call_event}
    (h : (dl_grant_uci a g ctx cell1 calls).exit = .failure .no_mcs) :
    ∃ (k1 : Nat) (res : uci_allocation × uci_allocator × cell_resource_allocator)
      (uci_calls : List call_event),
      ctx.h_dl.empty = true ∧ k1 ∈ ctx.ss_info.get_k1_candidates ∧
      alloc_uci_harq_ue cell1.uci_alloc cell1.cell_alloc ctx.u.crnti ctx.pdsch_td_cfg.k0 k1 = some res ∧
      res.1.alloc_successful = true ∧
      (dl_grant_uci a g ctx cell1 calls).st =
        a.set_cell g.cell_index
          (({ cell1 with uci_alloc := res.2.1, cell_alloc := res.2.2 } : cell_t).modify_dl_pdcch
            (fun pd => { pd with harq_feedback_timing := k1 })).cancel_last_pdcch ∧
      (dl_grant_uci a g ctx cell1 calls).calls = calls ++ uci_calls ++ [.cancel_last_pdcch] ∧
      (∀ e ∈ uci_calls, ∃ k, k ∈ ctx.ss_info.get_k1_candidates ∧
        e = .alloc_uci_harq_ue ctx.u.crnti ctx.pdsch_td_cfg.k0 k) := by
  generalize hlp : dl_uci_k1_loop ctx.ue_cc.cfg.cell_cfg_common ctx.u ctx.pdsch_td_cfg.k0
        ctx.pdsch_alloc.slot cell1 ctx.ss_info.get_k1_candidates = lp
  obtain ⟨hna, hcase⟩ := dl_grant_uci_failure hlp h
  rcases hcase with ⟨h1, -⟩ | ⟨-, hs, hrun⟩
  · cases h1
  · rw [hrun] at h ⊢
    obtain ⟨-, hempty, hrun2, -⟩ := dl_grant_mcs_failure h
    rw [hrun2]
    have hspec := dl_uci_k1_loop_spec ctx.ue_cc.cfg.cell_cfg_common ctx.u ctx.pdsch_td_cfg.k0
      ctx.pdsch_alloc.slot ctx.ss_info.get_k1_candidates cell1 (by rw [hlp]; exact hna)
    have hcalls := dl_uci_k1_loop_calls ctx.ue_cc.cfg.cell_cfg_common ctx.u ctx.pdsch_td_cfg.k0
      ctx.pdsch_alloc.slot ctx.ss_info.get_k1_candidates cell1
    rw [hlp] at hspec hcalls
    obtain ⟨hk1, res, hres, hres1, hcell⟩ := hspec.2 hs
    refine ⟨lp.k1, res, lp.calls, hempty, hk1, hres, by rw [hres1]; exact hs, ?_, rfl, hcalls⟩
    simp only
    rw [hcell]

theorem allocate_dl_grant_no_mcs {a : ue_cell_grid_allocator} {g : ue_pdsch_grant}
    (h : (allocate_dl_grant a g).exit = .failure .no_mcs) :
    ∃ (ctx : dl_grant_ctx) (k1 : Nat) (uci' : uci_allocator)
      (R : cell_resource_allocator) (uci_calls : List call_event),
      dl_grant_prechecks a g = .ok ctx ∧
      ctx.h_dl.empty = true ∧
      k1 ∈ ctx.ss_info.get_k1_candidates ∧
      (∃ sa, ctx.cell.cell_alloc.at_offset (ctx.pdsch_td_cfg.k0 + k1) = some sa ∧
        get_scheduled_pdsch_counter_in_ue_uci uci' sa ctx.u.crnti =
          get_scheduled_pdsch_counter_in_ue_uci ctx.cell.uci_alloc sa ctx.u.crnti + 1) ∧
      pucch_frame ctx.cell.cell_alloc R ∧
      (allocate_dl_grant a g).st =
        a.set_cell g.cell_index { ctx.cell with uci_alloc := uci', cell_alloc := R } ∧
      (allocate_dl_grant a g).calls =
        .alloc_dl_pdcch_ue ctx.u.crnti ctx.ss_info.cfg_id g.aggr_lvl :: uci_calls
          ++ [.cancel_last_pdcch] ∧
      (∀ e ∈ uci_calls, ∃ k, k ∈ ctx.ss_info.get_k1_candidates ∧
        e = .alloc_uci_harq_ue ctx.u.crnti ctx.pdsch_td_cfg.k0 k) := by
  obtain ⟨ctx, hp, heq⟩ := allocate_dl_grant_late h rfl
  have pre := dl_grant_prechecks_ok hp
  rw [heq] at h ⊢
  unfold dl_grant_alloc at h ⊢
  cases hr : pdcch_candidate ctx.cell.pdcch_sched ctx.pdcch_alloc ctx.u.crnti ctx.ss_info.cfg_id
      g.aggr_lvl with
  | none => simp [alloc_dl_pdcch_ue, hr] at h
  | some cand =>
    simp only [alloc_dl_pdcch_ue, hr] at h ⊢
    obtain ⟨k1, res, uci_calls, hempty, hk1, hres, hs, hst, hcalls, hev⟩ := dl_grant_uci_no_mcs h
    simp only at hres
    obtain ⟨sa1, hsa1, hcount, -⟩ := alloc_uci_harq_ue_counter hres hs
    have hframe := (alloc_uci_harq_ue_frame hres).1
    obtain ⟨R, hR, hRframe⟩ := cancel_after_uci_dl ctx.cell ctx.pdcch_alloc cand _
      pre.h_pdcch_alloc (pdcch_candidate_free hr) res.2.1 res.2.2 hframe
      (fun pd => { pd with harq_feedback_timing := k1 })
    have hsa0 : ∃ sa0, ctx.cell.cell_alloc.at_offset (ctx.pdsch_td_cfg.k0 + k1) = some sa0 ∧
        sa0.slot = sa1.slot := by
      rw [at_offset_set_offset] at hsa1
      split at hsa1
      · rename_i h0
        rw [← h0, pre.h_pdcch_alloc] at hsa1 ⊢
        simp only [Option.map_some', Option.some.injEq] at hsa1
        exact ⟨_, rfl, by rw [← hsa1]⟩
      · exact ⟨_, hsa1, rfl⟩
    obtain ⟨sa0, hsa0, hslot⟩ := hsa0
    refine ⟨ctx, k1, res.2.1, R, uci_calls, hp, hempty, hk1, ⟨sa0, hsa0, ?_⟩, hRframe, ?_, ?_, hev⟩
    · simp only [get_scheduled_pdsch_counter_in_ue_uci, hslot] at hcount ⊢
      exact hcount
    · rw [hst]
      simp only at hR
      rw [hR]
    · rw [hcalls]; rfl

/-! ## The commit of `allocate_dl_grant` -/

theorem dl_grant_commit_success {a : ue_cell_grid_allocator} {grant : ue_pdsch_grant}
    {ctx : dl_grant_ctx} {cell2 : cell_t} {pdsch_alloc : cell_slot_resource_allocator} {k1 : Nat}
    {uci : uci_allocation} {pdsch_cfg : pdsch_config_params} {mcs_tbs : sch_mcs_tbs}
    {calls : List call_event}
    (h : (dl_grant_commit a grant ctx cell2 pdsch_alloc k1 uci pdsch_cfg mcs_tbs calls).exit
          = .success) :
    ∃ grid rv dci pdsch,
      pdsch_alloc.dl_res_grid.fill ⟨ctx.bwp_dl_cmn.dl_scs, ctx.pdsch_td_cfg.symbols, grant.crbs⟩
        = some grid ∧
      ctx.ue_cc.get_pdsch_rv
        (dl_alloc_harq ctx.h_dl pdsch_alloc.slot k1 a.expert_cfg.max_nof_harq_retxs uci.dai)
        = some rv ∧
      build_dl_dci ctx.dci_type ctx.ss_info grant k1 uci mcs_tbs.mcs rv
        (dl_alloc_harq ctx.h_dl pdsch_alloc.slot k1 a.expert_cfg.max_nof_harq_retxs uci.dai)
        = some dci ∧
      build_pdsch dci pdsch_cfg mcs_tbs ctx.u.crnti grant.crbs
        (dl_alloc_harq ctx.h_dl pdsch_alloc.slot k1 a.expert_cfg.max_nof_harq_retxs uci.dai)
        = some pdsch ∧
      dl_grant_commit a grant ctx cell2 pdsch_alloc k1 uci pdsch_cfg mcs_tbs calls =
        ⟨.success,
         calls ++ [.dl_res_grid_fill ⟨ctx.bwp_dl_cmn.dl_scs, ctx.pdsch_td_cfg.symbols, grant.crbs⟩],
         (a.set_ue grant.user_ue_index
            (dl_grant_ue grant ctx
              ((dl_alloc_harq ctx.h_dl pdsch_alloc.slot k1 a.expert_cfg.max_nof_harq_retxs
                  uci.dai).save_alloc_params dci.type pdsch)
              pdsch.tb_size_bytes)).set_cell grant.cell_index
           (((cell2.modify_offset ctx.pdsch_td_cfg.k0
                (fun sa => { sa with dl_res_grid := grid })).modify_dl_pdcch
               (fun pd => { pd with dci := some dci })).modify_offset ctx.pdsch_td_cfg.k0
              (fun sa => { sa with result.dl.ue_grants := sa.result.dl.ue_grants ++
                [dl_grant_msg grant ctx k1
                  ((dl_alloc_harq ctx.h_dl pdsch_alloc.slot k1 a.expert_cfg.max_nof_harq_retxs
                      uci.dai).save_alloc_params dci.type pdsch) pdsch] }))⟩ := by
  cases h1 : pdsch_alloc.dl_res_grid.fill
      ⟨ctx.bwp_dl_cmn.dl_scs, ctx.pdsch_td_cfg.symbols, grant.crbs⟩ with
  | none => simp [dl_grant_commit, h1] at h
  | some grid =>
    cases h2 : ctx.ue_cc.get_pdsch_rv
        (dl_alloc_harq ctx.h_dl pdsch_alloc.slot k1 a.expert_cfg.max_nof_harq_retxs uci.dai) with
    | none => simp [dl_grant_commit, h1, h2] at h
    | some rv =>
      cases h3 : build_dl_dci ctx.dci_type ctx.ss_info grant k1 uci mcs_tbs.mcs rv
          (dl_alloc_harq ctx.h_dl pdsch_alloc.slot k1 a.expert_cfg.max_nof_harq_retxs uci.dai) with
      | none => simp [dl_grant_commit, h1, h2, h3] at h
      | some dci =>
        cases h4 : build_pdsch dci pdsch_cfg mcs_tbs ctx.u.crnti grant.crbs
            (dl_alloc_harq ctx.h_dl pdsch_alloc.slot k1 a.expert_cfg.max_nof_harq_retxs uci.dai) with
        | none => simp [dl_grant_commit, h1, h2, h3, h4] at h
        | some pdsch =>
          refine ⟨grid, rv, dci, pdsch, rfl, rfl, h3, h4, ?_⟩
          simp only [dl_grant_commit, h1, h2, h3, h4]

theorem dl_grant_commit_double_fill {a : ue_cell_grid_allocator} {grant : ue_pdsch_grant}
    {ctx : dl_grant_ctx} {cell2 : cell_t} {pdsch_alloc : cell_slot_resource_allocator} {k1 : Nat}
    {uci : uci_allocation} {pdsch_cfg : pdsch_config_params} {mcs_tbs : sch_mcs_tbs}
    {calls : List call_event}
    (h : (dl_grant_commit a grant ctx cell2 pdsch_alloc k1 uci pdsch_cfg mcs_tbs calls).exit
          = .abort .grid_double_fill) :
    pdsch_alloc.dl_res_grid.collides ctx.bwp_dl_cmn.dl_scs ctx.pdsch_td_cfg.symbols grant.crbs
      = true := by
  cases hc : pdsch_alloc.dl_res_grid.collides ctx.bwp_dl_cmn.dl_scs ctx.pdsch_td_cfg.symbols
      grant.crbs with
  | true => rfl
  | false =>
    exfalso
    have h1 : pdsch_alloc.dl_res_grid.fill
        ⟨ctx.bwp_dl_cmn.dl_scs, ctx.pdsch_td_cfg.symbols, grant.crbs⟩ =
        some ⟨span_cells ctx.pdsch_td_cfg.symbols grant.crbs ++ pdsch_alloc.dl_res_grid.cells⟩ := by
      simp [cell_slot_resource_grid.fill, hc]
    unfold dl_grant_commit at h
    simp only [h1] at h
    split at h
    · cases h
    · split at h
      · cases h
      · split at h
        · cases h
        · cases h

/-! ## The ring after the reservations of `allocate_dl_grant` -/

theorem reserved_ring_dl (r ring' : cell_resource_allocator) (sa0 sa1 : cell_slot_resource_allocator)
    (h0 : r.at_offset 0 = some sa0)
    (hframe : pucch_frame (r.set_offset 0 sa1) ring')
    (c : cell_t) (hc : c.cell_alloc = ring')
    (F : pdcch_dl_information → pdcch_dl_information) (j : Nat) :
    ∃ p, (c.modify_dl_pdcch F).cell_alloc.at_offset j =
      (r.at_offset j).map (fun y =>
        if j = 0 then
          { sa1 with result.ul.pucchs := p,
                     result.dl.dl_pdcchs := modify_last F sa1.result.dl.dl_pdcchs }
        else { y with result.ul.pucchs := p }) := by
  simp only [cell_t.modify_dl_pdcch, modify_offset_cell_alloc, hc]
  cases hy : r.at_offset j with
  | none =>
    have h1 : (r.set_offset 0 sa1).at_offset j = none := by
      rw [at_offset_set_offset]; split <;> simp [hy]
    have h2 := pucch_frame_none hframe h1
    exact ⟨[], by simp [h2]⟩
  | some y =>
    by_cases hj : j = 0
    · subst hj
      have h1 : (r.set_offset 0 sa1).at_offset 0 = some sa1 := by
        rw [at_offset_set_offset]; simp [h0]
      obtain ⟨p, h2⟩ := pucch_frame_some hframe h1
      exact ⟨p, by simp [h2]⟩
    · have h1 : (r.set_offset 0 sa1).at_offset j = some y := by
        rw [at_offset_set_offset]
        have : ¬ (0 = j) := fun h => hj h.symm
        simp [this, hy]
      obtain ⟨p, h2⟩ := pucch_frame_some hframe h1
      have : ¬ (0 = j) := fun h => hj h.symm
      exact ⟨p, by simp [h2, this, hj]⟩

theorem final_ring_dl (r : cell_resource_allocator) (cell2 : cell_t)
    (sa0 : cell_slot_resource_allocator) (cand : grant_info) (new : pdcch_dl_information)
    (k0 k1 : Nat) (symbols crbs : interval) (dci : dci_dl_info) (msg : dl_msg_alloc)
    (pa2 : cell_slot_resource_allocator)
    (h0 : r.at_offset 0 = some sa0)
    (hring : ∀ j, ∃ p, cell2.cell_alloc.at_offset j =
      (r.at_offset j).map (fun y =>
        if j = 0 then
          { ({ sa0 with
                dl_res_grid := ⟨span_cells cand.symbols cand.crbs ++ sa0.dl_res_grid.cells⟩,
                result.dl.dl_pdcchs := sa0.result.dl.dl_pdcchs ++ [new] } :
              cell_slot_resource_allocator) with
            result.ul.pucchs := p,
            result.dl.dl_pdcchs :=
              modify_last (fun pd => { pd with harq_feedback_timing := k1 })
                (sa0.result.dl.dl_pdcchs ++ [new]) }
        else { y with result.ul.pucchs := p }))
    (hpa2 : cell2.cell_alloc.at_offset k0 = some pa2) (j : Nat) :
    ∃ p, (((cell2.modify_offset k0
              (fun sa => { sa with dl_res_grid :=
                ⟨span_cells symbols crbs ++ pa2.dl_res_grid.cells⟩ })).modify_dl_pdcch
            (fun pd => { pd with dci := some dci })).modify_offset k0
          (fun sa => { sa with result.dl.ue_grants := sa.result.dl.ue_grants ++ [msg] })
        ).cell_alloc.at_offset j =
      (r.at_offset j).map
        (dl_final_slot k0 cand { new with harq_feedback_timing := k1, dci := some dci }
          symbols crbs msg p j) := by
  obtain ⟨p, hp⟩ := hring j
  refine ⟨p, ?_⟩
  simp only [cell_t.modify_dl_pdcch, modify_offset_cell_alloc, hp]
  cases hy : r.at_offset j with
  | none => simp
  | some y =>
    by_cases hj0 : j = 0
    · subst hj0
      rw [h0] at hy
      simp only [Option.some.injEq] at hy
      subst hy
      by_cases hk : k0 = 0
      · subst hk
        rw [hp, h0] at hpa2
        simp only [if_true, Option.map_some', Option.some.injEq] at hpa2
        subst hpa2
        simp [dl_final_slot, modify_last_concat]
      · simp [dl_final_slot, modify_last_concat, hk, Ne.symm hk]
    · have hj0' : ¬ (0 = j) := fun h => hj0 h.symm
      by_cases hk : k0 = j
      · subst hk
        rw [hp, hy] at hpa2
        simp only [hj0, if_false, Option.map_some', Option.some.injEq] at hpa2
        subst hpa2
        simp [dl_final_slot, hj0, hj0']
      · have hk' : ¬ (j = k0) := fun h => hk h.symm
        simp [dl_final_slot, hj0, hj0', hk, hk']

/-! ## The successful run of `allocate_dl_grant` -/

theorem dl_grant_uci_done {a : ue_cell_grid_allocator} {g : ue_pdsch_grant} {ctx : dl_grant_ctx}
    {cell1 : cell_t} {calls : List call_event}
    (h : (dl_grant_uci a g ctx cell1 calls).exit = .success) :
    ∃ (k1 : Nat) (res : uci_allocation × uci_allocator × cell_resource_allocator)
      (uci_calls : List call_event) (pdsch_cfg : pdsch_config_params)
      (pa2 : cell_slot_resource_allocator) (mcs_tbs : sch_mcs_tbs)
      (rv : Nat) (dci : dci_dl_info) (pdsch : pdsch_information),
      k1 ∈ ctx.ss_info.get_k1_candidates ∧
      alloc_uci_harq_ue cell1.uci_alloc cell1.cell_alloc ctx.u.crnti ctx.pdsch_td_cfg.k0 k1 = some res ∧
      res.1.alloc_successful = true ∧
      (({ cell1 with uci_alloc := res.2.1, cell_alloc := res.2.2 } : cell_t).modify_dl_pdcch
          (fun pd => { pd with harq_feedback_timing := k1 })).cell_alloc.at_offset
            ctx.pdsch_td_cfg.k0 = some pa2 ∧
      get_pdsch_config ctx.dci_type ctx.pdsch_td_cfg = some pdsch_cfg ∧
      (if ctx.h_dl.empty then
         a.compute_dl_mcs_tbs pdsch_cfg ctx.ue_cc.cfg
           (adjust_mcs_for_csi_rs g.mcs pa2.result.dl.csi_rs) g.crbs.length
       else some ⟨ctx.h_dl.last_alloc_params.mcs, ctx.h_dl.last_alloc_params.tbs_bytes⟩)
        = some mcs_tbs ∧
      pa2.dl_res_grid.collides ctx.bwp_dl_cmn.dl_scs ctx.pdsch_td_cfg.symbols g.crbs = false ∧
      ctx.ue_cc.get_pdsch_rv
        (dl_alloc_harq ctx.h_dl pa2.slot k1 a.expert_cfg.max_nof_harq_retxs res.1.dai) = some rv ∧
      build_dl_dci ctx.dci_type ctx.ss_info g k1 res.1 mcs_tbs.mcs rv
        (dl_alloc_harq ctx.h_dl pa2.slot k1 a.expert_cfg.max_nof_harq_retxs res.1.dai) = some dci ∧
      build_pdsch dci pdsch_cfg mcs_tbs ctx.u.crnti g.crbs
        (dl_alloc_harq ctx.h_dl pa2.slot k1 a.expert_cfg.max_nof_harq_retxs res.1.dai) = some pdsch ∧
      (∀ e ∈ uci_calls, ∃ k, k ∈ ctx.ss_info.get_k1_candidates ∧
        e = .alloc_uci_harq_ue ctx.u.crnti ctx.pdsch_td_cfg.k0 k) ∧
      dl_grant_uci a g ctx cell1 calls =
        ⟨.success,
         calls ++ uci_calls ++
           [.dl_res_grid_fill ⟨ctx.bwp_dl_cmn.dl_scs, ctx.pdsch_td_cfg.symbols, g.crbs⟩],
         (a.set_ue g.user_ue_index
            (dl_grant_ue g ctx
              ((dl_alloc_harq ctx.h_dl pa2.slot k1 a.expert_cfg.max_nof_harq_retxs
                  res.1.dai).save_alloc_params dci.type pdsch)
              pdsch.tb_size_bytes)).set_cell g.cell_index
           ((((({ cell1 with uci_alloc := res.2.1, cell_alloc := res.2.2 } : cell_t).modify_dl_pdcch
                (fun pd => { pd with harq_feedback_timing := k1 })).modify_offset
                  ctx.pdsch_td_cfg.k0
                (fun sa => { sa with dl_res_grid :=
                  ⟨span_cells ctx.pdsch_td_cfg.symbols g.crbs ++ pa2.dl_res_grid.cells⟩ })).modify_dl_pdcch
               (fun pd => { pd with dci := some dci })).modify_offset ctx.pdsch_td_cfg.k0
              (fun sa => { sa with result.dl.ue_grants := sa.result.dl.ue_grants ++
                [dl_grant_msg g ctx k1
                  ((dl_alloc_harq ctx.h_dl pa2.slot k1 a.expert_cfg.max_nof_harq_retxs
                      res.1.dai).save_alloc_params dci.type pdsch) pdsch] }))⟩ := by
  generalize hlp : dl_uci_k1_loop ctx.ue_cc.cfg.cell_cfg_common ctx.u ctx.pdsch_td_cfg.k0
        ctx.pdsch_alloc.slot cell1 ctx.ss_info.get_k1_candidates = lp
  obtain ⟨hna, hs, hrun⟩ := dl_grant_uci_success hlp h
  rw [hrun] at h ⊢
  obtain ⟨pdsch_cfg, pa2, mcs_tbs, hcfg, hpa2, hmcs, hrun2⟩ := dl_grant_mcs_success h
  rw [hrun2] at h ⊢
  obtain ⟨grid, rv, dci, pdsch, hfill, hrv, hdci, hpdsch, hrun3⟩ := dl_grant_commit_success h
  rw [hrun3]
  have hspec := dl_uci_k1_loop_spec ctx.ue_cc.cfg.cell_cfg_common ctx.u ctx.pdsch_td_cfg.k0
    ctx.pdsch_alloc.slot ctx.ss_info.get_k1_candidates cell1 (by rw [hlp]; exact hna)
  have hcalls := dl_uci_k1_loop_calls ctx.ue_cc.cfg.cell_cfg_common ctx.u ctx.pdsch_td_cfg.k0
    ctx.pdsch_alloc.slot ctx.ss_info.get_k1_candidates cell1
  rw [hlp] at hspec hcalls
  obtain ⟨hk1, res, hres, hres1, hcell⟩ := hspec.2 hs
  have hcoll : pa2.dl_res_grid.collides ctx.bwp_dl_cmn.dl_scs ctx.pdsch_td_cfg.symbols g.crbs
      = false := by
    cases hc : pa2.dl_res_grid.collides ctx.bwp_dl_cmn.dl_scs ctx.pdsch_td_cfg.symbols g.crbs with
    | false => rfl
    | true => simp [cell_slot_resource_grid.fill, hc] at hfill
  have hgrid : grid = ⟨span_cells ctx.pdsch_td_cfg.symbols g.crbs ++ pa2.dl_res_grid.cells⟩ := by
    simp [cell_slot_resource_grid.fill, hcoll] at hfill
    exact hfill.symm
  subst hgrid
  rw [hcell] at hpa2
  refine ⟨lp.k1, res, lp.calls, pdsch_cfg, pa2, mcs_tbs, rv, dci, pdsch, hk1, hres,
    by rw [hres1]; exact hs, hpa2, hcfg, hmcs, hcoll, ?_, ?_, ?_, hcalls, ?_⟩
  · rw [hres1]; exact hrv
  · rw [hres1]; exact hdci
  · rw [hres1]; exact hpdsch
  · rw [hres1, hcell]

/-! ## Slotted arrays of the allocator -/

theorem getD_set_some {α : Type} (l : List (Option α)) (k j : Nat) (x : α) :
    (l.set k (some x)).getD j none =
      if k = j then (if k < l.length then some x else none) else l.getD j none := by
  simp only [List.getD_eq_getElem?_getD, List.getElem?_set]
  split
  · split <;> simp
  · rfl

theorem getD_some_lt {α : Type} {l : List (Option α)} {k : Nat} {x : α}
    (h : l.getD k none = some x) : k < l.length := by
  rw [List.getD_eq_getElem?_getD] at h
  cases hk : l[k]? with
  | none => rw [hk] at h; simp at h
  | some y => exact (List.getElem?_eq_some.1 hk).1

theorem set_cell_cells_getD (a : ue_cell_grid_allocator) (k j : Nat) (c c0 : cell_t)
    (h : a.cells.getD k none = some c0) :
    (a.set_cell k c).cells.getD j none = if k = j then some c else a.cells.getD j none := by
  simp only [ue_cell_grid_allocator.set_cell, getD_set_some, getD_some_lt h, if_true]

theorem set_ue_ues_getD (a : ue_cell_grid_allocator) (k j : Nat) (u u0 : ue)
    (h : a.ues.getD k none = some u0) :
    (a.set_ue k u).ues.getD j none = if k = j then some u else a.ues.getD j none := by
  simp only [ue_cell_grid_allocator.set_ue, getD_set_some, getD_some_lt h, if_true]

theorem find_cell_set_cell (u : ue) (k : Nat) (c0 c : ue_cell) (h : u.find_cell k = some c0)
    (hc : c.cell_index = k) : (u.set_cell c).find_cell k = some c := by
  unfold ue.find_cell ue.set_cell at *
  simp only
  generalize u.ue_cells = l at h
  induction l with
  | nil => simp at h
  | cons x rest ih =>
    simp only [List.map_cons]
    by_cases hx : x.cell_index = k
    · simp [hx, hc]
    · have hx' : (x.cell_index == c.cell_index) = false := by simp [hc, hx]
      have hx2 : (x.cell_index == k) = false := by simp [hx]
      rw [List.find?_cons, hx2] at h
      simp only [hx', Bool.false_eq_true, if_false]
      rw [List.find?_cons, hx2]
      exact ih h

theorem find_cell_cell_index {u : ue} {k : Nat} {c : ue_cell} (h : u.find_cell k = some c) :
    c.cell_index = k := by
  unfold ue.find_cell at h
  have := List.find?_some h
  simpa using this

theorem allocate_dl_grant_ok {a : ue_cell_grid_allocator} {g : ue_pdsch_grant}
    (h : (allocate_dl_grant a g).exit = .success) :
    ∃ ctx, dl_grant_prechecks a g = .ok ctx ∧ allocate_dl_grant a g = dl_grant_alloc a g ctx := by
  unfold allocate_dl_grant at h ⊢
  cases hp : dl_grant_prechecks a g with
  | abort c' => simp [hp] at h
  | fail c' => simp [hp] at h
  | ok ctx => exact ⟨ctx, rfl, rfl⟩

theorem slot_at_of_cell {a : ue_cell_grid_allocator} {k : Nat} {c : cell_t}
    (h : a.cells.getD k none = some c) (j : Nat) : a.slot_at k j = c.cell_alloc.at_offset j := by
  unfold ue_cell_grid_allocator.slot_at
  rw [h]
  rfl

theorem set_ue_cells (a : ue_cell_grid_allocator) (i : Nat) (u : ue) :
    (a.set_ue i u).cells = a.cells := rfl

theorem set_cell_ues (a : ue_cell_grid_allocator) (k : Nat) (c : cell_t) :
    (a.set_cell k c).ues = a.ues := rfl

theorem set_cell_getD_self (a : ue_cell_grid_allocator) (k : Nat) (c c0 : cell_t)
    (h : a.cells.getD k none = some c0) : (a.set_cell k c).cells.getD k none = some c := by
  rw [set_cell_cells_getD a k k c c0 h]; simp

theorem set_cell_getD_other (a : ue_cell_grid_allocator) (k j : Nat) (c : cell_t) (hj : j ≠ k) :
    (a.set_cell k c).cells.getD j none = a.cells.getD j none := by
  simp only [ue_cell_grid_allocator.set_cell, getD_set_some, Ne.symm hj, if_false]

theorem set_ue_getD_self (a : ue_cell_grid_allocator) (k : Nat) (u u0 : ue)
    (h : a.ues.getD k none = some u0) : (a.set_ue k u).ues.getD k none = some u := by
  rw [set_ue_ues_getD a k k u u0 h]; simp

theorem set_ue_getD_other (a : ue_cell_grid_allocator) (k j : Nat) (u : ue) (hj : j ≠ k) :
    (a.set_ue k u).ues.getD j none = a.ues.getD j none := by
  simp only [ue_cell_grid_allocator.set_ue, getD_set_some, Ne.symm hj, if_false]

theorem allocate_dl_grant_done {a : ue_cell_grid_allocator} {g : ue_pdsch_grant}
    (h : (allocate_dl_grant a g).exit = .success) :
    ∃ (ctx : dl_grant_ctx) (cand : grant_info) (k1 : Nat) (uci : uci_allocation)
      (pdsch_cfg : pdsch_config_params) (mcs_tbs : sch_mcs_tbs) (rv : Nat) (dci : dci_dl_info)
      (pdsch : pdsch_information),
      dl_grant_done a g (allocate_dl_grant a g) ctx cand k1 uci pdsch_cfg mcs_tbs rv dci pdsch := by
  obtain ⟨ctx, hp, heq⟩ := allocate_dl_grant_ok h
  have pre := dl_grant_prechecks_ok hp
  rw [heq] at h ⊢
  unfold dl_grant_alloc at h ⊢
  cases hr : pdcch_candidate ctx.cell.pdcch_sched ctx.pdcch_alloc ctx.u.crnti ctx.ss_info.cfg_id
      g.aggr_lvl with
  | none => simp [alloc_dl_pdcch_ue, hr] at h
  | some cand =>
    simp only [alloc_dl_pdcch_ue, hr] at h ⊢
    obtain ⟨k1, res, uci_calls, pdsch_cfg, pa2, mcs_tbs, rv, dci, pdsch, hk1, hres, hs, hpa2, hcfg,
      hmcs, hcoll, hrv, hdci, hpdsch, hev, hrun⟩ := dl_grant_uci_done h
    simp only at hres hpa2
    have hframe := (alloc_uci_harq_ue_frame hres).1
    have hring := fun j => reserved_ring_dl ctx.cell.cell_alloc res.2.2 ctx.pdcch_alloc _
      pre.h_pdcch_alloc hframe
      ({ cell_index := ctx.cell.cell_index,
         pdcch_sched := { ctx.cell.pdcch_sched with
           records := ⟨ctx.pdcch_alloc.slot, true, span_cells cand.symbols cand.crbs⟩ ::
             ctx.cell.pdcch_sched.records },
         uci_alloc := res.2.1, cell_alloc := res.2.2 } : cell_t) rfl
      (fun pd => { pd with harq_feedback_timing := k1 }) j
    -- the PDSCH slot after the reservations
    have hpa2' : pa2.slot = ctx.pdsch_alloc.slot ∧
        pa2.result.dl.csi_rs = ctx.pdsch_alloc.result.dl.csi_rs := by
      obtain ⟨p, hp2⟩ := hring ctx.pdsch_td_cfg.k0
      rw [hpa2, pre.h_pdsch_alloc] at hp2
      simp only [Option.map_some', Option.some.injEq] at hp2
      by_cases hk : ctx.pdsch_td_cfg.k0 = 0
      · have : ctx.pdcch_alloc = ctx.pdsch_alloc := by
          have h1 := pre.h_pdcch_alloc
          have h2 := pre.h_pdsch_alloc
          rw [hk, h1] at h2
          exact Option.some.inj h2
        rw [hp2]; simp [hk, this]
      · rw [hp2]; simp [hk]
    rw [hpa2'.1] at hrv hdci hpdsch hrun
    rw [hpa2'.2] at hmcs
    -- the DAI
    obtain ⟨sa1, hsa1, -, hdai⟩ := alloc_uci_harq_ue_counter hres hs
    have hsa0 : ∃ sa0, ctx.cell.cell_alloc.at_offset (ctx.pdsch_td_cfg.k0 + k1) = some sa0 ∧
        sa0.slot = sa1.slot := by
      rw [at_offset_set_offset] at hsa1
      split at hsa1
      · rename_i h0
        rw [← h0, pre.h_pdcch_alloc] at hsa1 ⊢
        simp only [Option.map_some', Option.some.injEq] at hsa1
        exact ⟨_, rfl, by rw [← hsa1]⟩
      · exact ⟨_, hsa1, rfl⟩
    obtain ⟨sa0, hsa0, hslot⟩ := hsa0
    have hlt := pre.h_cell
    rw [hrun]
    refine ⟨ctx, cand, k1, res.1, pdsch_cfg, mcs_tbs, rv, dci, pdsch,
      { pre := pre, h_cand := hr, h_k1 := hk1, h_uci := hs,
        h_dai := ⟨sa0, hsa0, by
          simp only [get_scheduled_pdsch_counter_in_ue_uci, hslot] at hdai ⊢; exact hdai⟩,
        h_pdsch_cfg := hcfg, h_mcs := hmcs, h_rv := hrv, h_dci := hdci, h_pdsch := hpdsch,
        h_slots := ?_, h_records := ?_, h_other_cells := ?_, h_ue := ?_, h_other_ues := ?_,
        h_calls := ⟨uci_calls, by simp, hev⟩ }⟩
    · intro j
      obtain ⟨p, hp2⟩ := final_ring_dl ctx.cell.cell_alloc _ ctx.pdcch_alloc cand
        ⟨ctx.u.crnti, ctx.ss_info.cfg_id, g.aggr_lvl, 0, none⟩ ctx.pdsch_td_cfg.k0 k1
        ctx.pdsch_td_cfg.symbols g.crbs dci
        (dl_grant_msg g ctx k1
          ((dl_alloc_harq ctx.h_dl ctx.pdsch_alloc.slot k1 a.expert_cfg.max_nof_harq_retxs
              res.1.dai).save_alloc_params dci.type pdsch) pdsch)
        pa2 pre.h_pdcch_alloc hring hpa2 j
      refine ⟨p, ?_⟩
      rw [slot_at_of_cell (set_cell_getD_self _ _ _ ctx.cell (by rw [set_ue_cells]; exact hlt)),
        slot_at_of_cell hlt, hp2]
    · simp only [ue_cell_grid_allocator.pdcch_records,
        set_cell_getD_self _ _ _ ctx.cell (show (a.set_ue _ _).cells.getD _ none = _ from hlt), hlt,
        Option.map_some', Option.getD_some, cell_t.modify_dl_pdcch, modify_offset_pdcch_sched]
    · intro c hc
      rw [set_cell_getD_other _ _ _ _ hc, set_ue_cells]
    · rw [set_cell_ues, set_ue_getD_self _ _ _ ctx.u pre.h_ue]
    · intro i hi
      rw [set_cell_ues, set_ue_getD_other _ _ _ _ hi]

/-! ## Exits of the stages of `allocate_ul_grant` -/

theorem ul_grant_commit_exit (a : ue_cell_grid_allocator) (grant : ue_pusch_grant) (ctx : ul_grant_ctx)
    (cell1 : cell_t) (pusch_alloc : cell_slot_resource_allocator)
    (pusch_cfg : pusch_config_params) (mcs_tbs : sch_mcs_tbs) (calls : List call_event) :
    (ul_grant_commit a grant ctx cell1 pusch_alloc pusch_cfg mcs_tbs calls).exit = .success ∨
    ∃ c, (ul_grant_commit a grant ctx cell1 pusch_alloc pusch_cfg mcs_tbs calls).exit = .abort c := by
  unfold ul_grant_commit
  split
  · exact Or.inr ⟨_, rfl⟩
  · split
    · exact Or.inr ⟨_, rfl⟩
    · split
      · exact Or.inr ⟨_, rfl⟩
      · split
        · exact Or.inr ⟨_, rfl⟩
        · exact Or.inl rfl

theorem ul_grant_commit_success {a : ue_cell_grid_allocator} {grant : ue_pusch_grant}
    {ctx : ul_grant_ctx} {cell1 : cell_t} {pusch_alloc : cell_slot_resource_allocator}
    {pusch_cfg : pusch_config_params} {mcs_tbs : sch_mcs_tbs} {calls : List call_event}
    (h : (ul_grant_commit a grant ctx cell1 pusch_alloc pusch_cfg mcs_tbs calls).exit = .success) :
    ∃ grid dai rv dci,
      pusch_alloc.ul_res_grid.fill ⟨ctx.scs, ctx.pusch_td_cfg.symbols, grant.crbs⟩ = some grid ∧
      ul_grant_dai
        (a.cells.set grant.cell_index
          (some (cell1.modify_offset (pdcch_delay_in_slots + ctx.pusch_td_cfg.k2)
            (fun sa => { sa with ul_res_grid := grid }))))
        ctx.dci_type pusch_alloc ctx.u = some dai ∧
      ctx.ue_cc.get_pusch_rv
        (ul_alloc_harq ctx.h_ul pusch_alloc.slot a.expert_cfg.max_nof_harq_retxs) = some rv ∧
      build_ul_dci ctx.dci_type ctx.ue_cc grant mcs_tbs.mcs rv
        (ul_alloc_harq ctx.h_ul pusch_alloc.slot a.expert_cfg.max_nof_harq_retxs) dai = some dci ∧
      ul_grant_commit a grant ctx cell1 pusch_alloc pusch_cfg mcs_tbs calls =
        ⟨.success,
         calls ++ [.ul_res_grid_fill ⟨ctx.scs, ctx.pusch_td_cfg.symbols, grant.crbs⟩,
                   .multiplex_uci_on_pusch ctx.u.crnti],
         (a.set_ue grant.user_ue_index
            (ctx.u.set_cell (ctx.ue_cc.set_ul_harq grant.h_id
              ((ul_alloc_harq ctx.h_ul pusch_alloc.slot
                  a.expert_cfg.max_nof_harq_retxs).save_alloc_params dci.type
                (build_pusch dci pusch_cfg mcs_tbs ctx.u.crnti grant.crbs
                  (ul_alloc_harq ctx.h_ul pusch_alloc.slot
                    a.expert_cfg.max_nof_harq_retxs))))).reset_sr_indication).set_cell
           grant.cell_index
           (((cell1.modify_offset (pdcch_delay_in_slots + ctx.pusch_td_cfg.k2)
                (fun sa => { sa with ul_res_grid := grid })).modify_ul_pdcch
               (fun pd => { pd with dci := some dci })).modify_offset
              (pdcch_delay_in_slots + ctx.pusch_td_cfg.k2)
              (emplace_pusch
                (ul_grant_msg grant ctx
                  (ul_alloc_harq ctx.h_ul pusch_alloc.slot a.expert_cfg.max_nof_harq_retxs)
                  dci pusch_cfg mcs_tbs)
                ctx.u.crnti))⟩ := by
  cases h1 : pusch_alloc.ul_res_grid.fill ⟨ctx.scs, ctx.pusch_td_cfg.symbols, grant.crbs⟩ with
  | none => simp [ul_grant_commit, h1] at h
  | some grid =>
    cases h2 : ul_grant_dai
        (a.cells.set grant.cell_index
          (some (cell1.modify_offset (pdcch_delay_in_slots + ctx.pusch_td_cfg.k2)
            (fun sa => { sa with ul_res_grid := grid }))))
        ctx.dci_type pusch_alloc ctx.u with
    | none => simp [ul_grant_commit, h1, h2] at h
    | some dai =>
      cases h3 : ctx.ue_cc.get_pusch_rv
          (ul_alloc_harq ctx.h_ul pusch_alloc.slot a.expert_cfg.max_nof_harq_retxs) with
      | none => simp [ul_grant_commit, h1, h2, h3] at h
      | some rv =>
        cases h4 : build_ul_dci ctx.dci_type ctx.ue_cc grant mcs_tbs.mcs rv
            (ul_alloc_harq ctx.h_ul pusch_alloc.slot a.expert_cfg.max_nof_harq_retxs) dai with
        | none => simp [ul_grant_commit, h1, h2, h3, h4] at h
        | some dci =>
          refine ⟨grid, dai, rv, dci, rfl, h2, rfl, h4, ?_⟩
          simp only [ul_grant_commit, h1, h2, h3, h4]

theorem ul_grant_commit_double_fill {a : ue_cell_grid_allocator} {grant : ue_pusch_grant}
    {ctx : ul_grant_ctx} {cell1 : cell_t} {pusch_alloc : cell_slot_resource_allocator}
    {pusch_cfg : pusch_config_params} {mcs_tbs : sch_mcs_tbs} {calls : List call_event}
    (h : (ul_grant_commit a grant ctx cell1 pusch_alloc pusch_cfg mcs_tbs calls).exit
          = .abort .grid_double_fill) :
    pusch_alloc.ul_res_grid.collides ctx.scs ctx.pusch_td_cfg.symbols grant.crbs = true := by
  cases hc : pusch_alloc.ul_res_grid.collides ctx.scs ctx.pusch_td_cfg.symbols grant.crbs with
  | true => rfl
  | false =>
    exfalso
    have h1 : pusch_alloc.ul_res_grid.fill ⟨ctx.scs, ctx.pusch_td_cfg.symbols, grant.crbs⟩ =
        some ⟨span_cells ctx.pusch_td_cfg.symbols grant.crbs ++ pusch_alloc.ul_res_grid.cells⟩ := by
      simp [cell_slot_resource_grid.fill, hc]
    unfold ul_grant_commit at h
    simp only [h1] at h
    split at h
    · cases h
    · split at h
      · cases h
      · split at h
        · cases h
        · cases h

theorem ul_grant_mcs_failure {a : ue_cell_grid_allocator} {grant : ue_pusch_grant} {ctx : ul_grant_ctx}
    {cell1 : cell_t} {calls : List call_event} {c : alloc_failure}
    (h : (ul_grant_mcs a grant ctx cell1 calls).exit = .failure c) :
    c = .no_mcs ∧ ctx.h_ul.empty = true ∧
    a.compute_ul_mcs_tbs (get_pusch_config ctx.ss_info.get_crnti_ul_dci_format ctx.pusch_td_cfg)
      ctx.ue_cc.cfg grant.mcs grant.crbs.length = none ∧
    ul_grant_mcs a grant ctx cell1 calls =
      ⟨.failure .no_mcs, calls ++ [.cancel_last_pdcch],
       a.set_cell grant.cell_index cell1.cancel_last_pdcch⟩ := by
  cases h3 : (if ctx.h_ul.empty then
         a.compute_ul_mcs_tbs (get_pusch_config ctx.ss_info.get_crnti_ul_dci_format ctx.pusch_td_cfg)
           ctx.ue_cc.cfg grant.mcs grant.crbs.length
       else some ⟨ctx.h_ul.last_tx_params.mcs, ctx.h_ul.last_tx_params.tbs_bytes⟩) with
  | none =>
    have heq : ul_grant_mcs a grant ctx cell1 calls =
        ⟨.failure .no_mcs, calls ++ [.cancel_last_pdcch],
         a.set_cell grant.cell_index cell1.cancel_last_pdcch⟩ := by
      unfold ul_grant_mcs
      simp only [h3]
    rw [heq] at h
    simp only [alloc_exit.failure.injEq] at h
    by_cases he : ctx.h_ul.empty = true
    · simp only [he, if_true] at h3
      exact ⟨h.symm, he, h3, heq⟩
    · simp [he] at h3
  | some mcs_tbs =>
    exfalso
    unfold ul_grant_mcs at h
    simp only [h3] at h
    cases h2 : cell1.cell_alloc.at_offset (pdcch_delay_in_slots + ctx.pusch_td_cfg.k2) with
    | none => simp [h2] at h
    | some pusch_alloc =>
      simp only [h2] at h
      rcases ul_grant_commit_exit a grant ctx cell1 pusch_alloc
          (get_pusch_config ctx.ss_info.get_crnti_ul_dci_format ctx.pusch_td_cfg) mcs_tbs calls
        with h4 | ⟨c', h4⟩ <;> rw [h4] at h <;> cases h

theorem ul_grant_mcs_success {a : ue_cell_grid_allocator} {grant : ue_pusch_grant} {ctx : ul_grant_ctx}
    {cell1 : cell_t} {calls : List call_event}
    (h : (ul_grant_mcs a grant ctx cell1 calls).exit = .success) :
    ∃ pusch_alloc mcs_tbs,
      cell1.cell_alloc.at_offset (pdcch_delay_in_slots + ctx.pusch_td_cfg.k2) = some pusch_alloc ∧
      (if ctx.h_ul.empty then
         a.compute_ul_mcs_tbs (get_pusch_config ctx.ss_info.get_crnti_ul_dci_format ctx.pusch_td_cfg)
           ctx.ue_cc.cfg grant.mcs grant.crbs.length
       else some ⟨ctx.h_ul.last_tx_params.mcs, ctx.h_ul.last_tx_params.tbs_bytes⟩) = some mcs_tbs ∧
      ul_grant_mcs a grant ctx cell1 calls =
        ul_grant_commit a grant ctx cell1 pusch_alloc
          (get_pusch_config ctx.ss_info.get_crnti_ul_dci_format ctx.pusch_td_cfg) mcs_tbs calls := by
  cases h3 : (if ctx.h_ul.empty then
         a.compute_ul_mcs_tbs (get_pusch_config ctx.ss_info.get_crnti_ul_dci_format ctx.pusch_td_cfg)
           ctx.ue_cc.cfg grant.mcs grant.crbs.length
       else some ⟨ctx.h_ul.last_tx_params.mcs, ctx.h_ul.last_tx_params.tbs_bytes⟩) with
  | none =>
    unfold ul_grant_mcs at h
    simp only [h3] at h
    cases h
  | some mcs_tbs =>
    cases h2 : cell1.cell_alloc.at_offset (pdcch_delay_in_slots + ctx.pusch_td_cfg.k2) with
    | none =>
      unfold ul_grant_mcs at h
      simp only [h3, h2] at h
      cases h
    | some pusch_alloc =>
      refine ⟨pusch_alloc, mcs_tbs, rfl, rfl, ?_⟩
      unfold ul_grant_mcs
      simp only [h3, h2]

/-! ## State after a `return false` of `allocate_ul_grant` -/

theorem cancel_right_after_alloc_ul (cell : cell_t) (pdcch_alloc : cell_slot_resource_allocator)
    (g : grant_info) (new : pdcch_ul_information)
    (h0 : cell.cell_alloc.at_offset 0 = some pdcch_alloc)
    (hg : pdcch_alloc.dl_res_grid.collides g.scs g.symbols g.crbs = false) :
    ({ cell with
        pdcch_sched := { cell.pdcch_sched with
          records := ⟨pdcch_alloc.slot, false, span_cells g.symbols g.crbs⟩ ::
            cell.pdcch_sched.records },
        cell_alloc := cell.cell_alloc.set_offset 0
          { pdcch_alloc with
            dl_res_grid := ⟨span_cells g.symbols g.crbs ++ pdcch_alloc.dl_res_grid.cells⟩,
            result.dl.ul_pdcchs := pdcch_alloc.result.dl.ul_pdcchs ++ [new] } } :
      cell_t).cancel_last_pdcch = cell := by
  unfold cell_t.cancel_last_pdcch
  simp only [at_offset_set_offset, h0, if_true, Option.map_some']
  simp only [cancel_last_pdcch, beq_self_eq_true, if_true]
  simp only [set_offset_set_offset, List.dropLast_concat, clear_fill _ _ _ _ hg]
  simp only [Bool.false_eq_true, if_false]
  rw [set_offset_self _ _ _ h0]

theorem allocate_ul_grant_early {a : ue_cell_grid_allocator} {g : ue_pusch_grant} {c : alloc_failure}
    (h : (allocate_ul_grant a g).exit = .failure c) (hc : c.before_pdcch = true) :
    (allocate_ul_grant a g).st = a ∧ (allocate_ul_grant a g).calls = [] := by
  unfold allocate_ul_grant at h ⊢
  cases hp : ul_grant_prechecks a g with
  | abort c' => exact ⟨rfl, rfl⟩
  | fail c' => exact ⟨rfl, rfl⟩
  | ok ctx =>
    simp only [hp] at h
    exfalso
    unfold ul_grant_alloc at h
    cases hr : alloc_ul_pdcch_ue ctx.cell.pdcch_sched ctx.pdcch_alloc ctx.u.crnti ctx.ss_info.cfg_id
        g.aggr_lvl with
    | none =>
      simp only [hr, alloc_exit.failure.injEq] at h
      subst h; simp [alloc_failure.before_pdcch] at hc
    | some r =>
      simp only [hr] at h
      have h1 := (ul_grant_mcs_failure h).1
      subst h1; simp [alloc_failure.before_pdcch] at hc

theorem allocate_ul_grant_late {a : ue_cell_grid_allocator} {g : ue_pusch_grant} {c : alloc_failure}
    (h : (allocate_ul_grant a g).exit = .failure c) (hc : c.before_pdcch = false) :
    ∃ ctx, ul_grant_prechecks a g = .ok ctx ∧
      allocate_ul_grant a g = ul_grant_alloc a g ctx := by
  unfold allocate_ul_grant at h ⊢
  cases hp : ul_grant_prechecks a g with
  | abort c' => simp [hp] at h
  | fail c' =>
    simp only [hp, alloc_exit.failure.injEq] at h
    subst h
    rw [ul_grant_prechecks_fail hp] at hc
    cases hc
  | ok ctx => exact ⟨ctx, rfl, rfl⟩

theorem allocate_ul_grant_failure_cases {a : ue_cell_grid_allocator} {g : ue_pusch_grant}
    {c : alloc_failure} (h : (allocate_ul_grant a g).exit = .failure c) :
    c.before_pdcch = true ∨ c = .no_pdcch_space ∨ c = .no_mcs := by
  cases hb : c.before_pdcch with
  | true => exact Or.inl rfl
  | false =>
    right
    obtain ⟨ctx, hp, heq⟩ := allocate_ul_grant_late h hb
    rw [heq] at h
    unfold ul_grant_alloc at h
    cases hr : alloc_ul_pdcch_ue ctx.cell.pdcch_sched ctx.pdcch_alloc ctx.u.crnti ctx.ss_info.cfg_id
        g.aggr_lvl with
    | none =>
      simp only [hr, alloc_exit.failure.injEq] at h
      exact Or.inl h.symm
    | some r =>
      simp only [hr] at h
      exact Or.inr (ul_grant_mcs_failure h).1

theorem allocate_ul_grant_no_pdcch {a : ue_cell_grid_allocator} {g : ue_pusch_grant}
    (h : (allocate_ul_grant a g).exit = .failure .no_pdcch_space) :
    (allocate_ul_grant a g).st = a ∧
    ∃ ctx, ul_grant_prechecks a g = .ok ctx ∧
      (allocate_ul_grant a g).calls = [.alloc_ul_pdcch_ue ctx.u.crnti ctx.ss_info.cfg_id g.aggr_lvl] := by
  obtain ⟨ctx, hp, heq⟩ := allocate_ul_grant_late h rfl
  rw [heq] at h ⊢
  unfold ul_grant_alloc at h ⊢
  cases hr : alloc_ul_pdcch_ue ctx.cell.pdcch_sched ctx.pdcch_alloc ctx.u.crnti ctx.ss_info.cfg_id
      g.aggr_lvl with
  | none => exact ⟨rfl, ctx, hp, rfl⟩
  | some r =>
    simp only [hr] at h
    have h1 := (ul_grant_mcs_failure h).1
    cases h1

theorem allocate_ul_grant_no_mcs {a : ue_cell_grid_allocator} {g : ue_pusch_grant}
    (h : (allocate_ul_grant a g).exit = .failure .no_mcs) :
    (allocate_ul_grant a g).st = a ∧
    ∃ ctx, ul_grant_prechecks a g = .ok ctx ∧ ctx.h_ul.empty = true ∧
      a.compute_ul_mcs_tbs (get_pusch_config ctx.ss_info.get_crnti_ul_dci_format ctx.pusch_td_cfg)
        ctx.ue_cc.cfg g.mcs g.crbs.length = none ∧
      (allocate_ul_grant a g).calls =
        [.alloc_ul_pdcch_ue ctx.u.crnti ctx.ss_info.cfg_id g.aggr_lvl, .cancel_last_pdcch] := by
  obtain ⟨ctx, hp, heq⟩ := allocate_ul_grant_late h rfl
  have pre := ul_grant_prechecks_ok hp
  rw [heq] at h ⊢
  unfold ul_grant_alloc at h ⊢
  cases hr : pdcch_candidate ctx.cell.pdcch_sched ctx.pdcch_alloc ctx.u.crnti ctx.ss_info.cfg_id
      g.aggr_lvl with
  | none => simp [alloc_ul_pdcch_ue, hr] at h
  | some cand =>
    simp only [alloc_ul_pdcch_ue, hr] at h ⊢
    obtain ⟨-, hempty, hnone, hrun⟩ := ul_grant_mcs_failure h
    rw [hrun]
    refine ⟨?_, ctx, hp, hempty, hnone, rfl⟩
    simp only [pdcch_delay_in_slots]
    rw [cancel_right_after_alloc_ul ctx.cell ctx.pdcch_alloc cand _ pre.h_pdcch_alloc
      (pdcch_candidate_free hr)]
    exact set_cell_self a _ _ pre.h_cell

/-! ## The successful run of `allocate_ul_grant` -/

theorem total_harq_ack_in_uci_congr (cells cells' : List (Option cell_t))
    (pa pa' : cell_slot_resource_allocator) (crnti : Nat)
    (hc : ∀ i, (cells'.getD i none).map (fun c => c.uci_alloc) =
      (cells.getD i none).map (fun c => c.uci_alloc))
    (hs : pa'.slot = pa.slot) (l : List ue_cell) (acc : Nat) :
    total_harq_ack_in_uci cells' pa' crnti l acc = total_harq_ack_in_uci cells pa crnti l acc := by
  induction l generalizing acc with
  | nil => rfl
  | cons x rest ih =>
    unfold total_harq_ack_in_uci
    have hx := hc x.cell_index
    cases h1 : cells.getD x.cell_index none with
    | none =>
      rw [h1] at hx
      cases h2 : cells'.getD x.cell_index none with
      | none => rfl
      | some c' => rw [h2] at hx; simp at hx
    | some c =>
      rw [h1] at hx
      cases h2 : cells'.getD x.cell_index none with
      | none => rw [h2] at hx; simp at hx
      | some c' =>
        rw [h2] at hx
        simp only [Option.map_some', Option.some.injEq] at hx
        simp only [get_scheduled_pdsch_counter_in_ue_uci, hx, hs]
        exact ih _

theorem final_ring_ul (r : cell_resource_allocator) (sa0 : cell_slot_resource_allocator)
    (cand : grant_info) (new : pdcch_ul_information) (k2 : Nat) (symbols crbs : interval)
    (dci : dci_ul_info) (msg : ul_sched_info) (crnti : Nat) (c : cell_t)
    (pa2 : cell_slot_resource_allocator)
    (h0 : r.at_offset 0 = some sa0)
    (hc : c.cell_alloc = r.set_offset 0
      { sa0 with
        dl_res_grid := ⟨span_cells cand.symbols cand.crbs ++ sa0.dl_res_grid.cells⟩,
        result.dl.ul_pdcchs := sa0.result.dl.ul_pdcchs ++ [new] })
    (hpa2 : c.cell_alloc.at_offset k2 = some pa2) (j : Nat) :
    (((c.modify_offset k2
          (fun sa => { sa with ul_res_grid :=
            ⟨span_cells symbols crbs ++ pa2.ul_res_grid.cells⟩ })).modify_ul_pdcch
        (fun pd => { pd with dci := some dci })).modify_offset k2
      (emplace_pusch msg crnti)).cell_alloc.at_offset j =
      (r.at_offset j).map
        (ul_final_slot k2 cand { new with dci := some dci } symbols crbs msg crnti j) := by
  simp only [cell_t.modify_ul_pdcch, modify_offset_cell_alloc, hc, at_offset_set_offset]
  rw [hc, at_offset_set_offset] at hpa2
  cases hy : r.at_offset j with
  | none => simp
  | some y =>
    by_cases hj0 : j = 0
    · subst hj0
      rw [h0] at hy
      simp only [Option.some.injEq] at hy
      subst hy
      by_cases hk : k2 = 0
      · subst hk
        rw [h0] at hpa2
        simp only [if_true, Option.map_some', Option.some.injEq] at hpa2
        subst hpa2
        simp [ul_final_slot, modify_last_concat]
      · simp [ul_final_slot, modify_last_concat, hk, Ne.symm hk]
    · have hj0' : ¬ (0 = j) := fun h => hj0 h.symm
      by_cases hk : k2 = j
      · subst hk
        rw [hy] at hpa2
        simp only [hj0', if_false, Option.some.injEq] at hpa2
        subst hpa2
        simp [ul_final_slot, hj0, hj0']
      · have hk' : ¬ (j = k2) := fun h => hk h.symm
        simp [ul_final_slot, hj0, hj0', hk, hk']

theorem allocate_ul_grant_ok {a : ue_cell_grid_allocator} {g : ue_pusch_grant}
    (h : (allocate_ul_grant a g).exit = .success) :
    ∃ ctx, ul_grant_prechecks a g = .ok ctx ∧ allocate_ul_grant a g = ul_grant_alloc a g ctx := by
  unfold allocate_ul_grant at h ⊢
  cases hp : ul_grant_prechecks a g with
  | abort c' => simp [hp] at h
  | fail c' => simp [hp] at h
  | ok ctx => exact ⟨ctx, rfl, rfl⟩

theorem uci_grid_of_cell {a : ue_cell_grid_allocator} {k : Nat} {c : cell_t}
    (h : a.cells.getD k none = some c) : a.uci_grid k = c.uci_alloc.uci_alloc_grid := by
  unfold ue_cell_grid_allocator.uci_grid
  rw [h]
  rfl

theorem allocate_ul_grant_done {a : ue_cell_grid_allocator} {g : ue_pusch_grant}
    (h : (allocate_ul_grant a g).exit = .success) :
    ∃ (ctx : ul_grant_ctx) (cand : grant_info) (mcs_tbs : sch_mcs_tbs) (dai rv : Nat)
      (dci : dci_ul_info),
      ul_grant_done a g (allocate_ul_grant a g) ctx cand mcs_tbs dai rv dci := by
  obtain ⟨ctx, hp, heq⟩ := allocate_ul_grant_ok h
  have pre := ul_grant_prechecks_ok hp
  rw [heq] at h ⊢
  unfold ul_grant_alloc at h ⊢
  cases hr : pdcch_candidate ctx.cell.pdcch_sched ctx.pdcch_alloc ctx.u.crnti ctx.ss_info.cfg_id
      g.aggr_lvl with
  | none => simp [alloc_ul_pdcch_ue, hr] at h
  | some cand =>
    simp only [alloc_ul_pdcch_ue, hr] at h ⊢
    obtain ⟨pa2, mcs_tbs, hpa2, hmcs, hrun⟩ := ul_grant_mcs_success h
    rw [hrun] at h ⊢
    obtain ⟨grid, dai, rv, dci, hfill, hdai, hrv, hdci, hrun2⟩ := ul_grant_commit_success h
    rw [hrun2]
    simp only at hpa2
    have h0 : ctx.cell.cell_alloc.at_offset 0 = some ctx.pdcch_alloc := pre.h_pdcch_alloc
    have hcoll : pa2.ul_res_grid.collides ctx.scs ctx.pusch_td_cfg.symbols g.crbs = false := by
      cases hc : pa2.ul_res_grid.collides ctx.scs ctx.pusch_td_cfg.symbols g.crbs with
      | false => rfl
      | true => simp [cell_slot_resource_grid.fill, hc] at hfill
    have hgrid : grid = ⟨span_cells ctx.pusch_td_cfg.symbols g.crbs ++ pa2.ul_res_grid.cells⟩ := by
      simp [cell_slot_resource_grid.fill, hcoll] at hfill
      exact hfill.symm
    subst hgrid
    -- the PUSCH slot after the PDCCH reservation
    have hpa2' : pa2.slot = ctx.pusch_alloc.slot := by
      have h2 := hpa2
      have h3 := pre.h_pusch_alloc
      generalize pdcch_delay_in_slots + ctx.pusch_td_cfg.k2 = k at h2 h3
      have hpd : pdcch_delay_in_slots = 0 := rfl
      rw [hpd, at_offset_set_offset] at h2
      by_cases hk : 0 = k
      · subst hk
        rw [if_pos rfl, h0] at h2
        rw [h0] at h3
        simp only [Option.map_some', Option.some.injEq] at h2 h3
        rw [← h2, ← h3]
      · rw [if_neg hk, h3] at h2
        simp only [Option.some.injEq] at h2
        rw [h2]
    rw [hpa2'] at hrv hdci
    have hdai' : ul_grant_dai a.cells ctx.dci_type ctx.pusch_alloc ctx.u = some dai := by
      rw [← hdai]
      unfold ul_grant_dai
      split
      · congr 1
        symm
        apply total_harq_ack_in_uci_congr _ _ _ _ _ _ hpa2'
        intro i
        rw [getD_set_some]
        by_cases hi : g.cell_index = i
        · subst hi
          rw [if_pos rfl, if_pos (getD_some_lt pre.h_cell), pre.h_cell]
          simp only [Option.map_some', modify_offset_uci_alloc]
        · rw [if_neg hi]
      · rfl
    have hlt := pre.h_cell
    refine ⟨ctx, cand, mcs_tbs, dai, rv, dci,
      { pre := pre, h_cand := hr, h_mcs := hmcs, h_dai := hdai', h_rv := hrv, h_dci := hdci,
        h_slots := ?_, h_records := ?_, h_uci_grid := ?_, h_other_cells := ?_, h_ue := ?_,
        h_other_ues := ?_, h_calls := by rw [hpa2']; rfl }⟩
    · intro j
      rw [slot_at_of_cell (set_cell_getD_self _ _ _ ctx.cell (by rw [set_ue_cells]; exact hlt)),
        slot_at_of_cell hlt, hpa2']
      have := final_ring_ul ctx.cell.cell_alloc ctx.pdcch_alloc cand
        ⟨ctx.u.crnti, ctx.ss_info.cfg_id, g.aggr_lvl, none⟩
        (pdcch_delay_in_slots + ctx.pusch_td_cfg.k2) ctx.pusch_td_cfg.symbols g.crbs dci
        (ul_grant_msg g ctx
          (ul_alloc_harq ctx.h_ul ctx.pusch_alloc.slot a.expert_cfg.max_nof_harq_retxs)
          dci (get_pusch_config ctx.ss_info.get_crnti_ul_dci_format ctx.pusch_td_cfg) mcs_tbs)
        ctx.u.crnti
        ({ cell_index := ctx.cell.cell_index,
           pdcch_sched := { ctx.cell.pdcch_sched with
             records := ⟨ctx.pdcch_alloc.slot, false, span_cells cand.symbols cand.crbs⟩ ::
               ctx.cell.pdcch_sched.records },
           uci_alloc := ctx.cell.uci_alloc,
           cell_alloc := ctx.cell.cell_alloc.set_offset 0
             { ctx.pdcch_alloc with
               dl_res_grid :=
                 ⟨span_cells cand.symbols cand.crbs ++ ctx.pdcch_alloc.dl_res_grid.cells⟩,
               result.dl.ul_pdcchs := ctx.pdcch_alloc.result.dl.ul_pdcchs ++
                 [⟨ctx.u.crnti, ctx.ss_info.cfg_id, g.aggr_lvl, none⟩] } } : cell_t)
        pa2 h0 rfl hpa2 j
      exact this
    · simp only [ue_cell_grid_allocator.pdcch_records,
        set_cell_getD_self _ _ _ ctx.cell (show (a.set_ue _ _).cells.getD _ none = _ from hlt), hlt,
        Option.map_some', Option.getD_some, cell_t.modify_ul_pdcch, modify_offset_pdcch_sched]
    · intro c
      by_cases hc : c = g.cell_index
      · subst hc
        rw [uci_grid_of_cell (set_cell_getD_self _ _ _ ctx.cell (by rw [set_ue_cells]; exact hlt)),
          uci_grid_of_cell hlt]
        simp only [cell_t.modify_ul_pdcch, modify_offset_uci_alloc]
      · unfold ue_cell_grid_allocator.uci_grid
        rw [set_cell_getD_other _ _ _ _ hc, set_ue_cells]
    · intro c hc
      rw [set_cell_getD_other _ _ _ _ hc, set_ue_cells]
    · rw [set_cell_ues, set_ue_getD_self _ _ _ ctx.u pre.h_ue, hpa2']
    · intro i hi
      rw [set_cell_ues, set_ue_getD_other _ _ _ _ hi]

/-! ## Observations -/

theorem pucch_frame_map {r r' : cell_resource_allocator} (h : pucch_frame r r') {β : Type}
    (F : cell_slot_resource_allocator → β) (hF : ∀ sa, F (erase_pucchs sa) = F sa) (j : Nat) :
    (r'.at_offset j).map F = (r.at_offset j).map F := by
  have h1 : ∀ o : Option cell_slot_resource_allocator, o.map F = (o.map erase_pucchs).map F := by
    intro o; cases o <;> simp [hF]
  rw [h1 (r'.at_offset j), h1 (r.at_offset j), h j]

theorem dl_harq_of_ctx {a : ue_cell_grid_allocator} {g : ue_pdsch_grant} {ctx : dl_grant_ctx}
    (pre : dl_prechecks_ok a g ctx) :
    a.dl_harq_of g.user_ue_index g.cell_index g.h_id = some ctx.h_dl := by
  simp only [ue_cell_grid_allocator.dl_harq_of, ue_cell_grid_allocator.harqs_of, pre.h_ue,
    Option.some_bind, pre.h_ue_cc, Option.map_some', pre.h_harq]

theorem ul_harq_of_ctx {a : ue_cell_grid_allocator} {g : ue_pusch_grant} {ctx : ul_grant_ctx}
    (pre : ul_prechecks_ok a g ctx) :
    a.ul_harq_of g.user_ue_index g.cell_index g.h_id = some ctx.h_ul := by
  simp only [ue_cell_grid_allocator.ul_harq_of, ue_cell_grid_allocator.harqs_of, pre.h_ue,
    Option.some_bind, pre.h_ue_cc, Option.map_some', pre.h_harq]

theorem slot_at_set_cell_frame {a : ue_cell_grid_allocator} {k : Nat} {c c' : cell_t}
    (hc : a.cells.getD k none = some c) (hframe : pucch_frame c.cell_alloc c'.cell_alloc)
    {β : Type} (F : cell_slot_resource_allocator → β) (hF : ∀ sa, F (erase_pucchs sa) = F sa)
    (k' j : Nat) :
    ((a.set_cell k c').slot_at k' j).map F = (a.slot_at k' j).map F := by
  by_cases hk : k' = k
  · subst hk
    rw [slot_at_of_cell (set_cell_getD_self a _ c' c hc), slot_at_of_cell hc]
    exact pucch_frame_map hframe F hF j
  · unfold ue_cell_grid_allocator.slot_at
    rw [set_cell_getD_other _ _ _ _ hk]

theorem dl_grant_ue_find_cell {a : ue_cell_grid_allocator} {g : ue_pdsch_grant} {ctx : dl_grant_ctx}
    (pre : dl_prechecks_ok a g ctx) (h2 : dl_harq_process) (n : Nat) :
    (dl_grant_ue g ctx h2 n).find_cell g.cell_index = some (ctx.ue_cc.set_dl_harq g.h_id h2) := by
  have key : (ctx.u.set_cell (ctx.ue_cc.set_dl_harq g.h_id h2)).find_cell g.cell_index =
      some (ctx.ue_cc.set_dl_harq g.h_id h2) :=
    find_cell_set_cell ctx.u g.cell_index ctx.ue_cc _ pre.h_ue_cc
      (by simpa [ue_cell.set_dl_harq] using find_cell_cell_index pre.h_ue_cc)
  unfold dl_grant_ue
  split
  · simpa [ue.build_dl_transport_block_info, ue.find_cell] using key
  · exact key

theorem dl_harq_of_done {a : ue_cell_grid_allocator} {g : ue_pdsch_grant} {run : alloc_run}
    {ctx : dl_grant_ctx} {cand : grant_info} {k1 : Nat} {uci : uci_allocation}
    {pdsch_cfg : pdsch_config_params} {mcs_tbs : sch_mcs_tbs} {rv : Nat} {dci : dci_dl_info}
    {pdsch : pdsch_information}
    (d : dl_grant_done a g run ctx cand k1 uci pdsch_cfg mcs_tbs rv dci pdsch) :
    run.st.dl_harq_of g.user_ue_index g.cell_index g.h_id =
      some ((dl_alloc_harq ctx.h_dl ctx.pdsch_alloc.slot k1 a.expert_cfg.max_nof_harq_retxs
        uci.dai).save_alloc_params dci.type pdsch) := by
  have hlt : g.h_id < ctx.ue_cc.harqs.dl_harqs.length := by
    have := d.pre.h_harq
    unfold harq_entity.dl_harq at this
    exact (List.getElem?_eq_some.1 this).1
  simp only [ue_cell_grid_allocator.dl_harq_of, ue_cell_grid_allocator.harqs_of, d.h_ue,
    Option.some_bind, dl_grant_ue_find_cell d.pre, Option.map_some']
  simp only [harq_entity.dl_harq, ue_cell.set_dl_harq, List.getElem?_set_self hlt]

theorem ul_harq_of_done {a : ue_cell_grid_allocator} {g : ue_pusch_grant} {run : alloc_run}
    {ctx : ul_grant_ctx} {cand : grant_info} {mcs_tbs : sch_mcs_tbs} {dai rv : Nat}
    {dci : dci_ul_info}
    (d : ul_grant_done a g run ctx cand mcs_tbs dai rv dci) :
    run.st.ul_harq_of g.user_ue_index g.cell_index g.h_id =
      some ((ul_alloc_harq ctx.h_ul ctx.pusch_alloc.slot
          a.expert_cfg.max_nof_harq_retxs).save_alloc_params dci.type
        (build_pusch dci (get_pusch_config ctx.ss_info.get_crnti_ul_dci_format ctx.pusch_td_cfg)
          mcs_tbs ctx.u.crnti g.crbs
          (ul_alloc_harq ctx.h_ul ctx.pusch_alloc.slot a.expert_cfg.max_nof_harq_retxs))) := by
  have hlt : g.h_id < ctx.ue_cc.harqs.ul_harqs.length := by
    have := d.pre.h_harq
    unfold harq_entity.ul_harq at this
    exact (List.getElem?_eq_some.1 this).1
  have key : (ctx.u.set_cell (ctx.ue_cc.set_ul_harq g.h_id
      ((ul_alloc_harq ctx.h_ul ctx.pusch_alloc.slot
          a.expert_cfg.max_nof_harq_retxs).save_alloc_params dci.type
        (build_pusch dci (get_pusch_config ctx.ss_info.get_crnti_ul_dci_format ctx.pusch_td_cfg)
          mcs_tbs ctx.u.crnti g.crbs
          (ul_alloc_harq ctx.h_ul ctx.pusch_alloc.slot
            a.expert_cfg.max_nof_harq_retxs))))).find_cell g.cell_index = some _ :=
    find_cell_set_cell ctx.u g.cell_index ctx.ue_cc _ d.pre.h_ue_cc
      (by simpa [ue_cell.set_ul_harq] using find_cell_cell_index d.pre.h_ue_cc)
  have key2 : ∀ u : ue, u.reset_sr_indication.find_cell g.cell_index = u.find_cell g.cell_index :=
    fun u => rfl
  simp only [ue_cell_grid_allocator.ul_harq_of, ue_cell_grid_allocator.harqs_of, d.h_ue,
    Option.some_bind, key2, key, Option.map_some']
  simp only [harq_entity.ul_harq, ue_cell.set_ul_harq, List.getElem?_set_self hlt]

theorem harq_ack_bits_of_cell {a : ue_cell_grid_allocator} {k j : Nat} {c : cell_t}
    {sa : cell_slot_resource_allocator} (hc : a.cells.getD k none = some c)
    (hsa : c.cell_alloc.at_offset j = some sa) (crnti : Nat) :
    a.harq_ack_bits k j crnti = get_scheduled_pdsch_counter_in_ue_uci c.uci_alloc sa crnti := by
  unfold ue_cell_grid_allocator.harq_ack_bits
  rw [hc]
  simp only [hsa]

theorem counter_slot_congr (uci : uci_allocator) {sa sa' : cell_slot_resource_allocator}
    (h : sa'.slot = sa.slot) (crnti : Nat) :
    get_scheduled_pdsch_counter_in_ue_uci uci sa' crnti =
      get_scheduled_pdsch_counter_in_ue_uci uci sa crnti := by
  unfold get_scheduled_pdsch_counter_in_ue_uci
  rw [h]

theorem pucch_frame_at {r r' : cell_resource_allocator} (h : pucch_frame r r') {j : Nat}
    {sa : cell_slot_resource_allocator} (hsa : r.at_offset j = some sa) :
    ∃ sa', r'.at_offset j = some sa' ∧ erase_pucchs sa' = erase_pucchs sa := by
  have hj := h j
  rw [hsa] at hj
  cases hr : r'.at_offset j with
  | none => rw [hr] at hj; simp at hj
  | some sa' =>
    rw [hr] at hj
    exact ⟨sa', rfl, by simpa using hj⟩

theorem harq_ack_bits_frame {a : ue_cell_grid_allocator} {k j : Nat} {c : cell_t}
    {sa : cell_slot_resource_allocator} (hc : a.cells.getD k none = some c)
    (hsa : c.cell_alloc.at_offset j = some sa) (uci' : uci_allocator)
    {R : cell_resource_allocator} (hframe : pucch_frame c.cell_alloc R) (crnti : Nat) :
    (a.set_cell k { c with uci_alloc := uci', cell_alloc := R }).harq_ack_bits k j crnti =
      get_scheduled_pdsch_counter_in_ue_uci uci' sa crnti := by
  obtain ⟨sa', h1, h2⟩ := pucch_frame_at hframe hsa
  rw [harq_ack_bits_of_cell (set_cell_getD_self a k _ c hc) h1]
  exact counter_slot_congr uci' (congrArg cell_slot_resource_allocator.slot h2) crnti

theorem pdcch_records_set_cell {a : ue_cell_grid_allocator} {k : Nat} {c c' : cell_t}
    (hc : a.cells.getD k none = some c) (h : c'.pdcch_sched = c.pdcch_sched) (k' : Nat) :
    (a.set_cell k c').pdcch_records k' = a.pdcch_records k' := by
  unfold ue_cell_grid_allocator.pdcch_records
  by_cases hk : k' = k
  · subst hk
    rw [set_cell_getD_self a _ c' c hc, hc]
    simp [h]
  · rw [set_cell_getD_other _ _ _ _ hk]

/-! ## Result lists after a call -/

theorem map_of_erase_pucchs {o o' : Option cell_slot_resource_allocator}
    (h : o'.map erase_pucchs = o.map erase_pucchs) {β : Type}
    (F : cell_slot_resource_allocator → β) (hF : ∀ sa, F (erase_pucchs sa) = F sa) :
    o'.map F = o.map F := by
  have h1 : ∀ x : Option cell_slot_resource_allocator, x.map F = (x.map erase_pucchs).map F := by
    intro x; cases x <;> simp [hF]
  rw [h1 o', h1 o, h]

theorem allocate_dl_grant_failure_frame {a : ue_cell_grid_allocator} {g : ue_pdsch_grant}
    {c : alloc_failure} (h : (allocate_dl_grant a g).exit = .failure c) :
    (∀ k j, ((allocate_dl_grant a g).st.slot_at k j).map erase_pucchs =
      (a.slot_at k j).map erase_pucchs) ∧
    (∀ k, (allocate_dl_grant a g).st.pdcch_records k = a.pdcch_records k) ∧
    (allocate_dl_grant a g).st.ues = a.ues := by
  have hsame : (allocate_dl_grant a g).st = a →
      (∀ k j, ((allocate_dl_grant a g).st.slot_at k j).map erase_pucchs =
        (a.slot_at k j).map erase_pucchs) ∧
      (∀ k, (allocate_dl_grant a g).st.pdcch_records k = a.pdcch_records k) ∧
      (allocate_dl_grant a g).st.ues = a.ues := by
    intro hst
    rw [hst]
    exact ⟨fun _ _ => rfl, fun _ => rfl, rfl⟩
  cases hb : c.before_pdcch with
  | true => exact hsame (allocate_dl_grant_early h hb).1
  | false =>
    cases c <;> simp only [alloc_failure.before_pdcch] at hb <;> try cases hb
    · exact hsame (allocate_dl_grant_no_pdcch h).1
    · exact hsame (allocate_dl_grant_no_pucch h).1
    · obtain ⟨ctx, k1, uci', R, uci_calls, hpre, _, _, _, hframe, hst, _, _⟩ :=
        allocate_dl_grant_no_mcs h
      have pre := dl_grant_prechecks_ok hpre
      rw [hst]
      exact ⟨fun k j => slot_at_set_cell_frame pre.h_cell hframe erase_pucchs (fun _ => rfl) k j,
        fun k => @pdcch_records_set_cell a g.cell_index ctx.cell
          { ctx.cell with uci_alloc := uci', cell_alloc := R } pre.h_cell rfl k,
        set_cell_ues _ _ _⟩

theorem allocate_ul_grant_failure_state {a : ue_cell_grid_allocator} {g : ue_pusch_grant}
    {c : alloc_failure} (h : (allocate_ul_grant a g).exit = .failure c) :
    (allocate_ul_grant a g).st = a := by
  rcases allocate_ul_grant_failure_cases h with hb | hb | hb
  · exact (allocate_ul_grant_early h hb).1
  · subst hb; exact (allocate_ul_grant_no_pdcch h).1
  · subst hb; exact (allocate_ul_grant_no_mcs h).1

theorem ret_false_iff (run : alloc_run) : run.ret = some false ↔ ∃ c, run.exit = .failure c := by
  unfold alloc_run.ret
  cases run.exit <;> simp [alloc_exit.ret]

theorem ret_true_iff (run : alloc_run) : run.ret = some true ↔ run.exit = .success := by
  unfold alloc_run.ret
  cases run.exit <;> simp [alloc_exit.ret]

theorem slot_at_other_cell {a b : ue_cell_grid_allocator} {k : Nat}
    (h : b.cells.getD k none = a.cells.getD k none) (j : Nat) : b.slot_at k j = a.slot_at k j := by
  unfold ue_cell_grid_allocator.slot_at
  rw [h]

theorem dl_done_lists {a : ue_cell_grid_allocator} {g : ue_pdsch_grant} {run : alloc_run}
    {ctx : dl_grant_ctx} {cand : grant_info} {k1 : Nat} {uci : uci_allocation}
    {pdsch_cfg : pdsch_config_params} {mcs_tbs : sch_mcs_tbs} {rv : Nat} {dci : dci_dl_info}
    {pdsch : pdsch_information}
    (d : dl_grant_done a g run ctx cand k1 uci pdsch_cfg mcs_tbs rv dci pdsch) :
    run.st.dl_pdcchs_at g.cell_index 0 = a.dl_pdcchs_at g.cell_index 0 ++
      [⟨ctx.u.crnti, ctx.ss_info.cfg_id, g.aggr_lvl, k1, some dci⟩] ∧
    run.st.ue_grants_at g.cell_index ctx.pdsch_td_cfg.k0 =
      a.ue_grants_at g.cell_index ctx.pdsch_td_cfg.k0 ++
        [dl_grant_msg g ctx k1
          ((dl_alloc_harq ctx.h_dl ctx.pdsch_alloc.slot k1 a.expert_cfg.max_nof_harq_retxs
              uci.dai).save_alloc_params dci.type pdsch) pdsch] ∧
    (∀ k j, (k, j) ≠ (g.cell_index, 0) → run.st.dl_pdcchs_at k j = a.dl_pdcchs_at k j) ∧
    (∀ k j, (k, j) ≠ (g.cell_index, ctx.pdsch_td_cfg.k0) →
      run.st.ue_grants_at k j = a.ue_grants_at k j) ∧
    (∀ k j, run.st.ul_pdcchs_at k j = a.ul_pdcchs_at k j) ∧
    (∀ k j, run.st.puschs_at k j = a.puschs_at k j) := by
  have h0 : a.slot_at g.cell_index 0 = some ctx.pdcch_alloc := by
    rw [slot_at_of_cell d.pre.h_cell]; exact d.pre.h_pdcch_alloc
  have hk0 : a.slot_at g.cell_index ctx.pdsch_td_cfg.k0 = some ctx.pdsch_alloc := by
    rw [slot_at_of_cell d.pre.h_cell]; exact d.pre.h_pdsch_alloc
  have hother : ∀ k, k ≠ g.cell_index → ∀ j, run.st.slot_at k j = a.slot_at k j :=
    fun k hk j => slot_at_other_cell (d.h_other_cells k hk) j
  refine ⟨?_, ?_, ?_, ?_, ?_, ?_⟩
  · obtain ⟨p, hp⟩ := d.h_slots 0
    unfold ue_cell_grid_allocator.dl_pdcchs_at
    rw [hp, h0]
    simp [dl_final_slot]
  · obtain ⟨p, hp⟩ := d.h_slots ctx.pdsch_td_cfg.k0
    unfold ue_cell_grid_allocator.ue_grants_at
    rw [hp, hk0]
    simp [dl_final_slot]
  · intro k j hkj
    unfold ue_cell_grid_allocator.dl_pdcchs_at
    by_cases hk : k = g.cell_index
    · subst hk
      have hj : j ≠ 0 := fun hj => hkj (by rw [hj])
      obtain ⟨p, hp⟩ := d.h_slots j
      rw [hp]
      cases a.slot_at g.cell_index j <;> simp [dl_final_slot, hj]
    · rw [hother k hk]
  · intro k j hkj
    unfold ue_cell_grid_allocator.ue_grants_at
    by_cases hk : k = g.cell_index
    · subst hk
      have hj : j ≠ ctx.pdsch_td_cfg.k0 := fun hj => hkj (by rw [hj])
      obtain ⟨p, hp⟩ := d.h_slots j
      rw [hp]
      cases a.slot_at g.cell_index j <;> simp [dl_final_slot, hj]
    · rw [hother k hk]
  · intro k j
    unfold ue_cell_grid_allocator.ul_pdcchs_at
    by_cases hk : k = g.cell_index
    · subst hk
      obtain ⟨p, hp⟩ := d.h_slots j
      rw [hp]
      cases a.slot_at g.cell_index j <;> simp [dl_final_slot]
    · rw [hother k hk]
  · intro k j
    unfold ue_cell_grid_allocator.puschs_at
    by_cases hk : k = g.cell_index
    · subst hk
      obtain ⟨p, hp⟩ := d.h_slots j
      rw [hp]
      cases a.slot_at g.cell_index j <;> simp [dl_final_slot]
    · rw [hother k hk]

theorem multiplex_uci_on_pusch_frame (msg : ul_sched_info) (sa : cell_slot_resource_allocator)
    (crnti : Nat) :
    erase_pucchs (multiplex_uci_on_pusch msg sa crnti).2 = erase_pucchs sa ∧
    (multiplex_uci_on_pusch msg sa crnti).1.pusch_cfg = msg.pusch_cfg ∧
    (multiplex_uci_on_pusch msg sa crnti).1.ue_index = msg.ue_index := by
  unfold multiplex_uci_on_pusch
  cases sa.result.ul.pucchs.find? (fun q => q.crnti == crnti) <;> simp [erase_pucchs]

theorem ul_done_lists {a : ue_cell_grid_allocator} {g : ue_pusch_grant} {run : alloc_run}
    {ctx : ul_grant_ctx} {cand : grant_info} {mcs_tbs : sch_mcs_tbs} {dai rv : Nat}
    {dci : dci_ul_info}
    (d : ul_grant_done a g run ctx cand mcs_tbs dai rv dci) :
    run.st.ul_pdcchs_at g.cell_index 0 = a.ul_pdcchs_at g.cell_index 0 ++
      [⟨ctx.u.crnti, ctx.ss_info.cfg_id, g.aggr_lvl, some dci⟩] ∧
    (∃ msg : ul_sched_info,
      run.st.puschs_at g.cell_index ctx.pusch_td_cfg.k2 =
        a.puschs_at g.cell_index ctx.pusch_td_cfg.k2 ++ [msg] ∧
      msg.pusch_cfg = build_pusch dci
        (get_pusch_config ctx.ss_info.get_crnti_ul_dci_format ctx.pusch_td_cfg) mcs_tbs
        ctx.u.crnti g.crbs
        (ul_alloc_harq ctx.h_ul ctx.pusch_alloc.slot a.expert_cfg.max_nof_harq_retxs)) ∧
    (∀ k j, (k, j) ≠ (g.cell_index, 0) → run.st.ul_pdcchs_at k j = a.ul_pdcchs_at k j) ∧
    (∀ k j, (k, j) ≠ (g.cell_index, ctx.pusch_td_cfg.k2) →
      run.st.puschs_at k j = a.puschs_at k j) ∧
    (∀ k j, run.st.dl_pdcchs_at k j = a.dl_pdcchs_at k j) ∧
    (∀ k j, run.st.ue_grants_at k j = a.ue_grants_at k j) := by
  have hpd : pdcch_delay_in_slots + ctx.pusch_td_cfg.k2 = ctx.pusch_td_cfg.k2 := by
    simp [pdcch_delay_in_slots]
  have h0 : a.slot_at g.cell_index 0 = some ctx.pdcch_alloc := by
    rw [slot_at_of_cell d.pre.h_cell]; exact d.pre.h_pdcch_alloc
  have hk2 : a.slot_at g.cell_index ctx.pusch_td_cfg.k2 = some ctx.pusch_alloc := by
    rw [slot_at_of_cell d.pre.h_cell, ← hpd]; exact d.pre.h_pusch_alloc
  have hother : ∀ k, k ≠ g.cell_index → ∀ j, run.st.slot_at k j = a.slot_at k j :=
    fun k hk j => slot_at_other_cell (d.h_other_cells k hk) j
  have hs := d.h_slots
  rw [hpd] at hs
  have hpuschs : ∀ (m : ul_sched_info) (sa : cell_slot_resource_allocator),
      (emplace_pusch m ctx.u.crnti sa).result.ul.puschs =
        sa.result.ul.puschs ++ [(multiplex_uci_on_pusch m sa ctx.u.crnti).1] ∧
      (emplace_pusch m ctx.u.crnti sa).result.dl = sa.result.dl := by
    intro m sa
    have h1 := congrArg (fun s => s.result.ul.puschs) (multiplex_uci_on_pusch_frame m sa ctx.u.crnti).1
    have h2 := congrArg (fun s => s.result.dl) (multiplex_uci_on_pusch_frame m sa ctx.u.crnti).1
    simp only [erase_pucchs] at h1 h2
    simp only [emplace_pusch, h1, h2, and_self]
  refine ⟨?_, ?_, ?_, ?_, ?_, ?_⟩
  · unfold ue_cell_grid_allocator.ul_pdcchs_at
    rw [hs 0, h0]
    by_cases hz : 0 = ctx.pusch_td_cfg.k2
    · simp [ul_final_slot, ← hz, (hpuschs _ _).2]
    · simp [ul_final_slot, hz]
  · unfold ue_cell_grid_allocator.puschs_at
    rw [hs ctx.pusch_td_cfg.k2, hk2]
    simp only [ul_final_slot, if_true, Option.map_some', Option.getD_some, (hpuschs _ _).1]
    exact ⟨_, rfl, (multiplex_uci_on_pusch_frame _ _ ctx.u.crnti).2.1⟩
  · intro k j hkj
    unfold ue_cell_grid_allocator.ul_pdcchs_at
    by_cases hk : k = g.cell_index
    · subst hk
      have hj : j ≠ 0 := fun hj => hkj (by rw [hj])
      rw [hs j]
      cases a.slot_at g.cell_index j with
      | none => rfl
      | some sa =>
        by_cases hz : j = ctx.pusch_td_cfg.k2
        · subst hz
          simp [ul_final_slot, hj, (hpuschs _ _).2]
        · simp [ul_final_slot, hz, hj]
    · rw [hother k hk]
  · intro k j hkj
    unfold ue_cell_grid_allocator.puschs_at
    by_cases hk : k = g.cell_index
    · subst hk
      have hj : j ≠ ctx.pusch_td_cfg.k2 := fun hj => hkj (by rw [hj])
      rw [hs j]
      cases a.slot_at g.cell_index j <;> simp [ul_final_slot, hj]
    · rw [hother k hk]
  · intro k j
    unfold ue_cell_grid_allocator.dl_pdcchs_at
    by_cases hk : k = g.cell_index
    · subst hk
      rw [hs j]
      cases a.slot_at g.cell_index j with
      | none => rfl
      | some sa =>
        by_cases hz : j = ctx.pusch_td_cfg.k2
        · subst hz
          simp [ul_final_slot, (hpuschs _ _).2]
        · simp [ul_final_slot, hz]
    · rw [hother k hk]
  · intro k j
    unfold ue_cell_grid_allocator.ue_grants_at
    by_cases hk : k = g.cell_index
    · subst hk
      rw [hs j]
      cases a.slot_at g.cell_index j with
      | none => rfl
      | some sa =>
        by_cases hz : j = ctx.pusch_td_cfg.k2
        · subst hz
          simp [ul_final_slot, (hpuschs _ _).2]
        · simp [ul_final_slot, hz]
    · rw [hother k hk]

/-! ## What the builders put in the DCI and in the PDU -/

theorem build_dl_dci_fields {dci_type : dci_dl_rnti_config_type} {ss : search_space_info}
    {g : ue_pdsch_grant} {k1 : Nat} {uci : uci_allocation} {mcs rv : Nat} {h : dl_harq_process}
    {dci : dci_dl_info} (hd : build_dl_dci dci_type ss g k1 uci mcs rv h = some dci) :
    dci.type = dci_type ∧ dci.time_resource = g.time_res_index ∧ dci.mcs = mcs ∧ dci.rv = rv ∧
    dci.harq_id = h.id ∧
    dci.rbs = (if dci.type = .c_rnti_f1_1 then crb_to_prb ss.dl_crb_lims g.crbs else g.crbs) := by
  unfold build_dl_dci at hd
  cases dci_type <;> simp at hd <;> subst hd <;> simp

theorem build_pdsch_fields {dci : dci_dl_info} {cfg : pdsch_config_params} {mcs_tbs : sch_mcs_tbs}
    {crnti : Nat} {crbs : interval} {h : dl_harq_process} {pdsch : pdsch_information}
    (hp : build_pdsch dci cfg mcs_tbs crnti crbs h = some pdsch) :
    pdsch.rnti = crnti ∧ pdsch.rbs = crbs ∧ pdsch.symbols = cfg.symbols ∧
    pdsch.tb_size_bytes = mcs_tbs.tbs ∧ pdsch.rv = dci.rv ∧ pdsch.dci_fmt = dci.type ∧
    pdsch.mcs = (if dci.type = .c_rnti_f1_1 then mcs_tbs.mcs else dci.mcs) := by
  unfold build_pdsch at hp
  cases ht : dci.type <;> simp [ht] at hp <;> subst hp <;> simp

theorem get_pdsch_config_symbols {dci_type : dci_dl_rnti_config_type}
    {td : pdsch_time_domain_resource_allocation} {cfg : pdsch_config_params}
    (h : get_pdsch_config dci_type td = some cfg) : cfg.symbols = td.symbols := by
  unfold get_pdsch_config at h
  cases dci_type <;> simp at h <;> subst h <;> rfl

theorem build_ul_dci_fields {dci_type : dci_ul_rnti_config_type} {ue_cc : ue_cell}
    {g : ue_pusch_grant} {mcs rv : Nat} {h : ul_harq_process} {dai : Nat} {dci : dci_ul_info}
    (hd : build_ul_dci dci_type ue_cc g mcs rv h dai = some dci) :
    dci.type = dci_type ∧ dci.time_resource = g.time_res_index ∧ dci.mcs = mcs ∧ dci.rv = rv ∧
    dci.harq_id = h.id ∧ dci.crbs = g.crbs ∧
    dci.dai = (if dci_type = .c_rnti_f0_1 then some dai else none) := by
  unfold build_ul_dci at hd
  cases dci_type with
  | tc_rnti_f0_0 =>
    cases h1 : ue_cc.cfg.bwp_lookup 0 <;> cases h2 : ue_cc.cfg.bwp_lookup ue_cc.active_bwp_id <;>
      simp [h1, h2] at hd
    subst hd; simp
  | c_rnti_f0_0 => simp at hd; subst hd; simp
  | c_rnti_f0_1 => simp at hd; subst hd; simp

theorem build_pusch_fields (dci : dci_ul_info) (cfg : pusch_config_params) (mcs_tbs : sch_mcs_tbs)
    (crnti : Nat) (crbs : interval) (h : ul_harq_process) :
    (build_pusch dci cfg mcs_tbs crnti crbs h).rnti = crnti ∧
    (build_pusch dci cfg mcs_tbs crnti crbs h).rbs = crbs ∧
    (build_pusch dci cfg mcs_tbs crnti crbs h).symbols = cfg.symbols ∧
    (build_pusch dci cfg mcs_tbs crnti crbs h).tb_size_bytes = mcs_tbs.tbs ∧
    (build_pusch dci cfg mcs_tbs crnti crbs h).rv = dci.rv ∧
    (build_pusch dci cfg mcs_tbs crnti crbs h).dci_fmt = dci.type ∧
    (build_pusch dci cfg mcs_tbs crnti crbs h).mcs =
      (if dci.type = .c_rnti_f0_1 then mcs_tbs.mcs else dci.mcs) := by
  unfold build_pusch
  cases ht : dci.type <;> simp

theorem get_pusch_config_symbols (fmt : dci_ul_rnti_config_type)
    (td : pusch_time_domain_resource_allocation) : (get_pusch_config fmt td).symbols = td.symbols := by
  cases fmt <;> rfl

theorem dl_ctx_of_grant {a : ue_cell_grid_allocator} {g : ue_pdsch_grant} {ctx : dl_grant_ctx}
    (pre : dl_prechecks_ok a g ctx) :
    a.crnti_of g.user_ue_index = some ctx.u.crnti ∧
    a.search_space_of g.user_ue_index g.cell_index g.ss_id = some ctx.ss_info := by
  simp only [ue_cell_grid_allocator.crnti_of, ue_cell_grid_allocator.search_space_of, pre.h_ue,
    Option.map_some', Option.some_bind, pre.h_ue_cc, pre.h_ss, and_self]

theorem ul_ctx_of_grant {a : ue_cell_grid_allocator} {g : ue_pusch_grant} {ctx : ul_grant_ctx}
    (pre : ul_prechecks_ok a g ctx) :
    a.crnti_of g.user_ue_index = some ctx.u.crnti ∧
    a.search_space_of g.user_ue_index g.cell_index g.ss_id = some ctx.ss_info := by
  simp only [ue_cell_grid_allocator.crnti_of, ue_cell_grid_allocator.search_space_of, pre.h_ue,
    Option.map_some', Option.some_bind, pre.h_ue_cc, pre.h_ss, and_self]

/-! ## The fill of the PDSCH span -/

theorem no_double_fill_bind {α β : Type} {x : precheck α} {f : α → precheck β}
    (hx : x.no_double_fill) (hf : ∀ v, (f v).no_double_fill) : (x >>= f).no_double_fill := by
  intro h
  cases x with
  | abort c =>
    have hc : c = abort_cause.grid_double_fill := by
      injection (show (precheck.abort c : precheck β) = _ from h)
    exact hx (by rw [hc])
  | fail c => exact precheck.noConfusion (show (precheck.fail c : precheck β) = _ from h)
  | ok v => exact hf v (show f v = _ from h)

theorem no_double_fill_pure {α : Type} (x : α) : (pure x : precheck α).no_double_fill := by
  intro h; cases h

theorem no_double_fill_assert {α : Type} (o : Option α) (c : abort_cause)
    (hc : c ≠ .grid_double_fill) : (assert_some o c).no_double_fill := by
  intro h
  cases o with
  | none => simp only [assert_some] at h; injection h with h; exact hc h
  | some v => simp [assert_some] at h

theorem no_double_fill_require {α : Type} (o : Option α) (c : alloc_failure) :
    (require_some o c).no_double_fill := by
  intro h
  cases o <;> simp [require_some] at h

theorem no_double_fill_reject (b : Bool) (c : alloc_failure) : (reject_if b c).no_double_fill := by
  intro h
  cases b <;> simp [reject_if] at h

theorem dl_grant_prechecks_no_double_fill (a : ue_cell_grid_allocator) (g : ue_pdsch_grant) :
    dl_grant_prechecks a g ≠ .abort .grid_double_fill := by
  have key : (dl_grant_prechecks a g).no_double_fill := by
    unfold dl_grant_prechecks
    repeat' first
      | exact no_double_fill_pure _
      | exact no_double_fill_assert _ _ (by decide)
      | exact no_double_fill_require _ _
      | exact no_double_fill_reject _ _
      | apply no_double_fill_bind
      | intro _
  exact key

theorem dl_grant_mcs_double_fill {a : ue_cell_grid_allocator} {grant : ue_pdsch_grant}
    {ctx : dl_grant_ctx} {cell2 : cell_t} {k1 : Nat} {uci : uci_allocation}
    {calls : List call_event}
    (h : (dl_grant_mcs a grant ctx cell2 k1 uci calls).exit = .abort .grid_double_fill) :
    ∃ pdsch_alloc, cell2.cell_alloc.at_offset ctx.pdsch_td_cfg.k0 = some pdsch_alloc ∧
      pdsch_alloc.dl_res_grid.collides ctx.bwp_dl_cmn.dl_scs ctx.pdsch_td_cfg.symbols grant.crbs
        = true := by
  cases h1 : get_pdsch_config ctx.dci_type ctx.pdsch_td_cfg with
  | none => simp [dl_grant_mcs, h1] at h
  | some pdsch_cfg =>
    cases h2 : cell2.cell_alloc.at_offset ctx.pdsch_td_cfg.k0 with
    | none => simp [dl_grant_mcs, h1, h2] at h
    | some pdsch_alloc =>
      cases h3 : (if ctx.h_dl.empty then
           a.compute_dl_mcs_tbs pdsch_cfg ctx.ue_cc.cfg
             (adjust_mcs_for_csi_rs grant.mcs pdsch_alloc.result.dl.csi_rs) grant.crbs.length
         else some ⟨ctx.h_dl.last_alloc_params.mcs, ctx.h_dl.last_alloc_params.tbs_bytes⟩) with
      | none => simp [dl_grant_mcs, h1, h2, h3] at h
      | some mcs_tbs =>
        have heq : dl_grant_mcs a grant ctx cell2 k1 uci calls =
            dl_grant_commit a grant ctx cell2 pdsch_alloc k1 uci pdsch_cfg mcs_tbs calls := by
          simp [dl_grant_mcs, h1, h2, h3]
        rw [heq] at h
        exact ⟨pdsch_alloc, rfl, dl_grant_commit_double_fill h⟩

theorem dl_grant_uci_double_fill {a : ue_cell_grid_allocator} {g : ue_pdsch_grant}
    {ctx : dl_grant_ctx} {cell1 : cell_t} {calls : List call_event}
    (h : (dl_grant_uci a g ctx cell1 calls).exit = .abort .grid_double_fill) :
    ∃ (k1 : Nat) (res : uci_allocation × uci_allocator × cell_resource_allocator)
      (pa2 : cell_slot_resource_allocator),
      alloc_uci_harq_ue cell1.uci_alloc cell1.cell_alloc ctx.u.crnti ctx.pdsch_td_cfg.k0 k1
        = some res ∧
      (({ cell1 with uci_alloc := res.2.1, cell_alloc := res.2.2 } : cell_t).modify_dl_pdcch
          (fun pd => { pd with harq_feedback_timing := k1 })).cell_alloc.at_offset
            ctx.pdsch_td_cfg.k0 = some pa2 ∧
      pa2.dl_res_grid.collides ctx.bwp_dl_cmn.dl_scs ctx.pdsch_td_cfg.symbols g.crbs = true := by
  generalize hlp : dl_uci_k1_loop ctx.ue_cc.cfg.cell_cfg_common ctx.u ctx.pdsch_td_cfg.k0
    ctx.pdsch_alloc.slot cell1 ctx.ss_info.get_k1_candidates = lp
  have hu : dl_grant_uci a g ctx cell1 calls =
      if lp.aborted then
        ⟨.abort .index_out_of_bounds, calls ++ lp.calls, a.set_cell g.cell_index lp.cell⟩
      else if !lp.uci.alloc_successful then
        ⟨.failure .no_pucch_space, calls ++ lp.calls ++ [.cancel_last_pdcch],
         a.set_cell g.cell_index lp.cell.cancel_last_pdcch⟩
      else dl_grant_mcs a g ctx lp.cell lp.k1 lp.uci (calls ++ lp.calls) := by
    unfold dl_grant_uci
    simp only [hlp]
  rw [hu] at h
  cases hab : lp.aborted with
  | true => simp [hab] at h
  | false =>
    cases hs : lp.uci.alloc_successful with
    | false => simp [hab, hs] at h
    | true =>
      simp only [hab, hs, Bool.false_eq_true, if_false, Bool.not_true] at h
      have hok := dl_uci_k1_loop_spec ctx.ue_cc.cfg.cell_cfg_common ctx.u ctx.pdsch_td_cfg.k0
        ctx.pdsch_alloc.slot ctx.ss_info.get_k1_candidates cell1 (by rw [hlp]; exact hab)
      rw [hlp] at hok
      obtain ⟨_, res, hres, _, hcell⟩ := hok.2 hs
      obtain ⟨pa2, hpa, hcol⟩ := dl_grant_mcs_double_fill h
      rw [hcell] at hpa
      exact ⟨lp.k1, res, pa2, hres, hpa, hcol⟩

/-! ## Grants refused by the validation -/

theorem dl_refused_by_validation {a : ue_cell_grid_allocator} {g : ue_pdsch_grant}
    (hno : ∀ ctx, ¬ dl_prechecks_ok a g ctx) :
    (allocate_dl_grant a g).ret ≠ some true ∧
    ((allocate_dl_grant a g).ret ≠ none →
      (allocate_dl_grant a g).ret = some false ∧ (allocate_dl_grant a g).st = a ∧
      (allocate_dl_grant a g).calls = []) := by
  have h1 : (allocate_dl_grant a g).ret ≠ some true := by
    intro h
    obtain ⟨ctx, hctx, _⟩ := allocate_dl_grant_ok ((ret_true_iff _).1 h)
    exact hno ctx (dl_grant_prechecks_ok hctx)
  refine ⟨h1, fun h2 => ?_⟩
  cases hex : (allocate_dl_grant a g).exit with
  | success => exact absurd ((ret_true_iff _).2 hex) h1
  | abort c => exact absurd (by simp [alloc_run.ret, hex, alloc_exit.ret]) h2
  | failure c =>
    have hb : c.before_pdcch = true := by
      cases hb : c.before_pdcch with
      | true => rfl
      | false =>
        obtain ⟨ctx, hctx, _⟩ := allocate_dl_grant_late hex hb
        exact absurd (dl_grant_prechecks_ok hctx) (hno ctx)
    exact ⟨(ret_false_iff _).2 ⟨c, hex⟩, allocate_dl_grant_early hex hb⟩

theorem ul_refused_by_validation {a : ue_cell_grid_allocator} {g : ue_pusch_grant}
    (hno : ∀ ctx, ¬ ul_prechecks_ok a g ctx) :
    (allocate_ul_grant a g).ret ≠ some true ∧
    ((allocate_ul_grant a g).ret ≠ none →
      (allocate_ul_grant a g).ret = some false ∧ (allocate_ul_grant a g).st = a ∧
      (allocate_ul_grant a g).calls = []) := by
  have h1 : (allocate_ul_grant a g).ret ≠ some true := by
    intro h
    obtain ⟨ctx, hctx, _⟩ := allocate_ul_grant_ok ((ret_true_iff _).1 h)
    exact hno ctx (ul_grant_prechecks_ok hctx)
  refine ⟨h1, fun h2 => ?_⟩
  cases hex : (allocate_ul_grant a g).exit with
  | success => exact absurd ((ret_true_iff _).2 hex) h1
  | abort c => exact absurd (by simp [alloc_run.ret, hex, alloc_exit.ret]) h2
  | failure c =>
    have hb : c.before_pdcch = true := by
      cases hb : c.before_pdcch with
      | true => rfl
      | false =>
        obtain ⟨ctx, hctx, _⟩ := allocate_ul_grant_late hex hb
        exact absurd (ul_grant_prechecks_ok hctx) (hno ctx)
    exact ⟨(ret_false_iff _).2 ⟨c, hex⟩, allocate_ul_grant_early hex hb⟩

/-! ## Order of the k1 candidates -/

theorem dl_uci_k1_loop_order (cell_cfg : cell_configuration) (u : ue) (k0 : Nat)
    (pdsch_slot : slot_point) (ks : List Nat) (cell : cell_t) :
    ∃ tried : List Nat,
      (dl_uci_k1_loop cell_cfg u k0 pdsch_slot cell ks).calls =
        tried.map (fun k => call_event.alloc_uci_harq_ue u.crnti k0 k) ∧
      tried.Sublist ks ∧
      (∀ k ∈ tried, cell_cfg.is_fully_ul_enabled (pdsch_slot.add k) = true ∧
        ∃ pcell, u.get_pcell = some pcell ∧
          csi_slot_harq_bits_full pcell cell (pdsch_slot.add k) u.crnti = some false) ∧
      ((dl_uci_k1_loop cell_cfg u k0 pdsch_slot cell ks).aborted = false →
        (dl_uci_k1_loop cell_cfg u k0 pdsch_slot cell ks).uci.alloc_successful = true →
        ∃ pre post tried0,
          ks = pre ++ (dl_uci_k1_loop cell_cfg u k0 pdsch_slot cell ks).k1 :: post ∧
          tried0.Sublist pre ∧
          tried = tried0 ++ [(dl_uci_k1_loop cell_cfg u k0 pdsch_slot cell ks).k1]) := by
  induction ks with
  | nil =>
    refine ⟨[], by simp [dl_uci_k1_loop], List.Sublist.refl _, by simp, ?_⟩
    intro _ hs
    simp [dl_uci_k1_loop] at hs
  | cons k rest ih =>
    obtain ⟨tried, hc, hsub, hen, hsucc⟩ := ih
    -- a candidate that is passed over
    have skip : dl_uci_k1_loop cell_cfg u k0 pdsch_slot cell (k :: rest) =
        dl_uci_k1_loop cell_cfg u k0 pdsch_slot cell rest →
        ∃ tried : List Nat,
          (dl_uci_k1_loop cell_cfg u k0 pdsch_slot cell (k :: rest)).calls =
            tried.map (fun k => call_event.alloc_uci_harq_ue u.crnti k0 k) ∧
          tried.Sublist (k :: rest) ∧
          (∀ k ∈ tried, cell_cfg.is_fully_ul_enabled (pdsch_slot.add k) = true ∧
            ∃ pcell, u.get_pcell = some pcell ∧
              csi_slot_harq_bits_full pcell cell (pdsch_slot.add k) u.crnti = some false) ∧
          ((dl_uci_k1_loop cell_cfg u k0 pdsch_slot cell (k :: rest)).aborted = false →
            (dl_uci_k1_loop cell_cfg u k0 pdsch_slot cell (k :: rest)).uci.alloc_successful = true →
            ∃ pre post tried0,
              k :: rest = pre ++ (dl_uci_k1_loop cell_cfg u k0 pdsch_slot cell (k :: rest)).k1 :: post ∧
              tried0.Sublist pre ∧
              tried = tried0 ++ [(dl_uci_k1_loop cell_cfg u k0 pdsch_slot cell (k :: rest)).k1]) := by
      intro heq
      rw [heq]
      refine ⟨tried, hc, List.Sublist.cons _ hsub, hen, fun ha hs => ?_⟩
      obtain ⟨pre, post, tried0, h1, h2, h3⟩ := hsucc ha hs
      exact ⟨k :: pre, post, tried0, congrArg (List.cons k) h1, List.Sublist.cons _ h2, h3⟩
    by_cases hul : cell_cfg.is_fully_ul_enabled (pdsch_slot.add k) = true
    · rcases Option.eq_none_or_eq_some u.get_pcell with hp | ⟨pcell, hp⟩
      · refine ⟨[], by simp [dl_uci_k1_loop, hul, hp], List.nil_sublist _, by simp, ?_⟩
        intro ha
        simp [dl_uci_k1_loop, hul, hp] at ha
      · cases hcsi : csi_slot_harq_bits_full pcell cell (pdsch_slot.add k) u.crnti with
        | none =>
          refine ⟨[], by simp [dl_uci_k1_loop, hul, hp, hcsi], List.nil_sublist _, by simp, ?_⟩
          intro ha
          simp [dl_uci_k1_loop, hul, hp, hcsi] at ha
        | some b =>
          cases b with
          | true => exact skip (by simp [dl_uci_k1_loop, hul, hp, hcsi])
          | false =>
            have hk : cell_cfg.is_fully_ul_enabled (pdsch_slot.add k) = true ∧
                ∃ pcell, u.get_pcell = some pcell ∧
                  csi_slot_harq_bits_full pcell cell (pdsch_slot.add k) u.crnti = some false :=
              ⟨hul, pcell, hp, hcsi⟩
            cases hal : alloc_uci_harq_ue cell.uci_alloc cell.cell_alloc u.crnti k0 k with
            | none =>
              refine ⟨[k], by simp [dl_uci_k1_loop, hul, hp, hcsi, hal],
                List.Sublist.cons₂ _ (List.nil_sublist _), ?_, ?_⟩
              · intro k' hk'
                rw [List.mem_singleton] at hk'
                rw [hk']
                exact hk
              · intro ha
                simp [dl_uci_k1_loop, hul, hp, hcsi, hal] at ha
            | some r =>
              cases hs : r.1.alloc_successful with
              | true =>
                have heq : dl_uci_k1_loop cell_cfg u k0 pdsch_slot cell (k :: rest) =
                    ⟨false, k, r.1,
                     ({ cell with uci_alloc := r.2.1, cell_alloc := r.2.2 } : cell_t).modify_dl_pdcch
                       (fun pd => { pd with harq_feedback_timing := k }),
                     [.alloc_uci_harq_ue u.crnti k0 k]⟩ := by
                  simp [dl_uci_k1_loop, hul, hp, hcsi, hal, hs]
                rw [heq]
                refine ⟨[k], rfl, List.Sublist.cons₂ _ (List.nil_sublist _), ?_, ?_⟩
                · intro k' hk'
                  rw [List.mem_singleton] at hk'
                  rw [hk']
                  exact hk
                · intro _ _
                  exact ⟨[], rest, [], rfl, List.Sublist.refl _, rfl⟩
              | false =>
                have hsame := (alloc_uci_harq_ue_frame hal).2 hs
                have hcell : ({ cell with uci_alloc := r.2.1, cell_alloc := r.2.2 } : cell_t) = cell := by
                  rw [hsame.1, hsame.2]
                have heq : dl_uci_k1_loop cell_cfg u k0 pdsch_slot cell (k :: rest) =
                    { dl_uci_k1_loop cell_cfg u k0 pdsch_slot cell rest with
                      calls := .alloc_uci_harq_ue u.crnti k0 k ::
                        (dl_uci_k1_loop cell_cfg u k0 pdsch_slot cell rest).calls } := by
                  simp [dl_uci_k1_loop, hul, hp, hcsi, hal, hs, hcell]
                rw [heq]
                refine ⟨k :: tried, by simp [hc], List.Sublist.cons₂ _ hsub, ?_, ?_⟩
                · intro k' hk'
                  rw [List.mem_cons] at hk'
                  rcases hk' with hk' | hk'
                  · rw [hk']; exact hk
                  · exact hen k' hk'
                · intro ha hs2
                  obtain ⟨pre, post, tried0, h1, h2, h3⟩ := hsucc ha hs2
                  exact ⟨k :: pre, post, k :: tried0, congrArg (List.cons k) h1,
                    List.Sublist.cons₂ _ h2, congrArg (List.cons k) h3⟩
    · exact skip (by simp [dl_uci_k1_loop, hul])

theorem uci_requests_append (l1 l2 : List call_event) :
    uci_requests (l1 ++ l2) = uci_requests l1 ++ uci_requests l2 := by
  simp [uci_requests, List.filterMap_append]

theorem uci_requests_map (crnti k0 : Nat) (ks : List Nat) :
    uci_requests (ks.map (fun k => call_event.alloc_uci_harq_ue crnti k0 k)) = ks := by
  induction ks with
  | nil => rfl
  | cons k rest ih =>
    simp only [List.map_cons, uci_requests, List.filterMap_cons] at ih ⊢
    rw [ih]

theorem dl_grant_commit_calls (a : ue_cell_grid_allocator) (grant : ue_pdsch_grant)
    (ctx : dl_grant_ctx) (cell2 : cell_t) (pdsch_alloc : cell_slot_resource_allocator) (k1 : Nat)
    (uci : uci_allocation) (pdsch_cfg : pdsch_config_params) (mcs_tbs : sch_mcs_tbs)
    (calls : List call_event) :
    (dl_grant_commit a grant ctx cell2 pdsch_alloc k1 uci pdsch_cfg mcs_tbs calls).calls =
      calls ++ [.dl_res_grid_fill ⟨ctx.bwp_dl_cmn.dl_scs, ctx.pdsch_td_cfg.symbols, grant.crbs⟩] := by
  unfold dl_grant_commit
  simp only
  split
  · rfl
  · split
    · rfl
    · split
      · rfl
      · split <;> rfl

theorem dl_grant_mcs_calls (a : ue_cell_grid_allocator) (grant : ue_pdsch_grant)
    (ctx : dl_grant_ctx) (cell2 : cell_t) (k1 : Nat) (uci : uci_allocation)
    (calls : List call_event) :
    ∃ tail, (dl_grant_mcs a grant ctx cell2 k1 uci calls).calls = calls ++ tail ∧
      uci_requests tail = [] := by
  cases h1 : get_pdsch_config ctx.dci_type ctx.pdsch_td_cfg with
  | none => exact ⟨[], by simp [dl_grant_mcs, h1], rfl⟩
  | some pdsch_cfg =>
    cases h2 : cell2.cell_alloc.at_offset ctx.pdsch_td_cfg.k0 with
    | none => exact ⟨[], by simp [dl_grant_mcs, h1, h2], rfl⟩
    | some pdsch_alloc =>
      cases h3 : (if ctx.h_dl.empty then
           a.compute_dl_mcs_tbs pdsch_cfg ctx.ue_cc.cfg
             (adjust_mcs_for_csi_rs grant.mcs pdsch_alloc.result.dl.csi_rs) grant.crbs.length
         else some ⟨ctx.h_dl.last_alloc_params.mcs, ctx.h_dl.last_alloc_params.tbs_bytes⟩) with
      | none => exact ⟨[.cancel_last_pdcch], by simp [dl_grant_mcs, h1, h2, h3], rfl⟩
      | some mcs_tbs =>
        have heq : dl_grant_mcs a grant ctx cell2 k1 uci calls =
            dl_grant_commit a grant ctx cell2 pdsch_alloc k1 uci pdsch_cfg mcs_tbs calls := by
          simp [dl_grant_mcs, h1, h2, h3]
        rw [heq, dl_grant_commit_calls]
        exact ⟨_, rfl, rfl⟩

theorem dl_grant_uci_calls (a : ue_cell_grid_allocator) (g : ue_pdsch_grant)
    (ctx : dl_grant_ctx) (cell1 : cell_t) (calls : List call_event) :
    ∃ tail, (dl_grant_uci a g ctx cell1 calls).calls =
        calls ++ (dl_uci_k1_loop ctx.ue_cc.cfg.cell_cfg_common ctx.u ctx.pdsch_td_cfg.k0
          ctx.pdsch_alloc.slot cell1 ctx.ss_info.get_k1_candidates).calls ++ tail ∧
      uci_requests tail = [] := by
  generalize hlp : dl_uci_k1_loop ctx.ue_cc.cfg.cell_cfg_common ctx.u ctx.pdsch_td_cfg.k0
    ctx.pdsch_alloc.slot cell1 ctx.ss_info.get_k1_candidates = lp
  have hu : dl_grant_uci a g ctx cell1 calls =
      if lp.aborted then
        ⟨.abort .index_out_of_bounds, calls ++ lp.calls, a.set_cell g.cell_index lp.cell⟩
      else if !lp.uci.alloc_successful then
        ⟨.failure .no_pucch_space, calls ++ lp.calls ++ [.cancel_last_pdcch],
         a.set_cell g.cell_index lp.cell.cancel_last_pdcch⟩
      else dl_grant_mcs a g ctx lp.cell lp.k1 lp.uci (calls ++ lp.calls) := by
    unfold dl_grant_uci
    simp only [hlp]
  rw [hu]
  cases hab : lp.aborted with
  | true => exact ⟨[], by simp, rfl⟩
  | false =>
    cases hs : lp.uci.alloc_successful with
    | false => exact ⟨[.cancel_last_pdcch], by simp, rfl⟩
    | true =>
      simp only [Bool.false_eq_true, if_false, Bool.not_true]
      exact dl_grant_mcs_calls a g ctx lp.cell lp.k1 lp.uci (calls ++ lp.calls)

theorem allocate_dl_grant_requests {a : ue_cell_grid_allocator} {g : ue_pdsch_grant}
    {ctx : dl_grant_ctx} (hpre : dl_grant_prechecks a g = .ok ctx) :
    uci_requests (allocate_dl_grant a g).calls = [] ∨
    ∃ r, alloc_dl_pdcch_ue ctx.cell.pdcch_sched ctx.pdcch_alloc ctx.u.crnti ctx.ss_info.cfg_id
        g.aggr_lvl = some r ∧
      uci_requests (allocate_dl_grant a g).calls =
        uci_requests (dl_uci_k1_loop ctx.ue_cc.cfg.cell_cfg_common ctx.u ctx.pdsch_td_cfg.k0
          ctx.pdsch_alloc.slot
          { ctx.cell with pdcch_sched := r.1, cell_alloc := ctx.cell.cell_alloc.set_offset 0 r.2 }
          ctx.ss_info.get_k1_candidates).calls := by
  have heq : allocate_dl_grant a g = dl_grant_alloc a g ctx := by
    simp [allocate_dl_grant, hpre]
  rw [heq]
  cases hal : alloc_dl_pdcch_ue ctx.cell.pdcch_sched ctx.pdcch_alloc ctx.u.crnti ctx.ss_info.cfg_id
      g.aggr_lvl with
  | none => left; simp [dl_grant_alloc, hal, uci_requests]
  | some r =>
    right
    have heq2 : dl_grant_alloc a g ctx = dl_grant_uci a g ctx
        { ctx.cell with pdcch_sched := r.1, cell_alloc := ctx.cell.cell_alloc.set_offset 0 r.2 }
        [.alloc_dl_pdcch_ue ctx.u.crnti ctx.ss_info.cfg_id g.aggr_lvl] := by
      simp [dl_grant_alloc, hal]
    obtain ⟨tail, ht, htail⟩ := dl_grant_uci_calls a g ctx
      { ctx.cell with pdcch_sched := r.1, cell_alloc := ctx.cell.cell_alloc.set_offset 0 r.2 }
      [.alloc_dl_pdcch_ue ctx.u.crnti ctx.ss_info.cfg_id g.aggr_lvl]
    refine ⟨r, rfl, ?_⟩
    rw [heq2, ht, uci_requests_append, uci_requests_append, htail, List.append_nil]
    rfl

theorem allocate_dl_grant_requests_none {a : ue_cell_grid_allocator} {g : ue_pdsch_grant}
    (hpre : ∀ ctx, dl_grant_prechecks a g ≠ .ok ctx) : (allocate_dl_grant a g).calls = [] := by
  unfold allocate_dl_grant
  cases h : dl_grant_prechecks a g with
  | abort c => rfl
  | fail c => rfl
  | ok ctx => exact absurd h (hpre ctx)

theorem allocate_dl_grant_success_loop {a : ue_cell_grid_allocator} {g : ue_pdsch_grant}
    {ctx : dl_grant_ctx} (hpre : dl_grant_prechecks a g = .ok ctx)
    (h : (allocate_dl_grant a g).exit = .success) :
    ∃ r, alloc_dl_pdcch_ue ctx.cell.pdcch_sched ctx.pdcch_alloc ctx.u.crnti ctx.ss_info.cfg_id
        g.aggr_lvl = some r ∧
      (dl_uci_k1_loop ctx.ue_cc.cfg.cell_cfg_common ctx.u ctx.pdsch_td_cfg.k0 ctx.pdsch_alloc.slot
        { ctx.cell with pdcch_sched := r.1, cell_alloc := ctx.cell.cell_alloc.set_offset 0 r.2 }
        ctx.ss_info.get_k1_candidates).aborted = false ∧
      (dl_uci_k1_loop ctx.ue_cc.cfg.cell_cfg_common ctx.u ctx.pdsch_td_cfg.k0 ctx.pdsch_alloc.slot
        { ctx.cell with pdcch_sched := r.1, cell_alloc := ctx.cell.cell_alloc.set_offset 0 r.2 }
        ctx.ss_info.get_k1_candidates).uci.alloc_successful = true ∧
      ∃ msgs m, (allocate_dl_grant a g).st.ue_grants_at g.cell_index ctx.pdsch_td_cfg.k0 =
          msgs ++ [m] ∧
        m.k1 = (dl_uci_k1_loop ctx.ue_cc.cfg.cell_cfg_common ctx.u ctx.pdsch_td_cfg.k0
          ctx.pdsch_alloc.slot
          { ctx.cell with pdcch_sched := r.1, cell_alloc := ctx.cell.cell_alloc.set_offset 0 r.2 }
          ctx.ss_info.get_k1_candidates).k1 := by
  have pre := dl_grant_prechecks_ok hpre
  have heq : allocate_dl_grant a g = dl_grant_alloc a g ctx := by
    simp [allocate_dl_grant, hpre]
  rw [heq] at h ⊢
  cases hal : alloc_dl_pdcch_ue ctx.cell.pdcch_sched ctx.pdcch_alloc ctx.u.crnti ctx.ss_info.cfg_id
      g.aggr_lvl with
  | none => simp [dl_grant_alloc, hal] at h
  | some r =>
    have heq2 : dl_grant_alloc a g ctx = dl_grant_uci a g ctx
        { ctx.cell with pdcch_sched := r.1, cell_alloc := ctx.cell.cell_alloc.set_offset 0 r.2 }
        [.alloc_dl_pdcch_ue ctx.u.crnti ctx.ss_info.cfg_id g.aggr_lvl] := by
      simp [dl_grant_alloc, hal]
    rw [heq2] at h ⊢
    refine ⟨r, rfl, ?_⟩
    generalize hlp : dl_uci_k1_loop ctx.ue_cc.cfg.cell_cfg_common ctx.u ctx.pdsch_td_cfg.k0
      ctx.pdsch_alloc.slot
      { ctx.cell with pdcch_sched := r.1, cell_alloc := ctx.cell.cell_alloc.set_offset 0 r.2 }
      ctx.ss_info.get_k1_candidates = lp
    obtain ⟨hna, hs, hrun⟩ := dl_grant_uci_success hlp h
    rw [hrun] at h ⊢
    obtain ⟨pdsch_cfg, pa2, mcs_tbs, hcfg, hpa2, hmcs, hrun2⟩ := dl_grant_mcs_success h
    rw [hrun2] at h ⊢
    obtain ⟨grid, rv, dci, pdsch, hfill, hrv, hdci, hpdsch, hrun3⟩ := dl_grant_commit_success h
    rw [hrun3]
    refine ⟨hna, hs, ?_⟩
    have hY : (lp.cell.modify_offset ctx.pdsch_td_cfg.k0
        (fun sa => { sa with dl_res_grid := grid })).cell_alloc.at_offset ctx.pdsch_td_cfg.k0 =
        some { pa2 with dl_res_grid := grid } := by
      rw [modify_offset_cell_alloc, if_pos rfl, hpa2]; rfl
    have hX : ∃ sa, ((lp.cell.modify_offset ctx.pdsch_td_cfg.k0
        (fun sa => { sa with dl_res_grid := grid })).modify_dl_pdcch
          (fun pd => { pd with dci := some dci })).cell_alloc.at_offset ctx.pdsch_td_cfg.k0 =
        some sa := by
      unfold cell_t.modify_dl_pdcch
      rw [modify_offset_cell_alloc]
      split
      · rw [hY]; exact ⟨_, rfl⟩
      · exact ⟨_, hY⟩
    obtain ⟨sa, hsa⟩ := hX
    refine ⟨sa.result.dl.ue_grants,
      dl_grant_msg g ctx lp.k1
        ((dl_alloc_harq ctx.h_dl pa2.slot lp.k1 a.expert_cfg.max_nof_harq_retxs
            lp.uci.dai).save_alloc_params dci.type pdsch) pdsch, ?_, rfl⟩
    unfold ue_cell_grid_allocator.ue_grants_at
    rw [slot_at_of_cell (set_cell_getD_self _ _ _ ctx.cell
      (show (a.set_ue _ _).cells.getD _ none = _ from pre.h_cell)),
      modify_offset_cell_alloc, if_pos rfl, hsa]
    rfl

theorem append_singleton_inj {α : Type} {l1 l2 : List α} {x y : α}
    (h : l1 ++ [x] = l2 ++ [y]) : x = y := by
  have := congrArg List.getLast? h
  simpa using this

/-! ## The loop over the k1 candidates stops at the first accepted request -/

theorem uci_requests_cons_request (crnti k0 k : Nat) (l : List call_event) :
    uci_requests (call_event.alloc_uci_harq_ue crnti k0 k :: l) = k :: uci_requests l := by
  simp [uci_requests]

theorem k1_loop_stops_skip {cell_cfg : cell_configuration} {u : ue} {k0 : Nat}
    {pdsch_slot : slot_point} {cell : cell_t} {k : Nat} {rest : List Nat} {lp : k1_loop_result}
    (hreq : k1_candidate_requested cell_cfg u pdsch_slot cell k = false)
    (h : k1_loop_stops_at_first cell_cfg u k0 pdsch_slot cell rest lp) :
    k1_loop_stops_at_first cell_cfg u k0 pdsch_slot cell (k :: rest) lp := by
  obtain ⟨i1, i2⟩ := h
  refine ⟨fun hs => ?_, fun hs => ?_⟩
  · obtain ⟨pre, post, h1, h2, h3, h4, h5⟩ := i1 hs
    refine ⟨k :: pre, post, by rw [List.cons_append, ← h1], ?_, h3, h4, ?_⟩
    · rw [List.filter_cons, hreq]
      exact h2
    · intro k' hk' hr
      rcases List.mem_cons.mp hk' with e | e
      · rw [e, hreq] at hr; cases hr
      · exact h5 k' e hr
  · obtain ⟨h1, h2⟩ := i2 hs
    refine ⟨?_, ?_⟩
    · rw [List.filter_cons, hreq]
      exact h1
    · intro k' hk' hr
      rcases List.mem_cons.mp hk' with e | e
      · rw [e, hreq] at hr; cases hr
      · exact h2 k' e hr

theorem k1_loop_stops_refused {cell_cfg : cell_configuration} {u : ue} {k0 : Nat}
    {pdsch_slot : slot_point} {cell : cell_t} {k : Nat} {rest : List Nat} {lp : k1_loop_result}
    (hreq : k1_candidate_requested cell_cfg u pdsch_slot cell k = true)
    (hacc : k1_request_accepted u k0 cell k = false)
    (h : k1_loop_stops_at_first cell_cfg u k0 pdsch_slot cell rest lp) :
    k1_loop_stops_at_first cell_cfg u k0 pdsch_slot cell (k :: rest)
      { lp with calls := .alloc_uci_harq_ue u.crnti k0 k :: lp.calls } := by
  obtain ⟨i1, i2⟩ := h
  refine ⟨fun hs => ?_, fun hs => ?_⟩
  · obtain ⟨pre, post, h1, h2, h3, h4, h5⟩ := i1 hs
    refine ⟨k :: pre, post, by rw [List.cons_append]; exact congrArg (List.cons k) h1, ?_, h3,
      h4, ?_⟩
    · show uci_requests (_ :: lp.calls) = _
      rw [uci_requests_cons_request, List.filter_cons, hreq, h2]
      rfl
    · intro k' hk' hr'
      rcases List.mem_cons.mp hk' with e | e
      · rw [e]; exact hacc
      · exact h5 k' e hr'
  · obtain ⟨h1, h2⟩ := i2 hs
    refine ⟨?_, ?_⟩
    · show uci_requests (_ :: lp.calls) = _
      rw [uci_requests_cons_request, List.filter_cons, hreq, h1]
      rfl
    · intro k' hk' hr'
      rcases List.mem_cons.mp hk' with e | e
      · rw [e]; exact hacc
      · exact h2 k' e hr'

/-- The loop over the k1 candidates, left without failed assertion, stops at the first
request that `alloc_uci_harq_ue` accepts. -/
theorem dl_uci_k1_loop_first_success (cell_cfg : cell_configuration) (u : ue) (k0 : Nat)
    (pdsch_slot : slot_point) (ks : List Nat) (cell : cell_t)
    (hna : (dl_uci_k1_loop cell_cfg u k0 pdsch_slot cell ks).aborted = false) :
    k1_loop_stops_at_first cell_cfg u k0 pdsch_slot cell ks
      (dl_uci_k1_loop cell_cfg u k0 pdsch_slot cell ks) := by
  induction ks with
  | nil =>
    refine ⟨fun hs => ?_, fun _ => ⟨by simp [dl_uci_k1_loop, uci_requests], fun k hk => (by cases hk)⟩⟩
    simp [dl_uci_k1_loop] at hs
  | cons k rest ih =>
    by_cases hen : (!cell_cfg.is_fully_ul_enabled (pdsch_slot.add k)) = true
    · have hreq : k1_candidate_requested cell_cfg u pdsch_slot cell k = false := by
        unfold k1_candidate_requested
        have : cell_cfg.is_fully_ul_enabled (pdsch_slot.add k) = false := by simpa using hen
        rw [this]; rfl
      have heq : dl_uci_k1_loop cell_cfg u k0 pdsch_slot cell (k :: rest) =
          dl_uci_k1_loop cell_cfg u k0 pdsch_slot cell rest := by
        rw [dl_uci_k1_loop]; simp only [if_pos hen]
      rw [heq] at hna ⊢
      exact k1_loop_stops_skip hreq (ih hna)
    · have hul : cell_cfg.is_fully_ul_enabled (pdsch_slot.add k) = true := by simpa using hen
      cases hp : u.get_pcell with
      | none => rw [dl_uci_k1_loop] at hna; simp [hen, hp] at hna
      | some pcell =>
        cases hc : csi_slot_harq_bits_full pcell cell (pdsch_slot.add k) u.crnti with
        | none => rw [dl_uci_k1_loop] at hna; simp [hen, hp, hc] at hna
        | some b =>
          cases b with
          | true =>
            have hreq : k1_candidate_requested cell_cfg u pdsch_slot cell k = false := by
              unfold k1_candidate_requested
              rw [hul, hp]
              simp only [hc]
              rfl
            have heq : dl_uci_k1_loop cell_cfg u k0 pdsch_slot cell (k :: rest) =
                dl_uci_k1_loop cell_cfg u k0 pdsch_slot cell rest := by
              rw [dl_uci_k1_loop]; simp only [if_neg hen, hp, hc]
            rw [heq] at hna ⊢
            exact k1_loop_stops_skip hreq (ih hna)
          | false =>
            have hreq : k1_candidate_requested cell_cfg u pdsch_slot cell k = true := by
              unfold k1_candidate_requested
              rw [hul, hp]
              simp only [hc]
              rfl
            cases ha : alloc_uci_harq_ue cell.uci_alloc cell.cell_alloc u.crnti k0 k with
            | none => rw [dl_uci_k1_loop] at hna; simp [hen, hp, hc, ha] at hna
            | some r =>
              by_cases hs : r.1.alloc_successful = true
              · have hacc : k1_request_accepted u k0 cell k = true := by
                  unfold k1_request_accepted
                  rw [ha]
                  exact hs
                have heq : dl_uci_k1_loop cell_cfg u k0 pdsch_slot cell (k :: rest) =
                    ⟨false, k, r.1,
                      ({ cell with uci_alloc := r.2.1, cell_alloc := r.2.2 } : cell_t).modify_dl_pdcch
                        (fun pd => { pd with harq_feedback_timing := k }),
                      [.alloc_uci_harq_ue u.crnti k0 k]⟩ := by
                  rw [dl_uci_k1_loop]; simp only [if_neg hen, hp, hc, ha, if_pos hs]
                rw [heq]
                refine ⟨fun _ => ⟨[], rest, rfl, by simp [uci_requests], hreq, hacc,
                  fun k' hk' => (by cases hk')⟩, fun hf => ?_⟩
                simp only at hf
                rw [hf] at hs
                cases hs
              · have hacc : k1_request_accepted u k0 cell k = false := by
                  unfold k1_request_accepted
                  rw [ha]
                  simpa using hs
                have hr := (alloc_uci_harq_ue_frame ha).2 (by simpa using hs)
                have hcell : ({ cell with uci_alloc := r.2.1, cell_alloc := r.2.2 } : cell_t) =
                    cell := by
                  rw [hr.1, hr.2]
                have heq : dl_uci_k1_loop cell_cfg u k0 pdsch_slot cell (k :: rest) =
                    { dl_uci_k1_loop cell_cfg u k0 pdsch_slot cell rest with
                      calls := .alloc_uci_harq_ue u.crnti k0 k ::
                        (dl_uci_k1_loop cell_cfg u k0 pdsch_slot cell rest).calls } := by
                  rw [dl_uci_k1_loop]; simp only [if_neg hen, hp, hc, ha, if_neg hs, hcell]
                rw [heq] at hna ⊢
                exact k1_loop_stops_refused hreq hacc (ih hna)

/-! ## Roll-back of a failed grant -/

/-- C1, counter-example: a new DL transmission (HARQ process 0 is empty) of one RB in the
demo scenario.  The PDCCH and the UCI reservation succeed, no MCS is found, the call
returns false after `cancel_last_pdcch` alone: the PDCCH list is as before, but the
HARQ-ACK bit count of the UE in the slot PDSCH+k1 (offset 4) went from 0 to 1 and the
PUCCH grant made for it is still in the result of that slot. -/
theorem no_mcs_keeps_uci_reservation :
    (demo_alloc.dl_harq_of 0 0 0).map dl_harq_process.empty = some true ∧
    (allocate_dl_grant demo_alloc (demo_dl_grant 0 ⟨0, 1⟩)).exit = .failure .no_mcs ∧
    (allocate_dl_grant demo_alloc (demo_dl_grant 0 ⟨0, 1⟩)).ret = some false ∧
    (allocate_dl_grant demo_alloc (demo_dl_grant 0 ⟨0, 1⟩)).calls =
      [.alloc_dl_pdcch_ue 17921 2 4, .alloc_uci_harq_ue 17921 0 4, .cancel_last_pdcch] ∧
    (allocate_dl_grant demo_alloc (demo_dl_grant 0 ⟨0, 1⟩)).st.dl_pdcchs_at 0 0 =
      demo_alloc.dl_pdcchs_at 0 0 ∧
    demo_alloc.harq_ack_bits 0 4 17921 = 0 ∧
    (allocate_dl_grant demo_alloc (demo_dl_grant 0 ⟨0, 1⟩)).st.harq_ack_bits 0 4 17921 = 1 ∧
    demo_alloc.pucchs_at 0 4 = [] ∧
    (allocate_dl_grant demo_alloc (demo_dl_grant 0 ⟨0, 1⟩)).st.pucchs_at 0 4 = [⟨17921, 1, 0⟩] ∧
    (allocate_dl_grant demo_alloc (demo_dl_grant 0 ⟨0, 1⟩)).st.uci_grid 0 ≠
      demo_alloc.uci_grid 0 := by
  decide

/-- C1, as amended: when `allocate_dl_grant` leaves through the "no MCS" exit, the HARQ
process of the grant was empty (a new transmission), the PDCCH and the UCI reservation
had both succeeded, and the call returns false after undoing the PDCCH reservation only:
the PDCCH list of every slot, the DL grid of every slot and the records of the PDCCH
allocator are equal to their values before the call, while the UCI reservation stays:
for the k1 that was accepted, the HARQ-ACK bit count of the UE in the slot PDSCH+k1 is
one more than before the call. -/
theorem no_mcs_undoes_pdcch_only (a : ue_cell_grid_allocator) (g : ue_pdsch_grant)
    (h : (allocate_dl_grant a g).exit = .failure .no_mcs) :
    (allocate_dl_grant a g).ret = some false ∧
    (∃ h_dl, a.dl_harq_of g.user_ue_index g.cell_index g.h_id = some h_dl ∧ h_dl.empty = true) ∧
    (∀ c j, (allocate_dl_grant a g).st.dl_pdcchs_at c j = a.dl_pdcchs_at c j) ∧
    (∀ c j, (allocate_dl_grant a g).st.dl_grid_at c j = a.dl_grid_at c j) ∧
    (∀ c, (allocate_dl_grant a g).st.pdcch_records c = a.pdcch_records c) ∧
    ∃ (ctx : dl_grant_ctx) (k1 : Nat) (uci_calls : List call_event),
      dl_grant_prechecks a g = .ok ctx ∧ k1 ∈ ctx.ss_info.get_k1_candidates ∧
      (allocate_dl_grant a g).calls =
        .alloc_dl_pdcch_ue ctx.u.crnti ctx.ss_info.cfg_id g.aggr_lvl :: uci_calls
          ++ [.cancel_last_pdcch] ∧
      (∀ e ∈ uci_calls, ∃ k, k ∈ ctx.ss_info.get_k1_candidates ∧
        e = .alloc_uci_harq_ue ctx.u.crnti ctx.pdsch_td_cfg.k0 k) ∧
      (allocate_dl_grant a g).st.harq_ack_bits g.cell_index (ctx.pdsch_td_cfg.k0 + k1) ctx.u.crnti =
        a.harq_ack_bits g.cell_index (ctx.pdsch_td_cfg.k0 + k1) ctx.u.crnti + 1 := by
  obtain ⟨ctx, k1, uci', R, uci_calls, hpre, hemp, hk1, ⟨sa, hsa, hcnt⟩, hframe, hst, hcalls, hev⟩ :=
    allocate_dl_grant_no_mcs h
  have pre := dl_grant_prechecks_ok hpre
  refine ⟨by simp [alloc_run.ret, h, alloc_exit.ret], ⟨ctx.h_dl, dl_harq_of_ctx pre, hemp⟩,
    ?_, ?_, ?_, ctx, k1, uci_calls, hpre, hk1, hcalls, hev, ?_⟩
  · intro c j
    unfold ue_cell_grid_allocator.dl_pdcchs_at
    rw [hst, slot_at_set_cell_frame pre.h_cell hframe (fun sa => sa.result.dl.dl_pdcchs)
      (fun _ => rfl)]
  · intro c j
    unfold ue_cell_grid_allocator.dl_grid_at
    rw [hst, slot_at_set_cell_frame pre.h_cell hframe (fun sa => sa.dl_res_grid) (fun _ => rfl)]
  · intro c
    rw [hst]
    exact @pdcch_records_set_cell a g.cell_index ctx.cell
      { ctx.cell with uci_alloc := uci', cell_alloc := R } pre.h_cell rfl c
  · rw [hst, harq_ack_bits_frame pre.h_cell hsa uci' hframe, harq_ack_bits_of_cell pre.h_cell hsa,
      hcnt]

/-- C1, the amended statement at the one-RB grant of the demo scenario. -/
theorem no_mcs_undoes_pdcch_only_demo :
    (allocate_dl_grant demo_alloc (demo_dl_grant 0 ⟨0, 1⟩)).ret = some false ∧
    (allocate_dl_grant demo_alloc (demo_dl_grant 0 ⟨0, 1⟩)).st.pdcch_records 0 =
      demo_alloc.pdcch_records 0 :=
  ⟨(no_mcs_undoes_pdcch_only demo_alloc (demo_dl_grant 0 ⟨0, 1⟩) (by decide)).1,
   (no_mcs_undoes_pdcch_only demo_alloc (demo_dl_grant 0 ⟨0, 1⟩) (by decide)).2.2.2.2.1 0⟩

/-- C2: a false return of `allocate_dl_grant` after a successful PDCCH reservation is the
"no PUCCH" exit (no k1 candidate gave a successful UCI allocation) or the "no MCS" exit;
for `allocate_ul_grant` it is the "no MCS" exit.  On each of them `cancel_last_pdcch` is
called exactly once, as the last call before returning, no grid is filled (no fill call is
made and the DL grids, for UL all grids, are as before), no PDSCH/PUSCH entry is appended,
the PDCCH lists are as before and no UE, hence no HARQ process, is updated.  The last part
says that `allocate_ul_grant` has no other false return after the PDCCH step. -/
theorem late_failure_cancels_pdcch_once (a : ue_cell_grid_allocator) (gd : ue_pdsch_grant)
    (gu : ue_pusch_grant) :
    (∀ c, (allocate_dl_grant a gd).exit = .failure c → c = .no_pucch_space ∨ c = .no_mcs →
      (allocate_dl_grant a gd).ret = some false ∧
      (allocate_dl_grant a gd).calls.count .cancel_last_pdcch = 1 ∧
      (allocate_dl_grant a gd).calls.getLast? = some .cancel_last_pdcch ∧
      (∃ rnti ss_id aggr_lvl,
        (allocate_dl_grant a gd).calls.head? = some (.alloc_dl_pdcch_ue rnti ss_id aggr_lvl)) ∧
      (∀ gi, call_event.dl_res_grid_fill gi ∉ (allocate_dl_grant a gd).calls ∧
        call_event.ul_res_grid_fill gi ∉ (allocate_dl_grant a gd).calls) ∧
      (∀ k j, (allocate_dl_grant a gd).st.dl_grid_at k j = a.dl_grid_at k j) ∧
      (∀ k j, (allocate_dl_grant a gd).st.ue_grants_at k j = a.ue_grants_at k j) ∧
      (∀ k j, (allocate_dl_grant a gd).st.puschs_at k j = a.puschs_at k j) ∧
      (∀ k j, (allocate_dl_grant a gd).st.dl_pdcchs_at k j = a.dl_pdcchs_at k j) ∧
      (∀ k, (allocate_dl_grant a gd).st.pdcch_records k = a.pdcch_records k) ∧
      (allocate_dl_grant a gd).st.ues = a.ues) ∧
    ((allocate_ul_grant a gu).exit = .failure .no_mcs →
      (allocate_ul_grant a gu).ret = some false ∧
      (allocate_ul_grant a gu).calls.count .cancel_last_pdcch = 1 ∧
      (allocate_ul_grant a gu).calls.getLast? = some .cancel_last_pdcch ∧
      (∃ rnti ss_id aggr_lvl,
        (allocate_ul_grant a gu).calls.head? = some (.alloc_ul_pdcch_ue rnti ss_id aggr_lvl)) ∧
      (∀ gi, call_event.dl_res_grid_fill gi ∉ (allocate_ul_grant a gu).calls ∧
        call_event.ul_res_grid_fill gi ∉ (allocate_ul_grant a gu).calls) ∧
      (allocate_ul_grant a gu).st = a) ∧
    (∀ c, (allocate_ul_grant a gu).exit = .failure c →
      c.before_pdcch = true ∨ c = .no_pdcch_space ∨ c = .no_mcs) := by
  have hcount : ∀ (x : call_event) (l : List call_event),
      (∀ e ∈ l, ∃ r k0 k, e = call_event.alloc_uci_harq_ue r k0 k) →
      (x :: l ++ [call_event.cancel_last_pdcch]).getLast? = some .cancel_last_pdcch ∧
      (x ≠ .cancel_last_pdcch → (x :: l ++ [call_event.cancel_last_pdcch]).count .cancel_last_pdcch = 1) ∧
      (∀ gi, x ≠ .dl_res_grid_fill gi → x ≠ .ul_res_grid_fill gi →
        call_event.dl_res_grid_fill gi ∉ (x :: l ++ [call_event.cancel_last_pdcch]) ∧
        call_event.ul_res_grid_fill gi ∉ (x :: l ++ [call_event.cancel_last_pdcch])) := by
    intro x l hl
    have hn : l.count call_event.cancel_last_pdcch = 0 := by
      rw [List.count_eq_zero]
      intro hm
      obtain ⟨r, k0, k, he⟩ := hl _ hm
      cases he
    have hne : ∀ e ∈ l, ∀ gi, e ≠ call_event.dl_res_grid_fill gi ∧
        e ≠ call_event.ul_res_grid_fill gi := by
      intro e he gi
      obtain ⟨r, k0, k, hk⟩ := hl e he
      subst hk
      exact ⟨by simp, by simp⟩
    refine ⟨List.getLast?_concat _, ?_, ?_⟩
    · intro hx
      rw [List.count_append, List.count_cons, hn]
      simp [hx]
    · intro gi h1 h2
      constructor
      · intro hm
        simp only [List.mem_cons, List.mem_append, List.mem_singleton, List.not_mem_nil,
          or_false] at hm
        rcases hm with (hm | hm) | hm
        · exact h1 hm.symm
        · exact (hne _ hm gi).1 rfl
        · cases hm
      · intro hm
        simp only [List.mem_cons, List.mem_append, List.mem_singleton, List.not_mem_nil,
          or_false] at hm
        rcases hm with (hm | hm) | hm
        · exact h2 hm.symm
        · exact (hne _ hm gi).2 rfl
        · cases hm
  refine ⟨?_, ?_, fun c h => allocate_ul_grant_failure_cases h⟩
  · intro c h hc
    have hret : (allocate_dl_grant a gd).ret = some false := by
      simp [alloc_run.ret, h, alloc_exit.ret]
    rcases hc with hc | hc
    · subst hc
      obtain ⟨hst, ctx, uci_calls, _, hcalls, hev⟩ := allocate_dl_grant_no_pucch h
      obtain ⟨h1, h2, h3⟩ := hcount (.alloc_dl_pdcch_ue ctx.u.crnti ctx.ss_info.cfg_id gd.aggr_lvl)
        uci_calls (fun e he => by
          obtain ⟨k, _, hk⟩ := hev e he
          exact ⟨_, _, _, hk⟩)
      rw [hcalls, hst]
      exact ⟨hret, h2 (by simp), h1, ⟨_, _, _, rfl⟩, fun gi => h3 gi (by simp) (by simp),
        fun _ _ => rfl, fun _ _ => rfl, fun _ _ => rfl, fun _ _ => rfl, fun _ => rfl, rfl⟩
    · subst hc
      obtain ⟨ctx, k1, uci', R, uci_calls, hpre, _, _, _, hframe, hst, hcalls, hev⟩ :=
        allocate_dl_grant_no_mcs h
      have pre := dl_grant_prechecks_ok hpre
      obtain ⟨h1, h2, h3⟩ := hcount (.alloc_dl_pdcch_ue ctx.u.crnti ctx.ss_info.cfg_id gd.aggr_lvl)
        uci_calls (fun e he => by
          obtain ⟨k, _, hk⟩ := hev e he
          exact ⟨_, _, _, hk⟩)
      rw [hcalls, hst]
      refine ⟨hret, h2 (by simp), h1, ⟨_, _, _, rfl⟩, fun gi => h3 gi (by simp) (by simp),
        ?_, ?_, ?_, ?_, ?_, set_cell_ues _ _ _⟩
      · intro k j
        unfold ue_cell_grid_allocator.dl_grid_at
        rw [slot_at_set_cell_frame pre.h_cell hframe (fun sa => sa.dl_res_grid) (fun _ => rfl)]
      · intro k j
        unfold ue_cell_grid_allocator.ue_grants_at
        rw [slot_at_set_cell_frame pre.h_cell hframe (fun sa => sa.result.dl.ue_grants)
          (fun _ => rfl)]
      · intro k j
        unfold ue_cell_grid_allocator.puschs_at
        rw [slot_at_set_cell_frame pre.h_cell hframe (fun sa => sa.result.ul.puschs)
          (fun _ => rfl)]
      · intro k j
        unfold ue_cell_grid_allocator.dl_pdcchs_at
        rw [slot_at_set_cell_frame pre.h_cell hframe (fun sa => sa.result.dl.dl_pdcchs)
          (fun _ => rfl)]
      · intro k
        exact @pdcch_records_set_cell a gd.cell_index ctx.cell
          { ctx.cell with uci_alloc := uci', cell_alloc := R } pre.h_cell rfl k
  · intro h
    have hret : (allocate_ul_grant a gu).ret = some false := by
      simp [alloc_run.ret, h, alloc_exit.ret]
    obtain ⟨hst, ctx, _, _, _, hcalls⟩ := allocate_ul_grant_no_mcs h
    obtain ⟨h1, h2, h3⟩ := hcount (.alloc_ul_pdcch_ue ctx.u.crnti ctx.ss_info.cfg_id gu.aggr_lvl)
      [] (fun e he => by cases he)
    have hc2 : (allocate_ul_grant a gu).calls =
        (.alloc_ul_pdcch_ue ctx.u.crnti ctx.ss_info.cfg_id gu.aggr_lvl :: []) ++
          [call_event.cancel_last_pdcch] := hcalls
    rw [hc2]
    exact ⟨hret, h2 (by simp), h1, ⟨_, _, _, rfl⟩, fun gi => h3 gi (by simp) (by simp), hst⟩

/-- C2 at the demo scenario: the one-RB DL grant and the one-RB UL grant both fail for want
of an MCS after their PDCCH was reserved. -/
theorem late_failure_cancels_pdcch_once_demo :
    (allocate_dl_grant demo_alloc (demo_dl_grant 0 ⟨0, 1⟩)).calls.count .cancel_last_pdcch = 1 ∧
    (allocate_ul_grant demo_alloc (demo_ul_grant ⟨0, 1⟩)).st = demo_alloc :=
  ⟨((late_failure_cancels_pdcch_once demo_alloc (demo_dl_grant 0 ⟨0, 1⟩)
      (demo_ul_grant ⟨0, 1⟩)).1 .no_mcs (by decide) (Or.inr rfl)).2.1,
   ((late_failure_cancels_pdcch_once demo_alloc (demo_dl_grant 0 ⟨0, 1⟩)
      (demo_ul_grant ⟨0, 1⟩)).2.1 (by decide)).2.2.2.2.2⟩

/-! ## Failures before the PDCCH reservation -/

/-- C3: a false return of `allocate_dl_grant` or `allocate_ul_grant` from a return site
before the PDCCH reservation step (inactive carrier, search space not found or not in the
active BWP, DCI-format mismatch with the last transmission of the HARQ process, TC-RNTI
grant outside the RA search space, PDCCH or PDSCH/PUSCH slot not enabled, output list
full, CRBs outside the limits, RB count changed in a retransmission, grid collision)
leaves the whole scheduler state as it was, with no call made on the PDCCH allocator, the
UCI allocator or a grid; in particular no result list grows and the HARQ process and
the SR flag of the UE are untouched. -/
theorem early_failure_changes_nothing (a : ue_cell_grid_allocator) (gd : ue_pdsch_grant)
    (gu : ue_pusch_grant) (c : alloc_failure)
    (hc : c ∈ [alloc_failure.inactive_carrier, .no_search_space, .search_space_not_in_active_bwp,
      .dci_format_mismatch, .ra_search_space_mismatch, .pdcch_slot_not_dl, .pdsch_slot_not_dl,
      .pusch_slot_not_ul, .output_list_full, .crbs_outside_limits, .retx_nof_rbs_changed,
      .grid_collision]) :
    ((allocate_dl_grant a gd).exit = .failure c →
      (allocate_dl_grant a gd).ret = some false ∧
      (allocate_dl_grant a gd).calls = [] ∧
      (allocate_dl_grant a gd).st = a ∧
      (∀ k j, (allocate_dl_grant a gd).st.slot_at k j = a.slot_at k j) ∧
      (allocate_dl_grant a gd).st.dl_harq_of gd.user_ue_index gd.cell_index gd.h_id =
        a.dl_harq_of gd.user_ue_index gd.cell_index gd.h_id ∧
      (allocate_dl_grant a gd).st.sr_indication_of gd.user_ue_index =
        a.sr_indication_of gd.user_ue_index) ∧
    ((allocate_ul_grant a gu).exit = .failure c →
      (allocate_ul_grant a gu).ret = some false ∧
      (allocate_ul_grant a gu).calls = [] ∧
      (allocate_ul_grant a gu).st = a ∧
      (∀ k j, (allocate_ul_grant a gu).st.slot_at k j = a.slot_at k j) ∧
      (allocate_ul_grant a gu).st.ul_harq_of gu.user_ue_index gu.cell_index gu.h_id =
        a.ul_harq_of gu.user_ue_index gu.cell_index gu.h_id ∧
      (allocate_ul_grant a gu).st.sr_indication_of gu.user_ue_index =
        a.sr_indication_of gu.user_ue_index) := by
  have hb : c.before_pdcch = true := by
    simp only [List.mem_cons, List.mem_singleton, List.not_mem_nil, or_false] at hc
    rcases hc with h | h | h | h | h | h | h | h | h | h | h | h <;> subst h <;> rfl
  constructor
  · intro h
    have hret : (allocate_dl_grant a gd).ret = some false := by
      simp [alloc_run.ret, h, alloc_exit.ret]
    obtain ⟨hst, hcalls⟩ := allocate_dl_grant_early h hb
    rw [hst]
    exact ⟨hret, hcalls, rfl, fun _ _ => rfl, rfl, rfl⟩
  · intro h
    have hret : (allocate_ul_grant a gu).ret = some false := by
      simp [alloc_run.ret, h, alloc_exit.ret]
    obtain ⟨hst, hcalls⟩ := allocate_ul_grant_early h hb
    rw [hst]
    exact ⟨hret, hcalls, rfl, fun _ _ => rfl, rfl, rfl⟩

/-- C3 at the demo scenario: a DL grant and an UL grant on CRBs 50..59, outside the limits
0..51 of the search space. -/
theorem early_failure_changes_nothing_demo :
    (allocate_dl_grant demo_alloc (demo_dl_grant 0 ⟨50, 60⟩)).st = demo_alloc ∧
    (allocate_ul_grant demo_alloc (demo_ul_grant ⟨50, 60⟩)).st = demo_alloc :=
  ⟨((early_failure_changes_nothing demo_alloc (demo_dl_grant 0 ⟨50, 60⟩) (demo_ul_grant ⟨50, 60⟩)
      .crbs_outside_limits (by decide)).1 (by decide)).2.2.1,
   ((early_failure_changes_nothing demo_alloc (demo_dl_grant 0 ⟨50, 60⟩) (demo_ul_grant ⟨50, 60⟩)
      .crbs_outside_limits (by decide)).2 (by decide)).2.2.1⟩

/-! ## One PDCCH and one PDSCH/PUSCH per grant -/

/-- C4: a successful `allocate_dl_grant` appends exactly one DL PDCCH to the result of the
slot at offset 0 and exactly one UE PDSCH grant to the result of the slot at offset k0 of
the PDSCH time-domain entry selected by `grant.time_res_index`, and changes no other PDCCH
or PDSCH list; both carry the C-RNTI of the UE, the DCI carries `grant.time_res_index` and
the RBs of `grant.crbs`, the PDSCH carries `grant.crbs` and the symbols of that entry.  A
call that returns false leaves every PDCCH list and every PDSCH list as it was.
Symmetrically, a successful `allocate_ul_grant` appends exactly one UL PDCCH at offset 0
and exactly one PUSCH at offset k2, and one that returns false appends neither. -/
theorem grant_adds_one_pdcch_one_pdu (a : ue_cell_grid_allocator) (gd : ue_pdsch_grant)
    (gu : ue_pusch_grant) :
    ((allocate_dl_grant a gd).ret = some true →
      ∃ (crnti : Nat) (ss : search_space_info) (td : pdsch_time_domain_resource_allocation)
        (k1 : Nat) (dci : dci_dl_info) (msg : dl_msg_alloc),
        a.crnti_of gd.user_ue_index = some crnti ∧
        a.search_space_of gd.user_ue_index gd.cell_index gd.ss_id = some ss ∧
        ss.pdsch_time_domain_list[gd.time_res_index]? = some td ∧
        (allocate_dl_grant a gd).st.dl_pdcchs_at gd.cell_index 0 =
          a.dl_pdcchs_at gd.cell_index 0 ++ [⟨crnti, ss.cfg_id, gd.aggr_lvl, k1, some dci⟩] ∧
        (allocate_dl_grant a gd).st.ue_grants_at gd.cell_index td.k0 =
          a.ue_grants_at gd.cell_index td.k0 ++ [msg] ∧
        (∀ k j, (k, j) ≠ (gd.cell_index, 0) →
          (allocate_dl_grant a gd).st.dl_pdcchs_at k j = a.dl_pdcchs_at k j) ∧
        (∀ k j, (k, j) ≠ (gd.cell_index, td.k0) →
          (allocate_dl_grant a gd).st.ue_grants_at k j = a.ue_grants_at k j) ∧
        msg.pdsch_cfg.rnti = crnti ∧ msg.pdsch_cfg.rbs = gd.crbs ∧
        msg.pdsch_cfg.symbols = td.symbols ∧
        dci.time_resource = gd.time_res_index ∧
        dci.rbs = (if dci.type = .c_rnti_f1_1 then crb_to_prb ss.dl_crb_lims gd.crbs
          else gd.crbs)) ∧
    ((allocate_dl_grant a gd).ret = some false →
      ∀ k j, (allocate_dl_grant a gd).st.dl_pdcchs_at k j = a.dl_pdcchs_at k j ∧
        (allocate_dl_grant a gd).st.ue_grants_at k j = a.ue_grants_at k j) ∧
    ((allocate_ul_grant a gu).ret = some true →
      ∃ (crnti : Nat) (ss : search_space_info) (td : pusch_time_domain_resource_allocation)
        (dci : dci_ul_info) (msg : ul_sched_info),
        a.crnti_of gu.user_ue_index = some crnti ∧
        a.search_space_of gu.user_ue_index gu.cell_index gu.ss_id = some ss ∧
        ss.pusch_time_domain_list[gu.time_res_index]? = some td ∧
        (allocate_ul_grant a gu).st.ul_pdcchs_at gu.cell_index 0 =
          a.ul_pdcchs_at gu.cell_index 0 ++ [⟨crnti, ss.cfg_id, gu.aggr_lvl, some dci⟩] ∧
        (allocate_ul_grant a gu).st.puschs_at gu.cell_index td.k2 =
          a.puschs_at gu.cell_index td.k2 ++ [msg] ∧
        (∀ k j, (k, j) ≠ (gu.cell_index, 0) →
          (allocate_ul_grant a gu).st.ul_pdcchs_at k j = a.ul_pdcchs_at k j) ∧
        (∀ k j, (k, j) ≠ (gu.cell_index, td.k2) →
          (allocate_ul_grant a gu).st.puschs_at k j = a.puschs_at k j) ∧
        msg.pusch_cfg.rnti = crnti ∧ msg.pusch_cfg.rbs = gu.crbs ∧
        msg.pusch_cfg.symbols = td.symbols ∧
        dci.time_resource = gu.time_res_index ∧ dci.crbs = gu.crbs) ∧
    ((allocate_ul_grant a gu).ret = some false →
      ∀ k j, (allocate_ul_grant a gu).st.ul_pdcchs_at k j = a.ul_pdcchs_at k j ∧
        (allocate_ul_grant a gu).st.puschs_at k j = a.puschs_at k j) := by
  refine ⟨?_, ?_, ?_, ?_⟩
  · intro h
    obtain ⟨ctx, cand, k1, uci, pdsch_cfg, mcs_tbs, rv, dci, pdsch, d⟩ :=
      allocate_dl_grant_done ((ret_true_iff _).1 h)
    obtain ⟨l1, l2, l3, l4, _, _⟩ := dl_done_lists d
    obtain ⟨f1, f2, _, _, _, f6⟩ := build_dl_dci_fields d.h_dci
    obtain ⟨p1, p2, p3, _⟩ := build_pdsch_fields d.h_pdsch
    exact ⟨ctx.u.crnti, ctx.ss_info, ctx.pdsch_td_cfg, k1, dci, _, (dl_ctx_of_grant d.pre).1,
      (dl_ctx_of_grant d.pre).2, d.pre.h_td, l1, l2, l3, l4, p1, p2,
      p3.trans (get_pdsch_config_symbols d.h_pdsch_cfg), f2, f6⟩
  · intro h k j
    obtain ⟨c, hc⟩ := (ret_false_iff _).1 h
    have hf := (allocate_dl_grant_failure_frame hc).1 k j
    unfold ue_cell_grid_allocator.dl_pdcchs_at ue_cell_grid_allocator.ue_grants_at
    rw [map_of_erase_pucchs hf (fun sa => sa.result.dl.dl_pdcchs) (fun _ => rfl),
      map_of_erase_pucchs hf (fun sa => sa.result.dl.ue_grants) (fun _ => rfl)]
    exact ⟨rfl, rfl⟩
  · intro h
    obtain ⟨ctx, cand, mcs_tbs, dai, rv, dci, d⟩ := allocate_ul_grant_done ((ret_true_iff _).1 h)
    obtain ⟨l1, ⟨msg, l2, hmsg⟩, l3, l4, _, _⟩ := ul_done_lists d
    obtain ⟨f1, f2, _, _, _, f6, _⟩ := build_ul_dci_fields d.h_dci
    obtain ⟨p1, p2, p3, _⟩ := build_pusch_fields dci
      (get_pusch_config ctx.ss_info.get_crnti_ul_dci_format ctx.pusch_td_cfg) mcs_tbs
      ctx.u.crnti gu.crbs
      (ul_alloc_harq ctx.h_ul ctx.pusch_alloc.slot a.expert_cfg.max_nof_harq_retxs)
    rw [← hmsg] at p1 p2 p3
    exact ⟨ctx.u.crnti, ctx.ss_info, ctx.pusch_td_cfg, dci, msg, (ul_ctx_of_grant d.pre).1,
      (ul_ctx_of_grant d.pre).2, d.pre.h_td, l1, l2, l3, l4, p1, p2,
      p3.trans (get_pusch_config_symbols _ _), f2, f6⟩
  · intro h k j
    obtain ⟨c, hc⟩ := (ret_false_iff _).1 h
    rw [allocate_ul_grant_failure_state hc]
    exact ⟨rfl, rfl⟩

/-- C4 at the demo scenario: the ten-RB DL grant succeeds and the slot at offset 0 holds
one DL PDCCH and one PDSCH grant more than before (none); the one-RB DL grant fails and the
lists stay empty. -/
theorem grant_adds_one_pdcch_one_pdu_demo :
    ((allocate_dl_grant demo_alloc (demo_dl_grant 0 ⟨0, 10⟩)).st.dl_pdcchs_at 0 0).length = 1 ∧
    ((allocate_dl_grant demo_alloc (demo_dl_grant 0 ⟨0, 10⟩)).st.ue_grants_at 0 0).length = 1 ∧
    (allocate_dl_grant demo_alloc (demo_dl_grant 0 ⟨0, 1⟩)).st.dl_pdcchs_at 0 0 = [] ∧
    ((allocate_ul_grant demo_alloc (demo_ul_grant ⟨0, 10⟩)).st.puschs_at 0 4).length = 1 := by
  have hd := grant_adds_one_pdcch_one_pdu demo_alloc (demo_dl_grant 0 ⟨0, 10⟩)
    (demo_ul_grant ⟨0, 10⟩)
  have hf := grant_adds_one_pdcch_one_pdu demo_alloc (demo_dl_grant 0 ⟨0, 1⟩)
    (demo_ul_grant ⟨0, 10⟩)
  obtain ⟨crnti, ss, td, k1, dci, msg, _, hss, htd, h1, h2, _⟩ := hd.1 (by decide)
  obtain ⟨crnti', ss', td', dci', msg', _, hss', htd', _, h2u, _⟩ := hd.2.2.1 (by decide)
  have e1 : ss = demo_ss := by
    have : (some ss : Option search_space_info) = some demo_ss := by rw [← hss]; rfl
    exact Option.some.inj this
  have e2 : td = ⟨0, ⟨2, 14⟩⟩ := by
    subst e1
    have : (some td : Option pdsch_time_domain_resource_allocation) = some ⟨0, ⟨2, 14⟩⟩ := by
      rw [← htd]; rfl
    exact Option.some.inj this
  have e1' : ss' = demo_ss := by
    have : (some ss' : Option search_space_info) = some demo_ss := by rw [← hss']; rfl
    exact Option.some.inj this
  have e2' : td' = ⟨4, ⟨0, 14⟩⟩ := by
    subst e1'
    have : (some td' : Option pusch_time_domain_resource_allocation) = some ⟨4, ⟨0, 14⟩⟩ := by
      rw [← htd']; rfl
    exact Option.some.inj this
  subst e2 e2'
  have h1' : (allocate_dl_grant demo_alloc (demo_dl_grant 0 ⟨0, 10⟩)).st.dl_pdcchs_at 0 0 =
      [] ++ [⟨crnti, ss.cfg_id, 4, k1, some dci⟩] := h1
  have h2' : (allocate_dl_grant demo_alloc (demo_dl_grant 0 ⟨0, 10⟩)).st.ue_grants_at 0 0 =
      [] ++ [msg] := h2
  have h3' : (allocate_ul_grant demo_alloc (demo_ul_grant ⟨0, 10⟩)).st.puschs_at 0 4 =
      [] ++ [msg'] := h2u
  refine ⟨by rw [h1']; rfl, by rw [h2']; rfl, ?_, by rw [h3']; rfl⟩
  rw [((hf.2.1 (by decide)) 0 0).1]
  rfl

theorem collides_eq_true_iff (g : cell_slot_resource_grid) (scs : Nat) (symbols crbs : interval) :
    g.collides scs symbols crbs = true ↔ ∃ c ∈ span_cells symbols crbs, c ∈ g.cells := by
  simp [cell_slot_resource_grid.collides, List.any_eq_true]

theorem collides_eq_false_iff (g : cell_slot_resource_grid) (scs : Nat) (symbols crbs : interval) :
    g.collides scs symbols crbs = false ↔ ∀ c ∈ span_cells symbols crbs, c ∉ g.cells := by
  rw [← Bool.not_eq_true, collides_eq_true_iff]
  simp

/-- C5, counter-example: in the demo scenario the PDSCH time-domain entry 2 has k0 = 0 and
covers the symbols 0..13.  For the grant on CRBs 0..9 the collision check on the span
passes (the DL grid of the slot is empty), then the PDCCH reservation records its CCEs
(symbol 0, CRBs 0..5) in the same DL grid, and the fill of the span hits them: the call
ends in the double-fill fatal assertion. -/
theorem pdcch_cells_hit_by_fill :
    ((demo_alloc.dl_grid_at 0 0).map (fun gr => gr.collides 1 ⟨0, 14⟩ ⟨0, 10⟩)) = some false ∧
    (allocate_dl_grant demo_alloc (demo_dl_grant 2 ⟨0, 10⟩)).exit = .abort .grid_double_fill ∧
    (allocate_dl_grant demo_alloc (demo_dl_grant 2 ⟨0, 10⟩)).ret = none ∧
    (allocate_dl_grant demo_alloc (demo_dl_grant 2 ⟨0, 10⟩)).calls =
      [.alloc_dl_pdcch_ue 17921 2 4, .alloc_uci_harq_ue 17921 0 4,
       .dl_res_grid_fill ⟨1, ⟨0, 14⟩, ⟨0, 10⟩⟩] := by
  decide

/-- C5, as amended: in `allocate_dl_grant` the span (scs, PDSCH symbols, grant.crbs) passed
to `dl_res_grid.fill` is free at the moment of the fill, so that the double-fill fatal
assertion is not reached, for every k0 ≠ 0, and for k0 = 0 whenever the cells that the
PDCCH reservation of the call records in the grid of the slot lie outside the span. -/
theorem fill_span_free (a : ue_cell_grid_allocator) (g : ue_pdsch_grant)
    (hfree : ∀ ctx, dl_grant_prechecks a g = .ok ctx → ctx.pdsch_td_cfg.k0 = 0 →
      ∀ cand, pdcch_candidate ctx.cell.pdcch_sched ctx.pdcch_alloc ctx.u.crnti ctx.ss_info.cfg_id
          g.aggr_lvl = some cand →
        ∀ c ∈ span_cells cand.symbols cand.crbs,
          c ∉ span_cells ctx.pdsch_td_cfg.symbols g.crbs) :
    (allocate_dl_grant a g).exit ≠ .abort .grid_double_fill := by
  intro h
  cases hpre : dl_grant_prechecks a g with
  | abort c =>
    have hc : c = .grid_double_fill := by
      simp only [allocate_dl_grant, hpre] at h
      injection h
    rw [hc] at hpre
    exact dl_grant_prechecks_no_double_fill a g hpre
  | fail c => simp [allocate_dl_grant, hpre] at h
  | ok ctx =>
    have pre := dl_grant_prechecks_ok hpre
    have heq : allocate_dl_grant a g = dl_grant_alloc a g ctx := by
      simp [allocate_dl_grant, hpre]
    rw [heq] at h
    cases hal : alloc_dl_pdcch_ue ctx.cell.pdcch_sched ctx.pdcch_alloc ctx.u.crnti ctx.ss_info.cfg_id
        g.aggr_lvl with
    | none => simp [dl_grant_alloc, hal] at h
    | some r =>
      have heq2 : dl_grant_alloc a g ctx = dl_grant_uci a g ctx
          { ctx.cell with pdcch_sched := r.1, cell_alloc := ctx.cell.cell_alloc.set_offset 0 r.2 }
          [.alloc_dl_pdcch_ue ctx.u.crnti ctx.ss_info.cfg_id g.aggr_lvl] := by
        simp [dl_grant_alloc, hal]
      rw [heq2] at h
      obtain ⟨k1, res, pa2, hres, hpa, hcol⟩ := dl_grant_uci_double_fill h
      obtain ⟨p, hp⟩ := reserved_ring_dl ctx.cell.cell_alloc res.2.2 ctx.pdcch_alloc r.2
        pre.h_pdcch_alloc (alloc_uci_harq_ue_frame hres).1
        ({ ctx.cell with pdcch_sched := r.1, uci_alloc := res.2.1, cell_alloc := res.2.2 } : cell_t)
        rfl (fun pd => { pd with harq_feedback_timing := k1 }) ctx.pdsch_td_cfg.k0
      rw [pre.h_pdsch_alloc] at hp
      have hpa2 : some pa2 = _ := hpa.symm.trans hp
      simp only [Option.map_some', Option.some.injEq] at hpa2
      have hnc := (collides_eq_false_iff _ _ _ _).1 pre.h_no_collision
      obtain ⟨c, hc1, hc2⟩ := (collides_eq_true_iff _ _ _ _).1 hcol
      by_cases hk0 : ctx.pdsch_td_cfg.k0 = 0
      · rw [if_pos hk0] at hpa2
        have hsame : ctx.pdsch_alloc = ctx.pdcch_alloc := by
          have h1 := pre.h_pdsch_alloc
          rw [hk0, pre.h_pdcch_alloc] at h1
          exact (Option.some.inj h1).symm
        unfold alloc_dl_pdcch_ue at hal
        cases hcand : pdcch_candidate ctx.cell.pdcch_sched ctx.pdcch_alloc ctx.u.crnti
            ctx.ss_info.cfg_id g.aggr_lvl with
        | none => simp [hcand] at hal
        | some cand =>
          simp only [hcand, Option.some.injEq] at hal
          subst hal
          subst hpa2
          simp only [List.mem_append] at hc2
          rcases hc2 with hc2 | hc2
          · exact hfree ctx hpre hk0 cand hcand c hc2 hc1
          · rw [hsame] at hnc
            exact hnc c hc1 hc2
      · rw [if_neg hk0] at hpa2
        subst hpa2
        exact hnc c hc1 hc2

/-- C5, the amended statement at two grants of the demo scenario: one with k0 = 1, one
with k0 = 0 on the symbols 2..13, which the PDCCH candidates on symbol 0 do not reach. -/
theorem fill_span_free_demo :
    (allocate_dl_grant demo_alloc (demo_dl_grant 1 ⟨0, 10⟩)).exit ≠ .abort .grid_double_fill ∧
    (allocate_dl_grant demo_alloc (demo_dl_grant 0 ⟨0, 10⟩)).exit ≠ .abort .grid_double_fill :=
  ⟨fill_span_free demo_alloc (demo_dl_grant 1 ⟨0, 10⟩) (by
      intro ctx hctx hk0
      have hk : (match dl_grant_prechecks demo_alloc (demo_dl_grant 1 ⟨0, 10⟩) with
        | .ok c => c.pdsch_td_cfg.k0
        | _ => 1) = 1 := rfl
      rw [hctx] at hk
      have hk1 : ctx.pdsch_td_cfg.k0 = 1 := hk
      rw [hk0] at hk1
      cases hk1),
   fill_span_free demo_alloc (demo_dl_grant 0 ⟨0, 10⟩) (by
      intro ctx hctx _ cand hcand c hc1 hc2
      have hk : (match dl_grant_prechecks demo_alloc (demo_dl_grant 0 ⟨0, 10⟩) with
        | .ok c => (pdcch_candidate c.cell.pdcch_sched c.pdcch_alloc c.u.crnti c.ss_info.cfg_id 4,
            c.pdsch_td_cfg.symbols)
        | _ => (some ⟨1, ⟨0, 1⟩, ⟨0, 6⟩⟩, ⟨2, 14⟩)) = (some ⟨1, ⟨0, 1⟩, ⟨0, 6⟩⟩, ⟨2, 14⟩) := rfl
      rw [hctx] at hk
      have hk1 : (pdcch_candidate ctx.cell.pdcch_sched ctx.pdcch_alloc ctx.u.crnti
          ctx.ss_info.cfg_id 4, ctx.pdsch_td_cfg.symbols) =
          (some ⟨1, ⟨0, 1⟩, ⟨0, 6⟩⟩, ⟨2, 14⟩) := hk
      have h1 := (Prod.mk.inj hk1).1
      have h2 := (Prod.mk.inj hk1).2
      have hcand2 : pdcch_candidate ctx.cell.pdcch_sched ctx.pdcch_alloc ctx.u.crnti
          ctx.ss_info.cfg_id 4 = some cand := hcand
      rw [h1] at hcand2
      have hc : cand = ⟨1, ⟨0, 1⟩, ⟨0, 6⟩⟩ := (Option.some.inj hcand2).symm
      subst hc
      rw [h2] at hc2
      have hd : ∀ x ∈ span_cells ⟨0, 1⟩ ⟨0, 6⟩, x ∉ span_cells ⟨2, 14⟩ ⟨0, 10⟩ := by decide
      exact hd c hc1 hc2)⟩

/-! ## CRB limits of the search space -/

theorem contains_iff_has (i other : interval) :
    i.contains other = true ↔ i.start ≤ other.start ∧ other.stop ≤ i.stop := by
  simp [interval.contains]

theorem has_of_contains {i other : interval} (h : i.contains other = true) (n : Nat)
    (hn : other.has n) : i.has n := by
  obtain ⟨h1, h2⟩ := (contains_iff_has i other).1 h
  exact ⟨Nat.le_trans h1 hn.1, Nat.lt_of_lt_of_le hn.2 h2⟩

/-- C6: whenever `allocate_dl_grant` returns true, `grant.crbs` is contained in the DL CRB
limits of the search space chosen by the grant, and whenever `allocate_ul_grant` returns
true, `grant.crbs` is contained in its UL CRB limits.  A grant with a CRB outside the
limits never returns true: unless the call aborts on a failed assertion it returns false,
with the scheduler state as before and no call made on a collaborator. -/
theorem granted_crbs_within_limits (a : ue_cell_grid_allocator) (gd : ue_pdsch_grant)
    (gu : ue_pusch_grant) :
    ((allocate_dl_grant a gd).ret = some true →
      ∃ ss, a.search_space_of gd.user_ue_index gd.cell_index gd.ss_id = some ss ∧
        ss.dl_crb_lims.contains gd.crbs = true ∧ ∀ n, gd.crbs.has n → ss.dl_crb_lims.has n) ∧
    ((allocate_ul_grant a gu).ret = some true →
      ∃ ss, a.search_space_of gu.user_ue_index gu.cell_index gu.ss_id = some ss ∧
        ss.ul_crb_lims.contains gu.crbs = true ∧ ∀ n, gu.crbs.has n → ss.ul_crb_lims.has n) ∧
    (∀ ss n, a.search_space_of gd.user_ue_index gd.cell_index gd.ss_id = some ss →
      gd.crbs.has n → ¬ ss.dl_crb_lims.has n →
      (allocate_dl_grant a gd).ret ≠ some true ∧
      ((allocate_dl_grant a gd).ret ≠ none →
        (allocate_dl_grant a gd).ret = some false ∧ (allocate_dl_grant a gd).st = a ∧
        (allocate_dl_grant a gd).calls = [])) ∧
    (∀ ss n, a.search_space_of gu.user_ue_index gu.cell_index gu.ss_id = some ss →
      gu.crbs.has n → ¬ ss.ul_crb_lims.has n →
      (allocate_ul_grant a gu).ret ≠ some true ∧
      ((allocate_ul_grant a gu).ret ≠ none →
        (allocate_ul_grant a gu).ret = some false ∧ (allocate_ul_grant a gu).st = a ∧
        (allocate_ul_grant a gu).calls = [])) := by
  refine ⟨?_, ?_, ?_, ?_⟩
  · intro h
    obtain ⟨ctx, hctx, _⟩ := allocate_dl_grant_ok ((ret_true_iff _).1 h)
    have pre := dl_grant_prechecks_ok hctx
    exact ⟨ctx.ss_info, (dl_ctx_of_grant pre).2, pre.h_crbs, has_of_contains pre.h_crbs⟩
  · intro h
    obtain ⟨ctx, hctx, _⟩ := allocate_ul_grant_ok ((ret_true_iff _).1 h)
    have pre := ul_grant_prechecks_ok hctx
    exact ⟨ctx.ss_info, (ul_ctx_of_grant pre).2, pre.h_crbs, has_of_contains pre.h_crbs⟩
  · intro ss n hss hn hout
    apply dl_refused_by_validation
    intro ctx pre
    have e : ctx.ss_info = ss := Option.some.inj ((dl_ctx_of_grant pre).2.symm.trans hss)
    exact hout (e ▸ has_of_contains pre.h_crbs n hn)
  · intro ss n hss hn hout
    apply ul_refused_by_validation
    intro ctx pre
    have e : ctx.ss_info = ss := Option.some.inj ((ul_ctx_of_grant pre).2.symm.trans hss)
    exact hout (e ▸ has_of_contains pre.h_crbs n hn)

/-- C6 at the demo scenario: CRB 55 of the grants on CRBs 50..59 is outside the limits
0..51, and both calls return false. -/
theorem granted_crbs_within_limits_demo :
    (allocate_dl_grant demo_alloc (demo_dl_grant 0 ⟨50, 60⟩)).ret = some false ∧
    (allocate_ul_grant demo_alloc (demo_ul_grant ⟨50, 60⟩)).ret = some false :=
  ⟨(((granted_crbs_within_limits demo_alloc (demo_dl_grant 0 ⟨50, 60⟩)
      (demo_ul_grant ⟨50, 60⟩)).2.2.1 demo_ss 55 rfl ⟨by decide, by decide⟩
      (fun h => absurd h.2 (by decide))).2 (by decide)).1,
   (((granted_crbs_within_limits demo_alloc (demo_dl_grant 0 ⟨50, 60⟩)
      (demo_ul_grant ⟨50, 60⟩)).2.2.2 demo_ss 55 rfl ⟨by decide, by decide⟩
      (fun h => absurd h.2 (by decide))).2 (by decide)).1⟩

/-! ## Retransmissions -/

/-- C7: when `allocate_dl_grant` or `allocate_ul_grant` returns true on a non-empty HARQ
process, the number of granted CRBs equals the RB count of the previous allocation of the
process, and the MCS in the DCI and the MCS and TBS in the PDSCH/PUSCH descriptor are the
ones stored from the previous transmission, whatever `grant.mcs` and the CSI-RS of the slot
are; the process keeps the same MCS, TBS and RB count.  A grant on a non-empty process
with another CRB count never returns true: unless the call aborts it returns false with
the state as before. -/
theorem retx_keeps_rbs_mcs_tbs (a : ue_cell_grid_allocator) (gd : ue_pdsch_grant)
    (gu : ue_pusch_grant) :
    (∀ h, a.dl_harq_of gd.user_ue_index gd.cell_index gd.h_id = some h → h.empty = false →
      ((allocate_dl_grant a gd).ret = some true →
        gd.crbs.length = h.last_alloc_params.rbs.length ∧
        ∃ (k0 : Nat) (pd : pdcch_dl_information) (dci : dci_dl_info) (msg : dl_msg_alloc)
          (h2 : dl_harq_process),
          (allocate_dl_grant a gd).st.dl_pdcchs_at gd.cell_index 0 =
            a.dl_pdcchs_at gd.cell_index 0 ++ [pd] ∧
          pd.dci = some dci ∧ dci.mcs = h.last_alloc_params.mcs ∧
          (allocate_dl_grant a gd).st.ue_grants_at gd.cell_index k0 =
            a.ue_grants_at gd.cell_index k0 ++ [msg] ∧
          msg.pdsch_cfg.mcs = h.last_alloc_params.mcs ∧
          msg.pdsch_cfg.tb_size_bytes = h.last_alloc_params.tbs_bytes ∧
          msg.pdsch_cfg.rbs.length = h.last_alloc_params.rbs.length ∧
          (allocate_dl_grant a gd).st.dl_harq_of gd.user_ue_index gd.cell_index gd.h_id = some h2 ∧
          h2.last_alloc_params.mcs = h.last_alloc_params.mcs ∧
          h2.last_alloc_params.tbs_bytes = h.last_alloc_params.tbs_bytes ∧
          h2.last_alloc_params.rbs.length = h.last_alloc_params.rbs.length) ∧
      (gd.crbs.length ≠ h.last_alloc_params.rbs.length →
        (allocate_dl_grant a gd).ret ≠ some true ∧
        ((allocate_dl_grant a gd).ret ≠ none →
          (allocate_dl_grant a gd).ret = some false ∧ (allocate_dl_grant a gd).st = a))) ∧
    (∀ h, a.ul_harq_of gu.user_ue_index gu.cell_index gu.h_id = some h → h.empty = false →
      ((allocate_ul_grant a gu).ret = some true →
        gu.crbs.length = h.last_tx_params.rbs.length ∧
        ∃ (k2 : Nat) (pd : pdcch_ul_information) (dci : dci_ul_info) (msg : ul_sched_info)
          (h2 : ul_harq_process),
          (allocate_ul_grant a gu).st.ul_pdcchs_at gu.cell_index 0 =
            a.ul_pdcchs_at gu.cell_index 0 ++ [pd] ∧
          pd.dci = some dci ∧ dci.mcs = h.last_tx_params.mcs ∧
          (allocate_ul_grant a gu).st.puschs_at gu.cell_index k2 =
            a.puschs_at gu.cell_index k2 ++ [msg] ∧
          msg.pusch_cfg.mcs = h.last_tx_params.mcs ∧
          msg.pusch_cfg.tb_size_bytes = h.last_tx_params.tbs_bytes ∧
          msg.pusch_cfg.rbs.length = h.last_tx_params.rbs.length ∧
          (allocate_ul_grant a gu).st.ul_harq_of gu.user_ue_index gu.cell_index gu.h_id = some h2 ∧
          h2.last_tx_params.mcs = h.last_tx_params.mcs ∧
          h2.last_tx_params.tbs_bytes = h.last_tx_params.tbs_bytes ∧
          h2.last_tx_params.rbs.length = h.last_tx_params.rbs.length) ∧
      (gu.crbs.length ≠ h.last_tx_params.rbs.length →
        (allocate_ul_grant a gu).ret ≠ some true ∧
        ((allocate_ul_grant a gu).ret ≠ none →
          (allocate_ul_grant a gu).ret = some false ∧ (allocate_ul_grant a gu).st = a))) := by
  constructor
  · intro h hh he
    constructor
    · intro hret
      obtain ⟨ctx, cand, k1, uci, pdsch_cfg, mcs_tbs, rv, dci, pdsch, d⟩ :=
        allocate_dl_grant_done ((ret_true_iff _).1 hret)
      have e : ctx.h_dl = h := Option.some.inj ((dl_harq_of_ctx d.pre).symm.trans hh)
      subst e
      obtain ⟨l1, l2, _⟩ := dl_done_lists d
      obtain ⟨_, _, f3, _⟩ := build_dl_dci_fields d.h_dci
      obtain ⟨_, p2, _, p4, _, _, p7⟩ := build_pdsch_fields d.h_pdsch
      have hm := d.h_mcs
      rw [he] at hm
      simp only [Bool.false_eq_true, if_false, Option.some.injEq] at hm
      subst hm
      have hlen := d.pre.h_retx_len he
      have pmcs : pdsch.mcs = ctx.h_dl.last_alloc_params.mcs := by
        rw [p7, f3]; simp
      refine ⟨hlen, ctx.pdsch_td_cfg.k0, _, dci, _, _, l1, rfl, f3, l2, pmcs, p4, ?_,
        dl_harq_of_done d, pmcs, p4, ?_⟩
      · show pdsch.rbs.length = _
        rw [p2]; exact hlen
      · show pdsch.rbs.length = _
        rw [p2]; exact hlen
    · intro hne
      have key := @dl_refused_by_validation a gd (fun ctx pre => by
        have e : ctx.h_dl = h := Option.some.inj ((dl_harq_of_ctx pre).symm.trans hh)
        exact hne (e ▸ pre.h_retx_len (e ▸ he)))
      exact ⟨key.1, fun hn => ⟨(key.2 hn).1, (key.2 hn).2.1⟩⟩
  · intro h hh he
    constructor
    · intro hret
      obtain ⟨ctx, cand, mcs_tbs, dai, rv, dci, d⟩ :=
        allocate_ul_grant_done ((ret_true_iff _).1 hret)
      have e : ctx.h_ul = h := Option.some.inj ((ul_harq_of_ctx d.pre).symm.trans hh)
      subst e
      obtain ⟨l1, ⟨msg, l2, hmsg⟩, _⟩ := ul_done_lists d
      obtain ⟨_, _, f3, _⟩ := build_ul_dci_fields d.h_dci
      obtain ⟨_, p2, _, p4, _, _, p7⟩ := build_pusch_fields dci
        (get_pusch_config ctx.ss_info.get_crnti_ul_dci_format ctx.pusch_td_cfg) mcs_tbs
        ctx.u.crnti gu.crbs
        (ul_alloc_harq ctx.h_ul ctx.pusch_alloc.slot a.expert_cfg.max_nof_harq_retxs)
      have hm := d.h_mcs
      rw [he] at hm
      simp only [Bool.false_eq_true, if_false, Option.some.injEq] at hm
      subst hm
      have hlen := d.pre.h_retx_len he
      have pmcs : (build_pusch dci
          (get_pusch_config ctx.ss_info.get_crnti_ul_dci_format ctx.pusch_td_cfg)
          ⟨ctx.h_ul.last_tx_params.mcs, ctx.h_ul.last_tx_params.tbs_bytes⟩ ctx.u.crnti gu.crbs
          (ul_alloc_harq ctx.h_ul ctx.pusch_alloc.slot a.expert_cfg.max_nof_harq_retxs)).mcs =
          ctx.h_ul.last_tx_params.mcs := by
        rw [p7, f3]; simp
      refine ⟨hlen, ctx.pusch_td_cfg.k2, _, dci, msg, _, l1, rfl, f3, l2, ?_, ?_, ?_,
        ul_harq_of_done d, pmcs, p4, ?_⟩
      · rw [hmsg]; exact pmcs
      · rw [hmsg]; exact p4
      · rw [hmsg, p2]; exact hlen
      · show (build_pusch _ _ _ _ _ _).rbs.length = _
        rw [p2]; exact hlen
    · intro hne
      have key := @ul_refused_by_validation a gu (fun ctx pre => by
        have e : ctx.h_ul = h := Option.some.inj ((ul_harq_of_ctx pre).symm.trans hh)
        exact hne (e ▸ pre.h_retx_len (e ▸ he)))
      exact ⟨key.1, fun hn => ⟨(key.2 hn).1, (key.2 hn).2.1⟩⟩

/-- C7 at the demo scenario: with the HARQ processes 0 waiting for a retransmission of a
ten-RB allocation, grants of ten RBs succeed and grants of eleven RBs return false. -/
theorem retx_keeps_rbs_mcs_tbs_demo :
    (⟨10, 20⟩ : interval).length = 10 ∧
    (allocate_dl_grant (demo_retx_alloc 0) (demo_dl_grant 1 ⟨10, 21⟩)).ret = some false ∧
    (allocate_ul_grant (demo_retx_alloc 0) (demo_ul_grant ⟨10, 21⟩)).ret = some false :=
  ⟨(((retx_keeps_rbs_mcs_tbs (demo_retx_alloc 0) (demo_dl_grant 1 ⟨10, 20⟩)
      (demo_ul_grant ⟨10, 20⟩)).1 (demo_retx_dl_harq 0) rfl rfl).1 (by decide)).1,
   ((((retx_keeps_rbs_mcs_tbs (demo_retx_alloc 0) (demo_dl_grant 1 ⟨10, 21⟩)
      (demo_ul_grant ⟨10, 21⟩)).1 (demo_retx_dl_harq 0) rfl rfl).2 (by decide)).2 (by decide)).1,
   ((((retx_keeps_rbs_mcs_tbs (demo_retx_alloc 0) (demo_dl_grant 1 ⟨10, 21⟩)
      (demo_ul_grant ⟨10, 21⟩)).2 (demo_retx_ul_harq 0) rfl rfl).2 (by decide)).2 (by decide)).1⟩

/-- C8: if the HARQ process of the grant is non-empty and the DCI format stored from its
last transmission differs from the C-RNTI DCI format of the chosen search space,
`allocate_dl_grant` (resp. `allocate_ul_grant`) never returns true: unless the call aborts
it returns false with the state as before.  Hence on every successful retransmission the
DCI of the emitted PDCCH has the DCI format of the previous transmission of the process. -/
theorem retx_keeps_dci_format (a : ue_cell_grid_allocator) (gd : ue_pdsch_grant)
    (gu : ue_pusch_grant) :
    (∀ h ss, a.dl_harq_of gd.user_ue_index gd.cell_index gd.h_id = some h → h.empty = false →
      a.search_space_of gd.user_ue_index gd.cell_index gd.ss_id = some ss →
      (h.last_alloc_params.dci_cfg_type ≠ ss.get_crnti_dl_dci_format →
        (allocate_dl_grant a gd).ret ≠ some true ∧
        ((allocate_dl_grant a gd).ret ≠ none →
          (allocate_dl_grant a gd).ret = some false ∧ (allocate_dl_grant a gd).st = a)) ∧
      ((allocate_dl_grant a gd).ret = some true →
        ∃ (pd : pdcch_dl_information) (dci : dci_dl_info),
          (allocate_dl_grant a gd).st.dl_pdcchs_at gd.cell_index 0 =
            a.dl_pdcchs_at gd.cell_index 0 ++ [pd] ∧
          pd.dci = some dci ∧ dci.type = h.last_alloc_params.dci_cfg_type)) ∧
    (∀ h ss, a.ul_harq_of gu.user_ue_index gu.cell_index gu.h_id = some h → h.empty = false →
      a.search_space_of gu.user_ue_index gu.cell_index gu.ss_id = some ss →
      (h.last_tx_params.dci_cfg_type ≠ ss.get_crnti_ul_dci_format →
        (allocate_ul_grant a gu).ret ≠ some true ∧
        ((allocate_ul_grant a gu).ret ≠ none →
          (allocate_ul_grant a gu).ret = some false ∧ (allocate_ul_grant a gu).st = a)) ∧
      ((allocate_ul_grant a gu).ret = some true →
        ∃ (pd : pdcch_ul_information) (dci : dci_ul_info),
          (allocate_ul_grant a gu).st.ul_pdcchs_at gu.cell_index 0 =
            a.ul_pdcchs_at gu.cell_index 0 ++ [pd] ∧
          pd.dci = some dci ∧ dci.type = h.last_tx_params.dci_cfg_type)) := by
  constructor
  · intro h ss hh he hss
    constructor
    · intro hne
      have key := @dl_refused_by_validation a gd (fun ctx pre => by
        have e : ctx.h_dl = h := Option.some.inj ((dl_harq_of_ctx pre).symm.trans hh)
        have e2 : ctx.ss_info = ss := Option.some.inj ((dl_ctx_of_grant pre).2.symm.trans hss)
        exact hne (e2 ▸ e ▸ pre.h_retx_fmt (e ▸ he)))
      exact ⟨key.1, fun hn => ⟨(key.2 hn).1, (key.2 hn).2.1⟩⟩
    · intro hret
      obtain ⟨ctx, cand, k1, uci, pdsch_cfg, mcs_tbs, rv, dci, pdsch, d⟩ :=
        allocate_dl_grant_done ((ret_true_iff _).1 hret)
      have e : ctx.h_dl = h := Option.some.inj ((dl_harq_of_ctx d.pre).symm.trans hh)
      subst e
      obtain ⟨l1, _⟩ := dl_done_lists d
      obtain ⟨f1, _⟩ := build_dl_dci_fields d.h_dci
      exact ⟨_, dci, l1, rfl, by rw [f1, d.pre.h_dci_type, d.pre.h_retx_fmt he]⟩
  · intro h ss hh he hss
    constructor
    · intro hne
      have key := @ul_refused_by_validation a gu (fun ctx pre => by
        have e : ctx.h_ul = h := Option.some.inj ((ul_harq_of_ctx pre).symm.trans hh)
        have e2 : ctx.ss_info = ss := Option.some.inj ((ul_ctx_of_grant pre).2.symm.trans hss)
        exact hne (e2 ▸ e ▸ pre.h_retx_fmt (e ▸ he)))
      exact ⟨key.1, fun hn => ⟨(key.2 hn).1, (key.2 hn).2.1⟩⟩
    · intro hret
      obtain ⟨ctx, cand, mcs_tbs, dai, rv, dci, d⟩ :=
        allocate_ul_grant_done ((ret_true_iff _).1 hret)
      have e : ctx.h_ul = h := Option.some.inj ((ul_harq_of_ctx d.pre).symm.trans hh)
      subst e
      obtain ⟨l1, _⟩ := ul_done_lists d
      obtain ⟨f1, _⟩ := build_ul_dci_fields d.h_dci
      exact ⟨_, dci, l1, rfl, by rw [f1, d.pre.h_dci_type, d.pre.h_retx_fmt he]⟩

/-- C8 at the demo scenario: the last transmissions of the HARQ processes 0 used the
formats 1_1 and 0_0, the search space uses 1_0 and 0_1, and both grants return false. -/
theorem retx_keeps_dci_format_demo :
    (allocate_dl_grant demo_other_format_alloc (demo_dl_grant 1 ⟨10, 20⟩)).ret = some false ∧
    (allocate_ul_grant demo_other_format_alloc (demo_ul_grant ⟨10, 20⟩)).ret = some false :=
  ⟨((((retx_keeps_dci_format demo_other_format_alloc (demo_dl_grant 1 ⟨10, 20⟩)
      (demo_ul_grant ⟨10, 20⟩)).1 _ demo_ss rfl rfl rfl).1 (by decide)).2 (by decide)).1,
   ((((retx_keeps_dci_format demo_other_format_alloc (demo_dl_grant 1 ⟨10, 20⟩)
      (demo_ul_grant ⟨10, 20⟩)).2 _ demo_ss rfl rfl rfl).1 (by decide)).2 (by decide)).1⟩

/-! ## Total DAI of the UL grant -/

theorem total_harq_ack_in_uci_sum (a : ue_cell_grid_allocator)
    (pusch_alloc : cell_slot_resource_allocator) (u : ue) (l : List ue_cell) (acc t : Nat)
    (h : total_harq_ack_in_uci a.cells pusch_alloc u.crnti l acc = some t) :
    t % 4294967296 = (acc + (l.map (fun c =>
      match a.cells.getD c.cell_index none with
      | some ct => get_scheduled_pdsch_counter_in_ue_uci ct.uci_alloc pusch_alloc u.crnti
      | none => 0)).sum) % 4294967296 := by
  induction l generalizing acc with
  | nil =>
    simp only [total_harq_ack_in_uci, Option.some.injEq] at h
    subst h
    simp
  | cons c rest ih =>
    unfold total_harq_ack_in_uci at h
    cases hc : a.cells.getD c.cell_index none with
    | none => rw [hc] at h; cases h
    | some ct =>
      rw [hc] at h
      have key := ih _ h
      have e : (2 : Nat) ^ 32 = 4294967296 := by norm_num
      rw [e] at key
      simp only [List.map_cons, List.sum_cons, hc]
      generalize (rest.map (fun c =>
        match a.cells.getD c.cell_index none with
        | some ct => get_scheduled_pdsch_counter_in_ue_uci ct.uci_alloc pusch_alloc u.crnti
        | none => 0)).sum = S at key ⊢
      generalize get_scheduled_pdsch_counter_in_ue_uci ct.uci_alloc pusch_alloc u.crnti = x
        at key ⊢
      omega

theorem total_harq_ack_in_uci_lt (cells : List (Option cell_t))
    (pusch_alloc : cell_slot_resource_allocator) (crnti : Nat) (l : List ue_cell) (acc t : Nat)
    (hacc : acc < 4294967296)
    (h : total_harq_ack_in_uci cells pusch_alloc crnti l acc = some t) : t < 4294967296 := by
  induction l generalizing acc with
  | nil =>
    simp only [total_harq_ack_in_uci, Option.some.injEq] at h
    omega
  | cons c rest ih =>
    unfold total_harq_ack_in_uci at h
    cases hc : cells.getD c.cell_index none with
    | none => rw [hc] at h; cases h
    | some ct =>
      rw [hc] at h
      exact ih _ (Nat.mod_lt _ (by norm_num)) h

theorem compute_ul_dai_f0_1 (total : Nat) :
    compute_ul_dai .c_rnti_f0_1 total = if total = 0 then 3 else (total - 1) % 4 := by
  unfold compute_ul_dai
  by_cases h : total = 0 <;> simp [h]

/-- C9: in a successful `allocate_ul_grant` for DCI format 0_1, the DAI written into the DCI
of the new UL PDCCH is 3 when S = 0 and (S − 1) mod 4 when S > 0, where S is the sum, over
the serving cells of the UE, of the HARQ-ACK bit counts of the UE in the PUSCH slot; the
value is one of 0, 1, 2, 3, and S = 5 gives 0. -/
theorem ul_dai_from_harq_ack_sum (a : ue_cell_grid_allocator) (g : ue_pusch_grant)
    (h : (allocate_ul_grant a g).ret = some true) :
    ∃ (u : ue) (ss : search_space_info) (td : pusch_time_domain_resource_allocation)
      (pusch_alloc : cell_slot_resource_allocator) (pd : pdcch_ul_information)
      (dci : dci_ul_info),
      a.ues.getD g.user_ue_index none = some u ∧
      a.search_space_of g.user_ue_index g.cell_index g.ss_id = some ss ∧
      ss.pusch_time_domain_list[g.time_res_index]? = some td ∧
      a.slot_at g.cell_index td.k2 = some pusch_alloc ∧
      (allocate_ul_grant a g).st.ul_pdcchs_at g.cell_index 0 =
        a.ul_pdcchs_at g.cell_index 0 ++ [pd] ∧
      pd.dci = some dci ∧ dci.type = ss.get_crnti_ul_dci_format ∧
      (dci.type = .c_rnti_f0_1 →
        dci.dai = some (if a.total_harq_ack_bits u pusch_alloc = 0 then 3
          else (a.total_harq_ack_bits u pusch_alloc - 1) % 4) ∧
        (∃ d, dci.dai = some d ∧ d < 4) ∧
        (a.total_harq_ack_bits u pusch_alloc = 5 → dci.dai = some 0)) := by
  obtain ⟨ctx, cand, mcs_tbs, dai, rv, dci, d⟩ := allocate_ul_grant_done ((ret_true_iff _).1 h)
  obtain ⟨l1, _⟩ := ul_done_lists d
  obtain ⟨f1, _, _, _, _, _, f7⟩ := build_ul_dci_fields d.h_dci
  have hpd : pdcch_delay_in_slots + ctx.pusch_td_cfg.k2 = ctx.pusch_td_cfg.k2 := by
    simp [pdcch_delay_in_slots]
  have hk2 : a.slot_at g.cell_index ctx.pusch_td_cfg.k2 = some ctx.pusch_alloc := by
    rw [slot_at_of_cell d.pre.h_cell, ← hpd]; exact d.pre.h_pusch_alloc
  refine ⟨ctx.u, ctx.ss_info, ctx.pusch_td_cfg, ctx.pusch_alloc, _, dci, d.pre.h_ue,
    (ul_ctx_of_grant d.pre).2, d.pre.h_td, hk2, l1, rfl, f1.trans d.pre.h_dci_type, ?_⟩
  intro hfmt
  have hty : ctx.dci_type = .c_rnti_f0_1 := f1.symm.trans hfmt
  have hdai := d.h_dai
  rw [hty] at hdai f7
  simp only [ul_grant_dai, beq_self_eq_true, if_true, Option.map_eq_some'] at hdai
  obtain ⟨t, ht, hd⟩ := hdai
  have hsum := total_harq_ack_in_uci_sum a ctx.pusch_alloc ctx.u ctx.u.ue_cells 0 t ht
  have hlt := total_harq_ack_in_uci_lt a.cells ctx.pusch_alloc ctx.u.crnti ctx.u.ue_cells 0 t
    (by norm_num) ht
  rw [compute_ul_dai_f0_1] at hd
  simp only [if_true] at f7
  have hval : dai = if a.total_harq_ack_bits ctx.u ctx.pusch_alloc = 0 then 3
      else (a.total_harq_ack_bits ctx.u ctx.pusch_alloc - 1) % 4 := by
    unfold ue_cell_grid_allocator.total_harq_ack_bits
    generalize (ctx.u.ue_cells.map (fun c =>
      match a.cells.getD c.cell_index none with
      | some ct => get_scheduled_pdsch_counter_in_ue_uci ct.uci_alloc ctx.pusch_alloc ctx.u.crnti
      | none => 0)).sum = S at hsum ⊢
    rw [← hd]
    split_ifs <;> omega
  rw [f7, hval]
  refine ⟨rfl, ⟨_, rfl, ?_⟩, fun h5 => by rw [h5]; rfl⟩
  split_ifs <;> omega

/-- C9 at the demo scenario: with five HARQ-ACK bits of the UE bound to the PUSCH slot the
DCI of the new UL PDCCH of format 0_1 carries DAI 0; with none it carries DAI 3. -/
theorem ul_dai_from_harq_ack_sum_demo :
    (∃ pd dci, (allocate_ul_grant demo_five_acks_alloc (demo_ul_grant ⟨0, 10⟩)).st.ul_pdcchs_at 0 0
        = [pd] ∧ pd.dci = some dci ∧ dci.dai = some 0) ∧
    (∃ pd dci, (allocate_ul_grant demo_alloc (demo_ul_grant ⟨0, 10⟩)).st.ul_pdcchs_at 0 0
        = [pd] ∧ pd.dci = some dci ∧ dci.dai = some 3) := by
  constructor
  · obtain ⟨u, ss, td, pa, pd, dci, hu, hss, htd, hpa, hl, hd, hty, hdai⟩ :=
      ul_dai_from_harq_ack_sum demo_five_acks_alloc (demo_ul_grant ⟨0, 10⟩) (by decide)
    have hl2 : (allocate_ul_grant demo_five_acks_alloc (demo_ul_grant ⟨0, 10⟩)).st.ul_pdcchs_at
        0 0 = [] ++ [pd] := hl
    have hpd : pd = ⟨17921, 2, 4, some ⟨.c_rnti_f0_1, ⟨0, 10⟩, 0, 10, 0, 0, true, some 0⟩⟩ := by
      have h2 : (allocate_ul_grant demo_five_acks_alloc (demo_ul_grant ⟨0, 10⟩)).st.ul_pdcchs_at
          0 0 = [⟨17921, 2, 4, some ⟨.c_rnti_f0_1, ⟨0, 10⟩, 0, 10, 0, 0, true, some 0⟩⟩] := by
        decide
      rw [hl2] at h2
      simpa using h2
    exact ⟨pd, _, hl2, by rw [hpd], rfl⟩
  · obtain ⟨u, ss, td, pa, pd, dci, hu, hss, htd, hpa, hl, hd, hty, hdai⟩ :=
      ul_dai_from_harq_ack_sum demo_alloc (demo_ul_grant ⟨0, 10⟩) (by decide)
    have hl2 : (allocate_ul_grant demo_alloc (demo_ul_grant ⟨0, 10⟩)).st.ul_pdcchs_at
        0 0 = [] ++ [pd] := hl
    have hpd : pd = ⟨17921, 2, 4, some ⟨.c_rnti_f0_1, ⟨0, 10⟩, 0, 10, 0, 0, true, some 3⟩⟩ := by
      have h2 : (allocate_ul_grant demo_alloc (demo_ul_grant ⟨0, 10⟩)).st.ul_pdcchs_at
          0 0 = [⟨17921, 2, 4, some ⟨.c_rnti_f0_1, ⟨0, 10⟩, 0, 10, 0, 0, true, some 3⟩⟩] := by
        decide
      rw [hl2] at h2
      simpa using h2
    exact ⟨pd, _, hl2, by rw [hpd], rfl⟩

/-! ## Redundancy versions -/

theorem getElem?_mod_length (l : List Nat) (n : Nat) (h : l ≠ []) :
    n % l.length < l.length ∧ ∃ x, l[n % l.length]? = some x := by
  have hlen : 0 < l.length := List.length_pos.2 h
  have hlt := Nat.mod_lt n hlen
  exact ⟨hlt, l[n % l.length], List.getElem?_eq_getElem hlt⟩

/-- C10: `get_pdsch_rv(h)` is `pdsch_rv_sequence[h.nof_retxs mod len]` and `get_pusch_rv(h)` is
`pusch_rv_sequence[h.nof_retxs mod len]`; for a non-empty sequence the index lies within the
sequence and a value is returned.  In a successful grant the redundancy version in the DCI
of the new PDCCH is the sequence entry at `n mod len`, where `n` is the retransmission
count of the process after the call: 0 for a new transmission, one more than before for
a retransmission, so that the i-th retransmission carries `sequence[i mod len]`. -/
theorem rv_follows_sequence (c : ue_cell) (hd : dl_harq_process) (hu : ul_harq_process)
    (a : ue_cell_grid_allocator) (gd : ue_pdsch_grant) (gu : ue_pusch_grant) :
    (c.get_pdsch_rv hd =
        c.expert_cfg.pdsch_rv_sequence[hd.nof_retxs % c.expert_cfg.pdsch_rv_sequence.length]? ∧
      (c.expert_cfg.pdsch_rv_sequence ≠ [] →
        hd.nof_retxs % c.expert_cfg.pdsch_rv_sequence.length < c.expert_cfg.pdsch_rv_sequence.length ∧
        ∃ rv, c.get_pdsch_rv hd = some rv)) ∧
    (c.get_pusch_rv hu =
        c.expert_cfg.pusch_rv_sequence[hu.nof_retxs % c.expert_cfg.pusch_rv_sequence.length]? ∧
      (c.expert_cfg.pusch_rv_sequence ≠ [] →
        hu.nof_retxs % c.expert_cfg.pusch_rv_sequence.length < c.expert_cfg.pusch_rv_sequence.length ∧
        ∃ rv, c.get_pusch_rv hu = some rv)) ∧
    ((allocate_dl_grant a gd).ret = some true →
      ∃ (cc : ue_cell) (h h2 : dl_harq_process) (pd : pdcch_dl_information) (dci : dci_dl_info),
        a.ue_cell_of gd.user_ue_index gd.cell_index = some cc ∧
        a.dl_harq_of gd.user_ue_index gd.cell_index gd.h_id = some h ∧
        (allocate_dl_grant a gd).st.dl_harq_of gd.user_ue_index gd.cell_index gd.h_id = some h2 ∧
        h2.nof_retxs = (if h.empty then 0 else h.nof_retxs + 1) ∧
        (allocate_dl_grant a gd).st.dl_pdcchs_at gd.cell_index 0 =
          a.dl_pdcchs_at gd.cell_index 0 ++ [pd] ∧
        pd.dci = some dci ∧
        cc.expert_cfg.pdsch_rv_sequence[h2.nof_retxs % cc.expert_cfg.pdsch_rv_sequence.length]? =
          some dci.rv) ∧
    ((allocate_ul_grant a gu).ret = some true →
      ∃ (cc : ue_cell) (h h2 : ul_harq_process) (pd : pdcch_ul_information) (dci : dci_ul_info),
        a.ue_cell_of gu.user_ue_index gu.cell_index = some cc ∧
        a.ul_harq_of gu.user_ue_index gu.cell_index gu.h_id = some h ∧
        (allocate_ul_grant a gu).st.ul_harq_of gu.user_ue_index gu.cell_index gu.h_id = some h2 ∧
        h2.nof_retxs = (if h.empty then 0 else h.nof_retxs + 1) ∧
        (allocate_ul_grant a gu).st.ul_pdcchs_at gu.cell_index 0 =
          a.ul_pdcchs_at gu.cell_index 0 ++ [pd] ∧
        pd.dci = some dci ∧
        cc.expert_cfg.pusch_rv_sequence[h2.nof_retxs % cc.expert_cfg.pusch_rv_sequence.length]? =
          some dci.rv) := by
  refine ⟨⟨rfl, fun hne => ?_⟩, ⟨rfl, fun hne => ?_⟩, ?_, ?_⟩
  · exact getElem?_mod_length _ hd.nof_retxs hne
  · exact getElem?_mod_length _ hu.nof_retxs hne
  · intro hret
    obtain ⟨ctx, cand, k1, uci, pdsch_cfg, mcs_tbs, rv, dci, pdsch, d⟩ :=
      allocate_dl_grant_done ((ret_true_iff _).1 hret)
    obtain ⟨l1, _⟩ := dl_done_lists d
    obtain ⟨_, _, _, f4, _⟩ := build_dl_dci_fields d.h_dci
    have hcc : a.ue_cell_of gd.user_ue_index gd.cell_index = some ctx.ue_cc := by
      simp only [ue_cell_grid_allocator.ue_cell_of, d.pre.h_ue, Option.some_bind, d.pre.h_ue_cc]
    refine ⟨ctx.ue_cc, ctx.h_dl, _, _, dci, hcc, dl_harq_of_ctx d.pre, dl_harq_of_done d, ?_,
      l1, rfl, ?_⟩
    · show (dl_alloc_harq ctx.h_dl ctx.pdsch_alloc.slot k1 a.expert_cfg.max_nof_harq_retxs
        uci.dai).nof_retxs = _
      unfold dl_alloc_harq
      cases ctx.h_dl.empty <;> rfl
    · rw [f4]
      exact d.h_rv
  · intro hret
    obtain ⟨ctx, cand, mcs_tbs, dai, rv, dci, d⟩ :=
      allocate_ul_grant_done ((ret_true_iff _).1 hret)
    obtain ⟨l1, _⟩ := ul_done_lists d
    obtain ⟨_, _, _, f4, _⟩ := build_ul_dci_fields d.h_dci
    have hcc : a.ue_cell_of gu.user_ue_index gu.cell_index = some ctx.ue_cc := by
      simp only [ue_cell_grid_allocator.ue_cell_of, d.pre.h_ue, Option.some_bind, d.pre.h_ue_cc]
    refine ⟨ctx.ue_cc, ctx.h_ul, _, _, dci, hcc, ul_harq_of_ctx d.pre, ul_harq_of_done d, ?_,
      l1, rfl, ?_⟩
    · show (ul_alloc_harq ctx.h_ul ctx.pusch_alloc.slot
        a.expert_cfg.max_nof_harq_retxs).nof_retxs = _
      unfold ul_alloc_harq
      cases ctx.h_ul.empty <;> rfl
    · rw [f4]
      exact d.h_rv

/-- C10 at the demo scenario, whose RV sequence is {0, 2, 3, 1}: processes with 0, 1, 2, 3
and 4 retransmissions get the redundancy versions 0, 2, 3, 1, 0. -/
theorem rv_follows_sequence_demo :
    (3 % 4 < 4 ∧ ∃ rv, (⟨0, 0, ⟨[], []⟩, 17921, demo_expert_cfg, demo_ue_cell_cfg, {}⟩ : ue_cell).get_pdsch_rv
      (demo_retx_dl_harq 3) = some rv) ∧
    (List.range 5).map (fun i =>
      (⟨0, 0, ⟨[], []⟩, 17921, demo_expert_cfg, demo_ue_cell_cfg, {}⟩ : ue_cell).get_pdsch_rv
        (demo_retx_dl_harq i)) = [some 0, some 2, some 3, some 1, some 0] ∧
    (List.range 5).map (fun i =>
      (⟨0, 0, ⟨[], []⟩, 17921, demo_expert_cfg, demo_ue_cell_cfg, {}⟩ : ue_cell).get_pusch_rv
        (demo_retx_ul_harq i)) = [some 0, some 2, some 3, some 1, some 0] :=
  ⟨(rv_follows_sequence ⟨0, 0, ⟨[], []⟩, 17921, demo_expert_cfg, demo_ue_cell_cfg, {}⟩
      (demo_retx_dl_harq 3) (demo_retx_ul_harq 3) demo_alloc (demo_dl_grant 0 ⟨0, 10⟩)
      (demo_ul_grant ⟨0, 10⟩)).1.2 (by decide), by decide, by decide⟩

/-! ## The k1 candidates -/

theorem build_dl_dci_k1 {dci_type : dci_dl_rnti_config_type} {ss : search_space_info}
    {g : ue_pdsch_grant} {k1 : Nat} {uci : uci_allocation} {mcs rv : Nat} {h : dl_harq_process}
    {dci : dci_dl_info} (hd : build_dl_dci dci_type ss g k1 uci mcs rv h = some dci) :
    dci.k1 = k1 := by
  unfold build_dl_dci at hd
  cases dci_type <;> simp at hd <;> subst hd <;> rfl

theorem dl_alloc_harq_slot_ack (h : dl_harq_process) (sl : slot_point) (k1 m dai : Nat) :
    (dl_alloc_harq h sl k1 m dai).slot_ack = sl.add k1 := by
  unfold dl_alloc_harq
  cases h.empty <;> rfl

theorem dl_ctx_of_observations {a : ue_cell_grid_allocator} {g : ue_pdsch_grant}
    {ctx : dl_grant_ctx} (pre : dl_prechecks_ok a g ctx) {ss : search_space_info} {cc : ue_cell}
    {td : pdsch_time_domain_resource_allocation} {pa : cell_slot_resource_allocator}
    (hss : a.search_space_of g.user_ue_index g.cell_index g.ss_id = some ss)
    (hcc : a.ue_cell_of g.user_ue_index g.cell_index = some cc)
    (htd : ss.pdsch_time_domain_list[g.time_res_index]? = some td)
    (hpa : a.slot_at g.cell_index td.k0 = some pa) :
    ctx.ss_info = ss ∧ ctx.ue_cc = cc ∧ ctx.pdsch_td_cfg = td ∧ ctx.pdsch_alloc = pa := by
  have e1 : ctx.ss_info = ss := Option.some.inj ((dl_ctx_of_grant pre).2.symm.trans hss)
  have e2 : ctx.ue_cc = cc := by
    have : a.ue_cell_of g.user_ue_index g.cell_index = some ctx.ue_cc := by
      simp only [ue_cell_grid_allocator.ue_cell_of, pre.h_ue, Option.some_bind, pre.h_ue_cc]
    exact Option.some.inj (this.symm.trans hcc)
  have e3 : ctx.pdsch_td_cfg = td := by
    have := pre.h_td
    rw [e1, htd] at this
    exact (Option.some.inj this).symm
  have e4 : ctx.pdsch_alloc = pa := by
    have := pre.h_pdsch_alloc
    rw [← slot_at_of_cell pre.h_cell, e3, hpa] at this
    exact (Option.some.inj this).symm
  exact ⟨e1, e2, e3, e4⟩

theorem and_of_left_imp {p q : Prop} (hp : p) (hq : p → q) : p ∧ q := ⟨hp, hq hp⟩

/-- C11: `allocate_dl_grant` requests PUCCH reservations for k1 candidates of the chosen
search space in list order (the requested k1 values form a sublist of the candidate
list), never for a candidate whose UCI slot (PDSCH slot + k1) is not fully UL-enabled, and
when it returns true the last request is the one for the k1 it chose and no candidate
after it is tried.  That k1 is the `harq_feedback_timing` of the new PDCCH, the `k1` of the
new PDSCH grant, the k1 in the DCI, and the acknowledgement slot of the HARQ process is the
PDSCH slot + k1.  The loop stops at the first accepted request: whenever a request was
accepted (the call returns true, or returns false for want of an MCS), the candidate
list splits at the accepted candidate k1, the requests are exactly those for the
candidates before k1 that pass the two tests of the loop (fully UL-enabled UCI slot, no
full CSI slot), in list order, each of which `alloc_uci_harq_ue` refused, followed by the
one for k1, and on return true this k1 is the recorded one; when the call returns false
for want of a PUCCH, every candidate that passes the tests was requested and refused.
`cell` with `r` is the state of the cell after the PDCCH reservation, on which the
requests are made. -/
theorem k1_candidates_tried_in_order (a : ue_cell_grid_allocator) (g : ue_pdsch_grant)
    (ss : search_space_info) (cc : ue_cell) (td : pdsch_time_domain_resource_allocation)
    (pa : cell_slot_resource_allocator)
    (hss : a.search_space_of g.user_ue_index g.cell_index g.ss_id = some ss)
    (hcc : a.ue_cell_of g.user_ue_index g.cell_index = some cc)
    (htd : ss.pdsch_time_domain_list[g.time_res_index]? = some td)
    (hpa : a.slot_at g.cell_index td.k0 = some pa) :
    (uci_requests (allocate_dl_grant a g).calls).Sublist ss.get_k1_candidates ∧
    (∀ k ∈ uci_requests (allocate_dl_grant a g).calls,
      cc.cfg.cell_cfg_common.is_fully_ul_enabled (pa.slot.add k) = true) ∧
    ((allocate_dl_grant a g).ret = some true →
      ∃ (k1 : Nat) (before after tried : List Nat) (pd : pdcch_dl_information)
        (dci : dci_dl_info) (msg : dl_msg_alloc) (h2 : dl_harq_process),
        ss.get_k1_candidates = before ++ k1 :: after ∧ tried.Sublist before ∧
        uci_requests (allocate_dl_grant a g).calls = tried ++ [k1] ∧
        (allocate_dl_grant a g).st.dl_pdcchs_at g.cell_index 0 =
          a.dl_pdcchs_at g.cell_index 0 ++ [pd] ∧
        pd.harq_feedback_timing = k1 ∧ pd.dci = some dci ∧ dci.k1 = k1 ∧
        (allocate_dl_grant a g).st.ue_grants_at g.cell_index td.k0 =
          a.ue_grants_at g.cell_index td.k0 ++ [msg] ∧
        msg.k1 = k1 ∧
        (allocate_dl_grant a g).st.dl_harq_of g.user_ue_index g.cell_index g.h_id = some h2 ∧
        h2.slot_ack = pa.slot.add k1) ∧
    (∀ (u : ue) (cell : cell_t) (pa0 : cell_slot_resource_allocator)
        (r : pdcch_resource_allocator × cell_slot_resource_allocator),
      a.ues.getD g.user_ue_index none = some u → a.cells.getD g.cell_index none = some cell →
      cell.cell_alloc.at_offset 0 = some pa0 →
      alloc_dl_pdcch_ue cell.pdcch_sched pa0 u.crnti ss.cfg_id g.aggr_lvl = some r →
      (((allocate_dl_grant a g).exit = .success ∨
          (allocate_dl_grant a g).exit = .failure .no_mcs) →
        ∃ (before : List Nat) (k1 : Nat) (after : List Nat),
          ss.get_k1_candidates = before ++ k1 :: after ∧
          uci_requests (allocate_dl_grant a g).calls =
            before.filter (k1_candidate_requested cc.cfg.cell_cfg_common u pa.slot
              { cell with pdcch_sched := r.1, cell_alloc := cell.cell_alloc.set_offset 0 r.2 })
              ++ [k1] ∧
          k1_candidate_requested cc.cfg.cell_cfg_common u pa.slot
            { cell with pdcch_sched := r.1, cell_alloc := cell.cell_alloc.set_offset 0 r.2 }
            k1 = true ∧
          k1_request_accepted u td.k0
            { cell with pdcch_sched := r.1, cell_alloc := cell.cell_alloc.set_offset 0 r.2 }
            k1 = true ∧
          (∀ k ∈ before,
            k1_candidate_requested cc.cfg.cell_cfg_common u pa.slot
              { cell with pdcch_sched := r.1, cell_alloc := cell.cell_alloc.set_offset 0 r.2 }
              k = true →
            k1_request_accepted u td.k0
              { cell with pdcch_sched := r.1, cell_alloc := cell.cell_alloc.set_offset 0 r.2 }
              k = false) ∧
          ((allocate_dl_grant a g).ret = some true →
            ∃ (pd : pdcch_dl_information) (dci : dci_dl_info) (msg : dl_msg_alloc),
              (allocate_dl_grant a g).st.dl_pdcchs_at g.cell_index 0 =
                a.dl_pdcchs_at g.cell_index 0 ++ [pd] ∧
              pd.harq_feedback_timing = k1 ∧ pd.dci = some dci ∧ dci.k1 = k1 ∧
              (allocate_dl_grant a g).st.ue_grants_at g.cell_index td.k0 =
                a.ue_grants_at g.cell_index td.k0 ++ [msg] ∧
              msg.k1 = k1)) ∧
      ((allocate_dl_grant a g).exit = .failure .no_pucch_space →
        uci_requests (allocate_dl_grant a g).calls =
          ss.get_k1_candidates.filter (k1_candidate_requested cc.cfg.cell_cfg_common u pa.slot
            { cell with pdcch_sched := r.1, cell_alloc := cell.cell_alloc.set_offset 0 r.2 }) ∧
        ∀ k ∈ ss.get_k1_candidates,
          k1_candidate_requested cc.cfg.cell_cfg_common u pa.slot
            { cell with pdcch_sched := r.1, cell_alloc := cell.cell_alloc.set_offset 0 r.2 }
            k = true →
          k1_request_accepted u td.k0
            { cell with pdcch_sched := r.1, cell_alloc := cell.cell_alloc.set_offset 0 r.2 }
            k = false)) := by
  cases hpre : dl_grant_prechecks a g with
  | abort c =>
    have hc := allocate_dl_grant_requests_none (fun ctx h => by rw [hpre] at h; cases h)
    have hexit : (allocate_dl_grant a g).exit = .abort c := by simp [allocate_dl_grant, hpre]
    refine ⟨by rw [hc]; exact List.nil_sublist _, (by rw [hc]; intro k hk; cases hk), ?_, ?_⟩
    · intro h
      simp [alloc_run.ret, allocate_dl_grant, hpre, alloc_exit.ret] at h
    · intro u cell pa0 r _ _ _ _
      rw [hexit]
      exact ⟨fun h => (by rcases h with h | h <;> cases h), fun h => (by cases h)⟩
  | fail c =>
    have hc := allocate_dl_grant_requests_none (fun ctx h => by rw [hpre] at h; cases h)
    have hexit : (allocate_dl_grant a g).exit = .failure c := by simp [allocate_dl_grant, hpre]
    have hearly := dl_grant_prechecks_fail hpre
    refine ⟨by rw [hc]; exact List.nil_sublist _, (by rw [hc]; intro k hk; cases hk), ?_, ?_⟩
    · intro h
      simp [alloc_run.ret, allocate_dl_grant, hpre, alloc_exit.ret] at h
    · intro u cell pa0 r _ _ _ _
      rw [hexit]
      refine ⟨fun h => ?_, fun h => ?_⟩
      · rcases h with h | h
        · cases h
        · injection h with h
          rw [h] at hearly
          cases hearly
      · injection h with h
        rw [h] at hearly
        cases hearly
  | ok ctx =>
    have pre := dl_grant_prechecks_ok hpre
    obtain ⟨e1, e2, e3, e4⟩ := dl_ctx_of_observations pre hss hcc htd hpa
    subst e1 e2 e3 e4
    have key : ∀ r : pdcch_resource_allocator × cell_slot_resource_allocator, ∃ tried : List Nat,
        uci_requests (dl_uci_k1_loop ctx.ue_cc.cfg.cell_cfg_common ctx.u ctx.pdsch_td_cfg.k0
          ctx.pdsch_alloc.slot
          { ctx.cell with pdcch_sched := r.1, cell_alloc := ctx.cell.cell_alloc.set_offset 0 r.2 }
          ctx.ss_info.get_k1_candidates).calls = tried ∧
        tried.Sublist ctx.ss_info.get_k1_candidates ∧
        (∀ k ∈ tried, ctx.ue_cc.cfg.cell_cfg_common.is_fully_ul_enabled
          (ctx.pdsch_alloc.slot.add k) = true) := by
      intro r
      obtain ⟨tried, hc, hsub, hen, _⟩ := dl_uci_k1_loop_order ctx.ue_cc.cfg.cell_cfg_common
        ctx.u ctx.pdsch_td_cfg.k0 ctx.pdsch_alloc.slot ctx.ss_info.get_k1_candidates
        { ctx.cell with pdcch_sched := r.1, cell_alloc := ctx.cell.cell_alloc.set_offset 0 r.2 }
      exact ⟨tried, by rw [hc, uci_requests_map], hsub, fun k hk => (hen k hk).1⟩
    refine ⟨?_, ?_, and_of_left_imp ?_ ?_⟩
    · rcases allocate_dl_grant_requests hpre with h0 | ⟨r, _, hr⟩
      · rw [h0]; exact List.nil_sublist _
      · obtain ⟨tried, h1, h2, _⟩ := key r
        rw [hr, h1]; exact h2
    · rcases allocate_dl_grant_requests hpre with h0 | ⟨r, _, hr⟩
      · rw [h0]; intro k hk; cases hk
      · obtain ⟨tried, h1, _, h3⟩ := key r
        rw [hr, h1]; exact h3
    · intro hret
      have hex := (ret_true_iff _).1 hret
      obtain ⟨r, hal, hna, hs, msgs, m, hm, hmk⟩ := allocate_dl_grant_success_loop hpre hex
      obtain ⟨tried, hc, _, _, hsucc⟩ := dl_uci_k1_loop_order ctx.ue_cc.cfg.cell_cfg_common
        ctx.u ctx.pdsch_td_cfg.k0 ctx.pdsch_alloc.slot ctx.ss_info.get_k1_candidates
        { ctx.cell with pdcch_sched := r.1, cell_alloc := ctx.cell.cell_alloc.set_offset 0 r.2 }
      obtain ⟨before, after, tried0, hks, hsub0, htried⟩ := hsucc hna hs
      have hreq : uci_requests (allocate_dl_grant a g).calls = tried := by
        rcases allocate_dl_grant_requests hpre with h0 | ⟨r', hal', hr⟩
        · exfalso
          have hsplit : ∃ tail, (allocate_dl_grant a g).calls =
              ([call_event.alloc_dl_pdcch_ue ctx.u.crnti ctx.ss_info.cfg_id g.aggr_lvl] ++
                (dl_uci_k1_loop ctx.ue_cc.cfg.cell_cfg_common ctx.u ctx.pdsch_td_cfg.k0
                  ctx.pdsch_alloc.slot
                  { ctx.cell with pdcch_sched := r.1,
                                  cell_alloc := ctx.cell.cell_alloc.set_offset 0 r.2 }
                  ctx.ss_info.get_k1_candidates).calls) ++ tail := by
            have heq : allocate_dl_grant a g = dl_grant_alloc a g ctx := by
              simp [allocate_dl_grant, hpre]
            have heq2 : dl_grant_alloc a g ctx = dl_grant_uci a g ctx
                { ctx.cell with pdcch_sched := r.1,
                                cell_alloc := ctx.cell.cell_alloc.set_offset 0 r.2 }
                [.alloc_dl_pdcch_ue ctx.u.crnti ctx.ss_info.cfg_id g.aggr_lvl] := by
              simp [dl_grant_alloc, hal]
            obtain ⟨tail, ht, _⟩ := dl_grant_uci_calls a g ctx
              { ctx.cell with pdcch_sched := r.1,
                              cell_alloc := ctx.cell.cell_alloc.set_offset 0 r.2 }
              [.alloc_dl_pdcch_ue ctx.u.crnti ctx.ss_info.cfg_id g.aggr_lvl]
            exact ⟨tail, by rw [heq, heq2, ht]⟩
          obtain ⟨tail, ht⟩ := hsplit
          rw [ht, uci_requests_append, uci_requests_append, hc, uci_requests_map, htried] at h0
          simp at h0
        · have e : r' = r := Option.some.inj (hal'.symm.trans hal)
          subst e
          rw [hr, hc, uci_requests_map]
      obtain ⟨ctx', cand, k1, uci, pdsch_cfg, mcs_tbs, rv, dci, pdsch, d⟩ :=
        allocate_dl_grant_done hex
      obtain ⟨e1, e2, e3, e4⟩ := dl_ctx_of_observations d.pre (dl_ctx_of_grant pre).2
        (show a.ue_cell_of g.user_ue_index g.cell_index = some ctx.ue_cc by
          simp only [ue_cell_grid_allocator.ue_cell_of, pre.h_ue, Option.some_bind, pre.h_ue_cc])
        pre.h_td (by rw [slot_at_of_cell pre.h_cell]; exact pre.h_pdsch_alloc)
      obtain ⟨l1, l2, _⟩ := dl_done_lists d
      rw [e3] at l2
      have hk1 : k1 = (dl_uci_k1_loop ctx.ue_cc.cfg.cell_cfg_common ctx.u ctx.pdsch_td_cfg.k0
          ctx.pdsch_alloc.slot
          { ctx.cell with pdcch_sched := r.1, cell_alloc := ctx.cell.cell_alloc.set_offset 0 r.2 }
          ctx.ss_info.get_k1_candidates).k1 := by
        rw [← hmk]
        have := append_singleton_inj (l2.symm.trans hm)
        rw [← this]
        rfl
      rw [← hk1] at hks htried
      refine ⟨k1, before, after, tried0, _, dci, _, _, hks, hsub0, by rw [hreq, htried], l1, rfl,
        rfl, build_dl_dci_k1 d.h_dci, l2, rfl, dl_harq_of_done d, ?_⟩
      show (dl_alloc_harq ctx'.h_dl ctx'.pdsch_alloc.slot k1 a.expert_cfg.max_nof_harq_retxs
        uci.dai).slot_ack = _
      rw [dl_alloc_harq_slot_ack, e4]
    · intro p3 u cell pa0 r hu hcell hpa0 hr
      have eu : ctx.u = u := Option.some.inj (pre.h_ue.symm.trans hu)
      have ec : ctx.cell = cell := Option.some.inj (pre.h_cell.symm.trans hcell)
      subst eu ec
      have ep : ctx.pdcch_alloc = pa0 := Option.some.inj (pre.h_pdcch_alloc.symm.trans hpa0)
      subst ep
      have heq : allocate_dl_grant a g = dl_grant_alloc a g ctx := by
        simp [allocate_dl_grant, hpre]
      have heq2 : dl_grant_alloc a g ctx = dl_grant_uci a g ctx
          { ctx.cell with pdcch_sched := r.1, cell_alloc := ctx.cell.cell_alloc.set_offset 0 r.2 }
          [.alloc_dl_pdcch_ue ctx.u.crnti ctx.ss_info.cfg_id g.aggr_lvl] := by
        simp [dl_grant_alloc, hr]
      obtain ⟨tail, ht, htail⟩ := dl_grant_uci_calls a g ctx
        { ctx.cell with pdcch_sched := r.1, cell_alloc := ctx.cell.cell_alloc.set_offset 0 r.2 }
        [.alloc_dl_pdcch_ue ctx.u.crnti ctx.ss_info.cfg_id g.aggr_lvl]
      have hreq : uci_requests (allocate_dl_grant a g).calls =
          uci_requests (dl_uci_k1_loop ctx.ue_cc.cfg.cell_cfg_common ctx.u ctx.pdsch_td_cfg.k0
            ctx.pdsch_alloc.slot
            { ctx.cell with pdcch_sched := r.1,
                            cell_alloc := ctx.cell.cell_alloc.set_offset 0 r.2 }
            ctx.ss_info.get_k1_candidates).calls := by
        rw [heq, heq2, ht, uci_requests_append, uci_requests_append, htail, List.append_nil]
        rfl
      refine ⟨fun hex => ?_, fun hex => ?_⟩
      · have hloop : (dl_uci_k1_loop ctx.ue_cc.cfg.cell_cfg_common ctx.u ctx.pdsch_td_cfg.k0
              ctx.pdsch_alloc.slot
              { ctx.cell with pdcch_sched := r.1,
                              cell_alloc := ctx.cell.cell_alloc.set_offset 0 r.2 }
              ctx.ss_info.get_k1_candidates).aborted = false ∧
            (dl_uci_k1_loop ctx.ue_cc.cfg.cell_cfg_common ctx.u ctx.pdsch_td_cfg.k0
              ctx.pdsch_alloc.slot
              { ctx.cell with pdcch_sched := r.1,
                              cell_alloc := ctx.cell.cell_alloc.set_offset 0 r.2 }
              ctx.ss_info.get_k1_candidates).uci.alloc_successful = true := by
          rcases hex with hex | hex
          · rw [heq, heq2] at hex
            obtain ⟨h1, h2, _⟩ := dl_grant_uci_success rfl hex
            exact ⟨h1, h2⟩
          · rw [heq, heq2] at hex
            obtain ⟨h1, h2⟩ := dl_grant_uci_failure rfl hex
            rcases h2 with ⟨h3, _⟩ | ⟨_, h3, _⟩
            · cases h3
            · exact ⟨h1, h3⟩
        obtain ⟨before, after, h1, h2, h3, h4, h5⟩ :=
          (dl_uci_k1_loop_first_success _ _ _ _ _ _ hloop.1).1 hloop.2
        refine ⟨before, _, after, h1, by rw [hreq, h2], h3, h4, h5, fun hret => ?_⟩
        obtain ⟨k1', before', after', tried', pd, dci, msg, h2', _, _, q3, q4, q5, q6, q7, q8, q9,
          _, _⟩ := p3 hret
        have ek : k1' = (dl_uci_k1_loop ctx.ue_cc.cfg.cell_cfg_common ctx.u ctx.pdsch_td_cfg.k0
            ctx.pdsch_alloc.slot
            { ctx.cell with pdcch_sched := r.1,
                            cell_alloc := ctx.cell.cell_alloc.set_offset 0 r.2 }
            ctx.ss_info.get_k1_candidates).k1 := by
          rw [hreq, h2] at q3
          exact (append_singleton_inj q3).symm
        rw [ek] at q5 q7 q9
        exact ⟨pd, dci, msg, q4, q5, q6, q7, q8, q9⟩
      · rw [heq, heq2] at hex
        obtain ⟨h1, h2⟩ := dl_grant_uci_failure rfl hex
        rcases h2 with ⟨_, h3, _⟩ | ⟨h3, _⟩
        · obtain ⟨i1, i2⟩ := (dl_uci_k1_loop_first_success _ _ _ _ _ _ h1).2 h3
          exact ⟨by rw [hreq, i1], i2⟩
        · cases h3

/-- C11 in the scenario with the k1 candidates 2, 3, 4 and 5, where the UCI slot of 2 is not
fully UL-enabled and the PUCCH allocator refuses the request for 3: a grant of ten RBs
returns true after the requests for 3 and 4, and 4 is the k1 of the new PDCCH; a grant
of one RB, for which there is no MCS, returns false after the same two requests.  In
both calls 5 is not tried. -/
theorem k1_candidates_tried_in_order_demo :
    uci_requests (allocate_dl_grant demo_k1_alloc (demo_dl_grant 0 ⟨0, 10⟩)).calls = [3, 4] ∧
    (allocate_dl_grant demo_k1_alloc (demo_dl_grant 0 ⟨0, 10⟩)).exit = .success ∧
    uci_requests (allocate_dl_grant demo_k1_alloc (demo_dl_grant 0 ⟨0, 1⟩)).calls = [3, 4] ∧
    (allocate_dl_grant demo_k1_alloc (demo_dl_grant 0 ⟨0, 1⟩)).exit = .failure .no_mcs ∧
    (uci_requests (allocate_dl_grant demo_k1_alloc (demo_dl_grant 0 ⟨0, 10⟩)).calls).Sublist
      [2, 3, 4, 5] ∧
    (∃ (before : List Nat) (k1 : Nat) (after : List Nat),
      demo_k1_ss.get_k1_candidates = before ++ k1 :: after ∧
      uci_requests (allocate_dl_grant demo_k1_alloc (demo_dl_grant 0 ⟨0, 10⟩)).calls =
        before.filter (k1_candidate_requested demo_k1_ue_cell.cfg.cell_cfg_common demo_k1_ue
          (demo_slot 0).slot
          { demo_k1_cell with
            pdcch_sched := demo_k1_pdcch.1,
            cell_alloc := demo_k1_cell.cell_alloc.set_offset 0 demo_k1_pdcch.2 }) ++ [k1] ∧
      k1_candidate_requested demo_k1_ue_cell.cfg.cell_cfg_common demo_k1_ue (demo_slot 0).slot
        { demo_k1_cell with
          pdcch_sched := demo_k1_pdcch.1,
          cell_alloc := demo_k1_cell.cell_alloc.set_offset 0 demo_k1_pdcch.2 } k1 = true ∧
      k1_request_accepted demo_k1_ue 0
        { demo_k1_cell with
          pdcch_sched := demo_k1_pdcch.1,
          cell_alloc := demo_k1_cell.cell_alloc.set_offset 0 demo_k1_pdcch.2 } k1 = true) :=
  ⟨by decide, by decide, by decide, by decide,
   (k1_candidates_tried_in_order demo_k1_alloc (demo_dl_grant 0 ⟨0, 10⟩) demo_k1_ss
      demo_k1_ue_cell ⟨0, ⟨2, 14⟩⟩ (demo_slot 0) rfl rfl rfl rfl).1,
   match ((k1_candidates_tried_in_order demo_k1_alloc (demo_dl_grant 0 ⟨0, 10⟩) demo_k1_ss
      demo_k1_ue_cell ⟨0, ⟨2, 14⟩⟩ (demo_slot 0) rfl rfl rfl rfl).2.2.2
      demo_k1_ue demo_k1_cell (demo_slot 0) demo_k1_pdcch rfl rfl rfl rfl).1
      (Or.inl (by decide)) with
   | ⟨before, k1, after, h1, h2, h3, h4, _⟩ => ⟨before, k1, after, h1, h2, h3, h4⟩⟩

/-! ## The cap of two HARQ-ACK bits -/

theorem at_slot_slot {r : cell_resource_allocator} {sl : slot_point}
    {sa : cell_slot_resource_allocator} (h : r.at_slot sl = some sa) : sa.slot = sl := by
  unfold cell_resource_allocator.at_slot at h
  have := List.find?_some h
  simpa using this

theorem at_slot_set_offset_isSome (r : cell_resource_allocator) (k : Nat)
    (sa0 sa1 : cell_slot_resource_allocator) (h0 : r.at_offset k = some sa0)
    (hs : sa1.slot = sa0.slot) (sl : slot_point) (h : (r.at_slot sl).isSome = true) :
    ((r.set_offset k sa1).at_slot sl).isSome = true := by
  unfold cell_resource_allocator.at_slot cell_resource_allocator.set_offset at *
  unfold cell_resource_allocator.at_offset at h0
  rw [List.find?_isSome] at h ⊢
  obtain ⟨x, hx, hp⟩ := h
  obtain ⟨i, hi, hxi⟩ := List.getElem_of_mem hx
  by_cases hki : k = i
  · subst hki
    refine ⟨sa1, ?_, ?_⟩
    · simp only
      exact List.mem_iff_getElem.2 ⟨k, by simpa using hi, by simp⟩
    · have e : sa0 = x := by
        rw [List.getElem?_eq_getElem hi] at h0
        rw [← hxi]
        exact (Option.some.inj h0).symm
      rw [hs, e]; exact hp
  · refine ⟨x, ?_, hp⟩
    simp only
    exact List.mem_iff_getElem.2 ⟨i, by simpa using hi, by
      rw [List.getElem_set_ne hki]; exact hxi⟩

theorem alloc_dl_pdcch_ue_slot {p : pdcch_resource_allocator} {sa : cell_slot_resource_allocator}
    {rnti ss_id aggr_lvl : Nat} {r : pdcch_resource_allocator × cell_slot_resource_allocator}
    (h : alloc_dl_pdcch_ue p sa rnti ss_id aggr_lvl = some r) : r.2.slot = sa.slot := by
  unfold alloc_dl_pdcch_ue at h
  cases hc : pdcch_candidate p sa rnti ss_id aggr_lvl with
  | none => simp [hc] at h
  | some g =>
    simp only [hc, Option.some.injEq] at h
    rw [← h]

/-- C12, counter-example: in the demo scenario the UE has no CSI report configured and two
HARQ-ACK bits are already bound to its UCI in the slot at offset 4.  The DL grant with the
k1 candidate 4 still requests the PUCCH reservation for that slot and succeeds, binding a
third bit. -/
theorem third_harq_bit_outside_csi_slot :
    demo_two_acks_alloc.harq_ack_bits_in_slot 0 ⟨1, 4⟩ 17921 = 2 ∧
    is_csi_slot demo_ue_cell_cfg.cfg_dedicated ⟨1, 4⟩ = false ∧
    uci_requests (allocate_dl_grant demo_two_acks_alloc (demo_dl_grant 0 ⟨0, 10⟩)).calls = [4] ∧
    (allocate_dl_grant demo_two_acks_alloc (demo_dl_grant 0 ⟨0, 10⟩)).ret = some true ∧
    (allocate_dl_grant demo_two_acks_alloc (demo_dl_grant 0 ⟨0, 10⟩)).st.harq_ack_bits_in_slot 0
      ⟨1, 4⟩ 17921 = 3 := by
  decide

/-- C12, as amended: `allocate_dl_grant` never requests a PUCCH reservation, and so never
binds a new HARQ-ACK bit, for a k1 candidate whose UCI slot is a CSI-report slot of the UE
(by the dedicated configuration of its primary cell) and already has a scheduled-PDSCH
counter of 2 or more for the UE: such a candidate is skipped.  A UCI slot that is not a
CSI-report slot is not subject to the cap. -/
theorem no_request_for_full_csi_slot (a : ue_cell_grid_allocator) (g : ue_pdsch_grant)
    (u : ue) (pcell : ue_cell) (ss : search_space_info) (cc : ue_cell)
    (td : pdsch_time_domain_resource_allocation) (pa : cell_slot_resource_allocator) (k : Nat)
    (hu : a.ues.getD g.user_ue_index none = some u) (hpc : u.get_pcell = some pcell)
    (hss : a.search_space_of g.user_ue_index g.cell_index g.ss_id = some ss)
    (hcc : a.ue_cell_of g.user_ue_index g.cell_index = some cc)
    (htd : ss.pdsch_time_domain_list[g.time_res_index]? = some td)
    (hpa : a.slot_at g.cell_index td.k0 = some pa)
    (hcsi : is_csi_slot pcell.cfg.cfg_dedicated (pa.slot.add k) = true)
    (hfull : 2 ≤ a.harq_ack_bits_in_slot g.cell_index (pa.slot.add k) u.crnti) :
    k ∉ uci_requests (allocate_dl_grant a g).calls := by
  intro hk
  cases hpre : dl_grant_prechecks a g with
  | abort c =>
    rw [allocate_dl_grant_requests_none (fun ctx h => by rw [hpre] at h; cases h)] at hk
    cases hk
  | fail c =>
    rw [allocate_dl_grant_requests_none (fun ctx h => by rw [hpre] at h; cases h)] at hk
    cases hk
  | ok ctx =>
    have pre := dl_grant_prechecks_ok hpre
    obtain ⟨e1, e2, e3, e4⟩ := dl_ctx_of_observations pre hss hcc htd hpa
    have eu : ctx.u = u := Option.some.inj (pre.h_ue.symm.trans hu)
    subst e1 e2 e3 e4 eu
    rcases allocate_dl_grant_requests hpre with h0 | ⟨r, hal, hr⟩
    · rw [h0] at hk; cases hk
    · obtain ⟨tried, hc, _, hen, _⟩ := dl_uci_k1_loop_order ctx.ue_cc.cfg.cell_cfg_common
        ctx.u ctx.pdsch_td_cfg.k0 ctx.pdsch_alloc.slot ctx.ss_info.get_k1_candidates
        { ctx.cell with pdcch_sched := r.1, cell_alloc := ctx.cell.cell_alloc.set_offset 0 r.2 }
      rw [hr, hc, uci_requests_map] at hk
      obtain ⟨_, pcell', hpc', hfalse⟩ := hen k hk
      have ep : pcell' = pcell := Option.some.inj (hpc'.symm.trans hpc)
      subst ep
      -- the counter read by the loop is the one of the state before the call
      unfold ue_cell_grid_allocator.harq_ack_bits_in_slot at hfull
      rw [pre.h_cell] at hfull
      simp only at hfull
      cases hat : ctx.cell.cell_alloc.at_slot (ctx.pdsch_alloc.slot.add k) with
      | none => rw [hat] at hfull; simp at hfull
      | some sa0 =>
        rw [hat] at hfull
        simp only at hfull
        have hsome := at_slot_set_offset_isSome ctx.cell.cell_alloc 0 ctx.pdcch_alloc r.2
          pre.h_pdcch_alloc (alloc_dl_pdcch_ue_slot hal) (ctx.pdsch_alloc.slot.add k)
          (by rw [hat]; rfl)
        obtain ⟨sa1, hsa1⟩ := Option.isSome_iff_exists.1 hsome
        have hcnt : get_scheduled_pdsch_counter_in_ue_uci ctx.cell.uci_alloc sa1 ctx.u.crnti =
            get_scheduled_pdsch_counter_in_ue_uci ctx.cell.uci_alloc sa0 ctx.u.crnti :=
          counter_slot_congr _ ((at_slot_slot hsa1).trans (at_slot_slot hat).symm) _
        unfold csi_slot_harq_bits_full at hfalse
        rw [if_pos hcsi] at hfalse
        simp only [hsa1, hcnt, Option.some.injEq, decide_eq_false_iff_not, ge_iff_le, not_le,
          max_harq_bits_per_uci] at hfalse
        omega

/-- C12, the amended statement at the demo scenario with a CSI report in the slot at
offset 4: no PUCCH reservation is requested for k1 = 4 and the grant fails for want of a
PUCCH. -/
theorem no_request_for_full_csi_slot_demo :
    4 ∉ uci_requests (allocate_dl_grant demo_csi_alloc (demo_dl_grant 0 ⟨0, 10⟩)).calls ∧
    (allocate_dl_grant demo_csi_alloc (demo_dl_grant 0 ⟨0, 10⟩)).exit = .failure .no_pucch_space :=
  ⟨no_request_for_full_csi_slot demo_csi_alloc (demo_dl_grant 0 ⟨0, 10⟩) demo_csi_ue
      { ue_index := 0, cell_index := 0,
        harqs := ⟨[demo_dl_harq 0, demo_dl_harq 1], [demo_ul_harq 0, demo_ul_harq 1]⟩,
        crnti_ := 17921, expert_cfg := demo_expert_cfg,
        ue_cfg := { demo_ue_cell_cfg with cfg_dedicated := ⟨some ⟨4, 8⟩⟩ } }
      demo_ss
      { ue_index := 0, cell_index := 0,
        harqs := ⟨[demo_dl_harq 0, demo_dl_harq 1], [demo_ul_harq 0, demo_ul_harq 1]⟩,
        crnti_ := 17921, expert_cfg := demo_expert_cfg,
        ue_cfg := { demo_ue_cell_cfg with cfg_dedicated := ⟨some ⟨4, 8⟩⟩ } }
      ⟨0, ⟨2, 14⟩⟩ (demo_slot 0) 4 rfl rfl rfl rfl rfl rfl (by decide) (by decide),
   by decide⟩

/-! ## Grants for a UE that is not in the repository -/

/-- C13, counter-example: in the demo scenario, whose repository holds the UE index 0 only,
a DL grant and an UL grant for the UE index 7 do not return false: both calls abort on the
failed assertion `ues.contains(grant.user->ue_index)`. -/
theorem unknown_ue_aborts :
    demo_alloc.ues.getD 7 none = none ∧
    (allocate_dl_grant demo_alloc { demo_dl_grant 0 ⟨0, 10⟩ with user_ue_index := 7 }).exit =
      .abort .invalid_ue_index ∧
    (allocate_dl_grant demo_alloc { demo_dl_grant 0 ⟨0, 10⟩ with user_ue_index := 7 }).ret ≠
      some false ∧
    (allocate_ul_grant demo_alloc { demo_ul_grant ⟨0, 10⟩ with user_ue_index := 7 }).exit =
      .abort .invalid_ue_index ∧
    (allocate_ul_grant demo_alloc { demo_ul_grant ⟨0, 10⟩ with user_ue_index := 7 }).ret ≠
      some false :=
  ⟨rfl, by decide, by decide, by decide, by decide⟩

/-- C13, as amended: `allocate_dl_grant` and `allocate_ul_grant` treat a grant whose UE index
is not in the UE repository as a broken precondition: the call aborts on the assertion
`ues.contains(grant.user->ue_index)`, the first statement of both functions, and returns
nothing; up to the abort no state is changed and no collaborator is called. -/
theorem unknown_ue_is_asserted (a : ue_cell_grid_allocator) (gd : ue_pdsch_grant)
    (gu : ue_pusch_grant) :
    (a.ues.getD gd.user_ue_index none = none →
      (allocate_dl_grant a gd).exit = .abort .invalid_ue_index ∧
      (allocate_dl_grant a gd).ret = none ∧
      (allocate_dl_grant a gd).st = a ∧ (allocate_dl_grant a gd).calls = []) ∧
    (a.ues.getD gu.user_ue_index none = none →
      (allocate_ul_grant a gu).exit = .abort .invalid_ue_index ∧
      (allocate_ul_grant a gu).ret = none ∧
      (allocate_ul_grant a gu).st = a ∧ (allocate_ul_grant a gu).calls = []) := by
  constructor
  · intro h
    have hp : dl_grant_prechecks a gd = .abort .invalid_ue_index := by
      unfold dl_grant_prechecks
      rw [h]
      rfl
    have he : allocate_dl_grant a gd = ⟨.abort .invalid_ue_index, [], a⟩ := by
      simp [allocate_dl_grant, hp]
    rw [he]
    exact ⟨rfl, rfl, rfl, rfl⟩
  · intro h
    have hp : ul_grant_prechecks a gu = .abort .invalid_ue_index := by
      unfold ul_grant_prechecks
      rw [h]
      rfl
    have he : allocate_ul_grant a gu = ⟨.abort .invalid_ue_index, [], a⟩ := by
      simp [allocate_ul_grant, hp]
    rw [he]
    exact ⟨rfl, rfl, rfl, rfl⟩

/-- C13, the amended statement at the grants for the UE index 7 of the demo scenario. -/
theorem unknown_ue_is_asserted_demo :
    (allocate_dl_grant demo_alloc { demo_dl_grant 0 ⟨0, 10⟩ with user_ue_index := 7 }).ret = none ∧
    (allocate_ul_grant demo_alloc { demo_ul_grant ⟨0, 10⟩ with user_ue_index := 7 }).ret = none :=
  ⟨((unknown_ue_is_asserted demo_alloc { demo_dl_grant 0 ⟨0, 10⟩ with user_ue_index := 7 }
      { demo_ul_grant ⟨0, 10⟩ with user_ue_index := 7 }).1 rfl).2.1,
   ((unknown_ue_is_asserted demo_alloc { demo_dl_grant 0 ⟨0, 10⟩ with user_ue_index := 7 }
      { demo_ul_grant ⟨0, 10⟩ with user_ue_index := 7 }).2 rfl).2.1⟩

/-! ## MCS of a new transmission -/

theorem allocate_dl_grant_no_mcs_compute {a : ue_cell_grid_allocator} {g : ue_pdsch_grant}
    (h : (allocate_dl_grant a g).exit = .failure .no_mcs) :
    ∃ ctx pdsch_cfg, dl_grant_prechecks a g = .ok ctx ∧ ctx.h_dl.empty = true ∧
      get_pdsch_config ctx.dci_type ctx.pdsch_td_cfg = some pdsch_cfg ∧
      a.compute_dl_mcs_tbs pdsch_cfg ctx.ue_cc.cfg
        (adjust_mcs_for_csi_rs g.mcs ctx.pdsch_alloc.result.dl.csi_rs) g.crbs.length = none := by
  obtain ⟨ctx, hpre, heq⟩ := allocate_dl_grant_late h rfl
  have pre := dl_grant_prechecks_ok hpre
  rw [heq] at h
  cases hal : alloc_dl_pdcch_ue ctx.cell.pdcch_sched ctx.pdcch_alloc ctx.u.crnti ctx.ss_info.cfg_id
      g.aggr_lvl with
  | none => simp [dl_grant_alloc, hal] at h
  | some r =>
    have heq2 : dl_grant_alloc a g ctx = dl_grant_uci a g ctx
        { ctx.cell with pdcch_sched := r.1, cell_alloc := ctx.cell.cell_alloc.set_offset 0 r.2 }
        [.alloc_dl_pdcch_ue ctx.u.crnti ctx.ss_info.cfg_id g.aggr_lvl] := by
      simp [dl_grant_alloc, hal]
    rw [heq2] at h
    generalize hlp : dl_uci_k1_loop ctx.ue_cc.cfg.cell_cfg_common ctx.u ctx.pdsch_td_cfg.k0
      ctx.pdsch_alloc.slot
      { ctx.cell with pdcch_sched := r.1, cell_alloc := ctx.cell.cell_alloc.set_offset 0 r.2 }
      ctx.ss_info.get_k1_candidates = lp
    obtain ⟨hna, hcase⟩ := dl_grant_uci_failure hlp h
    rcases hcase with ⟨hc, _, _⟩ | ⟨_, hs, hrun⟩
    · cases hc
    · rw [hrun] at h
      obtain ⟨_, hemp, _, pdsch_cfg, pa2, hcfg, hpa2, hnone⟩ := dl_grant_mcs_failure h
      have hspec := dl_uci_k1_loop_spec ctx.ue_cc.cfg.cell_cfg_common ctx.u ctx.pdsch_td_cfg.k0
        ctx.pdsch_alloc.slot ctx.ss_info.get_k1_candidates
        { ctx.cell with pdcch_sched := r.1, cell_alloc := ctx.cell.cell_alloc.set_offset 0 r.2 }
        (by rw [hlp]; exact hna)
      rw [hlp] at hspec
      obtain ⟨_, res, hres, _, hcell⟩ := hspec.2 hs
      obtain ⟨p, hp⟩ := reserved_ring_dl ctx.cell.cell_alloc res.2.2 ctx.pdcch_alloc r.2
        pre.h_pdcch_alloc (alloc_uci_harq_ue_frame hres).1
        ({ ctx.cell with pdcch_sched := r.1, uci_alloc := res.2.1, cell_alloc := res.2.2 } : cell_t)
        rfl (fun pd => { pd with harq_feedback_timing := lp.k1 }) ctx.pdsch_td_cfg.k0
      rw [hcell] at hpa2
      rw [pre.h_pdsch_alloc] at hp
      have hpa : some pa2 = _ := hpa2.symm.trans hp
      simp only [Option.map_some', Option.some.injEq] at hpa
      have hcsi : pa2.result.dl.csi_rs = ctx.pdsch_alloc.result.dl.csi_rs := by
        by_cases hk : ctx.pdsch_td_cfg.k0 = 0
        · have hsame : ctx.pdcch_alloc = ctx.pdsch_alloc := by
            have h1 := pre.h_pdsch_alloc
            rw [hk, pre.h_pdcch_alloc] at h1
            exact Option.some.inj h1
          rw [if_pos hk] at hpa
          unfold alloc_dl_pdcch_ue at hal
          cases hcand : pdcch_candidate ctx.cell.pdcch_sched ctx.pdcch_alloc ctx.u.crnti
              ctx.ss_info.cfg_id g.aggr_lvl with
          | none => simp [hcand] at hal
          | some cand =>
            simp only [hcand, Option.some.injEq] at hal
            rw [hpa, ← hal, ← hsame]
        · rw [if_neg hk] at hpa
          rw [hpa]
      rw [hcsi] at hnone
      exact ⟨ctx, pdsch_cfg, hpre, hemp, hcfg, hnone⟩

/-- C14: in `allocate_dl_grant` for a new transmission the MCS handed to
`compute_dl_mcs_tbs` is `grant.mcs` when no CSI-RS is scheduled in the PDSCH slot and
`grant.mcs − 1`, bounded below by 0, when at least one is: the grant succeeds with the
MCS and TBS that the calculator returns for that MCS, and returns false for want of an
MCS when the calculator returns nothing for it.  An MCS of 0 stays 0. -/
theorem mcs_lowered_for_csi_rs (a : ue_cell_grid_allocator) (g : ue_pdsch_grant)
    (h : dl_harq_process) (ss : search_space_info) (cc : ue_cell)
    (td : pdsch_time_domain_resource_allocation) (pa : cell_slot_resource_allocator)
    (hh : a.dl_harq_of g.user_ue_index g.cell_index g.h_id = some h) (he : h.empty = true)
    (hss : a.search_space_of g.user_ue_index g.cell_index g.ss_id = some ss)
    (hcc : a.ue_cell_of g.user_ue_index g.cell_index = some cc)
    (htd : ss.pdsch_time_domain_list[g.time_res_index]? = some td)
    (hpa : a.slot_at g.cell_index td.k0 = some pa) :
    adjust_mcs_for_csi_rs g.mcs pa.result.dl.csi_rs =
      (if pa.result.dl.csi_rs = [] then g.mcs else max (g.mcs - 1) 0) ∧
    adjust_mcs_for_csi_rs 0 pa.result.dl.csi_rs = 0 ∧
    ((allocate_dl_grant a g).ret = some true →
      ∃ (pdsch_cfg : pdsch_config_params) (mcs_tbs : sch_mcs_tbs) (pd : pdcch_dl_information)
        (dci : dci_dl_info) (msg : dl_msg_alloc),
        get_pdsch_config ss.get_crnti_dl_dci_format td = some pdsch_cfg ∧
        a.compute_dl_mcs_tbs pdsch_cfg cc.cfg
          (if pa.result.dl.csi_rs = [] then g.mcs else max (g.mcs - 1) 0) g.crbs.length =
            some mcs_tbs ∧
        (allocate_dl_grant a g).st.dl_pdcchs_at g.cell_index 0 =
          a.dl_pdcchs_at g.cell_index 0 ++ [pd] ∧
        pd.dci = some dci ∧ dci.mcs = mcs_tbs.mcs ∧
        (allocate_dl_grant a g).st.ue_grants_at g.cell_index td.k0 =
          a.ue_grants_at g.cell_index td.k0 ++ [msg] ∧
        msg.pdsch_cfg.mcs = mcs_tbs.mcs ∧ msg.pdsch_cfg.tb_size_bytes = mcs_tbs.tbs) ∧
    ((allocate_dl_grant a g).exit = .failure .no_mcs →
      ∃ pdsch_cfg : pdsch_config_params,
        get_pdsch_config ss.get_crnti_dl_dci_format td = some pdsch_cfg ∧
        a.compute_dl_mcs_tbs pdsch_cfg cc.cfg
          (if pa.result.dl.csi_rs = [] then g.mcs else max (g.mcs - 1) 0) g.crbs.length =
            none) := by
  have hadj : ∀ m : Nat, adjust_mcs_for_csi_rs m pa.result.dl.csi_rs =
      (if pa.result.dl.csi_rs = [] then m else max (m - 1) 0) := by
    intro m
    unfold adjust_mcs_for_csi_rs
    cases hcs : pa.result.dl.csi_rs with
    | nil => simp
    | cons x xs =>
      by_cases hm : m = 0
      · subst hm; simp
      · simp [hm]
  refine ⟨hadj g.mcs, by rw [hadj]; simp, ?_, ?_⟩
  · intro hret
    obtain ⟨ctx, cand, k1, uci, pdsch_cfg, mcs_tbs, rv, dci, pdsch, d⟩ :=
      allocate_dl_grant_done ((ret_true_iff _).1 hret)
    obtain ⟨e1, e2, e3, e4⟩ := dl_ctx_of_observations d.pre hss hcc htd hpa
    have e5 : ctx.h_dl = h := Option.some.inj ((dl_harq_of_ctx d.pre).symm.trans hh)
    obtain ⟨l1, l2, _⟩ := dl_done_lists d
    obtain ⟨_, _, f3, _⟩ := build_dl_dci_fields d.h_dci
    obtain ⟨_, _, _, p4, _, _, p7⟩ := build_pdsch_fields d.h_pdsch
    have hm := d.h_mcs
    have hc := d.h_pdsch_cfg
    rw [e5, he, if_pos rfl, e2, e4, hadj] at hm
    rw [d.pre.h_dci_type, e1, e3] at hc
    rw [e3] at l2
    have pmcs : pdsch.mcs = mcs_tbs.mcs := by rw [p7, f3]; simp
    exact ⟨pdsch_cfg, mcs_tbs, _, dci, _, hc, hm, l1, rfl, f3, l2, pmcs, p4⟩
  · intro hex
    obtain ⟨ctx, pdsch_cfg, hpre, _, hcfg, hnone⟩ := allocate_dl_grant_no_mcs_compute hex
    have pre := dl_grant_prechecks_ok hpre
    obtain ⟨e1, e2, e3, e4⟩ := dl_ctx_of_observations pre hss hcc htd hpa
    rw [pre.h_dci_type, e1, e3] at hcfg
    rw [e2, e4, hadj] at hnone
    exact ⟨pdsch_cfg, hcfg, hnone⟩

/-- C14 at the demo scenario: no CSI-RS is scheduled in the slot at offset 0, and the
adjusted MCS of the grant is its MCS 10. -/
theorem mcs_lowered_for_csi_rs_demo :
    adjust_mcs_for_csi_rs 10 [] = 10 ∧ adjust_mcs_for_csi_rs 10 [1] = 9 ∧
    adjust_mcs_for_csi_rs 0 [1] = 0 :=
  ⟨(mcs_lowered_for_csi_rs demo_alloc (demo_dl_grant 0 ⟨0, 10⟩) (demo_dl_harq 0) demo_ss
      { ue_index := 0, cell_index := 0,
        harqs := ⟨[demo_dl_harq 0, demo_dl_harq 1], [demo_ul_harq 0, demo_ul_harq 1]⟩,
        crnti_ := 17921, expert_cfg := demo_expert_cfg, ue_cfg := demo_ue_cell_cfg }
      ⟨0, ⟨2, 14⟩⟩ (demo_slot 0) rfl rfl rfl rfl rfl rfl).1,
   by decide, by decide⟩

/-! ## Transport block of a new transmission -/

theorem dl_alloc_harq_nof_retxs (h : dl_harq_process) (sl : slot_point) (k1 m dai : Nat) :
    (dl_alloc_harq h sl k1 m dai).nof_retxs = 0 ↔ h.empty = true := by
  unfold dl_alloc_harq
  cases he : h.empty
  · simp [dl_harq_process.new_retx]
  · simp [dl_harq_process.new_tx]

/-- C15: after every successful `allocate_dl_grant` the retransmission count of the HARQ
process is 0 if and only if the process was empty before the call.  In that case, and
only then, the new PDSCH grant holds one transport block, filled from the logical-channel
buffers of the UE for the TB size of the PDSCH, and the buffers of the UE are reduced
accordingly; for a retransmission the grant holds no transport block and the buffers are
as before. -/
theorem transport_block_only_for_new_tx (a : ue_cell_grid_allocator) (g : ue_pdsch_grant)
    (hret : (allocate_dl_grant a g).ret = some true) :
    ∃ (u u2 : ue) (h h2 : dl_harq_process) (k0 : Nat) (msg : dl_msg_alloc),
      a.ues.getD g.user_ue_index none = some u ∧
      (allocate_dl_grant a g).st.ues.getD g.user_ue_index none = some u2 ∧
      a.dl_harq_of g.user_ue_index g.cell_index g.h_id = some h ∧
      (allocate_dl_grant a g).st.dl_harq_of g.user_ue_index g.cell_index g.h_id = some h2 ∧
      (h2.nof_retxs = 0 ↔ h.empty = true) ∧
      (allocate_dl_grant a g).st.ue_grants_at g.cell_index k0 =
        a.ue_grants_at g.cell_index k0 ++ [msg] ∧
      msg.nof_retxs = h2.nof_retxs ∧
      (h.empty = true →
        msg.tb_list = [⟨(fill_lc_chs u.dl_lc_ch msg.pdsch_cfg.tb_size_bytes).1⟩] ∧
        u2.dl_lc_ch = (fill_lc_chs u.dl_lc_ch msg.pdsch_cfg.tb_size_bytes).2) ∧
      (h.empty = false → msg.tb_list = [] ∧ u2.dl_lc_ch = u.dl_lc_ch) := by
  obtain ⟨ctx, cand, k1, uci, pdsch_cfg, mcs_tbs, rv, dci, pdsch, d⟩ :=
    allocate_dl_grant_done ((ret_true_iff _).1 hret)
  obtain ⟨_, l2, _⟩ := dl_done_lists d
  have hn := dl_alloc_harq_nof_retxs ctx.h_dl ctx.pdsch_alloc.slot k1
    a.expert_cfg.max_nof_harq_retxs uci.dai
  have hn2 : ((dl_alloc_harq ctx.h_dl ctx.pdsch_alloc.slot k1 a.expert_cfg.max_nof_harq_retxs
      uci.dai).save_alloc_params dci.type pdsch).nof_retxs =
      (dl_alloc_harq ctx.h_dl ctx.pdsch_alloc.slot k1 a.expert_cfg.max_nof_harq_retxs
        uci.dai).nof_retxs := rfl
  refine ⟨ctx.u, _, ctx.h_dl, _, ctx.pdsch_td_cfg.k0, _, d.pre.h_ue, d.h_ue, dl_harq_of_ctx d.pre,
    dl_harq_of_done d, by rw [hn2]; exact hn, l2, rfl, ?_, ?_⟩
  · intro he
    have h0 := hn.2 he
    simp only [dl_grant_msg, dl_grant_ue, hn2, h0, beq_self_eq_true, if_true,
      ue.build_dl_transport_block_info, ue.set_cell, and_self]
  · intro he
    have h0 : (dl_alloc_harq ctx.h_dl ctx.pdsch_alloc.slot k1 a.expert_cfg.max_nof_harq_retxs
        uci.dai).nof_retxs ≠ 0 := fun h0 => by
      rw [hn.1 h0] at he; cases he
    simp only [dl_grant_msg, dl_grant_ue, hn2, beq_iff_eq, h0, if_false, ue.set_cell, and_self]

/-- C15 at the demo scenario: the new transmission of ten RBs carries one transport block
of 100 bytes from LCID 4; the retransmission carries none. -/
theorem transport_block_only_for_new_tx_demo :
    (∃ u u2 h h2 k0 msg,
      demo_alloc.ues.getD 0 none = some u ∧
      (allocate_dl_grant demo_alloc (demo_dl_grant 0 ⟨0, 10⟩)).st.ues.getD 0 none = some u2 ∧
      demo_alloc.dl_harq_of 0 0 0 = some h ∧
      (allocate_dl_grant demo_alloc (demo_dl_grant 0 ⟨0, 10⟩)).st.dl_harq_of 0 0 0 = some h2 ∧
      (h2.nof_retxs = 0 ↔ h.empty = true) ∧
      (allocate_dl_grant demo_alloc (demo_dl_grant 0 ⟨0, 10⟩)).st.ue_grants_at 0 k0 =
        demo_alloc.ue_grants_at 0 k0 ++ [msg] ∧
      msg.nof_retxs = h2.nof_retxs ∧
      (h.empty = true →
        msg.tb_list = [⟨(fill_lc_chs u.dl_lc_ch msg.pdsch_cfg.tb_size_bytes).1⟩] ∧
        u2.dl_lc_ch = (fill_lc_chs u.dl_lc_ch msg.pdsch_cfg.tb_size_bytes).2) ∧
      (h.empty = false → msg.tb_list = [] ∧ u2.dl_lc_ch = u.dl_lc_ch)) ∧
    ((allocate_dl_grant demo_alloc (demo_dl_grant 0 ⟨0, 10⟩)).st.ue_grants_at 0 0).map
      (fun m => m.tb_list) = [[⟨[(4, 100)]⟩]] ∧
    ((allocate_dl_grant (demo_retx_alloc 0) (demo_dl_grant 1 ⟨10, 20⟩)).st.ue_grants_at 0 1).map
      (fun m => m.tb_list) = [[]] :=
  ⟨transport_block_only_for_new_tx demo_alloc (demo_dl_grant 0 ⟨0, 10⟩) (by decide),
   by decide, by decide⟩

/-! ## Event manager: what a callback leaves untouched -/

theorem executed_common_append (a b : List em_notification) :
    executed_common (a ++ b) = executed_common a ++ executed_common b := by
  simp [executed_common, List.filterMap_append]

theorem executed_cell_append (a b : List em_notification) :
    executed_cell (a ++ b) = executed_cell a ++ executed_cell b := by
  simp [executed_cell, List.filterMap_append]

/-- The closure of a common event touches neither the event lists nor the labels, and
starts no other callback. -/
theorem run_common_callback_frame (m : ue_event_manager) (cb : common_callback) :
    (m.run_common_callback cb).common_events = m.common_events ∧
    (m.run_common_callback cb).cell_specific_events = m.cell_specific_events ∧
    (m.run_common_callback cb).next_seq = m.next_seq ∧
    (m.run_common_callback cb).last_sl = m.last_sl ∧
    ∃ X, (m.run_common_callback cb).out = m.out ++ X ∧ executed_common X = [] ∧
      executed_cell X = [] := by
  cases cb <;> simp only [ue_event_manager.run_common_callback] <;>
    (try split) <;> (try split) <;> (try split) <;> (try split) <;> (try split) <;>
    simp [ue_event_manager.fail, ue_event_manager.notify, executed_common, executed_cell]

/-- Starting the callback of a common event: the marker with its label, then the closure. -/
theorem start_common_callback_frame (m : ue_event_manager) (seq : Nat) (cb : common_callback) :
    ((m.notify [.common_callback seq]).run_common_callback cb).common_events = m.common_events ∧
    ((m.notify [.common_callback seq]).run_common_callback cb).cell_specific_events =
      m.cell_specific_events ∧
    ((m.notify [.common_callback seq]).run_common_callback cb).next_seq = m.next_seq ∧
    ((m.notify [.common_callback seq]).run_common_callback cb).last_sl = m.last_sl ∧
    ∃ X, ((m.notify [.common_callback seq]).run_common_callback cb).out = m.out ++ X ∧
      executed_common X = [seq] ∧ executed_cell X = [] := by
  obtain ⟨h1, h2, h3, h4, X, h5, h6, h7⟩ :=
    run_common_callback_frame (m.notify [.common_callback seq]) cb
  refine ⟨h1, h2, h3, h4, em_notification.common_callback seq :: X, ?_, ?_, ?_⟩
  · rw [h5]; simp [ue_event_manager.notify]
  · have : executed_common (em_notification.common_callback seq :: X) =
        seq :: executed_common X := by simp [executed_common]
    rw [this, h6]
  · have : executed_cell (em_notification.common_callback seq :: X) = executed_cell X := by
      simp [executed_cell]
    rw [this, h7]

/-- The four ways a turn of the loop of `process_common` can end: the event is left as it
is, an assertion fails, the event is cleared without being run, or its callback is run
and the event cleared. -/
theorem process_common_event_cases (m : ue_event_manager) (cell_index : Nat)
    (ev : common_event_t) :
    m.process_common_event cell_index ev = (m, ev) ∨
    m.process_common_event cell_index ev = (m.fail, ev) ∨
    (ev.callback.isSome = true ∧
      m.process_common_event cell_index ev = (m, { ev with callback := none })) ∨
    ∃ cb, ev.callback = some cb ∧
      m.process_common_event cell_index ev =
        ((m.notify [.common_callback ev.seq]).run_common_callback cb,
          { ev with callback := none }) := by
  cases hcb : ev.callback with
  | none => exact Or.inl (by simp [ue_event_manager.process_common_event, hcb])
  | some cb =>
    by_cases hmax : ev.ue_index = MAX_NOF_DU_UES
    · exact Or.inr (Or.inr (Or.inr ⟨cb, rfl,
        by simp [ue_event_manager.process_common_event, hcb, hmax]⟩))
    · cases hct : m.ue_db.contains ev.ue_index with
      | false =>
        exact Or.inr (Or.inr (Or.inl ⟨rfl,
          by simp [ue_event_manager.process_common_event, hcb, hmax, hct]⟩))
      | true =>
        cases hu : m.ue_db.get ev.ue_index with
        | none =>
          exact Or.inr (Or.inl
            (by simp [ue_event_manager.process_common_event, hcb, hmax, hct, hu]))
        | some u =>
          cases hp : u.get_pcell with
          | none =>
            exact Or.inr (Or.inl
              (by simp [ue_event_manager.process_common_event, hcb, hmax, hct, hu, hp]))
          | some pcell =>
            by_cases hc : pcell.cell_index = cell_index
            · exact Or.inr (Or.inr (Or.inr ⟨cb, rfl,
                by simp [ue_event_manager.process_common_event, hcb, hmax, hct, hu, hp, hc]⟩))
            · exact Or.inl
                (by simp [ue_event_manager.process_common_event, hcb, hmax, hct, hu, hp, hc])

/-- One turn of the loop of `process_common`: the event lists and labels are untouched,
and either no callback is started, or the callback of this event is, once, and the
event is cleared. -/
theorem process_common_event_frame (m : ue_event_manager) (cell_index : Nat)
    (ev : common_event_t) :
    (m.process_common_event cell_index ev).1.common_events = m.common_events ∧
    (m.process_common_event cell_index ev).1.cell_specific_events = m.cell_specific_events ∧
    (m.process_common_event cell_index ev).1.next_seq = m.next_seq ∧
    (m.process_common_event cell_index ev).1.last_sl = m.last_sl ∧
    (m.process_common_event cell_index ev).2.seq = ev.seq ∧
    ∃ X, (m.process_common_event cell_index ev).1.out = m.out ++ X ∧ executed_cell X = [] ∧
      ((executed_common X = [] ∧ ((m.process_common_event cell_index ev).2 = ev ∨
          (ev.callback.isSome = true ∧
            (m.process_common_event cell_index ev).2.callback = none))) ∨
       (executed_common X = [ev.seq] ∧ ev.callback.isSome = true ∧
          (m.process_common_event cell_index ev).2.callback = none)) := by
  rcases process_common_event_cases m cell_index ev with h | h | ⟨hs, h⟩ | ⟨cb, hcb, h⟩
  · rw [h]
    exact ⟨rfl, rfl, rfl, rfl, rfl, [], by simp, rfl, Or.inl ⟨rfl, Or.inl rfl⟩⟩
  · rw [h]
    exact ⟨rfl, rfl, rfl, rfl, rfl, [], by simp [ue_event_manager.fail], rfl,
      Or.inl ⟨rfl, Or.inl rfl⟩⟩
  · rw [h]
    exact ⟨rfl, rfl, rfl, rfl, rfl, [], by simp, rfl, Or.inl ⟨rfl, Or.inr ⟨hs, rfl⟩⟩⟩
  · rw [h]
    obtain ⟨h1, h2, h3, h4, X, h5, h6, h7⟩ := start_common_callback_frame m ev.seq cb
    exact ⟨h1, h2, h3, h4, rfl, X, h5, h7, Or.inr ⟨h6, by simp [hcb], rfl⟩⟩

theorem live_seqs_cons (ev : common_event_t) (l : List common_event_t) :
    live_seqs (ev :: l) = (if ev.callback.isSome = true then [ev.seq] else []) ++ live_seqs l := by
  unfold live_seqs
  by_cases h : ev.callback.isSome = true
  · simp [List.filter_cons, h]
  · simp [List.filter_cons, h]

theorem live_seqs_sublist (l : List common_event_t) : (live_seqs l).Sublist (common_seqs l) := by
  unfold live_seqs common_seqs
  exact List.Sublist.map _ (List.filter_sublist l)

/-- The loop of `process_common`: the event lists of the manager and the labels are
untouched, the events keep their labels and order, the callbacks started are those of
events of the list, in list order, and each event that had a callback is afterwards
either still waiting or was started once. -/
theorem process_common_events_frame (cell_index : Nat) (l : List common_event_t) :
    ∀ m : ue_event_manager,
    (m.process_common_events cell_index l).1.common_events = m.common_events ∧
    (m.process_common_events cell_index l).1.cell_specific_events = m.cell_specific_events ∧
    (m.process_common_events cell_index l).1.next_seq = m.next_seq ∧
    (m.process_common_events cell_index l).1.last_sl = m.last_sl ∧
    common_seqs (m.process_common_events cell_index l).2 = common_seqs l ∧
    ∃ X, (m.process_common_events cell_index l).1.out = m.out ++ X ∧ executed_cell X = [] ∧
      (executed_common X).Sublist (common_seqs l) ∧
      ∀ s, (executed_common X).count s +
        (live_seqs (m.process_common_events cell_index l).2).count s ≤ (live_seqs l).count s := by
  induction l with
  | nil =>
    intro m
    exact ⟨rfl, rfl, rfl, rfl, rfl, [], by simp [ue_event_manager.process_common_events], rfl,
      by simp [executed_common], by simp [ue_event_manager.process_common_events, executed_common]⟩
  | cons ev rest ih =>
    intro m
    by_cases hf : m.failed = true
    · have h : m.process_common_events cell_index (ev :: rest) = (m, ev :: rest) := by
        simp [ue_event_manager.process_common_events, hf]
      rw [h]
      exact ⟨rfl, rfl, rfl, rfl, rfl, [], by simp, rfl, by simp [executed_common],
        by simp [executed_common]⟩
    · have h : m.process_common_events cell_index (ev :: rest) =
          (((m.process_common_event cell_index ev).1.process_common_events cell_index rest).1,
            (m.process_common_event cell_index ev).2 ::
              ((m.process_common_event cell_index ev).1.process_common_events
                cell_index rest).2) := by
        simp [ue_event_manager.process_common_events, hf]
      rw [h]
      obtain ⟨a1, a2, a3, a4, a5, X1, a6, a7, a8⟩ := process_common_event_frame m cell_index ev
      obtain ⟨b1, b2, b3, b4, b5, X2, b6, b7, b8, b9⟩ :=
        ih (m.process_common_event cell_index ev).1
      refine ⟨b1.trans a1, b2.trans a2, b3.trans a3, b4.trans a4, ?_, X1 ++ X2, ?_, ?_, ?_, ?_⟩
      · simp only [common_seqs, List.map_cons] at b5 ⊢
        rw [a5, b5]
      · rw [b6, a6, List.append_assoc]
      · rw [executed_cell_append, a7, b7]; rfl
      · rw [executed_common_append]
        have hs : (executed_common X1).Sublist [ev.seq] := by
          rcases a8 with ⟨e, _⟩ | ⟨e, _⟩
          · rw [e]; exact List.nil_sublist _
          · rw [e]
        have : common_seqs (ev :: rest) = [ev.seq] ++ common_seqs rest := by
          simp [common_seqs]
        rw [this]
        exact List.Sublist.append hs b8
      · intro s
        have b9s := b9 s
        rw [executed_common_append, List.count_append, live_seqs_cons, live_seqs_cons,
          List.count_append, List.count_append]
        rcases a8 with ⟨e, e2 | ⟨e2, e3⟩⟩ | ⟨e, e2, e3⟩
        · rw [e, e2]
          simp only [List.count_nil]
          omega
        · rw [e, e3, e2]
          simp only [List.count_nil, Option.isSome_none, Bool.false_eq_true, if_false]
          simp only [if_true]
          omega
        · rw [e, e3, e2]
          simp only [List.count_nil, Option.isSome_none, Bool.false_eq_true, if_false]
          simp only [if_true]
          omega

/-! ## Event manager: what a cell event leaves untouched -/

theorem handle_harq_ind_from_out (methods : ue_methods) (uci_sl : slot_point)
    (bits : List mac_harq_ack_report_status) :
    ∀ (idx : Nat) (ue_cc : ue_cell),
      executed_common (ue_event_manager.handle_harq_ind_from methods uci_sl idx bits ue_cc).2 = [] ∧
      executed_cell (ue_event_manager.handle_harq_ind_from methods uci_sl idx bits ue_cc).2 = [] := by
  induction bits with
  | nil => intro idx ue_cc; exact ⟨rfl, rfl⟩
  | cons b rest ih =>
    intro idx ue_cc
    simp only [ue_event_manager.handle_harq_ind_from]
    rw [executed_common_append, executed_cell_append, (ih _ _).1, (ih _ _).2]
    cases (methods.dl_ack_info ue_cc.harqs uci_sl b (idx % 4)).1 with
    | none => exact ⟨rfl, rfl⟩
    | some h =>
      by_cases hb : b = mac_harq_ack_report_status.dtx
      · simp [hb, executed_common, executed_cell]
      · simp [hb, executed_common, executed_cell]

theorem handle_csi_out (ue_cc : ue_cell) (csi_bits : List Bool) :
    executed_common (ue_event_manager.handle_csi ue_cc csi_bits).2 = [] ∧
    executed_cell (ue_event_manager.handle_csi ue_cc csi_bits).2 = [] := by
  unfold ue_event_manager.handle_csi
  split <;> simp [executed_common, executed_cell]

/-- The closure of a cell event starts no callback. -/
theorem run_cell_callback_out (methods : ue_methods) (ue_cc : ue_cell) (cb : cell_callback) :
    executed_common (ue_event_manager.run_cell_callback methods ue_cc cb).out = [] ∧
    executed_cell (ue_event_manager.run_cell_callback methods ue_cc cb).out = [] := by
  cases cb with
  | crc sl_rx crc =>
    simp only [ue_event_manager.run_cell_callback]
    split <;> simp [executed_common, executed_cell]
  | uci uci_sl pdu =>
    have h1 : ∀ (p : Prop) [Decidable p] (bits : List mac_harq_ack_report_status),
        executed_common (if p then ue_event_manager.handle_harq_ind methods ue_cc uci_sl bits
          else (ue_cc, [])).2 = [] ∧
        executed_cell (if p then ue_event_manager.handle_harq_ind methods ue_cc uci_sl bits
          else (ue_cc, [])).2 = [] := by
      intro p _ bits
      split
      · exact handle_harq_ind_from_out methods uci_sl bits 0 ue_cc
      · exact ⟨rfl, rfl⟩
    have h2 : ∀ (p : Prop) [Decidable p] (x : ue_cell) (bits : List Bool),
        executed_common (if p then ue_event_manager.handle_csi x bits else (x, [])).2 = [] ∧
        executed_cell (if p then ue_event_manager.handle_csi x bits else (x, [])).2 = [] := by
      intro p _ x bits
      split
      · exact handle_csi_out x bits
      · exact ⟨rfl, rfl⟩
    have h3 : ∀ (p : Prop) [Decidable p] (a b : Nat),
        executed_common (if p then [em_notification.ev_sr a b] else []) = [] ∧
        executed_cell (if p then [em_notification.ev_sr a b] else []) = [] := by
      intro p _ a b
      split <;> exact ⟨rfl, rfl⟩
    have h4 : ∀ a b, executed_common [em_notification.metrics_pucch_sinr a b] = [] ∧
        executed_cell [em_notification.metrics_pucch_sinr a b] = [] := fun _ _ => ⟨rfl, rfl⟩
    cases pdu with
    | uci_pucch_f0_or_f1_pdu sr_detected harqs ul_sinr =>
      simp only [ue_event_manager.run_cell_callback, executed_common_append, executed_cell_append,
        (h1 _ _).1, (h1 _ _).2, (h3 _ _ _).1, (h3 _ _ _).2, (h4 _ _).1, (h4 _ _).2,
        List.append_nil, and_self]
    | uci_pusch_pdu harqs csi_part1 =>
      simp only [ue_event_manager.run_cell_callback, executed_common_append, executed_cell_append,
        (h1 _ _).1, (h1 _ _).2, (h2 _ _ _).1, (h2 _ _ _).2, List.append_nil, and_self]
    | uci_pucch_f2_or_f3_or_f4_pdu sr_info harqs csi_part1 ul_sinr =>
      simp only [ue_event_manager.run_cell_callback, executed_common_append, executed_cell_append,
        (h1 _ _).1, (h1 _ _).2, (h2 _ _ _).1, (h2 _ _ _).2, (h3 _ _ _).1, (h3 _ _ _).2,
        (h4 _ _).1, (h4 _ _).2, List.append_nil, and_self]

/-- One turn of the loop of `process_cell_specific`: the event lists and labels are
untouched, no callback of a common event is started, and at most the callback of this
event. -/
theorem process_cell_event_frame (m : ue_event_manager) (cell_index : Nat) (ev : cell_event_t) :
    (m.process_cell_event cell_index ev).common_events = m.common_events ∧
    (m.process_cell_event cell_index ev).cell_specific_events = m.cell_specific_events ∧
    (m.process_cell_event cell_index ev).next_seq = m.next_seq ∧
    (m.process_cell_event cell_index ev).last_sl = m.last_sl ∧
    ∃ X, (m.process_cell_event cell_index ev).out = m.out ++ X ∧ executed_common X = [] ∧
      (executed_cell X).Sublist [ev.seq] := by
  have hnil : ∃ X : List em_notification, m.out = m.out ++ X ∧ executed_common X = [] ∧
      (executed_cell X).Sublist [ev.seq] := ⟨[], by simp, rfl, List.nil_sublist _⟩
  cases hct : m.ue_db.contains ev.ue_index with
  | false =>
    have h : m.process_cell_event cell_index ev = m := by
      simp [ue_event_manager.process_cell_event, hct]
    rw [h]
    exact ⟨rfl, rfl, rfl, rfl, hnil⟩
  | true =>
    cases hu : m.ue_db.get ev.ue_index with
    | none =>
      have h : m.process_cell_event cell_index ev = m.fail := by
        simp [ue_event_manager.process_cell_event, hct, hu]
      rw [h]
      exact ⟨rfl, rfl, rfl, rfl, hnil⟩
    | some u =>
      cases hc : u.find_cell cell_index with
      | none =>
        have h : m.process_cell_event cell_index ev = m := by
          simp [ue_event_manager.process_cell_event, hct, hu, hc]
        rw [h]
        exact ⟨rfl, rfl, rfl, rfl, hnil⟩
      | some ue_cc =>
        obtain ⟨o1, o2⟩ := run_cell_callback_out m.methods ue_cc ev.callback
        have hX : ∃ X, m.out ++ em_notification.cell_callback ev.seq ::
              (ue_event_manager.run_cell_callback m.methods ue_cc ev.callback).out = m.out ++ X ∧
            executed_common X = [] ∧ (executed_cell X).Sublist [ev.seq] := by
          refine ⟨_, rfl, ?_, ?_⟩
          · have : ∀ l, executed_common (em_notification.cell_callback ev.seq :: l) =
                executed_common l := by intro l; simp [executed_common]
            rw [this, o1]
          · have : ∀ l, executed_cell (em_notification.cell_callback ev.seq :: l) =
                ev.seq :: executed_cell l := by intro l; simp [executed_cell]
            rw [this, o2]
        simp only [ue_event_manager.process_cell_event, hct, hu, hc, Bool.not_true,
          Bool.false_eq_true, if_false]
        split
        · split <;> exact ⟨rfl, rfl, rfl, rfl, hX⟩
        · exact ⟨rfl, rfl, rfl, rfl, hX⟩

theorem cell_seqs_cons (ev : cell_event_t) (l : List cell_event_t) :
    cell_seqs (ev :: l) = [ev.seq] ++ cell_seqs l := rfl

/-- The loop of `process_cell_specific`: the event lists and labels are untouched, no
callback of a common event is started, and the callbacks started are those of events
of the list, in list order. -/
theorem process_cell_events_frame (cell_index : Nat) (l : List cell_event_t) :
    ∀ m : ue_event_manager,
    (m.process_cell_events cell_index l).common_events = m.common_events ∧
    (m.process_cell_events cell_index l).cell_specific_events = m.cell_specific_events ∧
    (m.process_cell_events cell_index l).next_seq = m.next_seq ∧
    (m.process_cell_events cell_index l).last_sl = m.last_sl ∧
    ∃ X, (m.process_cell_events cell_index l).out = m.out ++ X ∧ executed_common X = [] ∧
      (executed_cell X).Sublist (cell_seqs l) := by
  induction l with
  | nil =>
    intro m
    exact ⟨rfl, rfl, rfl, rfl, [], by simp [ue_event_manager.process_cell_events], rfl,
      List.nil_sublist _⟩
  | cons ev rest ih =>
    intro m
    by_cases hf : m.failed = true
    · have h : m.process_cell_events cell_index (ev :: rest) = m := by
        simp [ue_event_manager.process_cell_events, hf]
      rw [h]
      exact ⟨rfl, rfl, rfl, rfl, [], by simp, rfl, List.nil_sublist _⟩
    · have h : m.process_cell_events cell_index (ev :: rest) =
          (m.process_cell_event cell_index ev).process_cell_events cell_index rest := by
        simp [ue_event_manager.process_cell_events, hf]
      rw [h]
      obtain ⟨a1, a2, a3, a4, X1, a5, a6, a7⟩ := process_cell_event_frame m cell_index ev
      obtain ⟨b1, b2, b3, b4, X2, b5, b6, b7⟩ := ih (m.process_cell_event cell_index ev)
      refine ⟨b1.trans a1, b2.trans a2, b3.trans a3, b4.trans a4, X1 ++ X2, ?_, ?_, ?_⟩
      · rw [b5, a5, List.append_assoc]
      · rw [executed_common_append, a6, b6]; rfl
      · rw [executed_cell_append, cell_seqs_cons]
        exact List.Sublist.append a7 b7

/-- The member `process_cell_specific`: the pending events of the cell become its current
events; the common events and the labels are untouched; the callbacks started are those
of the events that were pending for the cell, in push order. -/
theorem process_cell_specific_frame (m : ue_event_manager) (cell_index : Nat) :
    (m.process_cell_specific cell_index).common_events = m.common_events ∧
    (m.process_cell_specific cell_index).cell_specific_events =
      Function.update m.cell_specific_events cell_index
        (m.cell_specific_events cell_index).slot_indication ∧
    (m.process_cell_specific cell_index).next_seq = m.next_seq ∧
    (m.process_cell_specific cell_index).last_sl = m.last_sl ∧
    ∃ X, (m.process_cell_specific cell_index).out = m.out ++ X ∧ executed_common X = [] ∧
      (executed_cell X).Sublist (cell_seqs (m.cell_specific_events cell_index).pending_events) := by
  unfold ue_event_manager.process_cell_specific
  exact process_cell_events_frame cell_index _ _

/-- The member `process_common`: pending events are popped exactly when the slot is new;
the events of the current slot keep their labels and order; the cell events and the
labels are untouched; the callbacks started are those of events of the current slot,
in list order, each of which either still waits afterwards or was started once. -/
theorem process_common_frame (m : ue_event_manager) (sl : slot_point) (cell_index : Nat) :
    (m.process_common sl cell_index).common_events.pending_events =
      (if m.last_sl ≠ some sl then [] else m.common_events.pending_events) ∧
    common_seqs (m.process_common sl cell_index).common_events.current_events =
      common_seqs (if m.last_sl ≠ some sl then m.common_events.pending_events
        else m.common_events.current_events) ∧
    (m.process_common sl cell_index).cell_specific_events = m.cell_specific_events ∧
    (m.process_common sl cell_index).next_seq = m.next_seq ∧
    (m.process_common sl cell_index).last_sl = some sl ∧
    ∃ X, (m.process_common sl cell_index).out = m.out ++ X ∧ executed_cell X = [] ∧
      (executed_common X).Sublist (common_seqs (if m.last_sl ≠ some sl then
        m.common_events.pending_events else m.common_events.current_events)) ∧
      ∀ s, (executed_common X).count s +
        (live_seqs (m.process_common sl cell_index).common_events.current_events).count s ≤
        (live_seqs (if m.last_sl ≠ some sl then m.common_events.pending_events
          else m.common_events.current_events)).count s := by
  by_cases hsl : m.last_sl = some sl
  · have h : m.process_common sl cell_index =
        { (m.process_common_events cell_index m.common_events.current_events).1 with
          common_events :=
            { (m.process_common_events cell_index m.common_events.current_events).1.common_events
              with current_events :=
                (m.process_common_events cell_index m.common_events.current_events).2 } } := by
      simp [ue_event_manager.process_common, hsl, slot_event_list.get_events]
    obtain ⟨a1, a2, a3, a4, a5, X, a6, a7, a8, a9⟩ :=
      process_common_events_frame cell_index m.common_events.current_events m
    rw [h]
    simp only [hsl, ne_eq, not_true_eq_false, if_false]
    exact ⟨by rw [a1], a5, a2, a3, by rw [a4, hsl], X, a6, a7, a8, a9⟩
  · have h : m.process_common sl cell_index =
        { (ue_event_manager.process_common_events
            { m with common_events := m.common_events.slot_indication, last_sl := some sl }
            cell_index m.common_events.pending_events).1 with
          common_events :=
            { (ue_event_manager.process_common_events
                { m with common_events := m.common_events.slot_indication, last_sl := some sl }
                cell_index m.common_events.pending_events).1.common_events
              with current_events :=
                (ue_event_manager.process_common_events
                  { m with common_events := m.common_events.slot_indication, last_sl := some sl }
                  cell_index m.common_events.pending_events).2 } } := by
      simp [ue_event_manager.process_common, hsl, slot_event_list.get_events,
        slot_event_list.slot_indication]
    obtain ⟨a1, a2, a3, a4, a5, X, a6, a7, a8, a9⟩ :=
      process_common_events_frame cell_index m.common_events.pending_events
        { m with common_events := m.common_events.slot_indication, last_sl := some sl }
    rw [h]
    simp only [hsl, ne_eq, not_false_eq_true, if_true]
    exact ⟨by rw [a1]; rfl, a5, a2, a3, by rw [a4], X, a6, a7, a8, a9⟩

/-! ## Event manager: labels stay distinct -/

theorem labels_distinct_of_frame (m m1 : ue_event_manager)
    (h1 : m1.common_events = m.common_events)
    (h2 : executed_common m1.out = executed_common m.out) (h3 : m.next_seq ≤ m1.next_seq)
    (h : m.labels_distinct) : m1.labels_distinct := by
  intro s
  have hs := h s
  rw [h1, h2]
  by_cases c : s < m.next_seq
  · have c1 : s < m1.next_seq := by omega
    rw [if_pos c] at hs
    rw [if_pos c1]
    exact hs
  · rw [if_neg c] at hs
    split <;> omega

theorem labels_distinct_emplace_common (m : ue_event_manager) (ue_index : Nat)
    (cb : common_callback) (h : m.labels_distinct) :
    (m.emplace_common ue_index cb).labels_distinct := by
  intro s
  have hs := h s
  simp only [ue_event_manager.emplace_common, slot_event_list.emplace, common_seqs,
    List.map_append, List.map_cons, List.map_nil, List.count_append] at hs ⊢
  by_cases c : s = m.next_seq
  · subst c
    simp only [lt_irrefl, if_false] at hs
    simp only [List.count_singleton_self, Nat.lt_succ_self, if_true]
    omega
  · have c0 : List.count s [m.next_seq] = 0 := by
      rw [List.count_eq_zero]
      simpa using c
    rw [c0]
    by_cases c1 : s < m.next_seq
    · rw [if_pos c1] at hs
      rw [if_pos (by omega)]
      omega
    · rw [if_neg c1] at hs
      rw [if_neg (by omega)]
      omega

theorem emplace_cell_frame (m : ue_event_manager) (cell_index ue_index : Nat)
    (cb : cell_callback) :
    (m.emplace_cell cell_index ue_index cb).common_events = m.common_events ∧
    (m.emplace_cell cell_index ue_index cb).out = m.out ∧
    (m.emplace_cell cell_index ue_index cb).next_seq = m.next_seq + 1 :=
  ⟨rfl, rfl, rfl⟩

theorem labels_distinct_run (m : ue_event_manager) (sl : slot_point) (cell_index : Nat)
    (h : m.labels_distinct) : (m.run sl cell_index).labels_distinct := by
  have hpc : (m.process_common sl cell_index).labels_distinct := by
    obtain ⟨a1, a2, a3, a4, a5, X, a6, a7, a8, a9⟩ := process_common_frame m sl cell_index
    intro s
    have hs := h s
    have a9s := a9 s
    rw [a1, a6, a4, executed_common_append, List.count_append]
    by_cases hsl : m.last_sl = some sl
    · simp only [hsl, ne_eq, not_true_eq_false, if_false] at a9s ⊢
      omega
    · simp only [hsl, ne_eq, not_false_eq_true, if_true] at a9s ⊢
      have := (live_seqs_sublist m.common_events.pending_events).count_le s
      simp only [common_seqs, List.map_nil, List.count_nil] at hs this ⊢
      omega
  unfold ue_event_manager.run
  split
  · exact labels_distinct_of_frame m m.fail rfl rfl (Nat.le_refl _) h
  · simp only []
    split
    · exact hpc
    · obtain ⟨b1, _, b3, _, X, b5, b6, _⟩ :=
        process_cell_specific_frame (m.process_common sl cell_index) cell_index
      refine labels_distinct_of_frame _ _ b1 ?_ (by rw [b3]) hpc
      rw [b5, executed_common_append, b6, List.append_nil]

theorem labels_distinct_foldl_emplace_cell {α : Type} (f : α → Nat × Nat × cell_callback)
    (l : List α) : ∀ m : ue_event_manager, m.labels_distinct →
      (l.foldl (fun m1 x => m1.emplace_cell (f x).1 (f x).2.1 (f x).2.2) m).labels_distinct := by
  induction l with
  | nil => intro m h; exact h
  | cons x rest ih =>
    intro m h
    rw [List.foldl_cons]
    exact ih _ (labels_distinct_of_frame m _ rfl rfl (Nat.le_succ _) h)

theorem labels_distinct_step (m : ue_event_manager) (op : em_op) (h : m.labels_distinct) :
    (m.step op).labels_distinct := by
  unfold ue_event_manager.step
  split
  · exact h
  · cases op with
    | add_cell cell_index =>
      simp only [ue_event_manager.add_cell]
      split
      · exact labels_distinct_of_frame m _ rfl rfl (Nat.le_refl _) h
      · exact labels_distinct_of_frame m _ rfl rfl (Nat.le_refl _) h
    | ue_creation_request ue_request =>
      simp only [ue_event_manager.handle_ue_creation_request]
      split
      · exact labels_distinct_of_frame m _ rfl rfl (Nat.le_refl _) h
      · split
        · exact labels_distinct_of_frame m _ rfl rfl (Nat.le_refl _) h
        · exact labels_distinct_emplace_common m _ _ h
    | ue_reconfiguration_request ue_request => exact labels_distinct_emplace_common m _ _ h
    | ue_removal_request ue_index => exact labels_distinct_emplace_common m _ _ h
    | ul_bsr_indication bsr_ind =>
      simp only [ue_event_manager.handle_ul_bsr_indication]
      split
      · exact labels_distinct_of_frame m _ rfl rfl (Nat.le_refl _) h
      · exact labels_distinct_emplace_common m _ _ h
    | crc_indication crc_ind =>
      simp only [ue_event_manager.handle_crc_indication]
      split
      · exact labels_distinct_of_frame m _ rfl rfl (Nat.le_refl _) h
      · exact labels_distinct_foldl_emplace_cell
          (fun crc : ul_crc_pdu_indication =>
            (crc_ind.cell_index, crc.ue_index, cell_callback.crc crc_ind.sl_rx crc))
          crc_ind.crcs m h
    | uci_indication ind =>
      simp only [ue_event_manager.handle_uci_indication]
      split
      · exact labels_distinct_of_frame m _ rfl rfl (Nat.le_refl _) h
      · exact labels_distinct_foldl_emplace_cell
          (fun uci : uci_pdu => (ind.cell_index, uci.ue_index, cell_callback.uci ind.slot_rx uci.pdu))
          ind.ucis m h
    | dl_mac_ce_indication ce => exact labels_distinct_emplace_common m _ _ h
    | dl_buffer_state_indication bs => exact labels_distinct_emplace_common m _ _ h
    | run sl cell_index => exact labels_distinct_run m sl cell_index h

theorem labels_distinct_exec (ops : List em_op) :
    ∀ m : ue_event_manager, m.labels_distinct → (m.exec ops).labels_distinct := by
  induction ops with
  | nil => intro m h; exact h
  | cons op rest ih =>
    intro m h
    exact ih _ (labels_distinct_step m op h)

theorem labels_distinct_of_no_events (m : ue_event_manager) (h : m.no_events) :
    m.labels_distinct := by
  obtain ⟨h1, h2, _, h4⟩ := h
  intro s
  rw [h1, h2, h4]
  simp [common_seqs, live_seqs, executed_common]

/-- Among the callbacks started, no label occurs twice. -/
theorem labels_distinct_nodup (m : ue_event_manager) (h : m.labels_distinct) :
    (executed_common m.out).Nodup := by
  rw [List.nodup_iff_count_le_one]
  intro s
  have hs := h s
  split at hs <;> omega

/-! ## Event manager: the creation of a UE -/

theorem ue_repository_get_add_ue (r : ue_repository) (u : ue) :
    (r.add_ue u).get u.ue_index = some u := by
  unfold ue_repository.add_ue ue_repository.get
  have hlt : u.ue_index < (r.ues ++ List.replicate (u.ue_index + 1 - r.ues.length) none).length := by
    rw [List.length_append, List.length_replicate]
    omega
  rw [List.getD_eq_getElem?_getD, List.getElem?_set_self hlt]
  rfl

/-- The closure of a creation event, for a UE that has a primary cell: the UE is in the
repository afterwards, and the event logger, the metrics handler and the MAC notifier
are called, in this order. -/
theorem run_ue_creation_callback (m : ue_event_manager) (u : ue) (pcell : ue_cell)
    (hp : u.get_pcell = some pcell) :
    m.run_common_callback (.ue_creation u) =
      { m with
        ue_db := m.ue_db.add_ue u
        out := m.out ++ [.ev_ue_creation u.ue_index u.crnti pcell.cell_index,
          .metrics_ue_creation u.ue_index u.crnti, .mac_ue_config_complete u.ue_index] } := by
  simp only [ue_event_manager.run_common_callback, hp, ue_repository_get_add_ue]
  rfl

theorem process_common_events_failed (cell_index : Nat) (l : List common_event_t)
    (m : ue_event_manager) (hf : m.failed = true) :
    m.process_common_events cell_index l = (m, l) := by
  cases l with
  | nil => rfl
  | cons ev rest => simp [ue_event_manager.process_common_events, hf]

/-- The loop of `process_common` runs every creation event of its list, whatever the cell:
unless an assertion fails, the callback of the event is started and the MAC notifier
told that the configuration of the UE is complete. -/
theorem process_common_events_creation (cell_index : Nat) (ev : common_event_t) (u : ue)
    (hmax : ev.ue_index = MAX_NOF_DU_UES) (hcb : ev.callback = some (.ue_creation u))
    (l : List common_event_t) :
    ∀ m : ue_event_manager, ev ∈ l → m.failed = false →
      (m.process_common_events cell_index l).1.failed = true ∨
      ∃ X, (m.process_common_events cell_index l).1.out = m.out ++ X ∧
        ev.seq ∈ executed_common X ∧ em_notification.mac_ue_config_complete u.ue_index ∈ X := by
  induction l with
  | nil => intro m hm; cases hm
  | cons e rest ih =>
    intro m hm hf
    have h : m.process_common_events cell_index (e :: rest) =
        (((m.process_common_event cell_index e).1.process_common_events cell_index rest).1,
          (m.process_common_event cell_index e).2 ::
            ((m.process_common_event cell_index e).1.process_common_events
              cell_index rest).2) := by
      simp [ue_event_manager.process_common_events, hf]
    rw [h]
    simp only []
    cases hf1 : (m.process_common_event cell_index e).1.failed with
    | true =>
      rw [process_common_events_failed cell_index rest _ hf1]
      exact Or.inl hf1
    | false =>
      obtain ⟨_, _, _, _, _, X2, b6, _, _, _⟩ :=
        process_common_events_frame cell_index rest (m.process_common_event cell_index e).1
      obtain ⟨_, _, _, _, _, X1, a6, _, _⟩ := process_common_event_frame m cell_index e
      rcases List.mem_cons.mp hm with he | he
      · subst he
        cases hp : u.get_pcell with
        | none =>
          have : (m.process_common_event cell_index ev).1.failed = true := by
            simp [ue_event_manager.process_common_event, hcb, hmax,
              ue_event_manager.run_common_callback, hp, ue_event_manager.fail]
          rw [this] at hf1
          cases hf1
        | some pcell =>
          have e1 : (m.process_common_event cell_index ev).1 =
              (m.notify [.common_callback ev.seq]).run_common_callback (.ue_creation u) := by
            simp [ue_event_manager.process_common_event, hcb, hmax]
          right
          refine ⟨[.common_callback ev.seq, .ev_ue_creation u.ue_index u.crnti pcell.cell_index,
            .metrics_ue_creation u.ue_index u.crnti, .mac_ue_config_complete u.ue_index] ++ X2,
            ?_, ?_, ?_⟩
          · rw [b6, e1, run_ue_creation_callback _ u pcell hp]
            simp [ue_event_manager.notify]
          · rw [executed_common_append]
            exact List.mem_append_left _ (by simp [executed_common])
          · simp
      · rcases ih (m.process_common_event cell_index e).1 he hf1 with hfail | ⟨X, hX, h1, h2⟩
        · exact Or.inl hfail
        · right
          refine ⟨X1 ++ X, ?_, ?_, ?_⟩
          · rw [hX, a6, List.append_assoc]
          · rw [executed_common_append]
            exact List.mem_append_right _ h1
          · exact List.mem_append_right _ h2

/-! ## Event manager: the lists are in push order -/

theorem push_order_of_frame (m m1 : ue_event_manager)
    (h1 : m1.common_events = m.common_events)
    (h2 : m1.cell_specific_events = m.cell_specific_events) (h3 : m.next_seq ≤ m1.next_seq)
    (h : m.labels_in_push_order) : m1.labels_in_push_order := by
  obtain ⟨a1, a2, a3, a4⟩ := h
  unfold ue_event_manager.labels_in_push_order
  rw [h1, h2]
  exact ⟨a1, fun s hs => Nat.lt_of_lt_of_le (a2 s hs) h3, a3,
    fun c => ⟨(a4 c).1, fun s hs => Nat.lt_of_lt_of_le ((a4 c).2 s hs) h3⟩⟩

theorem push_order_of_no_events (m : ue_event_manager) (h : m.no_events) :
    m.labels_in_push_order := by
  obtain ⟨h1, h2, h3, _⟩ := h
  unfold ue_event_manager.labels_in_push_order
  rw [h1, h2]
  refine ⟨List.Pairwise.nil, fun s hs => (by cases hs), List.Pairwise.nil, fun c => ?_⟩
  rw [h3 c]
  exact ⟨List.Pairwise.nil, fun s hs => (by cases hs)⟩

theorem pairwise_lt_concat (l : List Nat) (n : Nat) (h1 : l.Pairwise (· < ·))
    (h2 : ∀ s ∈ l, s < n) : (l ++ [n]).Pairwise (· < ·) := by
  rw [List.pairwise_append]
  refine ⟨h1, List.pairwise_singleton _ _, ?_⟩
  intro a ha b hb
  rw [List.mem_singleton] at hb
  rw [hb]
  exact h2 a ha

theorem push_order_emplace_common (m : ue_event_manager) (ue_index : Nat)
    (cb : common_callback) (h : m.labels_in_push_order) :
    (m.emplace_common ue_index cb).labels_in_push_order := by
  obtain ⟨a1, a2, a3, a4⟩ := h
  unfold ue_event_manager.labels_in_push_order
  simp only [ue_event_manager.emplace_common, slot_event_list.emplace, common_seqs,
    List.map_append, List.map_cons, List.map_nil]
  refine ⟨pairwise_lt_concat _ _ a1 a2, ?_, a3, fun c => ⟨(a4 c).1, fun s hs =>
    Nat.lt_succ_of_lt ((a4 c).2 s hs)⟩⟩
  intro s hs
  rcases List.mem_append.mp hs with hs | hs
  · exact Nat.lt_succ_of_lt (a2 s hs)
  · rw [List.mem_singleton] at hs
    rw [hs]
    exact Nat.lt_succ_self _

theorem push_order_emplace_cell (m : ue_event_manager) (cell_index ue_index : Nat)
    (cb : cell_callback) (h : m.labels_in_push_order) :
    (m.emplace_cell cell_index ue_index cb).labels_in_push_order := by
  obtain ⟨a1, a2, a3, a4⟩ := h
  unfold ue_event_manager.labels_in_push_order
  simp only [ue_event_manager.emplace_cell]
  refine ⟨a1, fun s hs => Nat.lt_succ_of_lt (a2 s hs), a3, fun c => ?_⟩
  by_cases hc : c = cell_index
  · subst hc
    simp only [Function.update_same, slot_event_list.emplace, cell_seqs, List.map_append,
      List.map_cons, List.map_nil]
    refine ⟨pairwise_lt_concat _ _ (a4 c).1 (a4 c).2, ?_⟩
    intro s hs
    rcases List.mem_append.mp hs with hs | hs
    · exact Nat.lt_succ_of_lt ((a4 c).2 s hs)
    · rw [List.mem_singleton] at hs
      rw [hs]
      exact Nat.lt_succ_self _
  · rw [Function.update_noteq hc]
    exact ⟨(a4 c).1, fun s hs => Nat.lt_succ_of_lt ((a4 c).2 s hs)⟩

theorem push_order_foldl_emplace_cell {α : Type} (f : α → Nat × Nat × cell_callback)
    (l : List α) : ∀ m : ue_event_manager, m.labels_in_push_order →
      (l.foldl (fun m1 x => m1.emplace_cell (f x).1 (f x).2.1 (f x).2.2)
        m).labels_in_push_order := by
  induction l with
  | nil => intro m h; exact h
  | cons x rest ih =>
    intro m h
    rw [List.foldl_cons]
    exact ih _ (push_order_emplace_cell m _ _ _ h)

theorem push_order_process_common (m : ue_event_manager) (sl : slot_point) (cell_index : Nat)
    (h : m.labels_in_push_order) : (m.process_common sl cell_index).labels_in_push_order := by
  obtain ⟨a1, a2, a3, a4⟩ := h
  obtain ⟨b1, b2, b3, b4, _⟩ := process_common_frame m sl cell_index
  unfold ue_event_manager.labels_in_push_order
  rw [b1, b2, b3, b4]
  by_cases hsl : m.last_sl = some sl
  · simp only [hsl, ne_eq, not_true_eq_false, if_false]
    exact ⟨a1, a2, a3, a4⟩
  · simp only [hsl, ne_eq, not_false_eq_true, if_true]
    exact ⟨List.Pairwise.nil, fun s hs => (by cases hs), a1, a4⟩

theorem push_order_process_cell_specific (m : ue_event_manager) (cell_index : Nat)
    (h : m.labels_in_push_order) : (m.process_cell_specific cell_index).labels_in_push_order := by
  obtain ⟨a1, a2, a3, a4⟩ := h
  obtain ⟨b1, b2, b3, _⟩ := process_cell_specific_frame m cell_index
  unfold ue_event_manager.labels_in_push_order
  rw [b1, b2, b3]
  refine ⟨a1, a2, a3, fun c => ?_⟩
  by_cases hc : c = cell_index
  · subst hc
    simp only [Function.update_same, slot_event_list.slot_indication]
    exact ⟨List.Pairwise.nil, fun s hs => (by cases hs)⟩
  · rw [Function.update_noteq hc]
    exact a4 c

theorem push_order_run (m : ue_event_manager) (sl : slot_point) (cell_index : Nat)
    (h : m.labels_in_push_order) : (m.run sl cell_index).labels_in_push_order := by
  unfold ue_event_manager.run
  split
  · exact push_order_of_frame m m.fail rfl rfl (Nat.le_refl _) h
  · simp only []
    split
    · exact push_order_process_common m sl cell_index h
    · exact push_order_process_cell_specific _ _ (push_order_process_common m sl cell_index h)

theorem push_order_step (m : ue_event_manager) (op : em_op) (h : m.labels_in_push_order) :
    (m.step op).labels_in_push_order := by
  unfold ue_event_manager.step
  split
  · exact h
  · cases op with
    | add_cell cell_index =>
      simp only [ue_event_manager.add_cell]
      split
      · exact push_order_of_frame m _ rfl rfl (Nat.le_refl _) h
      · exact push_order_of_frame m _ rfl rfl (Nat.le_refl _) h
    | ue_creation_request ue_request =>
      simp only [ue_event_manager.handle_ue_creation_request]
      split
      · exact push_order_of_frame m _ rfl rfl (Nat.le_refl _) h
      · split
        · exact push_order_of_frame m _ rfl rfl (Nat.le_refl _) h
        · exact push_order_emplace_common m _ _ h
    | ue_reconfiguration_request ue_request => exact push_order_emplace_common m _ _ h
    | ue_removal_request ue_index => exact push_order_emplace_common m _ _ h
    | ul_bsr_indication bsr_ind =>
      simp only [ue_event_manager.handle_ul_bsr_indication]
      split
      · exact push_order_of_frame m _ rfl rfl (Nat.le_refl _) h
      · exact push_order_emplace_common m _ _ h
    | crc_indication crc_ind =>
      simp only [ue_event_manager.handle_crc_indication]
      split
      · exact push_order_of_frame m _ rfl rfl (Nat.le_refl _) h
      · exact push_order_foldl_emplace_cell
          (fun crc : ul_crc_pdu_indication =>
            (crc_ind.cell_index, crc.ue_index, cell_callback.crc crc_ind.sl_rx crc))
          crc_ind.crcs m h
    | uci_indication ind =>
      simp only [ue_event_manager.handle_uci_indication]
      split
      · exact push_order_of_frame m _ rfl rfl (Nat.le_refl _) h
      · exact push_order_foldl_emplace_cell
          (fun uci : uci_pdu => (ind.cell_index, uci.ue_index, cell_callback.uci ind.slot_rx uci.pdu))
          ind.ucis m h
    | dl_mac_ce_indication ce => exact push_order_emplace_common m _ _ h
    | dl_buffer_state_indication bs => exact push_order_emplace_common m _ _ h
    | run sl cell_index => exact push_order_run m sl cell_index h

theorem push_order_exec (ops : List em_op) :
    ∀ m : ue_event_manager, m.labels_in_push_order → (m.exec ops).labels_in_push_order := by
  induction ops with
  | nil => intro m h; exact h
  | cons op rest ih =>
    intro m h
    exact ih _ (push_order_step m op h)

/-! ## C16: events of unknown UEs are dropped -/

/-- C16: an event addressed to a UE index that is not in the UE repository is dropped.
In `process_common` the callback of such a common event is not run (the manager is left
as it is) and the event is cleared, and an event without callback is passed over; in
`process_cell_specific` such a cell event is passed over, as is the event of a UE that
has no `ue_cell` for the processed cell; the closures of the reconfiguration, BSR, MAC CE
and DL buffer state events, run for a UE that the repository does not hold, leave the
manager as it is: no UE is changed, no call is made on the metrics handler or the MAC
notifier. -/
theorem unknown_ue_event_is_dropped (m : ue_event_manager) (cell_index : Nat) :
    (∀ ev : common_event_t, ev.ue_index ≠ MAX_NOF_DU_UES → ev.callback.isSome = true →
      m.ue_db.contains ev.ue_index = false →
      m.process_common_event cell_index ev = (m, { ev with callback := none })) ∧
    (∀ ev : common_event_t, ev.callback = none → m.process_common_event cell_index ev = (m, ev)) ∧
    (∀ ev : cell_event_t, m.ue_db.contains ev.ue_index = false →
      m.process_cell_event cell_index ev = m) ∧
    (∀ (ev : cell_event_t) (u : ue), m.ue_db.get ev.ue_index = some u →
      u.find_cell cell_index = none → m.process_cell_event cell_index ev = m) ∧
    (∀ ue_request : sched_ue_reconfiguration_message,
      m.ue_db.contains ue_request.ue_index = false →
      m.run_common_callback (.ue_reconfiguration ue_request) = m) ∧
    (∀ bsr_ind : ul_bsr_indication_message, m.ue_db.contains bsr_ind.ue_index = false →
      m.run_common_callback (.ul_bsr bsr_ind) = m) ∧
    (∀ ce : dl_mac_ce_indication, m.ue_db.contains ce.ue_index = false →
      m.run_common_callback (.dl_mac_ce ce) = m) ∧
    (∀ bs : dl_buffer_state_indication_message, m.ue_db.contains bs.ue_index = false →
      m.run_common_callback (.dl_buffer_state bs) = m) := by
  refine ⟨?_, ?_, ?_, ?_, ?_, ?_, ?_, ?_⟩
  · intro ev hmax hcb hct
    cases hc : ev.callback with
    | none => rw [hc] at hcb; cases hcb
    | some cb => simp [ue_event_manager.process_common_event, hc, hmax, hct]
  · intro ev hc
    simp [ue_event_manager.process_common_event, hc]
  · intro ev hct
    simp [ue_event_manager.process_cell_event, hct]
  · intro ev u hu hc
    have hct : m.ue_db.contains ev.ue_index = true := by
      unfold ue_repository.contains
      unfold ue_repository.get at hu
      rw [hu]; rfl
    simp [ue_event_manager.process_cell_event, hct, hu, hc]
  · intro r h
    simp [ue_event_manager.run_common_callback, h]
  · intro r h
    simp [ue_event_manager.run_common_callback, h]
  · intro r h
    simp [ue_event_manager.run_common_callback, h]
  · intro r h
    simp [ue_event_manager.run_common_callback, h]

/-- C16 in the scenario: a BSR and a CRC for UE 5, which does not exist, are pushed and
cell 0 is run: both are dropped, nothing is notified, the BSR event is left cleared. -/
theorem unknown_ue_event_is_dropped_demo :
    demo_event_manager.process_common_event 0
        ⟨5, some (.ul_bsr ⟨0, 5, 17921, 0, [(0, 100)]⟩), 0⟩ =
      (demo_event_manager, ⟨5, none, 0⟩) ∧
    (demo_event_manager.exec [.ul_bsr_indication ⟨0, 5, 17921, 0, [(0, 100)]⟩,
      .crc_indication ⟨0, ⟨0, 3⟩, [⟨17921, 5, 0, true, none⟩]⟩, .run ⟨0, 7⟩ 0]).out = [] :=
  ⟨(unknown_ue_event_is_dropped demo_event_manager 0).1 _ (by decide) rfl rfl, by decide⟩

/-! ## C17: a common event is run at most once -/

/-- C17: starting from a manager that holds no event, after any sequence of calls (events
pushed, `run` for several cells in the same slot and for several slots) no common event
has had its callback started twice.  The mechanism: `process_common` for the slot it
processed last pops nothing; a turn of its loop that makes any call leaves the event
cleared; an event without callback is passed over; and the event of an existing UE whose
primary cell is not the cell being run is left waiting, untouched. -/
theorem common_callback_started_at_most_once (m : ue_event_manager) (ops : List em_op)
    (h : m.no_events) :
    (executed_common (m.exec ops).out).Nodup ∧
    (∀ (m1 : ue_event_manager) (sl : slot_point) (cell_index : Nat), m1.last_sl = some sl →
      (m1.process_common sl cell_index).common_events.pending_events =
        m1.common_events.pending_events) ∧
    (∀ (m1 : ue_event_manager) (cell_index : Nat) (ev : common_event_t),
      (m1.process_common_event cell_index ev).1.out ≠ m1.out →
      (m1.process_common_event cell_index ev).2.callback = none) ∧
    (∀ (m1 : ue_event_manager) (cell_index : Nat) (ev : common_event_t), ev.callback = none →
      m1.process_common_event cell_index ev = (m1, ev)) ∧
    (∀ (m1 : ue_event_manager) (cell_index : Nat) (ev : common_event_t) (u : ue) (pcell : ue_cell),
      ev.ue_index ≠ MAX_NOF_DU_UES → m1.ue_db.get ev.ue_index = some u →
      u.get_pcell = some pcell → pcell.cell_index ≠ cell_index →
      m1.process_common_event cell_index ev = (m1, ev)) := by
  refine ⟨?_, ?_, ?_, ?_, ?_⟩
  · exact labels_distinct_nodup _ (labels_distinct_exec ops m (labels_distinct_of_no_events m h))
  · intro m1 sl cell_index hsl
    have := (process_common_frame m1 sl cell_index).1
    rw [this]
    simp [hsl]
  · intro m1 cell_index ev hne
    rcases process_common_event_cases m1 cell_index ev with h1 | h1 | ⟨_, h1⟩ | ⟨cb, _, h1⟩
    · rw [h1] at hne; exact absurd rfl hne
    · rw [h1] at hne; exact absurd rfl hne
    · rw [h1] at hne; exact absurd rfl hne
    · rw [h1]
  · intro m1 cell_index ev hc
    simp [ue_event_manager.process_common_event, hc]
  · intro m1 cell_index ev u pcell hmax hu hp hc
    have hct : m1.ue_db.contains ev.ue_index = true := by
      unfold ue_repository.contains
      unfold ue_repository.get at hu
      rw [hu]; rfl
    cases hcb : ev.callback with
    | none => simp [ue_event_manager.process_common_event, hcb]
    | some cb => simp [ue_event_manager.process_common_event, hcb, hmax, hct, hu, hp, hc]

/-- C17 in the scenario: a UE is created with primary cell 0, a BSR for it is pushed, and
cells 1 and 0 are run, cell 0 twice in the same slot and once in the next: the creation
(label 0) and the BSR (label 1) are each started once. -/
theorem common_callback_started_at_most_once_demo :
    demo_event_manager.no_events ∧
    executed_common (demo_event_manager.exec [.ue_creation_request ⟨0, 17921, [0]⟩,
      .run ⟨0, 0⟩ 0, .ul_bsr_indication ⟨0, 0, 17921, 0, [(0, 100)]⟩, .run ⟨0, 1⟩ 1,
      .run ⟨0, 1⟩ 0, .run ⟨0, 1⟩ 0, .run ⟨0, 2⟩ 0]).out = [0, 1] ∧
    (executed_common (demo_event_manager.exec [.ue_creation_request ⟨0, 17921, [0]⟩,
      .run ⟨0, 0⟩ 0, .ul_bsr_indication ⟨0, 0, 17921, 0, [(0, 100)]⟩, .run ⟨0, 1⟩ 1,
      .run ⟨0, 1⟩ 0, .run ⟨0, 1⟩ 0, .run ⟨0, 2⟩ 0]).out).Nodup :=
  ⟨⟨rfl, rfl, fun _ => rfl, rfl⟩, by decide,
    (common_callback_started_at_most_once demo_event_manager _ ⟨rfl, rfl, fun _ => rfl, rfl⟩).1⟩

/-! ## C18: when a UE creation event is applied -/

/-- C18, counterexample: a UE whose primary cell is cell 1 is requested and `run` is called
for cell 0.  That run inserts the UE in the repository and notifies the MAC
(`on_ue_config_complete`); the creation event is left cleared, not pending. -/
theorem creation_applied_in_run_of_other_cell :
    (demo_event_manager.exec [.ue_creation_request ⟨0, 17921, [1]⟩, .run ⟨0, 0⟩ 0]).failed
      = false ∧
    (demo_event_manager.exec [.ue_creation_request ⟨0, 17921, [1]⟩,
      .run ⟨0, 0⟩ 0]).ue_db.contains 0 = true ∧
    (((demo_event_manager.exec [.ue_creation_request ⟨0, 17921, [1]⟩,
      .run ⟨0, 0⟩ 0]).ue_db.get 0).bind ue.get_pcell).map (fun c => c.cell_index) = some 1 ∧
    (demo_event_manager.exec [.ue_creation_request ⟨0, 17921, [1]⟩, .run ⟨0, 0⟩ 0]).out =
      [.common_callback 0, .ev_ue_creation 0 17921 1, .metrics_ue_creation 0 17921,
        .mac_ue_config_complete 0] ∧
    (demo_event_manager.exec [.ue_creation_request ⟨0, 17921, [1]⟩,
      .run ⟨0, 0⟩ 0]).common_events.current_events.map
        (fun ev => (ev.seq, ev.callback.isSome)) = [(0, false)] ∧
    (demo_event_manager.exec [.ue_creation_request ⟨0, 17921, [1]⟩,
      .run ⟨0, 0⟩ 0]).common_events.pending_events.length = 0 := by
  refine ⟨by decide, by decide, by decide, by decide, by decide, by decide⟩

/-- C18, amended: a UE creation event is applied by the first `run` that processes it,
whatever the cell of that run.  In the loop of `process_common`, for any cell, the turn
of a creation event whose UE has a primary cell inserts the UE in the repository, calls
the event logger, the metrics handler and `on_ue_config_complete`, and clears the event.
And after `handle_ue_creation_request` accepted a request, the next `run`, for a new
slot and any cell that passes the check of `run`, starts the callback of the event and
notifies `on_ue_config_complete`, unless an assertion fails on the way. -/
theorem creation_applied_by_first_run (m : ue_event_manager)
    (ue_request : sched_ue_creation_request_message) (sl : slot_point) (cell_index c : Nat)
    (hf : m.failed = false) (hsl : m.last_sl ≠ some sl)
    (hcell : m.cell_check_fails cell_index = false)
    (hc : ue_request.cells.head? = some c) (hce : m.cell_exists c = true) :
    (((m.handle_ue_creation_request ue_request).run sl cell_index).failed = true ∨
      (m.next_seq ∈
          executed_common ((m.handle_ue_creation_request ue_request).run sl cell_index).out ∧
        em_notification.mac_ue_config_complete (m.methods.make_ue ue_request).ue_index ∈
          ((m.handle_ue_creation_request ue_request).run sl cell_index).out)) ∧
    (∀ (m1 : ue_event_manager) (cell1 : Nat) (ev : common_event_t) (u : ue) (pcell : ue_cell),
      ev.ue_index = MAX_NOF_DU_UES → ev.callback = some (.ue_creation u) →
      u.get_pcell = some pcell →
      m1.process_common_event cell1 ev =
        ({ m1 with
            ue_db := m1.ue_db.add_ue u
            out := m1.out ++ [.common_callback ev.seq,
              .ev_ue_creation u.ue_index u.crnti pcell.cell_index,
              .metrics_ue_creation u.ue_index u.crnti, .mac_ue_config_complete u.ue_index] },
          { ev with callback := none }) ∧
      (m1.ue_db.add_ue u).get u.ue_index = some u) := by
  constructor
  · have h0 : m.handle_ue_creation_request ue_request =
        m.emplace_common MAX_NOF_DU_UES (.ue_creation (m.methods.make_ue ue_request)) := by
      simp [ue_event_manager.handle_ue_creation_request, hc, hce]
    rw [h0]
    generalize hm0 : m.emplace_common MAX_NOF_DU_UES
      (.ue_creation (m.methods.make_ue ue_request)) = m0
    have hcell0 : m0.cell_check_fails cell_index = false := by rw [← hm0]; exact hcell
    have hsl0 : m0.last_sl ≠ some sl := by rw [← hm0]; exact hsl
    have hpc : m0.process_common sl cell_index =
        { (ue_event_manager.process_common_events
            { m0 with common_events := m0.common_events.slot_indication, last_sl := some sl }
            cell_index m0.common_events.pending_events).1 with
          common_events :=
            { (ue_event_manager.process_common_events
                { m0 with common_events := m0.common_events.slot_indication, last_sl := some sl }
                cell_index m0.common_events.pending_events).1.common_events
              with current_events :=
                (ue_event_manager.process_common_events
                  { m0 with common_events := m0.common_events.slot_indication, last_sl := some sl }
                  cell_index m0.common_events.pending_events).2 } } := by
      simp [ue_event_manager.process_common, hsl0, slot_event_list.get_events,
        slot_event_list.slot_indication]
    have hmem : (⟨MAX_NOF_DU_UES, some (.ue_creation (m.methods.make_ue ue_request)),
        m.next_seq⟩ : common_event_t) ∈ m0.common_events.pending_events := by
      rw [← hm0]
      simp [ue_event_manager.emplace_common, slot_event_list.emplace]
    have hloop := process_common_events_creation cell_index
      ⟨MAX_NOF_DU_UES, some (.ue_creation (m.methods.make_ue ue_request)), m.next_seq⟩
      (m.methods.make_ue ue_request) rfl rfl m0.common_events.pending_events
      { m0 with common_events := m0.common_events.slot_indication, last_sl := some sl } hmem
      (by rw [← hm0]; exact hf)
    have hrun : m0.run sl cell_index =
        if (m0.process_common sl cell_index).failed = true then m0.process_common sl cell_index
        else (m0.process_common sl cell_index).process_cell_specific cell_index := by
      simp [ue_event_manager.run, hcell0]
    rw [hrun]
    rcases hloop with hfail | ⟨X, hX, h1, h2⟩
    · have : (m0.process_common sl cell_index).failed = true := by rw [hpc]; exact hfail
      rw [if_pos this]
      exact Or.inl this
    · have hout : (m0.process_common sl cell_index).out = m0.out ++ X := by rw [hpc]; exact hX
      right
      split
      · rw [hout, executed_common_append]
        exact ⟨List.mem_append_right _ h1, List.mem_append_right _ h2⟩
      · obtain ⟨_, _, _, _, Y, hY, _, _⟩ :=
          process_cell_specific_frame (m0.process_common sl cell_index) cell_index
        rw [hY, hout, executed_common_append, executed_common_append]
        exact ⟨List.mem_append_left _ (List.mem_append_right _ h1),
          List.mem_append_left _ (List.mem_append_right _ h2)⟩
  · intro m1 cell1 ev u pcell hmax hcb hp
    refine ⟨?_, ue_repository_get_add_ue _ _⟩
    simp only [ue_event_manager.process_common_event, hcb, hmax, beq_self_eq_true, if_true]
    rw [run_ue_creation_callback _ u pcell hp]
    simp [ue_event_manager.notify]

/-- C18, amended, in the scenario: the request for a UE with primary cell 1, followed by
`run` for cell 0. -/
theorem creation_applied_by_first_run_demo :
    em_notification.mac_ue_config_complete 0 ∈
      ((demo_event_manager.handle_ue_creation_request ⟨0, 17921, [1]⟩).run ⟨0, 0⟩ 0).out :=
  ((creation_applied_by_first_run demo_event_manager ⟨0, 17921, [1]⟩ ⟨0, 0⟩ 0 1 rfl
    (by decide) rfl rfl rfl).1.resolve_left (by decide)).2

/-! ## C19: order of the handlers in a run -/

/-- C19, counterexample: UE 0 exists with primary cell 0; a CRC for it is pushed (label 1),
then a BSR for it (label 2), then cell 0 is run.  Both events are applied in that run,
and the handler of the BSR, pushed last, is run first: `process_common` comes before
`process_cell_specific`. -/
theorem common_event_overtakes_cell_event :
    (demo_event_manager.exec [.ue_creation_request ⟨0, 17921, [0]⟩, .run ⟨0, 0⟩ 0,
      .crc_indication ⟨0, ⟨0, 0⟩, [⟨17921, 0, 0, true, none⟩]⟩,
      .ul_bsr_indication ⟨0, 0, 17921, 0, [(0, 100)]⟩]).out =
      [.common_callback 0, .ev_ue_creation 0 17921 0, .metrics_ue_creation 0 17921,
        .mac_ue_config_complete 0] ∧
    (demo_event_manager.exec [.ue_creation_request ⟨0, 17921, [0]⟩, .run ⟨0, 0⟩ 0,
      .crc_indication ⟨0, ⟨0, 0⟩, [⟨17921, 0, 0, true, none⟩]⟩,
      .ul_bsr_indication ⟨0, 0, 17921, 0, [(0, 100)]⟩, .run ⟨0, 1⟩ 0]).out =
      [.common_callback 0, .ev_ue_creation 0 17921 0, .metrics_ue_creation 0 17921,
        .mac_ue_config_complete 0,
        .common_callback 2, .ev_bsr 0 17921 0 [(0, 100)] 0,
        .metrics_ul_bsr ⟨0, 0, 17921, 0, [(0, 100)]⟩,
        .cell_callback 1, .ev_crc 0 17921 0 ⟨0, 0⟩ 0 true none,
        .metrics_crc ⟨17921, 0, 0, true, none⟩ 100] := by
  refine ⟨by decide, by decide⟩

/-- C19, amended: starting from a manager that holds no event, after any sequence of
calls, the calls made by a `run` split in two parts: in the first only callbacks of
common events are started, in the order in which these events were pushed; in the
second only callbacks of cell events, in the order in which these were pushed.  So two
events of the same list are handled in push order, and a common event is handled
before any cell event of the same run, whichever was pushed first. -/
theorem handlers_run_in_push_order_per_list (m : ue_event_manager) (ops : List em_op)
    (sl : slot_point) (cell_index : Nat) (h : m.no_events) :
    ∃ A B, ((m.exec ops).run sl cell_index).out = (m.exec ops).out ++ A ++ B ∧
      executed_cell A = [] ∧ executed_common B = [] ∧
      (executed_common A).Pairwise (· < ·) ∧ (executed_cell B).Pairwise (· < ·) := by
  have hinv := push_order_exec ops m (push_order_of_no_events m h)
  generalize m.exec ops = m1 at hinv ⊢
  obtain ⟨a1, _, a3, a4⟩ := hinv
  by_cases hcheck : m1.cell_check_fails cell_index = true
  · refine ⟨[], [], ?_, rfl, rfl, List.Pairwise.nil, List.Pairwise.nil⟩
    simp [ue_event_manager.run, hcheck, ue_event_manager.fail]
  · have hrun : m1.run sl cell_index =
        if (m1.process_common sl cell_index).failed = true then m1.process_common sl cell_index
        else (m1.process_common sl cell_index).process_cell_specific cell_index := by
      simp [ue_event_manager.run, hcheck]
    obtain ⟨_, _, b3, _, _, A, b6, b7, b8, _⟩ := process_common_frame m1 sl cell_index
    have hA : (executed_common A).Pairwise (· < ·) := by
      refine List.Pairwise.sublist b8 ?_
      split
      · exact a1
      · exact a3
    rw [hrun]
    split
    · exact ⟨A, [], by rw [b6, List.append_nil], b7, rfl, hA, List.Pairwise.nil⟩
    · obtain ⟨_, _, _, _, B, c5, c6, c7⟩ :=
        process_cell_specific_frame (m1.process_common sl cell_index) cell_index
      refine ⟨A, B, by rw [c5, b6], b7, c6, hA, ?_⟩
      rw [b3] at c7
      exact List.Pairwise.sublist c7 (a4 cell_index).1

/-- C19, amended, in the scenario of the counterexample. -/
theorem handlers_run_in_push_order_per_list_demo :
    ∃ A B, ((demo_event_manager.exec [.ue_creation_request ⟨0, 17921, [0]⟩, .run ⟨0, 0⟩ 0,
        .crc_indication ⟨0, ⟨0, 0⟩, [⟨17921, 0, 0, true, none⟩]⟩,
        .ul_bsr_indication ⟨0, 0, 17921, 0, [(0, 100)]⟩]).run ⟨0, 1⟩ 0).out =
      (demo_event_manager.exec [.ue_creation_request ⟨0, 17921, [0]⟩, .run ⟨0, 0⟩ 0,
        .crc_indication ⟨0, ⟨0, 0⟩, [⟨17921, 0, 0, true, none⟩]⟩,
        .ul_bsr_indication ⟨0, 0, 17921, 0, [(0, 100)]⟩]).out ++ A ++ B ∧
      executed_cell A = [] ∧ executed_common B = [] ∧
      (executed_common A).Pairwise (· < ·) ∧ (executed_cell B).Pairwise (· < ·) :=
  handlers_run_in_push_order_per_list demo_event_manager _ ⟨0, 1⟩ 0 ⟨rfl, rfl, fun _ => rfl, rfl⟩

/-! ## C20: decoding of the CSI part 1 payload -/

/-- C20: `handle_csi` on a CSI part 1 payload of fewer than 4 bits leaves the UE cell as
it is and makes no call on the event logger or the metrics handler; on a payload
`b0 b1 b2 b3` followed by any further bits it stores `8·b0 + 4·b1 + 2·b2 + b3` as the
latest wideband CQI of the UE cell, a value of at most 15 that does not depend on the
further bits, and reports that value to the event logger and the payload to the
metrics handler. -/
theorem csi_payload_decoded_as_wb_cqi (ue_cc : ue_cell) (csi_bits : List Bool) :
    (csi_bits.length < 4 → ue_event_manager.handle_csi ue_cc csi_bits = (ue_cc, [])) ∧
    (∀ (b0 b1 b2 b3 : Bool) (rest : List Bool), csi_bits = b0 :: b1 :: b2 :: b3 :: rest →
      (ue_event_manager.handle_csi ue_cc csi_bits).1.get_latest_wb_cqi =
        8 * b0.toNat + 4 * b1.toNat + 2 * b2.toNat + b3.toNat ∧
      (ue_event_manager.handle_csi ue_cc csi_bits).1.get_latest_wb_cqi ≤ 15 ∧
      (ue_event_manager.handle_csi ue_cc csi_bits).1 =
        ue_cc.set_latest_wb_cqi (8 * b0.toNat + 4 * b1.toNat + 2 * b2.toNat + b3.toNat) ∧
      (ue_event_manager.handle_csi ue_cc csi_bits).2 =
        [.ev_csi_report ue_cc.ue_index ue_cc.rnti
            (8 * b0.toNat + 4 * b1.toNat + 2 * b2.toNat + b3.toNat),
          .metrics_csi_report ue_cc.ue_index csi_bits]) := by
  constructor
  · intro h
    simp [ue_event_manager.handle_csi, h]
  · intro b0 b1 b2 b3 rest h
    subst h
    have hl : ¬ ((b0 :: b1 :: b2 :: b3 :: rest).length < 4) := by simp
    have key : ue_event_manager.handle_csi ue_cc (b0 :: b1 :: b2 :: b3 :: rest) =
        (ue_cc.set_latest_wb_cqi (8 * b0.toNat + 4 * b1.toNat + 2 * b2.toNat + b3.toNat),
          [.ev_csi_report ue_cc.ue_index ue_cc.rnti
              (8 * b0.toNat + 4 * b1.toNat + 2 * b2.toNat + b3.toNat),
            .metrics_csi_report ue_cc.ue_index (b0 :: b1 :: b2 :: b3 :: rest)]) := by
      unfold ue_event_manager.handle_csi
      rw [if_neg hl]
      cases b0 <;> cases b1 <;> cases b2 <;> cases b3 <;> rfl
    rw [key]
    refine ⟨rfl, ?_, rfl, rfl⟩
    show 8 * b0.toNat + 4 * b1.toNat + 2 * b2.toNat + b3.toNat ≤ 15
    cases b0 <;> cases b1 <;> cases b2 <;> cases b3 <;> decide

/-- C20 at a payload of five bits `1 0 1 1 1`, decoded as 11, and at a payload of two
bits, which is ignored. -/
theorem csi_payload_decoded_as_wb_cqi_demo :
    (ue_event_manager.handle_csi (demo_em_ue_cell 0 0 17921)
      [true, false, true, true, true]).1.get_latest_wb_cqi = 11 ∧
    ue_event_manager.handle_csi (demo_em_ue_cell 0 0 17921) [true, true] =
      (demo_em_ue_cell 0 0 17921, []) :=
  ⟨((csi_payload_decoded_as_wb_cqi (demo_em_ue_cell 0 0 17921)
      [true, false, true, true, true]).2 true false true true [true] rfl).1,
    (csi_payload_decoded_as_wb_cqi (demo_em_ue_cell 0 0 17921) [true, true]).1 (by decide)⟩

/-! ## C24: the PUSCH span is free when it is filled -/

theorem ul_grant_prechecks_no_double_fill (a : ue_cell_grid_allocator) (g : ue_pusch_grant) :
    ul_grant_prechecks a g ≠ .abort .grid_double_fill := by
  have key : (ul_grant_prechecks a g).no_double_fill := by
    unfold ul_grant_prechecks
    repeat' first
      | exact no_double_fill_pure _
      | exact no_double_fill_assert _ _ (by decide)
      | exact no_double_fill_require _ _
      | exact no_double_fill_reject _ _
      | apply no_double_fill_bind
      | intro _
  exact key

/-- The UL PDCCH reservation leaves the UL grid of the PUSCH slot as the collision check
saw it. -/
theorem ul_grid_after_pdcch {a : ue_cell_grid_allocator} {g : ue_pusch_grant} {ctx : ul_grant_ctx}
    {r : pdcch_resource_allocator × cell_slot_resource_allocator}
    {pusch_alloc : cell_slot_resource_allocator}
    (hctx : ul_grant_prechecks a g = .ok ctx)
    (hr : alloc_ul_pdcch_ue ctx.cell.pdcch_sched ctx.pdcch_alloc ctx.u.crnti ctx.ss_info.cfg_id
      g.aggr_lvl = some r)
    (hpa : (ctx.cell.cell_alloc.set_offset pdcch_delay_in_slots r.2).at_offset
      (pdcch_delay_in_slots + ctx.pusch_td_cfg.k2) = some pusch_alloc) :
    pusch_alloc.ul_res_grid = ctx.pusch_alloc.ul_res_grid := by
  have pre := ul_grant_prechecks_ok hctx
  have hr2 : r.2.ul_res_grid = ctx.pdcch_alloc.ul_res_grid := by
    unfold alloc_ul_pdcch_ue at hr
    cases hcand : pdcch_candidate ctx.cell.pdcch_sched ctx.pdcch_alloc ctx.u.crnti
        ctx.ss_info.cfg_id g.aggr_lvl with
    | none => simp [hcand] at hr
    | some cand =>
      simp only [hcand, Option.some.injEq] at hr
      rw [← hr]
  rw [at_offset_set_offset, pre.h_pusch_alloc] at hpa
  by_cases hk : pdcch_delay_in_slots = pdcch_delay_in_slots + ctx.pusch_td_cfg.k2
  · rw [if_pos hk] at hpa
    simp only [Option.map_some', Option.some.injEq] at hpa
    have hsame : ctx.pusch_alloc = ctx.pdcch_alloc := by
      have h1 := pre.h_pusch_alloc
      rw [← hk, pre.h_pdcch_alloc] at h1
      exact (Option.some.inj h1).symm
    rw [← hpa, hr2, hsame]
  · rw [if_neg hk] at hpa
    rw [← Option.some.inj hpa]

/-- C24: in `allocate_ul_grant` the double-fill fatal assertion of `ul_res_grid.fill` is not
reached, whatever the state and the grant: when the call gets as far as the fill, the UL
grid of the PUSCH slot is the one on which `collides` returned false for the same span
(scs, PUSCH symbols, grant.crbs), because the only reservation in between, the UL PDCCH,
writes the DL grid and the PDCCH list of its slot and not the UL grid; so the span is
free and the fill succeeds. -/
theorem ul_fill_span_free (a : ue_cell_grid_allocator) (g : ue_pusch_grant) :
    (allocate_ul_grant a g).exit ≠ .abort .grid_double_fill ∧
    ∀ (ctx : ul_grant_ctx) (r : pdcch_resource_allocator × cell_slot_resource_allocator)
      (pusch_alloc : cell_slot_resource_allocator),
      ul_grant_prechecks a g = .ok ctx →
      alloc_ul_pdcch_ue ctx.cell.pdcch_sched ctx.pdcch_alloc ctx.u.crnti ctx.ss_info.cfg_id
        g.aggr_lvl = some r →
      (ctx.cell.cell_alloc.set_offset pdcch_delay_in_slots r.2).at_offset
        (pdcch_delay_in_slots + ctx.pusch_td_cfg.k2) = some pusch_alloc →
      pusch_alloc.ul_res_grid = ctx.pusch_alloc.ul_res_grid ∧
      pusch_alloc.ul_res_grid.collides ctx.scs ctx.pusch_td_cfg.symbols g.crbs = false ∧
      pusch_alloc.ul_res_grid.fill ⟨ctx.scs, ctx.pusch_td_cfg.symbols, g.crbs⟩ =
        some ⟨span_cells ctx.pusch_td_cfg.symbols g.crbs ++ pusch_alloc.ul_res_grid.cells⟩ := by
  have part2 : ∀ (ctx : ul_grant_ctx)
      (r : pdcch_resource_allocator × cell_slot_resource_allocator)
      (pusch_alloc : cell_slot_resource_allocator),
      ul_grant_prechecks a g = .ok ctx →
      alloc_ul_pdcch_ue ctx.cell.pdcch_sched ctx.pdcch_alloc ctx.u.crnti ctx.ss_info.cfg_id
        g.aggr_lvl = some r →
      (ctx.cell.cell_alloc.set_offset pdcch_delay_in_slots r.2).at_offset
        (pdcch_delay_in_slots + ctx.pusch_td_cfg.k2) = some pusch_alloc →
      pusch_alloc.ul_res_grid = ctx.pusch_alloc.ul_res_grid ∧
      pusch_alloc.ul_res_grid.collides ctx.scs ctx.pusch_td_cfg.symbols g.crbs = false ∧
      pusch_alloc.ul_res_grid.fill ⟨ctx.scs, ctx.pusch_td_cfg.symbols, g.crbs⟩ =
        some ⟨span_cells ctx.pusch_td_cfg.symbols g.crbs ++ pusch_alloc.ul_res_grid.cells⟩ := by
    intro ctx r pusch_alloc hctx hr hpa
    have hg := ul_grid_after_pdcch hctx hr hpa
    have hnc : pusch_alloc.ul_res_grid.collides ctx.scs ctx.pusch_td_cfg.symbols g.crbs = false := by
      rw [hg]; exact (ul_grant_prechecks_ok hctx).h_no_collision
    exact ⟨hg, hnc, by simp [cell_slot_resource_grid.fill, hnc]⟩
  refine ⟨?_, part2⟩
  intro h
  cases hpre : ul_grant_prechecks a g with
  | abort c =>
    have hc : c = .grid_double_fill := by
      simp only [allocate_ul_grant, hpre] at h
      injection h
    rw [hc] at hpre
    exact ul_grant_prechecks_no_double_fill a g hpre
  | fail c => simp [allocate_ul_grant, hpre] at h
  | ok ctx =>
    have heq : allocate_ul_grant a g = ul_grant_alloc a g ctx := by
      simp [allocate_ul_grant, hpre]
    rw [heq] at h
    cases hal : alloc_ul_pdcch_ue ctx.cell.pdcch_sched ctx.pdcch_alloc ctx.u.crnti ctx.ss_info.cfg_id
        g.aggr_lvl with
    | none => simp [ul_grant_alloc, hal] at h
    | some r =>
      simp only [ul_grant_alloc, hal, ul_grant_mcs] at h
      split at h
      · cases h
      · split at h
        · cases h
        · rename_i pusch_alloc hpa
          have hcol := ul_grant_commit_double_fill h
          rw [(part2 ctx r pusch_alloc hpre hal hpa).2.1] at hcol
          cases hcol

/-- C24 in the scenario: a grant on CRBs 0..9 is allocated, its span being filled once. -/
theorem ul_fill_span_free_demo :
    (allocate_ul_grant demo_alloc (demo_ul_grant ⟨0, 10⟩)).exit = .success ∧
    (allocate_ul_grant demo_alloc (demo_ul_grant ⟨0, 10⟩)).exit ≠ .abort .grid_double_fill :=
  ⟨by decide, (ul_fill_span_free demo_alloc (demo_ul_grant ⟨0, 10⟩)).1⟩

/-! ## C25: the scheduling request is reset by successful UL grants only -/

/-- C25: `allocate_ul_grant` resets the pending scheduling-request indication of the UE of
the grant exactly when it returns true.  After a call that returns true the indication
of that UE is lowered and the indications of all other UEs are as before; after a call
that returns false the allocator, and with it every indication, is as before. -/
theorem sr_reset_iff_ul_grant_succeeds (a : ue_cell_grid_allocator) (g : ue_pusch_grant) :
    ((allocate_ul_grant a g).ret = some true →
      (allocate_ul_grant a g).st.sr_indication_of g.user_ue_index = some false ∧
      ∀ i, i ≠ g.user_ue_index →
        (allocate_ul_grant a g).st.sr_indication_of i = a.sr_indication_of i) ∧
    ((allocate_ul_grant a g).ret = some false →
      (allocate_ul_grant a g).st = a ∧
      ∀ i, (allocate_ul_grant a g).st.sr_indication_of i = a.sr_indication_of i) := by
  constructor
  · intro h
    obtain ⟨ctx, cand, mcs_tbs, dai, rv, dci, d⟩ :=
      allocate_ul_grant_done ((ret_true_iff _).1 h)
    refine ⟨?_, fun i hi => ?_⟩
    · unfold ue_cell_grid_allocator.sr_indication_of
      rw [d.h_ue]
      rfl
    · unfold ue_cell_grid_allocator.sr_indication_of
      rw [d.h_other_ues i hi]
  · intro h
    obtain ⟨c, hc⟩ := (ret_false_iff _).1 h
    have hst := allocate_ul_grant_failure_state hc
    exact ⟨hst, fun i => by rw [hst]⟩

/-- C25 in the scenario, where the UE has a scheduling request pending: the grant on CRBs
0..9 is allocated and resets it, the grant on the single CRB 0, for which no MCS is
found, returns false and leaves it pending. -/
theorem sr_reset_iff_ul_grant_succeeds_demo :
    demo_alloc.sr_indication_of 0 = some true ∧
    (allocate_ul_grant demo_alloc (demo_ul_grant ⟨0, 10⟩)).st.sr_indication_of 0 = some false ∧
    (allocate_ul_grant demo_alloc (demo_ul_grant ⟨0, 1⟩)).st.sr_indication_of 0 = some true :=
  ⟨rfl,
    ((sr_reset_iff_ul_grant_succeeds demo_alloc (demo_ul_grant ⟨0, 10⟩)).1 (by decide)).1,
    (((sr_reset_iff_ul_grant_succeeds demo_alloc (demo_ul_grant ⟨0, 1⟩)).2 (by decide)).2 0).trans
      rfl⟩

/-! ## Event manager: what the handlers of a UCI PDU change in the UE cell -/

/-- The loop of `handle_harq_ind` changes the HARQ entity of the UE cell and nothing else,
and calls the collaborators about HARQ acknowledgements only. -/
theorem handle_harq_ind_from_frame (methods : ue_methods) (uci_sl : slot_point)
    (bits : List mac_harq_ack_report_status) :
    ∀ (idx : Nat) (ue_cc : ue_cell),
      (ue_event_manager.handle_harq_ind_from methods uci_sl idx bits ue_cc).1 =
        { ue_cc with
          harqs := (ue_event_manager.handle_harq_ind_from methods uci_sl idx bits ue_cc).1.harqs } ∧
      ∀ n ∈ (ue_event_manager.handle_harq_ind_from methods uci_sl idx bits ue_cc).2,
        (∃ a b c d e f g, n = em_notification.ev_harq_ack a b c d e f g) ∨
        (∃ a b c, n = em_notification.metrics_dl_harq_ack a b c) := by
  induction bits with
  | nil =>
    intro idx ue_cc
    exact ⟨rfl, fun n hn => by cases hn⟩
  | cons b rest ih =>
    intro idx ue_cc
    simp only [ue_event_manager.handle_harq_ind_from]
    obtain ⟨h1, h2⟩ := ih (idx + 1)
      { ue_cc with harqs := (methods.dl_ack_info ue_cc.harqs uci_sl b (idx % 4)).2 }
    refine ⟨?_, ?_⟩
    · rw [h1]
    · intro n hn
      rcases List.mem_append.mp hn with hn | hn
      · cases hd : (methods.dl_ack_info ue_cc.harqs uci_sl b (idx % 4)).1 with
        | none => rw [hd] at hn; cases hn
        | some h =>
          rw [hd] at hn
          simp only [List.mem_append, List.mem_singleton] at hn
          rcases hn with hn | hn
          · exact Or.inl ⟨_, _, _, _, _, _, _, hn⟩
          · split at hn
            · rw [List.mem_singleton] at hn
              exact Or.inr ⟨_, _, _, hn⟩
            · cases hn
      · exact h2 n hn

theorem handle_harq_ind_nil (methods : ue_methods) (ue_cc : ue_cell) (uci_sl : slot_point) :
    ue_event_manager.handle_harq_ind methods ue_cc uci_sl [] = (ue_cc, []) := rfl

theorem handle_csi_nil (ue_cc : ue_cell) : ue_event_manager.handle_csi ue_cc [] = (ue_cc, []) := rfl

/-- The member `handle_csi` changes the metrics of the UE cell and nothing else, and calls
the collaborators about the CSI report only. -/
theorem handle_csi_frame (ue_cc : ue_cell) (csi_bits : List Bool) :
    (ue_event_manager.handle_csi ue_cc csi_bits).1 =
      { ue_cc with ue_metrics := (ue_event_manager.handle_csi ue_cc csi_bits).1.ue_metrics } ∧
    ∀ n ∈ (ue_event_manager.handle_csi ue_cc csi_bits).2,
      (∃ a b c, n = em_notification.ev_csi_report a b c) ∨
      (∃ a b, n = em_notification.metrics_csi_report a b) := by
  unfold ue_event_manager.handle_csi
  split
  · exact ⟨rfl, fun n hn => by cases hn⟩
  · refine ⟨rfl, fun n hn => ?_⟩
    simp only [List.mem_cons, List.mem_singleton, List.not_mem_nil, or_false] at hn
    rcases hn with hn | hn
    · exact Or.inl ⟨_, _, _, hn⟩
    · exact Or.inr ⟨_, _, hn⟩

/-- The guard on the presence of HARQ bits changes nothing: without bits the handler has no
effect. -/
theorem guarded_handle_harq_ind (methods : ue_methods) (ue_cc : ue_cell) (uci_sl : slot_point)
    (harqs : List mac_harq_ack_report_status) :
    (if (!harqs.isEmpty) = true then ue_event_manager.handle_harq_ind methods ue_cc uci_sl harqs
      else (ue_cc, [])) = ue_event_manager.handle_harq_ind methods ue_cc uci_sl harqs ∧
    (if harqs.length > 0 then ue_event_manager.handle_harq_ind methods ue_cc uci_sl harqs
      else (ue_cc, [])) = ue_event_manager.handle_harq_ind methods ue_cc uci_sl harqs := by
  cases harqs with
  | nil => exact ⟨rfl, rfl⟩
  | cons b rest => exact ⟨rfl, by simp⟩

theorem guarded_handle_csi (ue_cc : ue_cell) (csi_part1 : List Bool) :
    (if csi_part1.length > 0 then ue_event_manager.handle_csi ue_cc csi_part1 else (ue_cc, [])) =
      ue_event_manager.handle_csi ue_cc csi_part1 := by
  cases csi_part1 with
  | nil => rfl
  | cons b rest => simp

/-! ## Event manager: the closure of a UCI event by kind of PDU -/

theorem handle_harq_ind_ue_index (methods : ue_methods) (ue_cc : ue_cell) (uci_sl : slot_point)
    (harqs : List mac_harq_ack_report_status) :
    (ue_event_manager.handle_harq_ind methods ue_cc uci_sl harqs).1.ue_index = ue_cc.ue_index ∧
    (ue_event_manager.handle_harq_ind methods ue_cc uci_sl harqs).1.rnti = ue_cc.rnti ∧
    (ue_event_manager.handle_harq_ind methods ue_cc uci_sl harqs).1.ue_metrics =
      ue_cc.ue_metrics := by
  have h := (handle_harq_ind_from_frame methods uci_sl harqs 0 ue_cc).1
  unfold ue_event_manager.handle_harq_ind
  exact ⟨by rw [h], by rw [h]; rfl, by rw [h]⟩

theorem handle_csi_ue_index (ue_cc : ue_cell) (csi_bits : List Bool) :
    (ue_event_manager.handle_csi ue_cc csi_bits).1.ue_index = ue_cc.ue_index := by
  have h := (handle_csi_frame ue_cc csi_bits).1
  rw [h]

/-- The closure of a UCI event, by kind of PDU, without the guards on empty fields. -/
theorem run_uci_callback_by_kind (methods : ue_methods) (ue_cc : ue_cell) (uci_sl : slot_point) :
    (∀ (sr_detected : Bool) (harqs : List mac_harq_ack_report_status) (ul_sinr : Option Int),
      ue_event_manager.run_cell_callback methods ue_cc
          (.uci uci_sl (.uci_pucch_f0_or_f1_pdu sr_detected harqs ul_sinr)) =
        ⟨(ue_event_manager.handle_harq_ind methods ue_cc uci_sl harqs).1, sr_detected,
          (ue_event_manager.handle_harq_ind methods ue_cc uci_sl harqs).2 ++
            (if sr_detected = true then [.ev_sr ue_cc.ue_index ue_cc.rnti] else []) ++
            [.metrics_pucch_sinr ue_cc.ue_index ul_sinr]⟩) ∧
    (∀ (harqs : List mac_harq_ack_report_status) (csi_part1 : List Bool),
      ue_event_manager.run_cell_callback methods ue_cc
          (.uci uci_sl (.uci_pusch_pdu harqs csi_part1)) =
        ⟨(ue_event_manager.handle_csi
            (ue_event_manager.handle_harq_ind methods ue_cc uci_sl harqs).1 csi_part1).1, false,
          (ue_event_manager.handle_harq_ind methods ue_cc uci_sl harqs).2 ++
            (ue_event_manager.handle_csi
              (ue_event_manager.handle_harq_ind methods ue_cc uci_sl harqs).1 csi_part1).2⟩) ∧
    (∀ (sr_info : List Bool) (harqs : List mac_harq_ack_report_status) (csi_part1 : List Bool)
        (ul_sinr : Option Int),
      ue_event_manager.run_cell_callback methods ue_cc
          (.uci uci_sl (.uci_pucch_f2_or_f3_or_f4_pdu sr_info harqs csi_part1 ul_sinr)) =
        ⟨(ue_event_manager.handle_csi
            (ue_event_manager.handle_harq_ind methods ue_cc uci_sl harqs).1 csi_part1).1,
          decide (sr_info.length > 0) && sr_info.getD 0 false,
          (ue_event_manager.handle_harq_ind methods ue_cc uci_sl harqs).2 ++
            (if (decide (sr_info.length > 0) && sr_info.getD 0 false) = true then
              [.ev_sr ue_cc.ue_index ue_cc.rnti] else []) ++
            (ue_event_manager.handle_csi
              (ue_event_manager.handle_harq_ind methods ue_cc uci_sl harqs).1 csi_part1).2 ++
            [.metrics_pucch_sinr ue_cc.ue_index ul_sinr]⟩) := by
  refine ⟨?_, ?_, ?_⟩
  · intro sr_detected harqs ul_sinr
    obtain ⟨h1, h2, _⟩ := handle_harq_ind_ue_index methods ue_cc uci_sl harqs
    simp only [ue_event_manager.run_cell_callback,
      (guarded_handle_harq_ind methods ue_cc uci_sl harqs).1, h1, h2]
  · intro harqs csi_part1
    simp only [ue_event_manager.run_cell_callback,
      (guarded_handle_harq_ind methods ue_cc uci_sl harqs).2, guarded_handle_csi]
  · intro sr_info harqs csi_part1 ul_sinr
    obtain ⟨h1, h2, _⟩ := handle_harq_ind_ue_index methods ue_cc uci_sl harqs
    simp only [ue_event_manager.run_cell_callback,
      (guarded_handle_harq_ind methods ue_cc uci_sl harqs).2, guarded_handle_csi, h1, h2,
      handle_csi_ue_index]

theorem ue_repository_get_set (r : ue_repository) (i : Nat) (u0 u : ue)
    (h : r.get i = some u0) : (r.set i u).get i = some u := by
  unfold ue_repository.get at h ⊢
  unfold ue_repository.set
  have hlt : i < r.ues.length := by
    by_contra hge
    rw [List.getD_eq_getElem?_getD, List.getElem?_eq_none (by omega)] at h
    cases h
  simp only [List.getD_eq_getElem?_getD, List.getElem?_set_self hlt]
  rfl

theorem run_uci_callback_ue_index (methods : ue_methods) (ue_cc : ue_cell) (uci_sl : slot_point)
    (pdu : uci_pdu_variant) :
    (ue_event_manager.run_cell_callback methods ue_cc (.uci uci_sl pdu)).ue_cc.ue_index =
      ue_cc.ue_index := by
  obtain ⟨k1, k2, k3⟩ := run_uci_callback_by_kind methods ue_cc uci_sl
  cases pdu with
  | uci_pucch_f0_or_f1_pdu sr_detected harqs ul_sinr =>
    rw [k1]
    exact (handle_harq_ind_ue_index methods ue_cc uci_sl harqs).1
  | uci_pusch_pdu harqs csi_part1 =>
    rw [k2]
    exact (handle_csi_ue_index _ _).trans (handle_harq_ind_ue_index methods ue_cc uci_sl harqs).1
  | uci_pucch_f2_or_f3_or_f4_pdu sr_info harqs csi_part1 ul_sinr =>
    rw [k3]
    exact (handle_csi_ue_index _ _).trans (handle_harq_ind_ue_index methods ue_cc uci_sl harqs).1

/-- One turn of the loop of `process_cell_specific` for a cell event of a UE that has the
cell: afterwards the scheduling-request flag of the UE is up if it was up before or the
closure called `handle_sr_indication`. -/
theorem process_cell_event_sr (m : ue_event_manager) (cell_index : Nat) (ev : cell_event_t)
    (u : ue) (ue_cc : ue_cell) (hu : m.ue_db.get ev.ue_index = some u)
    (hc : u.find_cell cell_index = some ue_cc)
    (hidx : (ue_event_manager.run_cell_callback m.methods ue_cc ev.callback).ue_cc.ue_index =
      ev.ue_index) :
    ∃ u1, (m.process_cell_event cell_index ev).ue_db.get ev.ue_index = some u1 ∧
      u1.sr_indication = (u.sr_indication ||
        (ue_event_manager.run_cell_callback m.methods ue_cc ev.callback).sr_indication) := by
  have hct : m.ue_db.contains ev.ue_index = true := by
    unfold ue_repository.contains
    unfold ue_repository.get at hu
    rw [hu]; rfl
  simp only [ue_event_manager.process_cell_event, hct, hu, hc, Bool.not_true,
    Bool.false_eq_true, if_false]
  generalize ue_event_manager.run_cell_callback m.methods ue_cc ev.callback = r at hidx ⊢
  have hget : (m.ue_db.set ev.ue_index (u.set_cell r.ue_cc)).get ev.ue_index =
      some (u.set_cell r.ue_cc) := ue_repository_get_set _ _ _ _ hu
  cases hsr : r.sr_indication with
  | false =>
    simp only [Bool.false_eq_true, if_false, ue_event_manager.notify]
    exact ⟨_, hget, by simp [ue.set_cell]⟩
  | true =>
    simp only [if_true, ue_event_manager.notify, hidx, hget]
    exact ⟨_, ue_repository_get_set _ _ _ _ hget, by simp [ue.handle_sr_indication]⟩

/-! ## C21: what is processed for each kind of UCI PDU -/

/-- C21: when the UCI event of a UE that has the cell is processed, the scheduling-request
flag of the UE is raised exactly for a PUCCH format 0/1 PDU with `sr_detected` and for a
PUCCH format 2/3/4 PDU whose `sr_info` is not empty and has bit 0 set, never for a PUSCH
PDU; otherwise the flag stays as it was.  HARQ bits go to `handle_harq_ind` for the three
kinds of PDU (the guard on an empty list changes nothing); CSI part 1 goes to `handle_csi`
for PUSCH and PUCCH format 2/3/4 PDUs, while a format 0/1 PDU leaves the CSI state of the
UE cell as it was and reports no CSI; the PUCCH SINR is reported last for the two PUCCH
kinds, and a PUSCH PDU makes no SR or PUCCH SINR call. -/
theorem uci_pdu_processed_by_kind (m : ue_event_manager) (cell_index : Nat) (ev : cell_event_t)
    (u : ue) (ue_cc : ue_cell) (uci_sl : slot_point) (pdu : uci_pdu_variant)
    (hu : m.ue_db.get ev.ue_index = some u) (hc : u.find_cell cell_index = some ue_cc)
    (hidx : ue_cc.ue_index = ev.ue_index) (hcb : ev.callback = .uci uci_sl pdu) :
    (∃ u1, (m.process_cell_event cell_index ev).ue_db.get ev.ue_index = some u1 ∧
      u1.sr_indication = (u.sr_indication ||
        match pdu with
        | .uci_pucch_f0_or_f1_pdu sr_detected _ _ => sr_detected
        | .uci_pusch_pdu _ _ => false
        | .uci_pucch_f2_or_f3_or_f4_pdu sr_info _ _ _ =>
          decide (sr_info.length > 0) && sr_info.getD 0 false)) ∧
    (∀ (sr_detected : Bool) (harqs : List mac_harq_ack_report_status) (ul_sinr : Option Int),
      ue_event_manager.run_cell_callback m.methods ue_cc
          (.uci uci_sl (.uci_pucch_f0_or_f1_pdu sr_detected harqs ul_sinr)) =
        ⟨(ue_event_manager.handle_harq_ind m.methods ue_cc uci_sl harqs).1, sr_detected,
          (ue_event_manager.handle_harq_ind m.methods ue_cc uci_sl harqs).2 ++
            (if sr_detected = true then [.ev_sr ue_cc.ue_index ue_cc.rnti] else []) ++
            [.metrics_pucch_sinr ue_cc.ue_index ul_sinr]⟩ ∧
      (ue_event_manager.handle_harq_ind m.methods ue_cc uci_sl harqs).1.ue_metrics =
        ue_cc.ue_metrics ∧
      ∀ n ∈ (ue_event_manager.handle_harq_ind m.methods ue_cc uci_sl harqs).2,
        (∀ a b c, n ≠ .ev_csi_report a b c) ∧ (∀ a b, n ≠ .metrics_csi_report a b)) ∧
    (∀ (harqs : List mac_harq_ack_report_status) (csi_part1 : List Bool),
      ue_event_manager.run_cell_callback m.methods ue_cc
          (.uci uci_sl (.uci_pusch_pdu harqs csi_part1)) =
        ⟨(ue_event_manager.handle_csi
            (ue_event_manager.handle_harq_ind m.methods ue_cc uci_sl harqs).1 csi_part1).1, false,
          (ue_event_manager.handle_harq_ind m.methods ue_cc uci_sl harqs).2 ++
            (ue_event_manager.handle_csi
              (ue_event_manager.handle_harq_ind m.methods ue_cc uci_sl harqs).1 csi_part1).2⟩ ∧
      ∀ n ∈ (ue_event_manager.run_cell_callback m.methods ue_cc
          (.uci uci_sl (.uci_pusch_pdu harqs csi_part1))).out,
        (∀ a b, n ≠ .ev_sr a b) ∧ (∀ a b, n ≠ .metrics_pucch_sinr a b)) ∧
    (∀ (sr_info : List Bool) (harqs : List mac_harq_ack_report_status) (csi_part1 : List Bool)
        (ul_sinr : Option Int),
      ue_event_manager.run_cell_callback m.methods ue_cc
          (.uci uci_sl (.uci_pucch_f2_or_f3_or_f4_pdu sr_info harqs csi_part1 ul_sinr)) =
        ⟨(ue_event_manager.handle_csi
            (ue_event_manager.handle_harq_ind m.methods ue_cc uci_sl harqs).1 csi_part1).1,
          decide (sr_info.length > 0) && sr_info.getD 0 false,
          (ue_event_manager.handle_harq_ind m.methods ue_cc uci_sl harqs).2 ++
            (if (decide (sr_info.length > 0) && sr_info.getD 0 false) = true then
              [.ev_sr ue_cc.ue_index ue_cc.rnti] else []) ++
            (ue_event_manager.handle_csi
              (ue_event_manager.handle_harq_ind m.methods ue_cc uci_sl harqs).1 csi_part1).2 ++
            [.metrics_pucch_sinr ue_cc.ue_index ul_sinr]⟩) := by
  obtain ⟨k1, k2, k3⟩ := run_uci_callback_by_kind m.methods ue_cc uci_sl
  have hharq : ∀ harqs, ∀ n ∈ (ue_event_manager.handle_harq_ind m.methods ue_cc uci_sl harqs).2,
      (∃ a b c d e f g, n = em_notification.ev_harq_ack a b c d e f g) ∨
      (∃ a b c, n = em_notification.metrics_dl_harq_ack a b c) :=
    fun harqs => (handle_harq_ind_from_frame m.methods uci_sl harqs 0 ue_cc).2
  refine ⟨?_, ?_, ?_, k3⟩
  · have hidx2 : (ue_event_manager.run_cell_callback m.methods ue_cc ev.callback).ue_cc.ue_index =
        ev.ue_index := by
      rw [hcb, run_uci_callback_ue_index, hidx]
    obtain ⟨u1, h1, h2⟩ := process_cell_event_sr m cell_index ev u ue_cc hu hc hidx2
    refine ⟨u1, h1, ?_⟩
    rw [hcb] at h2
    rw [h2]
    cases pdu with
    | uci_pucch_f0_or_f1_pdu sr_detected harqs ul_sinr => rw [k1]
    | uci_pusch_pdu harqs csi_part1 => rw [k2]
    | uci_pucch_f2_or_f3_or_f4_pdu sr_info harqs csi_part1 ul_sinr => rw [k3]
  · intro sr_detected harqs ul_sinr
    refine ⟨k1 sr_detected harqs ul_sinr,
      (handle_harq_ind_ue_index m.methods ue_cc uci_sl harqs).2.2, fun n hn => ?_⟩
    rcases hharq harqs n hn with ⟨a, b, c, d, e, f, g, rfl⟩ | ⟨a, b, c, rfl⟩
    · exact ⟨fun _ _ _ h => (by cases h), fun _ _ h => (by cases h)⟩
    · exact ⟨fun _ _ _ h => (by cases h), fun _ _ h => (by cases h)⟩
  · intro harqs csi_part1
    refine ⟨k2 harqs csi_part1, fun n hn => ?_⟩
    rw [k2] at hn
    rcases List.mem_append.mp hn with hn | hn
    · rcases hharq harqs n hn with ⟨a, b, c, d, e, f, g, rfl⟩ | ⟨a, b, c, rfl⟩
      · exact ⟨fun _ _ h => (by cases h), fun _ _ h => (by cases h)⟩
      · exact ⟨fun _ _ h => (by cases h), fun _ _ h => (by cases h)⟩
    · rcases (handle_csi_frame _ csi_part1).2 n hn with ⟨a, b, c, rfl⟩ | ⟨a, b, rfl⟩
      · exact ⟨fun _ _ h => (by cases h), fun _ _ h => (by cases h)⟩
      · exact ⟨fun _ _ h => (by cases h), fun _ _ h => (by cases h)⟩

/-- C21 in the scenario: UE 0 exists with primary cell 0 and no scheduling request; the
event of a PUCCH format 2 PDU whose SR field is the single bit 1 raises its flag. -/
theorem uci_pdu_processed_by_kind_demo :
    ∃ u1, ((demo_event_manager.exec [.ue_creation_request ⟨0, 17921, [0]⟩,
        .run ⟨0, 0⟩ 0]).process_cell_event 0
        ⟨0, .uci ⟨0, 0⟩ (.uci_pucch_f2_or_f3_or_f4_pdu [true] [] [] none), 1⟩).ue_db.get 0 =
        some u1 ∧
      u1.sr_indication = (false || (decide ([true].length > 0) && [true].getD 0 false)) :=
  (uci_pdu_processed_by_kind
    (demo_event_manager.exec [.ue_creation_request ⟨0, 17921, [0]⟩, .run ⟨0, 0⟩ 0]) 0
    ⟨0, .uci ⟨0, 0⟩ (.uci_pucch_f2_or_f3_or_f4_pdu [true] [] [] none), 1⟩
    (demo_ue_methods.make_ue ⟨0, 17921, [0]⟩) (demo_em_ue_cell 0 0 17921) ⟨0, 0⟩
    (.uci_pucch_f2_or_f3_or_f4_pdu [true] [] [] none) rfl rfl rfl rfl).1

/-! ## C22: forwarding of the HARQ bits -/

/-- The loop of `handle_harq_ind` as a left fold over the bits paired with their
positions. -/
theorem handle_harq_ind_from_foldl (methods : ue_methods) (uci_sl : slot_point)
    (bits : List mac_harq_ack_report_status) :
    ∀ (idx : Nat) (ue_cc : ue_cell) (out : List em_notification),
      (bits.enumFrom idx).foldl
        (fun acc p =>
          ({ acc.1 with harqs := (methods.dl_ack_info acc.1.harqs uci_sl p.2 (p.1 % 4)).2 },
            acc.2 ++
              match (methods.dl_ack_info acc.1.harqs uci_sl p.2 (p.1 % 4)).1 with
              | none => []
              | some h_dl =>
                [em_notification.ev_harq_ack acc.1.ue_index acc.1.rnti acc.1.cell_index uci_sl
                  h_dl.id p.2 h_dl.last_alloc_params.tbs_bytes] ++
                (if p.2 != mac_harq_ack_report_status.dtx then
                  [em_notification.metrics_dl_harq_ack acc.1.ue_index
                    (p.2 == mac_harq_ack_report_status.ack) h_dl.last_alloc_params.tbs_bytes]
                else [])))
        (ue_cc, out) =
      ((ue_event_manager.handle_harq_ind_from methods uci_sl idx bits ue_cc).1,
        out ++ (ue_event_manager.handle_harq_ind_from methods uci_sl idx bits ue_cc).2) := by
  induction bits with
  | nil =>
    intro idx ue_cc out
    simp [ue_event_manager.handle_harq_ind_from]
  | cons b rest ih =>
    intro idx ue_cc out
    rw [List.enumFrom_cons, List.foldl_cons, ih]
    simp only [ue_event_manager.handle_harq_ind_from, List.append_assoc]
    rfl

/-- Every call of `handle_dl_harq_ack` made by the loop of `handle_harq_ind` is for a bit
that is not DTX and for which `dl_ack_info`, called with the position of the bit modulo
4, returned a HARQ process. -/
theorem handle_harq_ind_from_metrics (methods : ue_methods) (uci_sl : slot_point)
    (bits : List mac_harq_ack_report_status) :
    ∀ (idx : Nat) (ue_cc : ue_cell) (x : Nat) (a : Bool) (t : Nat),
      em_notification.metrics_dl_harq_ack x a t ∈
        (ue_event_manager.handle_harq_ind_from methods uci_sl idx bits ue_cc).2 →
      x = ue_cc.ue_index ∧
      ∃ (i : Nat) (v : mac_harq_ack_report_status) (e : harq_entity) (h_dl : dl_harq_process),
        bits[i]? = some v ∧ (methods.dl_ack_info e uci_sl v ((idx + i) % 4)).1 = some h_dl ∧
        v ≠ .dtx ∧ a = (v == .ack) ∧ t = h_dl.last_alloc_params.tbs_bytes := by
  induction bits with
  | nil => intro idx ue_cc x a t h; cases h
  | cons b rest ih =>
    intro idx ue_cc x a t h
    simp only [ue_event_manager.handle_harq_ind_from] at h
    rcases List.mem_append.mp h with h | h
    · cases hd : (methods.dl_ack_info ue_cc.harqs uci_sl b (idx % 4)).1 with
      | none => rw [hd] at h; cases h
      | some h_dl =>
        rw [hd] at h
        simp only [List.mem_append, List.mem_singleton] at h
        rcases h with h | h
        · cases h
        · by_cases hb : b = mac_harq_ack_report_status.dtx
          · simp [hb] at h
          · simp only [bne_iff_ne, ne_eq, hb, not_false_eq_true, if_true,
              List.mem_singleton] at h
            injection h with h1 h2 h3
            exact ⟨h1, 0, b, ue_cc.harqs, h_dl, List.getElem?_cons_zero, hd, hb, h2, h3⟩
    · obtain ⟨hx, i, v, e, h_dl, h1, h2, h3, h4, h5⟩ := ih (idx + 1) _ x a t h
      refine ⟨hx, i + 1, v, e, h_dl, List.getElem?_cons_succ.trans h1, ?_, h3, h4, h5⟩
      rw [← h2]
      congr 3
      omega

/-- C22: `handle_harq_ind` forwards every reported HARQ bit, DTX included, to the DL HARQ
entity of the UE cell as `dl_ack_info(uci_sl, value, i mod 4)`, where `i` is the position
of the bit: the handler is the left fold over the bits paired with their positions, each
step calling `dl_ack_info` on the entity as the step before left it.  `handle_dl_harq_ack`
is called on the metrics handler only for a bit that is not DTX and for which `dl_ack_info`
returned a HARQ process, with the flag `value == ack`; for a single bit the calls made
are spelled out. -/
theorem harq_bits_forwarded_with_position (methods : ue_methods) (ue_cc : ue_cell)
    (uci_sl : slot_point) (bits : List mac_harq_ack_report_status) :
    ue_event_manager.handle_harq_ind methods ue_cc uci_sl bits =
      (bits.enumFrom 0).foldl
        (fun acc p =>
          ({ acc.1 with harqs := (methods.dl_ack_info acc.1.harqs uci_sl p.2 (p.1 % 4)).2 },
            acc.2 ++
              match (methods.dl_ack_info acc.1.harqs uci_sl p.2 (p.1 % 4)).1 with
              | none => []
              | some h_dl =>
                [em_notification.ev_harq_ack acc.1.ue_index acc.1.rnti acc.1.cell_index uci_sl
                  h_dl.id p.2 h_dl.last_alloc_params.tbs_bytes] ++
                (if p.2 != mac_harq_ack_report_status.dtx then
                  [em_notification.metrics_dl_harq_ack acc.1.ue_index
                    (p.2 == mac_harq_ack_report_status.ack) h_dl.last_alloc_params.tbs_bytes]
                else [])))
        (ue_cc, []) ∧
    (∀ (x : Nat) (a : Bool) (t : Nat),
      em_notification.metrics_dl_harq_ack x a t ∈
        (ue_event_manager.handle_harq_ind methods ue_cc uci_sl bits).2 →
      x = ue_cc.ue_index ∧
      ∃ (i : Nat) (v : mac_harq_ack_report_status) (e : harq_entity) (h_dl : dl_harq_process),
        bits[i]? = some v ∧ (methods.dl_ack_info e uci_sl v (i % 4)).1 = some h_dl ∧
        v ≠ .dtx ∧ a = (v == .ack) ∧ t = h_dl.last_alloc_params.tbs_bytes) ∧
    (∀ v : mac_harq_ack_report_status,
      ue_event_manager.handle_harq_ind methods ue_cc uci_sl [v] =
        ({ ue_cc with harqs := (methods.dl_ack_info ue_cc.harqs uci_sl v 0).2 },
          match (methods.dl_ack_info ue_cc.harqs uci_sl v 0).1 with
          | none => []
          | some h_dl =>
            em_notification.ev_harq_ack ue_cc.ue_index ue_cc.rnti ue_cc.cell_index uci_sl
                h_dl.id v h_dl.last_alloc_params.tbs_bytes ::
              (if v = .dtx then []
               else [em_notification.metrics_dl_harq_ack ue_cc.ue_index (decide (v = .ack))
                 h_dl.last_alloc_params.tbs_bytes]))) := by
  refine ⟨?_, ?_, ?_⟩
  · rw [handle_harq_ind_from_foldl methods uci_sl bits 0 ue_cc []]
    rfl
  · intro x a t h
    obtain ⟨hx, i, v, e, h_dl, h1, h2, h3⟩ :=
      handle_harq_ind_from_metrics methods uci_sl bits 0 ue_cc x a t h
    rw [Nat.zero_add] at h2
    exact ⟨hx, i, v, e, h_dl, h1, h2, h3⟩
  · intro v
    simp only [ue_event_manager.handle_harq_ind, ue_event_manager.handle_harq_ind_from,
      Nat.zero_mod, List.append_nil]
    cases (methods.dl_ack_info ue_cc.harqs uci_sl v 0).1 with
    | none => rfl
    | some h_dl => cases v <;> rfl

/-- C22 in the scenario, with every bit acknowledging HARQ process 0: for the bits ACK,
DTX, NACK the metrics handler is called for the first and the third only. -/
theorem harq_bits_forwarded_with_position_demo :
    (ue_event_manager.handle_harq_ind demo_ack_methods (demo_em_ue_cell 0 0 17921) ⟨0, 0⟩
        [.ack, .dtx, .nack]).2 =
      [.ev_harq_ack 0 17921 0 ⟨0, 0⟩ 0 .ack 0, .metrics_dl_harq_ack 0 true 0,
        .ev_harq_ack 0 17921 0 ⟨0, 0⟩ 0 .dtx 0,
        .ev_harq_ack 0 17921 0 ⟨0, 0⟩ 0 .nack 0, .metrics_dl_harq_ack 0 false 0] ∧
    ∀ (x : Nat) (a : Bool) (t : Nat),
      em_notification.metrics_dl_harq_ack x a t ∈
        (ue_event_manager.handle_harq_ind demo_ack_methods (demo_em_ue_cell 0 0 17921) ⟨0, 0⟩
          [.dtx]).2 → x = 0 :=
  ⟨by decide, fun x a t h =>
    ((harq_bits_forwarded_with_position demo_ack_methods (demo_em_ue_cell 0 0 17921) ⟨0, 0⟩
      [.dtx]).2.1 x a t h).1⟩

/-! ## Open Fronthaul: the exponent of the block floating point compression -/

theorem bit_length_upto_spec (width : Nat) :
    ∀ x, x < 2 ^ width →
      x < 2 ^ bit_length_upto width x ∧ (x ≠ 0 → 2 ^ (bit_length_upto width x - 1) ≤ x) ∧
      (x = 0 → bit_length_upto width x = 0) ∧ (x ≠ 0 → 1 ≤ bit_length_upto width x) := by
  induction width with
  | zero =>
    intro x hx
    have h0 : x = 0 := by simpa using hx
    subst h0
    simp [bit_length_upto]
  | succ n ih =>
    intro x hx
    by_cases h0 : x = 0
    · subst h0
      simp [bit_length_upto]
    · have hlt : x / 2 < 2 ^ n := by
        rw [pow_succ] at hx
        omega
      obtain ⟨i1, i2, i3, i4⟩ := ih (x / 2) hlt
      simp only [bit_length_upto, h0, if_false]
      refine ⟨?_, fun _ => ?_, fun h => h.elim, fun _ => by omega⟩
      · rw [pow_succ]
        omega
      · simp only [Nat.add_sub_cancel]
        by_cases h2 : x / 2 = 0
        · rw [i3 h2]
          simp only [pow_zero]
          omega
        · have := i2 h2
          have h1 := i4 h2
          have e : 2 ^ bit_length_upto n (x / 2) = 2 ^ (bit_length_upto n (x / 2) - 1) * 2 := by
            rw [← pow_succ]
            congr 1
            omega
          rw [e]
          omega

/-- The number of significant bits is determined by its bounds. -/
theorem bit_length_unique (x b c : Nat) (hb : x < 2 ^ b) (hb2 : x ≠ 0 → 2 ^ (b - 1) ≤ x)
    (hb0 : x = 0 → b = 0) (hc : x < 2 ^ c) (hc2 : x ≠ 0 → 2 ^ (c - 1) ≤ x) (hc0 : x = 0 → c = 0) :
    b = c := by
  by_cases h0 : x = 0
  · rw [hb0 h0, hc0 h0]
  · have h1 : 2 ^ (b - 1) < 2 ^ c := Nat.lt_of_le_of_lt (hb2 h0) hc
    have h2 : 2 ^ (c - 1) < 2 ^ b := Nat.lt_of_le_of_lt (hc2 h0) hb
    have h3 := (Nat.pow_lt_pow_iff_right (by decide : 1 < 2)).1 h1
    have h4 := (Nat.pow_lt_pow_iff_right (by decide : 1 < 2)).1 h2
    omega

/-- The exponent for a value below `2 ^ 15` with `b` significant bits. -/
theorem determine_exponent_of_bit_length (x w b : Nat) (hx : x ≤ 32767) (hw1 : 1 ≤ w)
    (hw : w ≤ 16) (hb : b = bit_length_upto 32 x) :
    b ≤ 15 ∧ iq_compression_bfp_impl.determine_exponent x w = some (b + 1 - w) := by
  have hx32 : x < 2 ^ 32 := by
    have : (2 : Nat) ^ 32 = 4294967296 := by norm_num
    omega
  obtain ⟨i1, i2, i3, i4⟩ := bit_length_upto_spec 32 x hx32
  rw [← hb] at i1 i2 i3 i4
  have hb15 : b ≤ 15 := by
    by_cases h0 : x = 0
    · rw [i3 h0]; omega
    · have h1 : 2 ^ (b - 1) < 2 ^ 15 := by
        have := i2 h0
        have e : (2 : Nat) ^ 15 = 32768 := by norm_num
        omega
      have := (Nat.pow_lt_pow_iff_right (by decide : 1 < 2)).1 h1
      omega
  refine ⟨hb15, ?_⟩
  have hm1 : x % 2 ^ 16 = x := Nat.mod_eq_of_lt (by
    have : (2 : Nat) ^ 16 = 65536 := by norm_num
    omega)
  have hm2 : x % 2 ^ 32 = x := Nat.mod_eq_of_lt hx32
  have p32 : (2 : Nat) ^ 32 = 4294967296 := by norm_num
  have p31 : (2 : Nat) ^ 31 = 2147483648 := by norm_num
  have e1 : (MAX_IQ_WIDTH + 2 ^ 32 - w) % 2 ^ 32 = 16 - w := by
    unfold MAX_IQ_WIDTH
    rw [p32]
    omega
  have e2 : ∀ n : Nat, n ≤ 16 → to_int32 n = (n : Int) := by
    intro n hn
    unfold to_int32
    have hn1 : n % 2 ^ 32 = n := Nat.mod_eq_of_lt (by rw [p32]; omega)
    rw [hn1, if_pos (by rw [p31]; omega)]
  have e3 : x ≠ 0 → (((32 - b + 2 ^ 32 - 16) % 2 ^ 32) + 2 ^ 32 - 1) % 2 ^ 32 = 15 - b := by
    intro h0
    have := i4 h0
    rw [p32]
    omega
  have hw17 : w < 17 := by omega
  unfold iq_compression_bfp_impl.determine_exponent builtin_clz
  simp only [hw17, not_true_eq_false, if_false, hm1, hm2, ← hb, e1]
  by_cases hc : x > 0 ∧ 16 - w > 0
  · rw [if_pos hc, e3 (by omega), e2 _ (by omega), e2 _ (by omega)]
    have hsmall : (max 0 (((16 - w : Nat) : Int) - ((min (16 - w) (15 - b) : Nat) : Int))).toNat
        = b + 1 - w := by omega
    rw [hsmall]
    exact congrArg some (Nat.mod_eq_of_lt (by rw [p32]; omega))
  · rw [if_neg hc, e2 _ (by omega), e2 _ (by omega)]
    have hsmall : (max 0 (((16 - w : Nat) : Int) - ((min (16 - w) (16 - w) : Nat) : Int))).toNat
        = b + 1 - w := by
      have : x = 0 ∨ w = 16 := by omega
      rcases this with h | h
      · have := i3 h
        omega
      · omega
    rw [hsmall]
    exact congrArg some (Nat.mod_eq_of_lt (by rw [p32]; omega))

/-! ## Open Fronthaul: compression of a resource block -/

theorem foldl_max_spec (l : List Int) : ∀ x : Int,
    (l.foldl max x = x ∨ l.foldl max x ∈ l) ∧ x ≤ l.foldl max x ∧ ∀ s ∈ l, s ≤ l.foldl max x := by
  induction l with
  | nil => intro x; exact ⟨Or.inl rfl, le_refl _, fun s hs => by cases hs⟩
  | cons y ys ih =>
    intro x
    obtain ⟨h1, h2, h3⟩ := ih (max x y)
    rw [List.foldl_cons]
    refine ⟨?_, le_trans (le_max_left x y) h2, ?_⟩
    · rcases h1 with h1 | h1
      · rw [h1]
        rcases max_choice x y with h | h
        · exact Or.inl h
        · exact Or.inr (by rw [h]; exact List.mem_cons_self _ _)
      · exact Or.inr (List.mem_cons_of_mem _ h1)
    · intro s hs
      rcases List.mem_cons.mp hs with hs | hs
      · rw [hs]; exact le_trans (le_max_right x y) h2
      · exact h3 s hs

theorem foldl_min_spec (l : List Int) : ∀ x : Int,
    (l.foldl min x = x ∨ l.foldl min x ∈ l) ∧ l.foldl min x ≤ x ∧ ∀ s ∈ l, l.foldl min x ≤ s := by
  induction l with
  | nil => intro x; exact ⟨Or.inl rfl, le_refl _, fun s hs => by cases hs⟩
  | cons y ys ih =>
    intro x
    obtain ⟨h1, h2, h3⟩ := ih (min x y)
    rw [List.foldl_cons]
    refine ⟨?_, le_trans h2 (min_le_left x y), ?_⟩
    · rcases h1 with h1 | h1
      · rw [h1]
        rcases min_choice x y with h | h
        · exact Or.inl h
        · exact Or.inr (by rw [h]; exact List.mem_cons_self _ _)
      · exact Or.inr (List.mem_cons_of_mem _ h1)
    · intro s hs
      rcases List.mem_cons.mp hs with hs | hs
      · rw [hs]; exact le_trans h2 (min_le_right x y)
      · exact h3 s hs

/-- The largest element of a list is one of its elements and bounds them all. -/
theorem max_element_spec (l : List Int) (hl : l ≠ []) :
    ∃ m, max_element l = some m ∧ m ∈ l ∧ ∀ s ∈ l, s ≤ m := by
  cases l with
  | nil => exact absurd rfl hl
  | cons x xs =>
    obtain ⟨h1, h2, h3⟩ := foldl_max_spec xs x
    refine ⟨_, rfl, ?_, ?_⟩
    · rcases h1 with h1 | h1
      · rw [h1]; exact List.mem_cons_self _ _
      · exact List.mem_cons_of_mem _ h1
    · intro s hs
      rcases List.mem_cons.mp hs with hs | hs
      · rw [hs]; exact h2
      · exact h3 s hs

/-- The smallest element of a list is one of its elements and bounds them all. -/
theorem min_element_spec (l : List Int) (hl : l ≠ []) :
    ∃ m, min_element l = some m ∧ m ∈ l ∧ ∀ s ∈ l, m ≤ s := by
  cases l with
  | nil => exact absurd rfl hl
  | cons x xs =>
    obtain ⟨h1, h2, h3⟩ := foldl_min_spec xs x
    refine ⟨_, rfl, ?_, ?_⟩
    · rcases h1 with h1 | h1
      · rw [h1]; exact List.mem_cons_self _ _
      · exact List.mem_cons_of_mem _ h1
    · intro s hs
      rcases List.mem_cons.mp hs with hs | hs
      · rw [hs]; exact h2
      · exact h3 s hs

/-- A sample between `-(a + 1)` and `a`, where `a` has `b` significant bits, shifted right
by `e` with `b ≤ w - 1 + e`, fits a two's-complement number of `w` bits. -/
theorem shifted_sample_fits (s : Int) (a b w e : Nat) (ha : a < 2 ^ b)
    (hbe : b ≤ w - 1 + e) (hlo : -((a : Int) + 1) ≤ s) (hhi : s ≤ (a : Int)) :
    -(2 : Int) ^ (w - 1) ≤ Int.shiftRight s e ∧ Int.shiftRight s e ≤ (2 : Int) ^ (w - 1) - 1 := by
  have hP : (0 : Int) < (2 : Int) ^ e := by positivity
  have hab : (a : Int) < (2 : Int) ^ (w - 1) * (2 : Int) ^ e := by
    rw [← pow_add]
    have h1 : a < 2 ^ (w - 1 + e) :=
      Nat.lt_of_lt_of_le ha (Nat.pow_le_pow_right (by decide) hbe)
    exact_mod_cast h1
  have hdiv : Int.shiftRight s e = s / (2 : Int) ^ e := by
    have := Int.shiftRight_eq_div_pow s e
    simpa using this
  rw [hdiv]
  constructor
  · apply Int.le_ediv_of_mul_le hP
    have : -(2 : Int) ^ (w - 1) * (2 : Int) ^ e = -((2 : Int) ^ (w - 1) * (2 : Int) ^ e) := by ring
    rw [this]
    omega
  · have : s / (2 : Int) ^ e < (2 : Int) ^ (w - 1) :=
      Int.ediv_lt_of_lt_mul hP (lt_of_le_of_lt hhi hab)
    omega

/-! ## Open Fronthaul: the loop over the sections of a message -/

theorem read_prbs_no_ud_comp_param_length (nof_bytes : Nat) (n : Nat) :
    ∀ d : network_order_binary_deserializer,
      (read_prbs_no_ud_comp_param nof_bytes n d).2.bytes.length ≤ d.bytes.length := by
  induction n with
  | zero => intro d; exact Nat.le_refl _
  | succ k ih =>
    intro d
    simp only [read_prbs_no_ud_comp_param]
    refine Nat.le_trans (ih _) ?_
    simp [network_order_binary_deserializer.read_bytes]

theorem read_prbs_with_ud_comp_param_length (nof_bytes : Nat) (n : Nat) :
    ∀ d : network_order_binary_deserializer,
      (read_prbs_with_ud_comp_param nof_bytes n d).2.bytes.length ≤ d.bytes.length := by
  induction n with
  | zero => intro d; exact Nat.le_refl _
  | succ k ih =>
    intro d
    simp only [read_prbs_with_ud_comp_param]
    refine Nat.le_trans (ih _) ?_
    simp only [network_order_binary_deserializer.read_bytes,
      network_order_binary_deserializer.read_uint8, List.length_drop, List.length_tail]
    omega

/-- Reading the IQ data of a section does not add bytes to the message. -/
theorem decode_iq_data_length (dec : uplane_message_decoder_static_compression_impl)
    (results : uplane_section_params) (d : network_order_binary_deserializer) :
    (dec.decode_iq_data results d).2.2.bytes.length ≤ d.bytes.length := by
  have h : (dec.decode_comp_prbs results d).2.2.bytes.length ≤ d.bytes.length := by
    unfold uplane_message_decoder_static_compression_impl.decode_comp_prbs
      decode_prbs_no_ud_comp_param_field decode_prbs_with_ud_comp_param_field
    simp only []
    split
    · split
      · exact Nat.le_refl _
      · exact read_prbs_no_ud_comp_param_length _ _ _
    · split
      · exact Nat.le_refl _
      · exact read_prbs_with_ud_comp_param_length _ _ _
  unfold uplane_message_decoder_static_compression_impl.decode_iq_data
  simp only []
  split <;> exact h

theorem decode_compression_header_length (dec : uplane_message_decoder_static_compression_impl)
    (results : uplane_section_params) (d : network_order_binary_deserializer) :
    (dec.decode_compression_header results d).2.2.bytes.length ≤ d.bytes.length := by
  unfold uplane_message_decoder_static_compression_impl.decode_compression_header
  cases dec.compression_params.type with
  | other c =>
    simp only []
    split
    · exact Nat.le_refl _
    · simp only [network_order_binary_deserializer.read_uint16, List.length_tail]
      omega
  | _ => exact Nat.le_refl _

/-- The section header: refused when fewer than 4 bytes are left, otherwise 4 bytes are
read. -/
theorem decode_section_header_length (dec : uplane_message_decoder_static_compression_impl)
    (results : uplane_section_params) (d : network_order_binary_deserializer) :
    ((uplane_message_decoder_impl.decode_section_header dec results d).1 = true ↔
      4 ≤ d.bytes.length) ∧
    ((uplane_message_decoder_impl.decode_section_header dec results d).1 = true →
      (uplane_message_decoder_impl.decode_section_header dec results d).2.2.bytes.length + 4 =
        d.bytes.length) := by
  unfold uplane_message_decoder_impl.decode_section_header
  by_cases h : d.remaining_bytes < SECTION_ID_HEADER_NO_COMPRESSION_SIZE
  · rw [if_pos h]
    unfold network_order_binary_deserializer.remaining_bytes
      SECTION_ID_HEADER_NO_COMPRESSION_SIZE at h
    exact ⟨⟨fun h1 => (by cases h1), fun h1 => (by omega)⟩, fun h1 => (by cases h1)⟩
  · rw [if_neg h]
    unfold network_order_binary_deserializer.remaining_bytes
      SECTION_ID_HEADER_NO_COMPRESSION_SIZE at h
    refine ⟨⟨fun _ => (by omega), fun _ => rfl⟩, fun _ => ?_⟩
    simp only [network_order_binary_deserializer.read_uint8, List.length_tail]
    omega

/-- A section that is decoded is appended to the sections and takes at least 4 bytes of the
message; a section that is not decoded leaves the results as they are. -/
theorem decode_section_spec (dec : uplane_message_decoder_static_compression_impl)
    (results : uplane_message_decoder_results) (d : network_order_binary_deserializer) :
    ((uplane_message_decoder_impl.decode_section dec results d).1 = false →
      (uplane_message_decoder_impl.decode_section dec results d).2.1 = results) ∧
    ((uplane_message_decoder_impl.decode_section dec results d).1 = true →
      4 ≤ d.remaining_bytes ∧
      (uplane_message_decoder_impl.decode_section dec results d).2.2.remaining_bytes + 4 ≤
        d.remaining_bytes ∧
      ∃ sec, (uplane_message_decoder_impl.decode_section dec results d).2.1 =
        { results with sections := results.sections ++ [sec] }) := by
  obtain ⟨h1, h2⟩ := decode_section_header_length dec ⟨0, false, false, 0, 0, none, []⟩ d
  have h3 := decode_compression_header_length dec
    (uplane_message_decoder_impl.decode_section_header dec ⟨0, false, false, 0, 0, none, []⟩ d).2.1
    (uplane_message_decoder_impl.decode_section_header dec ⟨0, false, false, 0, 0, none, []⟩ d).2.2
  have h4 := decode_iq_data_length dec
    (dec.decode_compression_header
      (uplane_message_decoder_impl.decode_section_header dec ⟨0, false, false, 0, 0, none, []⟩
        d).2.1
      (uplane_message_decoder_impl.decode_section_header dec ⟨0, false, false, 0, 0, none, []⟩
        d).2.2).2.1
    (dec.decode_compression_header
      (uplane_message_decoder_impl.decode_section_header dec ⟨0, false, false, 0, 0, none, []⟩
        d).2.1
      (uplane_message_decoder_impl.decode_section_header dec ⟨0, false, false, 0, 0, none, []⟩
        d).2.2).2.2
  unfold uplane_message_decoder_impl.decode_section
  simp only []
  cases hh : (uplane_message_decoder_impl.decode_section_header dec
      ⟨0, false, false, 0, 0, none, []⟩ d).1 with
  | false => simp
  | true =>
    have h2' := h2 hh
    have h1' := h1.1 hh
    simp only [Bool.not_true, Bool.false_eq_true, if_false]
    split
    · simp
    · split
      · simp
      · refine ⟨fun h => (by cases h), fun _ => ⟨h1', ?_, _, rfl⟩⟩
        show (dec.decode_iq_data _ _).2.2.bytes.length + 4 ≤ d.bytes.length
        omega

theorem decode_sections_loop_done (dec : uplane_message_decoder_static_compression_impl)
    (fuel : Nat) (results : uplane_message_decoder_results)
    (d : network_order_binary_deserializer) (h : d.remaining_bytes = 0) :
    uplane_message_decoder_impl.decode_sections_loop dec fuel results d = some (results, d) := by
  cases fuel <;> simp [uplane_message_decoder_impl.decode_sections_loop, h]

theorem decode_sections_loop_step (dec : uplane_message_decoder_static_compression_impl)
    (fuel : Nat) (results : uplane_message_decoder_results)
    (d : network_order_binary_deserializer) (h : d.remaining_bytes ≠ 0) :
    uplane_message_decoder_impl.decode_sections_loop dec (fuel + 1) results d =
      if (uplane_message_decoder_impl.decode_section dec results d).1 = false then
        some ((uplane_message_decoder_impl.decode_section dec results d).2.1,
          (uplane_message_decoder_impl.decode_section dec results d).2.2)
      else
        uplane_message_decoder_impl.decode_sections_loop dec fuel
          (uplane_message_decoder_impl.decode_section dec results d).2.1
          (uplane_message_decoder_impl.decode_section dec results d).2.2 := by
  rw [uplane_message_decoder_impl.decode_sections_loop]
  simp only [h, if_false]
  cases (uplane_message_decoder_impl.decode_section dec results d).1 <;> simp

/-- With at least as many turns as bytes are left, the loop over the sections ends, and
its result does not depend on the number of turns. -/
theorem decode_sections_loop_fuel (dec : uplane_message_decoder_static_compression_impl)
    (fuel : Nat) :
    ∀ (results : uplane_message_decoder_results) (d : network_order_binary_deserializer),
      d.remaining_bytes ≤ fuel →
      (∃ r, uplane_message_decoder_impl.decode_sections_loop dec fuel results d = some r) ∧
      ∀ fuel1, d.remaining_bytes ≤ fuel1 →
        uplane_message_decoder_impl.decode_sections_loop dec fuel1 results d =
          uplane_message_decoder_impl.decode_sections_loop dec fuel results d := by
  induction fuel with
  | zero =>
    intro results d h
    have h0 : d.remaining_bytes = 0 := by omega
    exact ⟨⟨_, decode_sections_loop_done dec 0 results d h0⟩, fun fuel1 _ => by
      rw [decode_sections_loop_done dec fuel1 results d h0,
        decode_sections_loop_done dec 0 results d h0]⟩
  | succ f ih =>
    intro results d h
    by_cases h0 : d.remaining_bytes = 0
    · exact ⟨⟨_, decode_sections_loop_done dec _ results d h0⟩, fun fuel1 _ => by
        rw [decode_sections_loop_done dec fuel1 results d h0,
          decode_sections_loop_done dec _ results d h0]⟩
    · rw [decode_sections_loop_step dec f results d h0]
      cases hs : (uplane_message_decoder_impl.decode_section dec results d).1 with
      | false =>
        rw [if_pos rfl]
        refine ⟨⟨_, rfl⟩, fun fuel1 h1 => ?_⟩
        obtain ⟨g, rfl⟩ : ∃ g, fuel1 = g + 1 := ⟨fuel1 - 1, by omega⟩
        rw [decode_sections_loop_step dec g results d h0, hs, if_pos rfl]
      | true =>
        have hlt := ((decode_section_spec dec results d).2 hs).2.1
        obtain ⟨i1, i2⟩ := ih (uplane_message_decoder_impl.decode_section dec results d).2.1
          (uplane_message_decoder_impl.decode_section dec results d).2.2 (by omega)
        rw [if_neg (by decide)]
        refine ⟨i1, fun fuel1 h1 => ?_⟩
        obtain ⟨g, rfl⟩ : ∃ g, fuel1 = g + 1 := ⟨fuel1 - 1, by omega⟩
        rw [decode_sections_loop_step dec g results d h0, hs, if_neg (by decide)]
        exact i2 g (by omega)

/-- The loop over the sections only appends sections. -/
theorem decode_sections_loop_sections (dec : uplane_message_decoder_static_compression_impl)
    (fuel : Nat) :
    ∀ (results : uplane_message_decoder_results) (d : network_order_binary_deserializer)
      (r : uplane_message_decoder_results × network_order_binary_deserializer),
      uplane_message_decoder_impl.decode_sections_loop dec fuel results d = some r →
      ∃ more, r.1 = { results with sections := results.sections ++ more } := by
  induction fuel with
  | zero =>
    intro results d r h
    by_cases h0 : d.remaining_bytes = 0
    · rw [decode_sections_loop_done dec 0 results d h0] at h
      injection h with h
      exact ⟨[], by rw [← h]; simp⟩
    · simp [uplane_message_decoder_impl.decode_sections_loop, h0] at h
  | succ f ih =>
    intro results d r h
    by_cases h0 : d.remaining_bytes = 0
    · rw [decode_sections_loop_done dec _ results d h0] at h
      injection h with h
      exact ⟨[], by rw [← h]; simp⟩
    · rw [decode_sections_loop_step dec f results d h0] at h
      cases hs : (uplane_message_decoder_impl.decode_section dec results d).1 with
      | false =>
        rw [hs] at h
        simp only [if_true] at h
        injection h with h
        exact ⟨[], by rw [← h, (decode_section_spec dec results d).1 hs]; simp⟩
      | true =>
        rw [hs] at h
        simp only [Bool.true_eq_false, if_false] at h
        obtain ⟨more, hm⟩ := ih _ _ r h
        obtain ⟨sec, hsec⟩ := ((decode_section_spec dec results d).2 hs).2.2
        exact ⟨sec :: more, by rw [hm, hsec]; simp⟩

theorem decode_header_sections (dec : uplane_message_decoder_static_compression_impl)
    (results : uplane_message_decoder_results) (d : network_order_binary_deserializer) :
    (uplane_message_decoder_impl.decode_header dec results d).2.1.sections = results.sections := by
  unfold uplane_message_decoder_impl.decode_header
  split <;> rfl

/-- The return value of `decode`, when the header is valid, tells whether the loop over the
sections left any section in the results. -/
theorem decode_of_valid_header (dec : uplane_message_decoder_static_compression_impl)
    (results : uplane_message_decoder_results) (message : List Nat)
    (hh : (uplane_message_decoder_impl.decode_header dec results ⟨message⟩).1 = true) :
    ∃ r, uplane_message_decoder_impl.decode_sections_loop dec
        (uplane_message_decoder_impl.decode_header dec results ⟨message⟩).2.2.remaining_bytes
        (uplane_message_decoder_impl.decode_header dec results ⟨message⟩).2.1
        (uplane_message_decoder_impl.decode_header dec results ⟨message⟩).2.2 = some r ∧
      uplane_message_decoder_impl.decode dec results message =
        some (!r.1.sections.isEmpty, r.1) := by
  obtain ⟨r, hr⟩ := (decode_sections_loop_fuel dec _
    (uplane_message_decoder_impl.decode_header dec results ⟨message⟩).2.1
    (uplane_message_decoder_impl.decode_header dec results ⟨message⟩).2.2 (Nat.le_refl _)).1
  refine ⟨r, hr, ?_⟩
  unfold uplane_message_decoder_impl.decode uplane_message_decoder_impl.decode_all_sections
  simp only [hh, Bool.not_true, Bool.false_eq_true, if_false, hr, Option.map_some']
  cases r.1.sections.isEmpty <;> rfl

/-! ## Open Fronthaul: the compression parameters read from a message -/

theorem read_prbs_no_ud_comp_param_params (nof_bytes : Nat) (n : Nat) :
    ∀ (d : network_order_binary_deserializer),
      ∀ p ∈ (read_prbs_no_ud_comp_param nof_bytes n d).1, p.compression_param = 0 := by
  induction n with
  | zero => intro d p hp; cases hp
  | succ k ih =>
    intro d p hp
    simp only [read_prbs_no_ud_comp_param] at hp
    rcases List.mem_cons.mp hp with hp | hp
    · rw [hp]
    · exact ih _ p hp

/-- Each compression parameter read by `decode_prbs_with_ud_comp_param_field` is a byte of
the message, as received. -/
theorem read_prbs_with_ud_comp_param_params (nof_bytes : Nat) (n : Nat) :
    ∀ (d : network_order_binary_deserializer),
      ∀ p ∈ (read_prbs_with_ud_comp_param nof_bytes n d).1,
        ∃ i, p.compression_param = d.bytes.getD i 0 % 256 := by
  induction n with
  | zero => intro d p hp; cases hp
  | succ k ih =>
    intro d p hp
    simp only [read_prbs_with_ud_comp_param] at hp
    rcases List.mem_cons.mp hp with hp | hp
    · refine ⟨0, ?_⟩
      rw [hp]
      simp only [network_order_binary_deserializer.read_uint8]
      cases d.bytes <;> rfl
    · obtain ⟨i, hi⟩ := ih _ p hp
      refine ⟨1 + nof_bytes + i, ?_⟩
      rw [hi]
      simp only [network_order_binary_deserializer.read_bytes,
        network_order_binary_deserializer.read_uint8, List.getD_eq_getElem?_getD,
        List.getElem?_drop, List.tail_drop]
      rw [← List.drop_one, List.getElem?_drop]
      congr 3
      omega

/-- The compression parameters of the PRBs that `decode_iq_data` reads. -/
theorem decode_comp_prbs_params (dec : uplane_message_decoder_static_compression_impl)
    (results : uplane_section_params) (d : network_order_binary_deserializer) :
    ∀ p ∈ (dec.decode_comp_prbs results d).2.1,
      p.compression_param ≤ 255 ∧
      ((dec.compression_params.type = .none ∨ dec.compression_params.type = .modulation) →
        p.compression_param = 0) ∧
      ∃ i, p.compression_param = d.bytes.getD i 0 % 256 ∨ p.compression_param = 0 := by
  intro p hp
  have hdefault : ∀ q ∈ List.replicate results.nof_prbs ({} : compressed_prb),
      q.compression_param = 0 := by
    intro q hq
    rw [List.eq_of_mem_replicate hq]
  unfold uplane_message_decoder_static_compression_impl.decode_comp_prbs at hp
  simp only [] at hp
  by_cases ht : (dec.compression_params.type == compression_type.none ||
      dec.compression_params.type == compression_type.modulation) = true
  · rw [if_pos ht] at hp
    have h0 : p.compression_param = 0 := by
      unfold decode_prbs_no_ud_comp_param_field at hp
      split at hp
      · exact hdefault p hp
      · exact read_prbs_no_ud_comp_param_params _ _ _ p hp
    exact ⟨by omega, fun _ => h0, 0, Or.inr h0⟩
  · rw [if_neg ht] at hp
    have hne : ¬ (dec.compression_params.type = .none ∨
        dec.compression_params.type = .modulation) := by
      simpa using ht
    unfold decode_prbs_with_ud_comp_param_field at hp
    simp only [] at hp
    split at hp
    · have h0 := hdefault p hp
      exact ⟨by omega, fun _ => h0, 0, Or.inr h0⟩
    · obtain ⟨i, hi⟩ := read_prbs_with_ud_comp_param_params _ _ _ p hp
      exact ⟨by omega, fun h => absurd h hne, i, Or.inl hi⟩

/-- The samples that `decode_iq_data` stores are what the decompressor returns for the PRBs
read from the message. -/
theorem decode_iq_data_samples (dec : uplane_message_decoder_static_compression_impl)
    (sres : uplane_section_params) (sd : network_order_binary_deserializer)
    (h : (dec.decode_iq_data sres sd).1 = true) :
    (dec.decode_iq_data sres sd).2.1.iq_samples =
      dec.decompress (dec.decode_comp_prbs sres sd).2.1 dec.compression_params := by
  unfold uplane_message_decoder_static_compression_impl.decode_iq_data at h ⊢
  simp only [] at h ⊢
  split
  · rename_i h4
    rw [if_pos h4] at h
    cases h
  · rfl

/-- The samples of a decoded section are what the decompressor returns for the PRBs read
by `decode_iq_data`. -/
theorem decode_section_iq_samples (dec : uplane_message_decoder_static_compression_impl)
    (results : uplane_message_decoder_results) (d : network_order_binary_deserializer)
    (h : (uplane_message_decoder_impl.decode_section dec results d).1 = true) :
    ∃ sec sres sd, (uplane_message_decoder_impl.decode_section dec results d).2.1 =
        { results with sections := results.sections ++ [sec] } ∧
      sec.iq_samples = dec.decompress (dec.decode_comp_prbs sres sd).2.1 dec.compression_params := by
  unfold uplane_message_decoder_impl.decode_section at h ⊢
  simp only [] at h ⊢
  split at h
  · cases h
  · rw [if_neg (by assumption)]
    split at h
    · cases h
    · rw [if_neg (by assumption)]
      split at h
      · cases h
      · rename_i h3
        rw [if_neg h3]
        exact ⟨_, _, _, rfl, decode_iq_data_samples dec _ _ (by simpa using h3)⟩

/-- Every section that the loop over the sections adds holds samples that the decompressor
returned for PRBs read by `decode_iq_data`. -/
theorem decode_sections_loop_iq_samples (dec : uplane_message_decoder_static_compression_impl)
    (fuel : Nat) :
    ∀ (results : uplane_message_decoder_results) (d : network_order_binary_deserializer)
      (r : uplane_message_decoder_results × network_order_binary_deserializer),
      uplane_message_decoder_impl.decode_sections_loop dec fuel results d = some r →
      ∀ sec ∈ r.1.sections, sec ∈ results.sections ∨
        ∃ sres sd, sec.iq_samples =
          dec.decompress (dec.decode_comp_prbs sres sd).2.1 dec.compression_params := by
  induction fuel with
  | zero =>
    intro results d r h sec hsec
    by_cases h0 : d.remaining_bytes = 0
    · rw [decode_sections_loop_done dec 0 results d h0] at h
      injection h with h
      rw [← h] at hsec
      exact Or.inl hsec
    · simp [uplane_message_decoder_impl.decode_sections_loop, h0] at h
  | succ f ih =>
    intro results d r h sec hsec
    by_cases h0 : d.remaining_bytes = 0
    · rw [decode_sections_loop_done dec _ results d h0] at h
      injection h with h
      rw [← h] at hsec
      exact Or.inl hsec
    · rw [decode_sections_loop_step dec f results d h0] at h
      cases hs : (uplane_message_decoder_impl.decode_section dec results d).1 with
      | false =>
        rw [hs] at h
        simp only [if_true] at h
        injection h with h
        rw [← h, (decode_section_spec dec results d).1 hs] at hsec
        exact Or.inl hsec
      | true =>
        rw [hs] at h
        simp only [Bool.true_eq_false, if_false] at h
        obtain ⟨sec1, sres, sd, e1, e2⟩ := decode_section_iq_samples dec results d hs
        rcases ih _ _ r h sec hsec with hin | hq
        · rw [e1] at hin
          rcases List.mem_append.mp hin with hin | hin
          · exact Or.inl hin
          · rw [List.mem_singleton.mp hin]
            exact Or.inr ⟨sres, sd, e2⟩
        · exact Or.inr hq

/-- The sections of the results of `decode` are those given to it and sections whose
samples the decompressor returned for PRBs read by `decode_iq_data`. -/
theorem decode_iq_samples (dec : uplane_message_decoder_static_compression_impl)
    (results : uplane_message_decoder_results) (message : List Nat)
    (r : Bool × uplane_message_decoder_results)
    (h : uplane_message_decoder_impl.decode dec results message = some r) :
    ∀ sec ∈ r.2.sections, sec ∈ results.sections ∨
      ∃ sres sd, sec.iq_samples =
        dec.decompress (dec.decode_comp_prbs sres sd).2.1 dec.compression_params := by
  intro sec hsec
  cases hh : (uplane_message_decoder_impl.decode_header dec results ⟨message⟩).1 with
  | false =>
    have : uplane_message_decoder_impl.decode dec results message =
        some (false, (uplane_message_decoder_impl.decode_header dec results ⟨message⟩).2.1) := by
      simp [uplane_message_decoder_impl.decode, hh]
    rw [this] at h
    injection h with h
    rw [← h] at hsec
    exact Or.inl (by rw [← decode_header_sections dec results ⟨message⟩]; exact hsec)
  | true =>
    obtain ⟨r1, hr1, hd⟩ := decode_of_valid_header dec results message hh
    rw [hd] at h
    injection h with h
    rw [← h] at hsec
    rcases decode_sections_loop_iq_samples dec _ _ _ r1 hr1 sec hsec with hin | hq
    · exact Or.inl (by rw [← decode_header_sections dec results ⟨message⟩]; exact hin)
    · exact Or.inr hq

/-- The scaling factor is the power of two of the exponent for exponents up to 14 only. -/
theorem decompress_scaler_spec (e : Nat) :
    (iq_compression_bfp_impl.decompress_scaler e = some ((2 : Int) ^ e) ↔ e ≤ 14) ∧
    (e = 15 → iq_compression_bfp_impl.decompress_scaler e = some (-32768)) ∧
    (16 ≤ e → e < 32 → iq_compression_bfp_impl.decompress_scaler e = some 0) ∧
    (32 ≤ e → iq_compression_bfp_impl.decompress_scaler e = none) := by
  by_cases h : e < 32
  · interval_cases e <;> decide
  · have h32 : 32 ≤ e := by omega
    have hn : iq_compression_bfp_impl.decompress_scaler e = none := by
      unfold iq_compression_bfp_impl.decompress_scaler
      rw [if_neg h]
    refine ⟨?_, fun h1 => (by omega), fun _ h1 => (by omega), fun _ => hn⟩
    rw [hn]
    exact ⟨fun h1 => (by cases h1), fun h1 => (by omega)⟩

/-! ## C30: the exponent as a function of the number of significant bits -/

/-- C30: for `x` of at most 32767 with `b` significant bits (`x < 2 ^ b`, and
`2 ^ (b - 1) ≤ x` unless `x` is 0, for which `b` is 0) and a data width `w` from 1 to 16,
`determine_exponent(x, w)` returns `max(0, b + 1 - w)`; this is the least `e` for which
`x >> e` is below `2 ^ (w - 1)`, and it is at most `16 - w`. -/
theorem determine_exponent_formula (x w b : Nat) (hx : x ≤ 32767) (hw1 : 1 ≤ w) (hw : w ≤ 16)
    (hb : x < 2 ^ b) (hb2 : x ≠ 0 → 2 ^ (b - 1) ≤ x) (hb0 : x = 0 → b = 0) :
    iq_compression_bfp_impl.determine_exponent x w =
      some (max 0 ((b : Int) + 1 - (w : Int))).toNat ∧
    x >>> (max 0 ((b : Int) + 1 - (w : Int))).toNat < 2 ^ (w - 1) ∧
    (∀ e, x >>> e < 2 ^ (w - 1) → (max 0 ((b : Int) + 1 - (w : Int))).toNat ≤ e) ∧
    (max 0 ((b : Int) + 1 - (w : Int))).toNat ≤ 16 - w := by
  have hE : (max 0 ((b : Int) + 1 - (w : Int))).toNat = b + 1 - w := by omega
  rw [hE]
  have hx32 : x < 2 ^ 32 := by
    have : (2 : Nat) ^ 32 = 4294967296 := by norm_num
    omega
  obtain ⟨i1, i2, i3, _⟩ := bit_length_upto_spec 32 x hx32
  have hbb : b = bit_length_upto 32 x := bit_length_unique x b _ hb hb2 hb0 i1 i2 i3
  obtain ⟨hb15, hdet⟩ := determine_exponent_of_bit_length x w b hx hw1 hw hbb
  have hshift : ∀ e, x >>> e < 2 ^ (w - 1) ↔ x < 2 ^ (w - 1 + e) := by
    intro e
    rw [Nat.shiftRight_eq_div_pow, Nat.div_lt_iff_lt_mul (Nat.two_pow_pos e), pow_add]
  refine ⟨hdet, ?_, ?_, by omega⟩
  · rw [hshift]
    exact Nat.lt_of_lt_of_le hb (Nat.pow_le_pow_right (by decide) (by omega))
  · intro e he
    rw [hshift] at he
    by_cases h0 : x = 0
    · rw [hb0 h0]
      omega
    · have h1 : 2 ^ (b - 1) < 2 ^ (w - 1 + e) := Nat.lt_of_le_of_lt (hb2 h0) he
      have := (Nat.pow_lt_pow_iff_right (by decide : 1 < 2)).1 h1
      omega

/-- C30 at the value 1000, which has 10 significant bits, and the data width 9. -/
theorem determine_exponent_formula_demo :
    iq_compression_bfp_impl.determine_exponent 1000 9 = some 2 ∧ 1000 >>> 2 < 2 ^ (9 - 1) :=
  ⟨(determine_exponent_formula 1000 9 10 (by decide) (by decide) (by decide) (by decide)
      (fun _ => by decide) (fun h => absurd h (by decide))).1,
    (determine_exponent_formula 1000 9 10 (by decide) (by decide) (by decide) (by decide)
      (fun _ => by decide) (fun h => absurd h (by decide))).2.1⟩

/-! ## C26: the compressed samples and the data width -/

/-- C26, failing input: a resource block whose 24 samples are all -32768, compressed to
9 bits.  The largest sample is -32768, its absolute value 32768 is passed to
`determine_exponent`, where `__builtin_clz(x) - 16U - 1U` wraps around, and the exponent
comes out as 0: the samples are left at -32768, outside the range -256..255 of a 9-bit
number. -/
theorem all_minimal_samples_not_compressed :
    max_element (List.replicate 24 (-32768)) = some (-32768) ∧
    iq_compression_bfp_impl.determine_exponent 32768 9 = some 0 ∧
    iq_compression_bfp_impl.compress_prb_generic (List.replicate 24 (-32768)) 9 =
      some ⟨List.replicate 24 (-32768), 9, 0⟩ ∧
    ¬ (-(2 : Int) ^ (9 - 1) ≤ -32768) := by
  have h1 : max_element (List.replicate 24 (-32768)) = some (-32768) := by decide
  have h2 : min_element (List.replicate 24 (-32768)) = some (-32768) := by decide
  have h3 : iq_compression_bfp_impl.determine_exponent 32768 9 = some 0 := by decide
  have h4 : List.take NOF_SAMPLES_PER_PRB (List.replicate 24 (-32768 : Int)) =
      List.replicate 24 (-32768) := by decide
  have h5 : ((max ((Int.natAbs (-32768) : Nat) : Int) (((Int.natAbs (-32768) : Nat) : Int) - 1))
      % 2 ^ 32).toNat = 32768 := by decide
  have h6 : (List.replicate 24 (-32768 : Int)).map (fun s => to_int16 (Int.shiftRight s (0 % 2 ^ 8)))
      = List.replicate 24 (-32768) := by decide
  refine ⟨h1, h3, ?_, by decide⟩
  have hlen : ¬ (List.replicate 24 (-32768 : Int)).length < NOF_SAMPLES_PER_PRB := by decide
  unfold iq_compression_bfp_impl.compress_prb_generic
  rw [if_neg hlen, h4, h1, h2]
  simp only [h5, h3, h6]
  rfl

/-- C26 for every other resource block: for 24 `int16_t` samples that are not all -32768
and a data width `w` from 1 to 16, `compress_prb_generic` chooses an exponent `e` of at
most `16 - w`, and every compressed sample, the sample shifted right arithmetically by
`e`, lies between `-2 ^ (w - 1)` and `2 ^ (w - 1) - 1`. -/
theorem compressed_samples_fit_data_width (input_quantized : List Int) (w : Nat)
    (hlen : NOF_SAMPLES_PER_PRB ≤ input_quantized.length)
    (hrange : ∀ s ∈ input_quantized, -32768 ≤ s ∧ s ≤ 32767)
    (hw1 : 1 ≤ w) (hw : w ≤ 16)
    (hnot : ∃ s ∈ input_quantized.take NOF_SAMPLES_PER_PRB, s ≠ -32768) :
    ∃ c, iq_compression_bfp_impl.compress_prb_generic input_quantized w = some c ∧
      c.exponent ≤ 16 - w ∧
      c.compressed_samples =
        (input_quantized.take NOF_SAMPLES_PER_PRB).map (fun s => Int.shiftRight s c.exponent) ∧
      ∀ s ∈ c.compressed_samples, -(2 : Int) ^ (w - 1) ≤ s ∧ s ≤ (2 : Int) ^ (w - 1) - 1 := by
  obtain ⟨s0, hs0, hs0ne⟩ := hnot
  have hne : input_quantized.take NOF_SAMPLES_PER_PRB ≠ [] := by
    intro h; rw [h] at hs0; cases hs0
  have hr : ∀ s ∈ input_quantized.take NOF_SAMPLES_PER_PRB, -32768 ≤ s ∧ s ≤ 32767 :=
    fun s hs => hrange s (List.mem_of_mem_take hs)
  obtain ⟨M, hM, hMmem, hMle⟩ := max_element_spec _ hne
  obtain ⟨m, hm, hmmem, hmle⟩ := min_element_spec _ hne
  have hM1 : -32768 < M := by
    have h1 := hMle s0 hs0
    have h2 := (hr s0 hs0).1
    omega
  have hM2 := (hr M hMmem).2
  have hm1 := hr m hmmem
  -- the value passed to `determine_exponent`
  obtain ⟨A, hA, hA1, hA2, hA3⟩ : ∃ A : Nat,
      ((max ((Int.natAbs M : Nat) : Int) (((Int.natAbs m : Nat) : Int) - 1)) % 2 ^ 32).toNat = A ∧
      A ≤ 32767 ∧ M ≤ (A : Int) ∧ -((A : Int) + 1) ≤ m := by
    refine ⟨_, rfl, ?_, ?_, ?_⟩ <;> omega
  have hx32 : A < 2 ^ 32 := by
    have : (2 : Nat) ^ 32 = 4294967296 := by norm_num
    omega
  obtain ⟨i1, _, _, _⟩ := bit_length_upto_spec 32 A hx32
  obtain ⟨hb15, hdet⟩ := determine_exponent_of_bit_length A w _ hA1 hw1 hw rfl
  have he8 : (bit_length_upto 32 A + 1 - w) % 2 ^ 8 = bit_length_upto 32 A + 1 - w :=
    Nat.mod_eq_of_lt (by
      have : (2 : Nat) ^ 8 = 256 := by norm_num
      omega)
  have hfit : ∀ s ∈ input_quantized.take NOF_SAMPLES_PER_PRB,
      -(2 : Int) ^ (w - 1) ≤ Int.shiftRight s (bit_length_upto 32 A + 1 - w) ∧
      Int.shiftRight s (bit_length_upto 32 A + 1 - w) ≤ (2 : Int) ^ (w - 1) - 1 := by
    intro s hs
    have h1 := hMle s hs
    have h2 := hmle s hs
    exact shifted_sample_fits s A _ w _ i1 (by omega) (by omega) (by omega)
  have h16 : ∀ s ∈ input_quantized.take NOF_SAMPLES_PER_PRB,
      to_int16 (Int.shiftRight s (bit_length_upto 32 A + 1 - w)) =
        Int.shiftRight s (bit_length_upto 32 A + 1 - w) := by
    intro s hs
    obtain ⟨f1, f2⟩ := hfit s hs
    have p1 : (2 : Int) ^ (w - 1) ≤ (2 : Int) ^ 15 :=
      pow_le_pow_right₀ (by norm_num) (by omega)
    have p2 : (2 : Int) ^ 15 = 32768 := by norm_num
    unfold to_int16
    omega
  refine ⟨⟨(input_quantized.take NOF_SAMPLES_PER_PRB).map
      (fun s => Int.shiftRight s (bit_length_upto 32 A + 1 - w)), w,
      bit_length_upto 32 A + 1 - w⟩, ?_,
    (by show bit_length_upto 32 A + 1 - w ≤ 16 - w; omega), rfl, ?_⟩
  · have hl : ¬ input_quantized.length < NOF_SAMPLES_PER_PRB := by omega
    unfold iq_compression_bfp_impl.compress_prb_generic
    rw [if_neg hl, hM, hm]
    simp only [hA, hdet, he8]
    congr 2
    exact List.map_congr_left h16
  · intro s hs
    obtain ⟨t, ht, rfl⟩ := List.mem_map.mp hs
    exact hfit t ht

/-- C26 for a block of 23 samples -32768 and one sample 100, compressed to 9 bits. -/
theorem compressed_samples_fit_data_width_demo :
    ∃ c, iq_compression_bfp_impl.compress_prb_generic (100 :: List.replicate 23 (-32768)) 9 =
        some c ∧
      c.exponent ≤ 16 - 9 ∧
      c.compressed_samples =
        ((100 :: List.replicate 23 (-32768)).take NOF_SAMPLES_PER_PRB).map
          (fun s => Int.shiftRight s c.exponent) ∧
      ∀ s ∈ c.compressed_samples, -(2 : Int) ^ (9 - 1) ≤ s ∧ s ≤ (2 : Int) ^ (9 - 1) - 1 :=
  compressed_samples_fit_data_width (100 :: List.replicate 23 (-32768)) 9 (by decide)
    (by decide) (by decide) (by decide) ⟨100, by decide, by decide⟩

/-! ## C27: the User-Plane header -/

/-- The header of a message of at least four bytes: what `decode_header` returns. -/
theorem decode_header_cons (dec : uplane_message_decoder_static_compression_impl)
    (results : uplane_message_decoder_results) (b0 b1 b2 b3 : Nat) (rest : List Nat) :
    uplane_message_decoder_impl.decode_header dec results ⟨b0 :: b1 :: b2 :: b3 :: rest⟩ =
      (is_header_valid
          { direction := to_data_direction ((b0 % 256) >>> 7),
            payload_version := ((b0 % 256) >>> 4) &&& 7,
            filter_index := dec.to_filter_index_type ((b0 % 256) &&& 0xf),
            slot := slot_point.of_fields dec.numerology (b1 % 256) ((b2 % 256) >>> 4)
              ((((b2 % 256) &&& 0x0f) <<< 2) ||| ((b3 % 256) >>> 6)),
            symbol_id := (b3 % 256) &&& 0x3f } dec.nof_symbols,
        { results with
          params :=
            { direction := to_data_direction ((b0 % 256) >>> 7),
              payload_version := ((b0 % 256) >>> 4) &&& 7,
              filter_index := dec.to_filter_index_type ((b0 % 256) &&& 0xf),
              slot := slot_point.of_fields dec.numerology (b1 % 256) ((b2 % 256) >>> 4)
                ((((b2 % 256) &&& 0x0f) <<< 2) ||| ((b3 % 256) >>> 6)),
              symbol_id := (b3 % 256) &&& 0x3f } },
        ⟨rest⟩) := by
  have hlen : ¬ (network_order_binary_deserializer.remaining_bytes
      ⟨b0 :: b1 :: b2 :: b3 :: rest⟩ < NOF_BYTES_UP_HEADER) := by
    simp [network_order_binary_deserializer.remaining_bytes, NOF_BYTES_UP_HEADER]
  unfold uplane_message_decoder_impl.decode_header
  rw [if_neg hlen]
  simp [network_order_binary_deserializer.read_uint8]

theorem is_header_valid_iff (params : uplane_message_params) (nof_symbols : Nat) :
    is_header_valid params nof_symbols = true ↔
      params.direction = .uplink ∧ params.payload_version = OFH_PAYLOAD_VERSION ∧
      params.filter_index ≠ .reserved ∧ params.symbol_id < nof_symbols := by
  unfold is_header_valid
  by_cases h1 : params.direction = .uplink
  · by_cases h2 : params.payload_version = OFH_PAYLOAD_VERSION
    · by_cases h3 : params.filter_index = .reserved
      · simp [h1, h2, h3]
      · by_cases h4 : params.symbol_id < nof_symbols
        · simp [h1, h2, h3, h4]
        · simp [h1, h2, h3, h4]
    · simp [h1, h2]
  · simp [h1]

/-- C27: `decode_header` returns true exactly for a message of at least 4 bytes in which
bit 7 of byte 0 gives the direction uplink, bits 6..4 of byte 0 are `OFH_PAYLOAD_VERSION`,
the filter index of bits 3..0 of byte 0 is not `reserved`, and the symbol id, byte 3 and
0x3f, is below `nof_symbols`.  Then the slot of the decoded parameters is built from the
frame byte 1, the subframe in the high nibble of byte 2 and the slot index
`((byte 2 & 0x0f) << 2) | (byte 3 >> 6)`, the sections are untouched, and the
deserializer is left past the first 4 bytes. -/
theorem decode_header_true_iff (dec : uplane_message_decoder_static_compression_impl)
    (results : uplane_message_decoder_results) (message : List Nat) :
    ((uplane_message_decoder_impl.decode_header dec results ⟨message⟩).1 = true ↔
      4 ≤ message.length ∧
      to_data_direction ((message.getD 0 0 % 256) >>> 7) = .uplink ∧
      ((message.getD 0 0 % 256) >>> 4) &&& 7 = OFH_PAYLOAD_VERSION ∧
      dec.to_filter_index_type ((message.getD 0 0 % 256) &&& 0xf) ≠ .reserved ∧
      (message.getD 3 0 % 256) &&& 0x3f < dec.nof_symbols) ∧
    ((uplane_message_decoder_impl.decode_header dec results ⟨message⟩).1 = true →
      (uplane_message_decoder_impl.decode_header dec results ⟨message⟩).2.1.params.slot =
        slot_point.of_fields dec.numerology (message.getD 1 0 % 256)
          ((message.getD 2 0 % 256) >>> 4)
          ((((message.getD 2 0 % 256) &&& 0x0f) <<< 2) ||| ((message.getD 3 0 % 256) >>> 6)) ∧
      (uplane_message_decoder_impl.decode_header dec results ⟨message⟩).2.1.params.symbol_id =
        (message.getD 3 0 % 256) &&& 0x3f ∧
      (uplane_message_decoder_impl.decode_header dec results ⟨message⟩).2.1.sections =
        results.sections ∧
      (uplane_message_decoder_impl.decode_header dec results ⟨message⟩).2.2 =
        ⟨message.drop 4⟩) := by
  have hshort : message.length < 4 →
      (uplane_message_decoder_impl.decode_header dec results ⟨message⟩).1 = false := by
    intro h
    simp [uplane_message_decoder_impl.decode_header,
      network_order_binary_deserializer.remaining_bytes, NOF_BYTES_UP_HEADER, h]
  by_cases hlen : message.length < 4
  · rw [hshort hlen]
    exact ⟨⟨fun h => (by cases h), fun h => (by omega)⟩, fun h => (by cases h)⟩
  · obtain ⟨b0, b1, b2, b3, rest, rfl⟩ : ∃ b0 b1 b2 b3 rest, message = b0 :: b1 :: b2 :: b3 :: rest := by
      match message, hlen with
      | b0 :: b1 :: b2 :: b3 :: rest, _ => exact ⟨b0, b1, b2, b3, rest, rfl⟩
      | [], h => simp at h
      | [_], h => simp at h
      | [_, _], h => simp at h
      | [_, _, _], h => simp at h
    rw [decode_header_cons]
    simp only [is_header_valid_iff, List.getD_cons_zero, List.getD_cons_succ, List.length_cons,
      List.drop_succ_cons, List.drop_zero]
    exact ⟨⟨fun h => ⟨by omega, h⟩, fun h => h.2⟩, fun _ => by simp⟩

/-- C27 at the header of the scenario: frame 3, subframe 2, slot 1, symbol 5. -/
theorem decode_header_true_iff_demo :
    (uplane_message_decoder_impl.decode_header (demo_decoder .BFP) demo_results
      ⟨demo_header ++ demo_section 7⟩).1 = true ∧
    (uplane_message_decoder_impl.decode_header (demo_decoder .BFP) demo_results
      ⟨demo_header ++ demo_section 7⟩).2.1.params.slot = slot_point.of_fields 1 3 2 1 :=
  ⟨((decode_header_true_iff (demo_decoder .BFP) demo_results (demo_header ++ demo_section 7)).1).2
      (by decide),
    ((decode_header_true_iff (demo_decoder .BFP) demo_results (demo_header ++ demo_section 7)).2
      (by decide)).1⟩

/-! ## C28: decoding a whole message -/

/-- C28: `decode` ends on every message: the loop over the sections, given as many turns
as the message has bytes, is always left.  Starting from results without sections,
`decode` returns true exactly when the header is valid and the first section after it
is decoded.  The loop stops, keeping the results, at the first section that is not
decoded (in particular when fewer than 4 bytes are left for a section header) and goes
on after each section that is decoded, which is appended to the sections and takes at
least 4 bytes of the message; the bytes after the stop are not read. -/
theorem decode_ends_and_true_iff (dec : uplane_message_decoder_static_compression_impl)
    (results : uplane_message_decoder_results) (message : List Nat) :
    (∃ r, uplane_message_decoder_impl.decode dec results message = some r) ∧
    (results.sections = [] → ∀ r, uplane_message_decoder_impl.decode dec results message = some r →
      (r.1 = true ↔
        (uplane_message_decoder_impl.decode_header dec results ⟨message⟩).1 = true ∧
        (uplane_message_decoder_impl.decode_section dec
          (uplane_message_decoder_impl.decode_header dec results ⟨message⟩).2.1
          (uplane_message_decoder_impl.decode_header dec results ⟨message⟩).2.2).1 = true)) ∧
    (∀ (res : uplane_message_decoder_results) (d : network_order_binary_deserializer)
        (fuel : Nat), d.remaining_bytes ≤ fuel →
      uplane_message_decoder_impl.decode_sections_loop dec fuel res d =
        if d.remaining_bytes = 0 then some (res, d)
        else if (uplane_message_decoder_impl.decode_section dec res d).1 = false then
          some (res, (uplane_message_decoder_impl.decode_section dec res d).2.2)
        else
          uplane_message_decoder_impl.decode_sections_loop dec
            (uplane_message_decoder_impl.decode_section dec res d).2.2.remaining_bytes
            (uplane_message_decoder_impl.decode_section dec res d).2.1
            (uplane_message_decoder_impl.decode_section dec res d).2.2) ∧
    (∀ (res : uplane_message_decoder_results) (d : network_order_binary_deserializer),
      (uplane_message_decoder_impl.decode_section dec res d).1 = true →
      4 ≤ d.remaining_bytes ∧
      (uplane_message_decoder_impl.decode_section dec res d).2.2.remaining_bytes + 4 ≤
        d.remaining_bytes ∧
      ∃ sec, (uplane_message_decoder_impl.decode_section dec res d).2.1 =
        { res with sections := res.sections ++ [sec] }) := by
  have hloop : ∀ (res : uplane_message_decoder_results) (d : network_order_binary_deserializer)
      (fuel : Nat), d.remaining_bytes ≤ fuel →
      uplane_message_decoder_impl.decode_sections_loop dec fuel res d =
        if d.remaining_bytes = 0 then some (res, d)
        else if (uplane_message_decoder_impl.decode_section dec res d).1 = false then
          some (res, (uplane_message_decoder_impl.decode_section dec res d).2.2)
        else
          uplane_message_decoder_impl.decode_sections_loop dec
            (uplane_message_decoder_impl.decode_section dec res d).2.2.remaining_bytes
            (uplane_message_decoder_impl.decode_section dec res d).2.1
            (uplane_message_decoder_impl.decode_section dec res d).2.2 := by
    intro res d fuel hfuel
    by_cases h0 : d.remaining_bytes = 0
    · rw [if_pos h0, decode_sections_loop_done dec fuel res d h0]
    · rw [if_neg h0]
      obtain ⟨g, rfl⟩ : ∃ g, fuel = g + 1 := ⟨fuel - 1, by omega⟩
      rw [decode_sections_loop_step dec g res d h0]
      cases hs : (uplane_message_decoder_impl.decode_section dec res d).1 with
      | false => rw [if_pos rfl, if_pos rfl, (decode_section_spec dec res d).1 hs]
      | true =>
        rw [if_neg (by decide), if_neg (by decide)]
        have hlt := ((decode_section_spec dec res d).2 hs).2.1
        exact (decode_sections_loop_fuel dec
          (uplane_message_decoder_impl.decode_section dec res d).2.2.remaining_bytes
          (uplane_message_decoder_impl.decode_section dec res d).2.1
          (uplane_message_decoder_impl.decode_section dec res d).2.2 (Nat.le_refl _)).2 g
          (by omega)
  refine ⟨?_, ?_, hloop, fun res d => (decode_section_spec dec res d).2⟩
  · cases hh : (uplane_message_decoder_impl.decode_header dec results ⟨message⟩).1 with
    | false =>
      exact ⟨(false, (uplane_message_decoder_impl.decode_header dec results ⟨message⟩).2.1),
        by simp [uplane_message_decoder_impl.decode, hh]⟩
    | true =>
      obtain ⟨r, _, hd⟩ := decode_of_valid_header dec results message hh
      exact ⟨_, hd⟩
  · intro hempty r hr
    cases hh : (uplane_message_decoder_impl.decode_header dec results ⟨message⟩).1 with
    | false =>
      have : uplane_message_decoder_impl.decode dec results message =
          some (false, (uplane_message_decoder_impl.decode_header dec results ⟨message⟩).2.1) := by
        simp [uplane_message_decoder_impl.decode, hh]
      rw [this] at hr
      injection hr with hr
      rw [← hr]
      simp
    | true =>
      obtain ⟨r1, hr1, hd⟩ := decode_of_valid_header dec results message hh
      rw [hd] at hr
      injection hr with hr
      rw [← hr]
      have hsec0 : (uplane_message_decoder_impl.decode_header dec results ⟨message⟩).2.1.sections
          = [] := by rw [decode_header_sections, hempty]
      generalize (uplane_message_decoder_impl.decode_header dec results ⟨message⟩).2.1 = res
        at hr1 hsec0 ⊢
      generalize (uplane_message_decoder_impl.decode_header dec results ⟨message⟩).2.2 = d
        at hr1 ⊢
      rw [hloop res d _ (Nat.le_refl _)] at hr1
      simp only [true_and]
      by_cases h0 : d.remaining_bytes = 0
      · rw [if_pos h0] at hr1
        injection hr1 with hr1
        rw [← hr1, hsec0]
        constructor
        · intro h; cases h
        · intro h
          have := ((decode_section_spec dec res d).2 h).1
          omega
      · rw [if_neg h0] at hr1
        cases hs : (uplane_message_decoder_impl.decode_section dec res d).1 with
        | false =>
          rw [hs, if_pos rfl] at hr1
          injection hr1 with hr1
          rw [← hr1, hsec0]
          simp
        | true =>
          rw [hs, if_neg (by decide)] at hr1
          obtain ⟨more, hm⟩ := decode_sections_loop_sections dec _ _ _ r1 hr1
          obtain ⟨sec, hsec⟩ := ((decode_section_spec dec res d).2 hs).2.2
          rw [hm, hsec]
          simp

/-- C28 in the scenario: a valid header, two sections and three stray bytes; `decode`
returns true with the two sections, in order. -/
theorem decode_ends_and_true_iff_demo :
    (uplane_message_decoder_impl.decode (demo_decoder .BFP) demo_results
        (demo_header ++ demo_section 7 ++ demo_section 3 ++ [1, 2, 3])).map
      (fun r => (r.1, r.2.sections.map (fun s => s.iq_samples))) =
      some (true, [[(7, 27)], [(3, 27)]]) ∧
    ∃ r, uplane_message_decoder_impl.decode (demo_decoder .BFP) demo_results
      (demo_header ++ demo_section 7 ++ demo_section 3 ++ [1, 2, 3]) = some r :=
  ⟨by decide, (decode_ends_and_true_iff (demo_decoder .BFP) demo_results
    (demo_header ++ demo_section 7 ++ demo_section 3 ++ [1, 2, 3])).1⟩

/-! ## C29: the compression parameter handed to the decompressor -/

/-- C29, as the code behaves: for every message that `decode` is given, every section of
the results that was not there before holds the samples that the decompressor returned for
the PRBs read by `decode_iq_data`, and the compression parameter of each of these PRBs is
at most 255: it is 0 when the compression type is none or modulation, and otherwise 0 or a
byte of the message as read by `read<uint8_t>`, not bounded by 15.  The scaling factor
`1 << exponent` kept in an `int16_t` is the power of two of the exponent exactly for
exponents up to 14; it is -32768 for 15, 0 for 16 to 31, and the shift is not defined from
32 on. -/
theorem compression_param_is_byte_as_read
    (dec : uplane_message_decoder_static_compression_impl)
    (results : uplane_message_decoder_results) (message : List Nat)
    (r : Bool × uplane_message_decoder_results)
    (h : uplane_message_decoder_impl.decode dec results message = some r) :
    (∀ sec ∈ r.2.sections, sec ∈ results.sections ∨
      ∃ sres sd,
        sec.iq_samples =
          dec.decompress (dec.decode_comp_prbs sres sd).2.1 dec.compression_params ∧
        ∀ p ∈ (dec.decode_comp_prbs sres sd).2.1,
          p.compression_param ≤ 255 ∧
          ((dec.compression_params.type = .none ∨ dec.compression_params.type = .modulation) →
            p.compression_param = 0) ∧
          ∃ i, p.compression_param = sd.bytes.getD i 0 % 256 ∨ p.compression_param = 0) ∧
    ∀ e : Nat,
      (iq_compression_bfp_impl.decompress_scaler e = some ((2 : Int) ^ e) ↔ e ≤ 14) ∧
      (e = 15 → iq_compression_bfp_impl.decompress_scaler e = some (-32768)) ∧
      (16 ≤ e → e < 32 → iq_compression_bfp_impl.decompress_scaler e = some 0) ∧
      (32 ≤ e → iq_compression_bfp_impl.decompress_scaler e = none) := by
  refine ⟨fun sec hsec => ?_, decompress_scaler_spec⟩
  rcases decode_iq_samples dec results message r h sec hsec with hin | ⟨sres, sd, hq⟩
  · exact Or.inl hin
  · exact Or.inr ⟨sres, sd, hq, decode_comp_prbs_params dec sres sd⟩

/-- C29 refuted as stated: a message whose udCompParam byte is 255 is decoded, with BFP
compression, into a section whose PRB carries the compression parameter 255, and the
decompressor is handed this PRB; the parameter is above 15 and the shift `1 << 255` is not
defined. -/
theorem udcompparam_above_15_reaches_decompressor :
    uplane_message_decoder_impl.decode (demo_decoder .BFP) demo_results
        (demo_header ++ demo_section 255) = some (demo_decoded 255) ∧
    ((demo_decoder .BFP).decode_comp_prbs ⟨0, false, false, 0, 1, none, []⟩
        ⟨[255] ++ List.replicate 27 0⟩).2.1.map (fun p => p.compression_param) = [255] ∧
    (¬ ∀ p ∈ ((demo_decoder .BFP).decode_comp_prbs ⟨0, false, false, 0, 1, none, []⟩
        ⟨[255] ++ List.replicate 27 0⟩).2.1, p.compression_param ≤ 15) ∧
    iq_compression_bfp_impl.decompress_scaler 255 = none := by
  refine ⟨by decide, by decide, ?_, by decide⟩
  intro h
  have h1 := h ⟨255, List.replicate 27 0⟩ (by decide)
  exact absurd h1 (by decide)

/-- C29 in the scenario: the message with the udCompParam byte 255 is decoded, and its one
section holds the samples returned for PRBs whose parameters are at most 255. -/
theorem compression_param_is_byte_as_read_demo :
    uplane_message_decoder_impl.decode (demo_decoder .BFP) demo_results
        (demo_header ++ demo_section 255) = some (demo_decoded 255) ∧
    ∀ sec ∈ (demo_decoded 255).2.sections, sec ∈ demo_results.sections ∨
      ∃ sres sd,
        sec.iq_samples = (demo_decoder .BFP).decompress
          ((demo_decoder .BFP).decode_comp_prbs sres sd).2.1
          (demo_decoder .BFP).compression_params ∧
        ∀ p ∈ ((demo_decoder .BFP).decode_comp_prbs sres sd).2.1,
          p.compression_param ≤ 255 ∧
          (((demo_decoder .BFP).compression_params.type = .none ∨
              (demo_decoder .BFP).compression_params.type = .modulation) →
            p.compression_param = 0) ∧
          ∃ i, p.compression_param = sd.bytes.getD i 0 % 256 ∨ p.compression_param = 0 :=
  ⟨by decide, (compression_param_is_byte_as_read (demo_decoder .BFP) demo_results
    (demo_header ++ demo_section 255) (demo_decoded 255) (by decide)).1⟩

/-! ## UE removal: the slot boundary of the repository -/

theorem ue_repository_get_erase (r : ue_repository) (k : List Nat) (i j : Nat) :
    ({ ues := r.ues.set i none, ues_to_rem := k } : ue_repository).get j =
      if j = i then none else r.get j := by
  unfold ue_repository.get
  simp only [List.getD_eq_getElem?_getD, List.getElem?_set]
  by_cases h : i = j
  · subst h
    simp only [if_true]
    split <;> rfl
  · have h2 : ¬ j = i := fun e => h e.symm
    simp [h, h2]

theorem slot_indication_step_none (st : ue_repository × List Nat) (j : Nat)
    (h : st.1.get j = none) : ue_repository.slot_indication_step st j = st := by
  unfold ue_repository.slot_indication_step
  rw [h]

theorem slot_indication_step_busy (st : ue_repository × List Nat) (j : Nat) (u : ue)
    (h : st.1.get j = some u) (hb : u.has_outstanding_harq = true) :
    ue_repository.slot_indication_step st j =
      ({ st.1 with ues_to_rem := st.1.ues_to_rem ++ [j] }, st.2) := by
  unfold ue_repository.slot_indication_step
  rw [h]
  simp only [hb, if_true]

theorem slot_indication_step_idle (st : ue_repository × List Nat) (j : Nat) (u : ue)
    (h : st.1.get j = some u) (hb : u.has_outstanding_harq = false) :
    ue_repository.slot_indication_step st j =
      ({ ues := st.1.ues.set j none, ues_to_rem := st.1.ues_to_rem }, st.2 ++ [j]) := by
  unfold ue_repository.slot_indication_step
  rw [h]
  simp only [hb, Bool.false_eq_true, if_false]

/-- The turn of the slot boundary for the index `j` leaves the other indices as they are. -/
theorem slot_indication_step_other (st : ue_repository × List Nat) (i j : Nat) (h : j ≠ i) :
    (ue_repository.slot_indication_step st j).1.get i = st.1.get i ∧
    (ue_repository.slot_indication_step st j).2.count i = st.2.count i ∧
    (i ∈ (ue_repository.slot_indication_step st j).1.ues_to_rem ↔ i ∈ st.1.ues_to_rem) := by
  cases hj : st.1.get j with
  | none =>
    rw [slot_indication_step_none st j hj]
    exact ⟨rfl, rfl, Iff.rfl⟩
  | some u =>
    cases hb : u.has_outstanding_harq with
    | true =>
      rw [slot_indication_step_busy st j u hj hb]
      refine ⟨rfl, rfl, ?_⟩
      show i ∈ st.1.ues_to_rem ++ [j] ↔ i ∈ st.1.ues_to_rem
      simp only [List.mem_append, List.mem_singleton]
      exact ⟨fun h1 => h1.elim id (fun e => absurd e.symm h), Or.inl⟩
    | false =>
      rw [slot_indication_step_idle st j u hj hb]
      refine ⟨?_, ?_, Iff.rfl⟩
      · show ({ ues := st.1.ues.set j none, ues_to_rem := st.1.ues_to_rem } :
          ue_repository).get i = st.1.get i
        rw [ue_repository_get_erase]
        rw [if_neg (fun e => h e.symm)]
      · show List.count i (st.2 ++ [j]) = List.count i st.2
        rw [List.count_append]
        have : List.count i [j] = 0 := by
          rw [List.count_singleton]
          simp [h]
        omega

/-- The turn of the slot boundary for the index `i` itself. -/
theorem slot_indication_step_self (st : ue_repository × List Nat) (i : Nat) :
    (st.1.get i = none → ue_repository.slot_indication_step st i = st) ∧
    (∀ u, st.1.get i = some u → u.has_outstanding_harq = true →
      (ue_repository.slot_indication_step st i).1.get i = some u ∧
      (ue_repository.slot_indication_step st i).2 = st.2 ∧
      i ∈ (ue_repository.slot_indication_step st i).1.ues_to_rem) ∧
    (∀ u, st.1.get i = some u → u.has_outstanding_harq = false →
      (ue_repository.slot_indication_step st i).1.get i = none ∧
      (ue_repository.slot_indication_step st i).2 = st.2 ++ [i] ∧
      (ue_repository.slot_indication_step st i).1.ues_to_rem = st.1.ues_to_rem) := by
  refine ⟨slot_indication_step_none st i, fun u h hb => ?_, fun u h hb => ?_⟩
  · rw [slot_indication_step_busy st i u h hb]
    refine ⟨h, rfl, ?_⟩
    show i ∈ st.1.ues_to_rem ++ [i]
    simp
  · rw [slot_indication_step_idle st i u h hb]
    refine ⟨?_, rfl, rfl⟩
    show ({ ues := st.1.ues.set i none, ues_to_rem := st.1.ues_to_rem } :
      ue_repository).get i = none
    rw [ue_repository_get_erase, if_pos rfl]

theorem removable_eq_of_get {r r' : ue_repository} {i : Nat} (h : r'.get i = r.get i) :
    r'.removable i = r.removable i := by
  unfold ue_repository.removable
  rw [h]

/-- The turns of the slot boundary for a list of indices, seen from one index: its UE is
deleted and notified once when one of the turns is for it and it has no outstanding HARQ
process, and otherwise stays as it is. -/
theorem slot_indication_fold (i : Nat) (l : List Nat) :
    ∀ st : ue_repository × List Nat,
      (l.foldl ue_repository.slot_indication_step st).1.get i =
        (if i ∈ l ∧ st.1.removable i = true then none else st.1.get i) ∧
      (l.foldl ue_repository.slot_indication_step st).2.count i =
        st.2.count i + (if i ∈ l ∧ st.1.removable i = true then 1 else 0) ∧
      (i ∈ (l.foldl ue_repository.slot_indication_step st).1.ues_to_rem ↔
        i ∈ st.1.ues_to_rem ∨
          (i ∈ l ∧ ∃ u, st.1.get i = some u ∧ u.has_outstanding_harq = true)) := by
  induction l with
  | nil =>
    intro st
    simp
  | cons j rest ih =>
    intro st
    rw [List.foldl_cons]
    obtain ⟨i1, i2, i3⟩ := ih (ue_repository.slot_indication_step st j)
    by_cases hj : j = i
    · subst hj
      obtain ⟨s1, s2, s3⟩ := slot_indication_step_self st j
      cases hg : st.1.get j with
      | none =>
        have hst := s1 hg
        rw [hst] at i1 i2 i3 ⊢
        have hr : st.1.removable j = false := by
          unfold ue_repository.removable; rw [hg]
        rw [hr] at i1 i2
        rw [hg] at i1 i3
        rw [i1, i2, i3, hr]
        simp
      | some u =>
        cases hb : u.has_outstanding_harq with
        | true =>
          obtain ⟨t1, t2, t3⟩ := s2 u hg hb
          have hr : st.1.removable j = false := by
            unfold ue_repository.removable; rw [hg]; simp [hb]
          have hr' : (ue_repository.slot_indication_step st j).1.removable j = false := by
            rw [removable_eq_of_get (t1.trans hg.symm)]; exact hr
          rw [hr', t1] at i1
          rw [hr', t2] at i2
          rw [i1, i2, i3, hr]
          refine ⟨by simp, by simp, ?_⟩
          simp only [List.mem_cons, true_or, true_and]
          exact ⟨fun _ => Or.inr ⟨u, rfl, hb⟩, fun _ => Or.inl t3⟩
        | false =>
          obtain ⟨t1, t2, t3⟩ := s3 u hg hb
          have hr : st.1.removable j = true := by
            unfold ue_repository.removable; rw [hg]; simp [hb]
          have hr' : (ue_repository.slot_indication_step st j).1.removable j = false := by
            unfold ue_repository.removable; rw [t1]
          rw [hr', t1] at i1
          rw [hr', t2] at i2
          rw [t1, t3] at i3
          rw [i1, i2, i3, hr]
          refine ⟨by simp, ?_, ?_⟩
          · rw [List.count_append, List.count_singleton]
            simp
          · simp only [List.mem_cons, true_or, true_and]
            constructor
            · rintro (h | ⟨_, u', hu', _⟩)
              · exact Or.inl h
              · cases hu'
            · rintro (h | ⟨u', hu', hb'⟩)
              · exact Or.inl h
              · rw [Option.some.inj hu'] at hb
                rw [hb] at hb'
                cases hb'
    · obtain ⟨o1, o2, o3⟩ := slot_indication_step_other st i j hj
      have hr' := removable_eq_of_get o1
      rw [hr', o1] at i1
      rw [hr', o2] at i2
      rw [o1, o3] at i3
      have hm : i ∈ j :: rest ↔ i ∈ rest := by
        simp only [List.mem_cons]
        exact ⟨fun h => h.elim (fun e => absurd e.symm hj) id, Or.inr⟩
      rw [i1, i2, i3]
      simp only [hm]
      exact ⟨trivial, trivial, trivial⟩

/-- The slot boundary of the repository, seen from one UE index: the UE is deleted and its
deletion notified exactly once when its removal was scheduled and it has no outstanding
HARQ process; otherwise nothing is notified for it and it stays as it is, scheduled for
removal when it was and has an outstanding HARQ process. -/
theorem slot_indication_spec (r : ue_repository) (i : Nat) :
    r.slot_indication.1.get i =
      (if i ∈ r.ues_to_rem ∧ r.removable i = true then none else r.get i) ∧
    r.slot_indication.2.count i =
      (if i ∈ r.ues_to_rem ∧ r.removable i = true then 1 else 0) ∧
    (i ∈ r.slot_indication.1.ues_to_rem ↔
      i ∈ r.ues_to_rem ∧ ∃ u, r.get i = some u ∧ u.has_outstanding_harq = true) := by
  obtain ⟨h1, h2, h3⟩ := slot_indication_fold i r.ues_to_rem ({ r with ues_to_rem := [] }, [])
  have hg : ({ r with ues_to_rem := [] } : ue_repository).get i = r.get i := rfl
  have hr : ({ r with ues_to_rem := [] } : ue_repository).removable i = r.removable i :=
    removable_eq_of_get hg
  unfold ue_repository.slot_indication
  simp only [hg, hr] at h1 h2 h3
  refine ⟨h1, ?_, ?_⟩
  · rw [h2]; simp
  · rw [h3]; simp

/-! ## UE removal: the events leave a deleted UE deleted -/

theorem contains_of_get {r : ue_repository} {j : Nat} {u : ue} (h : r.get j = some u) :
    r.contains j = true := by
  unfold ue_repository.contains
  unfold ue_repository.get at h
  rw [h]; rfl

theorem get_of_contains {r : ue_repository} {j : Nat} (h : r.contains j = true) :
    ∃ u, r.get j = some u := by
  unfold ue_repository.contains at h
  unfold ue_repository.get
  cases hg : r.ues.getD j none with
  | none => rw [hg] at h; cases h
  | some u => exact ⟨u, rfl⟩

theorem gone_set {r : ue_repository} {i j : Nat} (u : ue) (h : r.gone i)
    (hj : r.contains j = true) : (r.set j u).gone i := by
  obtain ⟨u0, hu0⟩ := get_of_contains hj
  have hne : j ≠ i := by
    intro e
    rw [e, h.1] at hu0
    cases hu0
  refine ⟨?_, h.2⟩
  have h1 := h.1
  unfold ue_repository.get at h1 ⊢
  unfold ue_repository.set
  simp only [List.getD_eq_getElem?_getD, List.getElem?_set, if_neg hne] at h1 ⊢
  exact h1

theorem gone_add_ue {r : ue_repository} {i : Nat} (u : ue) (h : r.gone i)
    (hne : u.ue_index ≠ i) : (r.add_ue u).gone i := by
  refine ⟨?_, h.2⟩
  have h1 := h.1
  unfold ue_repository.get at h1 ⊢
  unfold ue_repository.add_ue
  simp only [List.getD_eq_getElem?_getD, List.getElem?_set, if_neg hne] at h1 ⊢
  by_cases hi : i < r.ues.length
  · rw [List.getElem?_append_left hi]
    exact h1
  · rw [List.getElem?_append_right (by omega)]
    rw [List.getElem?_replicate]
    split <;> rfl

theorem gone_schedule_ue_rem {r : ue_repository} {i j : Nat} (h : r.gone i) (hne : j ≠ i) :
    (r.schedule_ue_rem j).gone i := by
  refine ⟨h.1, ?_⟩
  unfold ue_repository.schedule_ue_rem
  simp only [List.mem_append, List.mem_singleton]
  rintro (h1 | h1)
  · exact h.2 h1
  · exact hne h1.symm

theorem ne_of_gone_of_contains {r : ue_repository} {i j : Nat} (h : r.gone i)
    (hj : r.contains j = true) : j ≠ i := by
  obtain ⟨u0, hu0⟩ := get_of_contains hj
  intro e
  rw [e, h.1] at hu0
  cases hu0

/-- The closure of a common event other than the creation of the UE leaves a deleted UE
deleted. -/
theorem run_common_callback_gone (m : ue_event_manager) (cb : common_callback) (i : Nat)
    (h : m.ue_db.gone i) (hc : cb.creates i = false) :
    (m.run_common_callback cb).ue_db.gone i := by
  cases cb with
  | ue_creation u =>
    have hne : u.ue_index ≠ i := by
      simpa [common_callback.creates] using hc
    simp only [ue_event_manager.run_common_callback]
    split
    · exact h
    · split
      · exact gone_add_ue u h hne
      · split
        · exact gone_add_ue u h hne
        · exact gone_add_ue u h hne
  | ue_reconfiguration req =>
    simp only [ue_event_manager.run_common_callback]
    split
    · exact h
    · rename_i hct
      split
      · exact h
      · exact gone_set _ h (by simpa using hct)
  | ue_removal j =>
    simp only [ue_event_manager.run_common_callback]
    split
    · exact h
    · rename_i hct
      split
      · exact h
      · exact gone_schedule_ue_rem h (ne_of_gone_of_contains h (by simpa using hct))
  | ul_bsr bsr =>
    simp only [ue_event_manager.run_common_callback]
    split
    · exact h
    · rename_i hct
      split
      · exact h
      · split <;> exact gone_set _ h (by simpa using hct)
  | dl_mac_ce ce =>
    simp only [ue_event_manager.run_common_callback]
    split
    · exact h
    · rename_i hct
      split
      · exact h
      · exact gone_set _ h (by simpa using hct)
  | dl_buffer_state bs =>
    simp only [ue_event_manager.run_common_callback]
    split
    · exact h
    · rename_i hct
      split
      · exact h
      · split
        · split
          · exact gone_set _ h (by simpa using hct)
          · split <;> exact gone_set _ h (by simpa using hct)
        · exact gone_set _ h (by simpa using hct)

theorem process_common_event_gone (m : ue_event_manager) (cell_index : Nat)
    (ev : common_event_t) (i : Nat) (h : m.ue_db.gone i)
    (hc : ∀ cb, ev.callback = some cb → cb.creates i = false) :
    (m.process_common_event cell_index ev).1.ue_db.gone i := by
  unfold ue_event_manager.process_common_event
  cases hcb : ev.callback with
  | none => exact h
  | some cb =>
    simp only []
    have hrun : ((m.notify [.common_callback ev.seq]).run_common_callback cb).ue_db.gone i :=
      run_common_callback_gone _ cb i h (hc cb hcb)
    split
    · exact hrun
    · split
      · exact h
      · split
        · exact h
        · split
          · exact h
          · split
            · exact hrun
            · exact h

theorem process_common_events_gone (cell_index : Nat) (i : Nat) (l : List common_event_t) :
    ∀ m : ue_event_manager, m.ue_db.gone i →
      (∀ ev ∈ l, ∀ cb, ev.callback = some cb → cb.creates i = false) →
      (m.process_common_events cell_index l).1.ue_db.gone i := by
  induction l with
  | nil => intro m h _; exact h
  | cons ev rest ih =>
    intro m h hc
    simp only [ue_event_manager.process_common_events]
    split
    · exact h
    · exact ih _ (process_common_event_gone m cell_index ev i h (hc ev (List.mem_cons_self _ _)))
        (fun e he => hc e (List.mem_cons_of_mem _ he))

theorem process_common_gone (m : ue_event_manager) (sl : slot_point) (cell_index : Nat)
    (i : Nat) (h : m.ue_db.gone i) (hc : m.no_creation_of i) :
    (m.process_common sl cell_index).ue_db.gone i := by
  unfold ue_event_manager.process_common
  simp only []
  split
  · exact process_common_events_gone cell_index i _ _ h (fun ev he =>
      hc ev (List.mem_append_left _ he))
  · exact process_common_events_gone cell_index i _ _ h (fun ev he =>
      hc ev (List.mem_append_right _ he))

theorem process_cell_event_gone (m : ue_event_manager) (cell_index : Nat) (ev : cell_event_t)
    (i : Nat) (h : m.ue_db.gone i) : (m.process_cell_event cell_index ev).ue_db.gone i := by
  unfold ue_event_manager.process_cell_event
  split
  · exact h
  · rename_i hct
    have hct' : m.ue_db.contains ev.ue_index = true := by simpa using hct
    split
    · exact h
    · split
      · exact h
      · have h1 : ∀ u', (m.ue_db.set ev.ue_index u').gone i := fun u' => gone_set u' h hct'
        simp only []
        split
        · split
          · exact h1 _
          · rename_i hg
            exact gone_set _ (h1 _) (contains_of_get hg)
        · exact h1 _

theorem process_cell_events_gone (cell_index : Nat) (i : Nat) (l : List cell_event_t) :
    ∀ m : ue_event_manager, m.ue_db.gone i →
      (m.process_cell_events cell_index l).ue_db.gone i := by
  induction l with
  | nil => intro m h; exact h
  | cons ev rest ih =>
    intro m h
    simp only [ue_event_manager.process_cell_events]
    split
    · exact h
    · exact ih _ (process_cell_event_gone m cell_index ev i h)

/-- The events of a slot, none of which is the creation of the UE, leave a deleted UE
deleted. -/
theorem run_gone (m : ue_event_manager) (sl : slot_point) (cell_index : Nat) (i : Nat)
    (h : m.ue_db.gone i) (hc : m.no_creation_of i) :
    (m.run sl cell_index).ue_db.gone i := by
  unfold ue_event_manager.run
  split
  · exact h
  · simp only []
    have h1 := process_common_gone m sl cell_index i h hc
    split
    · exact h1
    · exact process_cell_events_gone cell_index i _ _ h1

/-- The slot boundary notifies nothing for a deleted UE and leaves it deleted. -/
theorem slot_indication_gone (r : ue_repository) (i : Nat) (h : r.gone i) :
    r.slot_indication.1.gone i ∧ r.slot_indication.2.count i = 0 := by
  obtain ⟨h1, h2, h3⟩ := slot_indication_spec r i
  have hr : ¬ (i ∈ r.ues_to_rem ∧ r.removable i = true) := fun hh => h.2 hh.1
  rw [if_neg hr] at h1 h2
  refine ⟨⟨h1.trans h.1, ?_⟩, h2⟩
  rw [h3]
  exact fun hh => h.2 hh.1

/-- The removal closure: nothing happens for a UE that the repository does not hold; for a
UE that it holds, the removal is scheduled and the event logger and the metrics handler
are called. -/
theorem run_ue_removal_callback (m : ue_event_manager) (i : Nat) :
    (m.ue_db.contains i = false → m.run_common_callback (.ue_removal i) = m) ∧
    (∀ u, m.ue_db.get i = some u →
      m.run_common_callback (.ue_removal i) =
        { m with
          ue_db := m.ue_db.schedule_ue_rem i
          out := m.out ++ [.ev_ue_delete i u.crnti, .metrics_ue_deletion i] }) := by
  refine ⟨fun h => ?_, fun u h => ?_⟩
  · simp [ue_event_manager.run_common_callback, h]
  · simp only [ue_event_manager.run_common_callback, contains_of_get h, h]
    rfl

/-! ## UE removal: from the request to the slot boundary -/

/-- A removal request for a UE of the cell, pushed to a manager without pending events and
followed by `run` for a new slot: the removal is scheduled in the repository, which is
otherwise as before, and the event logger and the metrics handler are called once. -/
theorem removal_request_run (m : ue_event_manager) (i : Nat) (sl : slot_point) (cell : Nat)
    (u : ue) (pcell : ue_cell)
    (hf : m.failed = false) (hcell : m.cell_check_fails cell = false)
    (hp : m.common_events.pending_events = [])
    (hcs : (m.cell_specific_events cell).pending_events = [])
    (hsl : m.last_sl ≠ some sl) (hi : i ≠ MAX_NOF_DU_UES)
    (hu : m.ue_db.get i = some u) (hpc : u.get_pcell = some pcell)
    (hci : pcell.cell_index = cell) :
    ((m.handle_ue_removal_request i).run sl cell).ue_db = m.ue_db.schedule_ue_rem i ∧
    ((m.handle_ue_removal_request i).run sl cell).failed = false ∧
    ((m.handle_ue_removal_request i).run sl cell).out =
      m.out ++ [.common_callback m.next_seq, .ev_ue_delete i u.crnti, .metrics_ue_deletion i] := by
  have hct := contains_of_get hu
  have hne : (m.last_sl != some sl) = true := by simpa using hsl
  have hcf : (m.handle_ue_removal_request i).cell_check_fails cell = false := hcell
  unfold ue_event_manager.run
  rw [hcf]
  simp only [ue_event_manager.handle_ue_removal_request, ue_event_manager.emplace_common,
    Bool.false_eq_true, if_false,
    ue_event_manager.process_common, hne, if_true, slot_event_list.slot_indication,
    slot_event_list.emplace, slot_event_list.get_events, hp, List.nil_append,
    ue_event_manager.process_common_events, hf, ue_event_manager.process_common_event,
    beq_iff_eq, hi, hct, Bool.not_true, hu, hpc, hci,
    ue_event_manager.run_common_callback, ue_event_manager.notify,
    ue_event_manager.process_cell_specific, hcs, ue_event_manager.process_cell_events,
    List.append_assoc, List.singleton_append]
  exact ⟨trivial, trivial, trivial⟩

/-! ## UE removal: grants made for other UEs -/

theorem same_grants_refl (c : Nat) (r : cell_resource_allocator) : same_grants_of c r r :=
  fun _ => rfl

theorem same_grants_trans {c : Nat} {r1 r2 r3 : cell_resource_allocator}
    (h1 : same_grants_of c r1 r2) (h2 : same_grants_of c r2 r3) : same_grants_of c r1 r3 :=
  fun j => (h2 j).trans (h1 j)

theorem same_grants_step {c : Nat} {r1 r2 r3 : cell_resource_allocator}
    (h2 : same_grants_of c r2 r3) (h1 : same_grants_of c r1 r2) : same_grants_of c r1 r3 :=
  fun j => (h2 j).trans (h1 j)

theorem same_grants_set_offset {c : Nat} {r : cell_resource_allocator} {k : Nat}
    {sa sa' : cell_slot_resource_allocator} (h : r.at_offset k = some sa)
    (hg : grants_of c sa' = grants_of c sa) : same_grants_of c r (r.set_offset k sa') := by
  intro j
  rw [at_offset_set_offset]
  split
  · subst_vars
    rw [h]
    simp [hg]
  · rfl

theorem same_grants_modify_offset {c : Nat} (cl : cell_t) (k : Nat)
    (f : cell_slot_resource_allocator → cell_slot_resource_allocator)
    (hf : ∀ sa, grants_of c (f sa) = grants_of c sa) :
    same_grants_of c cl.cell_alloc (cl.modify_offset k f).cell_alloc := by
  intro j
  rw [modify_offset_cell_alloc]
  split
  · cases cl.cell_alloc.at_offset j <;> simp [hf]
  · rfl

theorem same_grants_modify_dl_pdcch {c : Nat} (cl : cell_t)
    (F : pdcch_dl_information → pdcch_dl_information) :
    same_grants_of c cl.cell_alloc (cl.modify_dl_pdcch F).cell_alloc :=
  same_grants_modify_offset cl 0 _ (fun _ => rfl)

theorem same_grants_cancel_last_pdcch {c : Nat} (cl : cell_t) :
    same_grants_of c cl.cell_alloc cl.cancel_last_pdcch.cell_alloc := by
  unfold cell_t.cancel_last_pdcch
  cases h : cl.cell_alloc.at_offset 0 with
  | none => exact same_grants_refl c _
  | some sa =>
    simp only []
    refine same_grants_set_offset h ?_
    unfold srsran.cancel_last_pdcch
    split
    · rfl
    · split
      · split <;> rfl
      · rfl

/-- A request to the UCI allocator for one C-RNTI leaves the PDSCH and PUCCH grants of the
other C-RNTIs as they are. -/
theorem alloc_uci_harq_ue_same_grants {uci : uci_allocator} {r : cell_resource_allocator}
    {crnti k0 k1 : Nat} {res : uci_allocation × uci_allocator × cell_resource_allocator}
    (h : alloc_uci_harq_ue uci r crnti k0 k1 = some res) {c : Nat} (hne : crnti ≠ c) :
    same_grants_of c r res.2.2 := by
  unfold alloc_uci_harq_ue at h
  cases hsa : r.at_offset (k0 + k1) with
  | none => simp [hsa] at h
  | some sa =>
    simp only [hsa] at h
    cases hp : uci.pucch_resource sa.slot crnti (get_scheduled_pdsch_counter_in_ue_uci uci sa crnti) with
    | none =>
      simp only [hp, Option.some.injEq] at h
      subst h
      exact same_grants_refl c r
    | some ri =>
      simp only [hp, Option.some.injEq] at h
      subst h
      refine same_grants_set_offset hsa ?_
      unfold grants_of
      simp only [Prod.mk.injEq, true_and]
      have h1 : (crnti == c) = false := by simpa using hne
      rw [List.filter_cons, h1]
      simp only [Bool.false_eq_true, if_false, List.filter_filter]
      congr 1
      funext q
      by_cases hq : q.crnti = c
      · have : ¬ q.crnti = crnti := fun e => hne (e.symm.trans hq)
        simp [hq, this]
        intro e; exact hne e.symm
      · simp [hq]

theorem slot_at_set_cell_same_grants {a : ue_cell_grid_allocator} {k : Nat} {c0 c' : cell_t}
    (hc : a.cells.getD k none = some c0) {c : Nat}
    (hkeep : same_grants_of c c0.cell_alloc c'.cell_alloc) (k' j : Nat) :
    ((a.set_cell k c').slot_at k' j).map (grants_of c) = (a.slot_at k' j).map (grants_of c) := by
  by_cases hk : k' = k
  · subst hk
    rw [slot_at_of_cell (set_cell_getD_self a _ c' c0 hc), slot_at_of_cell hc]
    exact hkeep j
  · unfold ue_cell_grid_allocator.slot_at
    rw [set_cell_getD_other _ _ _ _ hk]

/-- A call of `allocate_dl_grant` that returns, made for a UE whose C-RNTI is not `c`,
leaves in every slot of every cell the PDSCH grants and the PUCCH grants that carry
the C-RNTI `c` as they are. -/
theorem allocate_dl_grant_same_grants (a : ue_cell_grid_allocator) (g : ue_pdsch_grant) (c : Nat)
    (hc : ∀ u, a.ues.getD g.user_ue_index none = some u → u.crnti ≠ c)
    (hx : ∀ ac, (allocate_dl_grant a g).exit ≠ .abort ac) (k j : Nat) :
    ((allocate_dl_grant a g).st.slot_at k j).map (grants_of c) =
      (a.slot_at k j).map (grants_of c) := by
  cases he : (allocate_dl_grant a g).exit with
  | abort ac => exact absurd he (hx ac)
  | failure f =>
    cases hb : f.before_pdcch with
    | true => rw [(allocate_dl_grant_early he hb).1]
    | false =>
      cases f <;> simp only [alloc_failure.before_pdcch] at hb <;> try cases hb
      · rw [(allocate_dl_grant_no_pdcch he).1]
      · rw [(allocate_dl_grant_no_pucch he).1]
      · obtain ⟨ctx, hp, heq⟩ := allocate_dl_grant_late he rfl
        have pre := dl_grant_prechecks_ok hp
        have hne : ctx.u.crnti ≠ c := hc ctx.u pre.h_ue
        rw [heq] at he ⊢
        unfold dl_grant_alloc at he ⊢
        cases hr : pdcch_candidate ctx.cell.pdcch_sched ctx.pdcch_alloc ctx.u.crnti
            ctx.ss_info.cfg_id g.aggr_lvl with
        | none => simp [alloc_dl_pdcch_ue, hr] at he
        | some cand =>
          simp only [alloc_dl_pdcch_ue, hr] at he ⊢
          obtain ⟨k1, res, uci_calls, hempty, hk1, hres, hs, hst, hcalls, hev⟩ :=
            dl_grant_uci_no_mcs he
          simp only at hres
          rw [hst]
          have h1 := @alloc_uci_harq_ue_same_grants _ _ _ _ _ _ hres c hne
          have h0 := @same_grants_set_offset c _ 0 _
            ({ ctx.pdcch_alloc with
                dl_res_grid := ⟨span_cells cand.symbols cand.crbs ++
                  ctx.pdcch_alloc.dl_res_grid.cells⟩,
                result.dl.dl_pdcchs := ctx.pdcch_alloc.result.dl.dl_pdcchs ++
                  [⟨ctx.u.crnti, ctx.ss_info.cfg_id, g.aggr_lvl, 0, none⟩] } :
              cell_slot_resource_allocator) pre.h_pdcch_alloc rfl
          exact slot_at_set_cell_same_grants pre.h_cell
            (same_grants_trans (same_grants_trans (same_grants_trans h0 h1)
              (same_grants_modify_dl_pdcch _ _)) (same_grants_cancel_last_pdcch _)) k j
  | success =>
    obtain ⟨ctx, hp, heq⟩ := allocate_dl_grant_ok he
    have pre := dl_grant_prechecks_ok hp
    have hne : ctx.u.crnti ≠ c := hc ctx.u pre.h_ue
    rw [heq] at he ⊢
    unfold dl_grant_alloc at he ⊢
    cases hr : pdcch_candidate ctx.cell.pdcch_sched ctx.pdcch_alloc ctx.u.crnti
        ctx.ss_info.cfg_id g.aggr_lvl with
    | none => simp [alloc_dl_pdcch_ue, hr] at he
    | some cand =>
      simp only [alloc_dl_pdcch_ue, hr] at he ⊢
      obtain ⟨k1, res, uci_calls, pdsch_cfg, pa2, mcs_tbs, rv, dci, pdsch, hk1, hres, hs, hpa2,
        hcfg, hmcs, hcoll, hrv, hdci, hpdsch, hev, hrun⟩ := dl_grant_uci_done he
      simp only at hres
      rw [hrun]
      have h1 := @alloc_uci_harq_ue_same_grants _ _ _ _ _ _ hres c hne
      have h0 := @same_grants_set_offset c _ 0 _
        ({ ctx.pdcch_alloc with
            dl_res_grid := ⟨span_cells cand.symbols cand.crbs ++
              ctx.pdcch_alloc.dl_res_grid.cells⟩,
            result.dl.dl_pdcchs := ctx.pdcch_alloc.result.dl.dl_pdcchs ++
              [⟨ctx.u.crnti, ctx.ss_info.cfg_id, g.aggr_lvl, 0, none⟩] } :
          cell_slot_resource_allocator) pre.h_pdcch_alloc rfl
      have hrnti : pdsch.rnti = ctx.u.crnti := (build_pdsch_fields hpdsch).1
      have hmsg : ∀ (msg : dl_msg_alloc), msg.pdsch_cfg = pdsch →
          ∀ sa : cell_slot_resource_allocator,
            grants_of c ({ sa with result.dl.ue_grants := sa.result.dl.ue_grants ++ [msg] } :
              cell_slot_resource_allocator) = grants_of c sa := by
        intro msg hm sa
        unfold grants_of
        simp only [Prod.mk.injEq, and_true, List.filter_append]
        have : (msg.pdsch_cfg.rnti == c) = false := by
          rw [hm, hrnti]; simpa using hne
        simp [List.filter_cons, this]
      have hcells : (a.set_ue g.user_ue_index
          (dl_grant_ue g ctx
            ((dl_alloc_harq ctx.h_dl pa2.slot k1 a.expert_cfg.max_nof_harq_retxs
                res.1.dai).save_alloc_params dci.type pdsch)
            pdsch.tb_size_bytes)).cells.getD g.cell_index none = some ctx.cell := by
        rw [set_ue_cells]; exact pre.h_cell
      refine (slot_at_set_cell_same_grants hcells ?_ k j).trans ?_
      · exact same_grants_step (same_grants_modify_offset _ _ _
            (hmsg (dl_grant_msg g ctx k1
              ((dl_alloc_harq ctx.h_dl pa2.slot k1 a.expert_cfg.max_nof_harq_retxs
                  res.1.dai).save_alloc_params dci.type pdsch) pdsch) rfl))
          (same_grants_step (same_grants_modify_dl_pdcch _ _)
            (same_grants_step (same_grants_modify_offset _ _ _ (fun _ => rfl))
              (same_grants_step (same_grants_modify_dl_pdcch _ _)
                (same_grants_step h1 h0))))
      · unfold ue_cell_grid_allocator.slot_at
        rw [set_ue_cells]

theorem same_grants_modify_ul_pdcch {c : Nat} (cl : cell_t)
    (F : pdcch_ul_information → pdcch_ul_information) :
    same_grants_of c cl.cell_alloc (cl.modify_ul_pdcch F).cell_alloc :=
  same_grants_modify_offset cl 0 _ (fun _ => rfl)

theorem emplace_pusch_grants_of (msg : ul_sched_info) (crnti : Nat)
    (sa : cell_slot_resource_allocator) {c : Nat} (hne : crnti ≠ c) :
    grants_of c (emplace_pusch msg crnti sa) = grants_of c sa := by
  unfold emplace_pusch multiplex_uci_on_pusch grants_of
  cases sa.result.ul.pucchs.find? (fun q => q.crnti == crnti) with
  | none => rfl
  | some q =>
    simp only [Prod.mk.injEq, true_and, List.filter_filter]
    apply List.filter_congr
    intro x _
    by_cases hx : x.crnti = c
    · have : ¬ x.crnti = crnti := fun e => hne (e.symm.trans hx)
      simp [hx, this]
      exact fun e => hne e.symm
    · simp [hx]

/-- A call of `allocate_ul_grant` that returns, made for a UE whose C-RNTI is not `c`,
leaves in every slot of every cell the PDSCH grants and the PUCCH grants that carry
the C-RNTI `c` as they are. -/
theorem allocate_ul_grant_same_grants (a : ue_cell_grid_allocator) (g : ue_pusch_grant) (c : Nat)
    (hc : ∀ u, a.ues.getD g.user_ue_index none = some u → u.crnti ≠ c)
    (hx : ∀ ac, (allocate_ul_grant a g).exit ≠ .abort ac) (k j : Nat) :
    ((allocate_ul_grant a g).st.slot_at k j).map (grants_of c) =
      (a.slot_at k j).map (grants_of c) := by
  cases he : (allocate_ul_grant a g).exit with
  | abort ac => exact absurd he (hx ac)
  | failure f => rw [allocate_ul_grant_failure_state he]
  | success =>
    obtain ⟨ctx, hp, heq⟩ := allocate_ul_grant_ok he
    have pre := ul_grant_prechecks_ok hp
    have hne : ctx.u.crnti ≠ c := hc ctx.u pre.h_ue
    rw [heq] at he ⊢
    unfold ul_grant_alloc at he ⊢
    cases hr : pdcch_candidate ctx.cell.pdcch_sched ctx.pdcch_alloc ctx.u.crnti ctx.ss_info.cfg_id
        g.aggr_lvl with
    | none => simp [alloc_ul_pdcch_ue, hr] at he
    | some cand =>
      simp only [alloc_ul_pdcch_ue, hr] at he ⊢
      obtain ⟨pa2, mcs_tbs, hpa2, hmcs, hrun⟩ := ul_grant_mcs_success he
      rw [hrun] at he ⊢
      obtain ⟨grid, dai, rv, dci, hfill, hdai, hrv, hdci, hrun2⟩ := ul_grant_commit_success he
      rw [hrun2]
      have h0 : ctx.cell.cell_alloc.at_offset 0 = some ctx.pdcch_alloc := pre.h_pdcch_alloc
      have h00 := @same_grants_set_offset c _ 0 _
        ({ ctx.pdcch_alloc with
            dl_res_grid := ⟨span_cells cand.symbols cand.crbs ++
              ctx.pdcch_alloc.dl_res_grid.cells⟩,
            result.dl.ul_pdcchs := ctx.pdcch_alloc.result.dl.ul_pdcchs ++
              [⟨ctx.u.crnti, ctx.ss_info.cfg_id, g.aggr_lvl, none⟩] } :
          cell_slot_resource_allocator) h0 rfl
      refine (slot_at_set_cell_same_grants
        (by rw [set_ue_cells]; exact pre.h_cell : (ue_cell_grid_allocator.set_ue a _ _).cells.getD
          g.cell_index none = some ctx.cell) ?_ k j).trans ?_
      · exact same_grants_step (same_grants_modify_offset _ _ _
            (fun sa => emplace_pusch_grants_of _ _ sa hne))
          (same_grants_step (same_grants_modify_ul_pdcch _ _)
            (same_grants_step (same_grants_modify_offset _ _ _ (fun _ => rfl)) h00))
      · unfold ue_cell_grid_allocator.slot_at
        rw [set_ue_cells]

/-! ## UE removal: the slot of the scheduler -/

/-- The slot of the scheduler, seen from one UE index: when the events of the slot are
processed without failure, the deletion of the UE is notified once more exactly when
its removal is scheduled and it has no outstanding HARQ process at the slot boundary. -/
theorem run_slot_spec (s : ue_scheduler) (sl : slot_point) (cell : Nat) (i : Nat)
    (hf : (s.event_mng.run sl cell).failed = false) :
    (s.run_slot sl cell).deleted.count i = s.deleted.count i +
      (if i ∈ (s.event_mng.run sl cell).ue_db.ues_to_rem ∧
          (s.event_mng.run sl cell).ue_db.removable i = true then 1 else 0) ∧
    (s.run_slot sl cell).event_mng.ue_db.get i =
      (if i ∈ (s.event_mng.run sl cell).ue_db.ues_to_rem ∧
          (s.event_mng.run sl cell).ue_db.removable i = true then none
        else (s.event_mng.run sl cell).ue_db.get i) ∧
    (i ∈ (s.run_slot sl cell).event_mng.ue_db.ues_to_rem ↔
      i ∈ (s.event_mng.run sl cell).ue_db.ues_to_rem ∧
        ∃ u, (s.event_mng.run sl cell).ue_db.get i = some u ∧ u.has_outstanding_harq = true) := by
  obtain ⟨h1, h2, h3⟩ := slot_indication_spec (s.event_mng.run sl cell).ue_db i
  unfold ue_scheduler.run_slot
  simp only [hf, Bool.false_eq_true, if_false]
  refine ⟨?_, h1, h3⟩
  rw [List.count_append, h2]

/-- A slot whose events do not create the UE notifies nothing for a deleted UE and leaves
it deleted. -/
theorem run_slot_gone (s : ue_scheduler) (sl : slot_point) (cell : Nat) (i : Nat)
    (h : s.event_mng.ue_db.gone i) (hc : s.event_mng.no_creation_of i) :
    (s.run_slot sl cell).deleted.count i = s.deleted.count i ∧
    (s.run_slot sl cell).event_mng.ue_db.gone i := by
  have hg := run_gone s.event_mng sl cell i h hc
  obtain ⟨g1, g2⟩ := slot_indication_gone _ i hg
  unfold ue_scheduler.run_slot
  simp only []
  split
  · exact ⟨rfl, hg⟩
  · refine ⟨?_, g1⟩
    show List.count i (s.deleted ++ _) = _
    rw [List.count_append, g2]
    rfl

/-- A removal request for a UE of the cell, pushed when no event is pending, and the next
slot: a UE without outstanding HARQ process is deleted and its deletion notified once in
this slot; a UE with an outstanding HARQ process stays, scheduled for removal, and
nothing is notified. -/
theorem removal_request_run_slot (s : ue_scheduler) (i : Nat) (sl : slot_point) (cell : Nat)
    (u : ue) (pcell : ue_cell)
    (hf : s.event_mng.failed = false) (hcell : s.event_mng.cell_check_fails cell = false)
    (hp : s.event_mng.common_events.pending_events = [])
    (hcs : (s.event_mng.cell_specific_events cell).pending_events = [])
    (hsl : s.event_mng.last_sl ≠ some sl) (hi : i ≠ MAX_NOF_DU_UES)
    (hu : s.event_mng.ue_db.get i = some u) (hpc : u.get_pcell = some pcell)
    (hci : pcell.cell_index = cell) :
    (u.has_outstanding_harq = false →
      (({ s with event_mng := s.event_mng.handle_ue_removal_request i } :
          ue_scheduler).run_slot sl cell).deleted.count i = s.deleted.count i + 1 ∧
      (({ s with event_mng := s.event_mng.handle_ue_removal_request i } :
          ue_scheduler).run_slot sl cell).event_mng.ue_db.gone i) ∧
    (u.has_outstanding_harq = true →
      (({ s with event_mng := s.event_mng.handle_ue_removal_request i } :
          ue_scheduler).run_slot sl cell).deleted.count i = s.deleted.count i ∧
      (({ s with event_mng := s.event_mng.handle_ue_removal_request i } :
          ue_scheduler).run_slot sl cell).event_mng.ue_db.get i = some u ∧
      i ∈ (({ s with event_mng := s.event_mng.handle_ue_removal_request i } :
          ue_scheduler).run_slot sl cell).event_mng.ue_db.ues_to_rem) := by
  obtain ⟨r1, r2, -⟩ := removal_request_run s.event_mng i sl cell u pcell hf hcell hp hcs hsl hi hu
    hpc hci
  obtain ⟨q1, q2, q3⟩ := run_slot_spec
    ({ s with event_mng := s.event_mng.handle_ue_removal_request i } : ue_scheduler) sl cell i r2
  simp only [r1] at q1 q2 q3
  have hmem : i ∈ (s.event_mng.ue_db.schedule_ue_rem i).ues_to_rem := by
    unfold ue_repository.schedule_ue_rem
    simp
  have hget : (s.event_mng.ue_db.schedule_ue_rem i).get i = some u := hu
  have hrem : (s.event_mng.ue_db.schedule_ue_rem i).removable i = !u.has_outstanding_harq := by
    unfold ue_repository.removable
    rw [hget]
  rw [hrem, hget] at q2
  rw [hrem] at q1
  rw [hget] at q3
  constructor
  · intro hb
    rw [hb] at q1 q2
    simp only [Bool.not_false, and_true, hmem, if_true] at q1 q2
    refine ⟨q1, q2, ?_⟩
    rw [q3]
    rintro ⟨_, u', hu', hb'⟩
    rw [← Option.some.inj hu', hb] at hb'
    cases hb'
  · intro hb
    rw [hb] at q1 q2
    simp only [Bool.not_true, Bool.false_eq_true, and_false, if_false] at q1 q2
    exact ⟨q1, q2, q3.mpr ⟨hmem, u, rfl, hb⟩⟩

/-! ## UE removal: scheduling while the removal is pending -/

theorem new_pdschs_of_emplace_pusch (msg : ul_sched_info) (crnti c : Nat)
    (sa : cell_slot_resource_allocator) :
    new_pdschs_of c (emplace_pusch msg crnti sa) = new_pdschs_of c sa := by
  unfold emplace_pusch multiplex_uci_on_pusch new_pdschs_of
  cases sa.result.ul.pucchs.find? (fun q => q.crnti == crnti) <;> rfl

theorem dl_grant_ue_crnti (g : ue_pdsch_grant) (ctx : dl_grant_ctx) (h : dl_harq_process)
    (tb : Nat) : (dl_grant_ue g ctx h tb).crnti = ctx.u.crnti := by
  unfold dl_grant_ue
  split <;> rfl

/-- A call of `allocate_dl_grant` that returns leaves the C-RNTI of every UE, and the UEs
other than the one of the grant, as they are. -/
theorem allocate_dl_grant_ues (a : ue_cell_grid_allocator) (g : ue_pdsch_grant)
    (hx : ∀ ac, (allocate_dl_grant a g).exit ≠ .abort ac) (j : Nat) :
    ((allocate_dl_grant a g).st.ues.getD j none).map (fun u => u.crnti) =
      (a.ues.getD j none).map (fun u => u.crnti) ∧
    (j ≠ g.user_ue_index → (allocate_dl_grant a g).st.ues.getD j none = a.ues.getD j none) := by
  cases he : (allocate_dl_grant a g).exit with
  | abort ac => exact absurd he (hx ac)
  | failure f =>
    rw [(allocate_dl_grant_failure_frame he).2.2]
    exact ⟨rfl, fun _ => rfl⟩
  | success =>
    obtain ⟨ctx, cand, k1, uci, pdsch_cfg, mcs_tbs, rv, dci, pdsch, d⟩ := allocate_dl_grant_done he
    by_cases hj : j = g.user_ue_index
    · subst hj
      rw [d.h_ue, d.pre.h_ue]
      exact ⟨by simp only [Option.map_some', dl_grant_ue_crnti], fun h => absurd rfl h⟩
    · rw [d.h_other_ues j hj]
      exact ⟨rfl, fun _ => rfl⟩

/-- A call of `allocate_ul_grant` that returns leaves the C-RNTI of every UE, and the UEs
other than the one of the grant, as they are. -/
theorem allocate_ul_grant_ues (a : ue_cell_grid_allocator) (g : ue_pusch_grant)
    (hx : ∀ ac, (allocate_ul_grant a g).exit ≠ .abort ac) (j : Nat) :
    ((allocate_ul_grant a g).st.ues.getD j none).map (fun u => u.crnti) =
      (a.ues.getD j none).map (fun u => u.crnti) ∧
    (j ≠ g.user_ue_index → (allocate_ul_grant a g).st.ues.getD j none = a.ues.getD j none) := by
  cases he : (allocate_ul_grant a g).exit with
  | abort ac => exact absurd he (hx ac)
  | failure f =>
    rw [allocate_ul_grant_failure_state he]
    exact ⟨rfl, fun _ => rfl⟩
  | success =>
    obtain ⟨ctx, cand, mcs_tbs, dai, rv, dci, d⟩ := allocate_ul_grant_done he
    by_cases hj : j = g.user_ue_index
    · subst hj
      rw [d.h_ue, d.pre.h_ue]
      exact ⟨rfl, fun h => absurd rfl h⟩
    · rw [d.h_other_ues j hj]
      exact ⟨rfl, fun _ => rfl⟩

/-- A call of `allocate_dl_grant` that returns, made for a HARQ process that is not empty
whenever the UE has the C-RNTI `c`, adds no PDSCH grant of a new transmission for `c` to
any slot. -/
theorem allocate_dl_grant_new_pdschs (a : ue_cell_grid_allocator) (g : ue_pdsch_grant) (c : Nat)
    (hnew : ∀ u h, a.ues.getD g.user_ue_index none = some u → u.crnti = c →
      a.dl_harq_of g.user_ue_index g.cell_index g.h_id = some h → h.empty = false)
    (hx : ∀ ac, (allocate_dl_grant a g).exit ≠ .abort ac) (k j : Nat) :
    ((allocate_dl_grant a g).st.slot_at k j).map (new_pdschs_of c) =
      (a.slot_at k j).map (new_pdschs_of c) := by
  cases he : (allocate_dl_grant a g).exit with
  | abort ac => exact absurd he (hx ac)
  | failure f =>
    exact map_of_erase_pucchs ((allocate_dl_grant_failure_frame he).1 k j) _ (fun _ => rfl)
  | success =>
    obtain ⟨ctx, cand, k1, uci, pdsch_cfg, mcs_tbs, rv, dci, pdsch, d⟩ := allocate_dl_grant_done he
    by_cases hk : k = g.cell_index
    · subst hk
      obtain ⟨p, hp⟩ := d.h_slots j
      rw [hp, Option.map_map]
      have hmsg : ((dl_grant_msg g ctx k1
            ((dl_alloc_harq ctx.h_dl ctx.pdsch_alloc.slot k1 a.expert_cfg.max_nof_harq_retxs
                uci.dai).save_alloc_params dci.type pdsch) pdsch).pdsch_cfg.rnti == c &&
          (dl_grant_msg g ctx k1
            ((dl_alloc_harq ctx.h_dl ctx.pdsch_alloc.slot k1 a.expert_cfg.max_nof_harq_retxs
                uci.dai).save_alloc_params dci.type pdsch) pdsch).nof_retxs == 0) = false := by
        show (pdsch.rnti == c &&
          (dl_alloc_harq ctx.h_dl ctx.pdsch_alloc.slot k1 a.expert_cfg.max_nof_harq_retxs
            uci.dai).nof_retxs == 0) = false
        rw [(build_pdsch_fields d.h_pdsch).1]
        by_cases hc : ctx.u.crnti = c
        · have he0 := hnew ctx.u ctx.h_dl d.pre.h_ue hc (dl_harq_of_ctx d.pre)
          have hn : (dl_alloc_harq ctx.h_dl ctx.pdsch_alloc.slot k1
              a.expert_cfg.max_nof_harq_retxs uci.dai).nof_retxs ≠ 0 := by
            intro h0
            rw [dl_alloc_harq_nof_retxs, he0] at h0
            cases h0
          simp [hn]
        · simp [hc]
      congr 1
      funext y
      show new_pdschs_of c (dl_final_slot _ _ _ _ _ _ _ _ y) = new_pdschs_of c y
      unfold dl_final_slot new_pdschs_of
      simp only [List.filter_append]
      split
      · simp only [List.filter_cons, hmsg, Bool.false_eq_true, if_false, List.filter_nil,
          List.append_nil]
      · simp only [List.filter_nil, List.append_nil]
    · rw [slot_at_other_cell (d.h_other_cells k hk) j]

/-- A call of `allocate_ul_grant` that returns leaves the PDSCH grants of every slot as they
are. -/
theorem allocate_ul_grant_new_pdschs (a : ue_cell_grid_allocator) (g : ue_pusch_grant) (c : Nat)
    (hx : ∀ ac, (allocate_ul_grant a g).exit ≠ .abort ac) (k j : Nat) :
    ((allocate_ul_grant a g).st.slot_at k j).map (new_pdschs_of c) =
      (a.slot_at k j).map (new_pdschs_of c) := by
  cases he : (allocate_ul_grant a g).exit with
  | abort ac => exact absurd he (hx ac)
  | failure f => rw [allocate_ul_grant_failure_state he]
  | success =>
    obtain ⟨ctx, cand, mcs_tbs, dai, rv, dci, d⟩ := allocate_ul_grant_done he
    by_cases hk : k = g.cell_index
    · subst hk
      rw [d.h_slots j, Option.map_map]
      congr 1
      funext y
      show new_pdschs_of c (ul_final_slot _ _ _ _ _ _ _ _ y) = new_pdschs_of c y
      unfold ul_final_slot
      split
      · rw [new_pdschs_of_emplace_pusch]
        rfl
      · rfl
    · rw [slot_at_other_cell (d.h_other_cells k hk) j]

/-! ## UE removal: the PUCCH grants already reserved -/

theorem has_pucch_of_grants (c : Nat) (sa : cell_slot_resource_allocator) :
    has_pucch_of c sa = (grants_of c sa).2.any (fun _ => true) := by
  unfold has_pucch_of grants_of
  simp only [List.any_filter, Bool.and_true]

theorem map_has_pucch_of_grants (c : Nat) (o : Option cell_slot_resource_allocator) :
    o.map (has_pucch_of c) = (o.map (grants_of c)).map (fun g => g.2.any (fun _ => true)) := by
  cases o with
  | none => rfl
  | some sa => simp only [Option.map_some', has_pucch_of_grants]

theorem keeps_pucch_of_same {c : Nat} {r r' : cell_resource_allocator}
    (h : same_grants_of c r r') : keeps_pucch_of c r r' := by
  intro j hj
  rw [map_has_pucch_of_grants] at hj ⊢
  rw [h j]
  exact hj

theorem keeps_pucch_refl (c : Nat) (r : cell_resource_allocator) : keeps_pucch_of c r r :=
  fun _ h => h

theorem keeps_pucch_step {c : Nat} {r1 r2 r3 : cell_resource_allocator}
    (h2 : keeps_pucch_of c r2 r3) (h1 : keeps_pucch_of c r1 r2) : keeps_pucch_of c r1 r3 :=
  fun j h => h2 j (h1 j h)

theorem keeps_pucch_set_offset {c : Nat} {r : cell_resource_allocator} {k : Nat}
    {sa sa' : cell_slot_resource_allocator} (h : r.at_offset k = some sa)
    (hp : has_pucch_of c sa = true → has_pucch_of c sa' = true) :
    keeps_pucch_of c r (r.set_offset k sa') := by
  intro j hj
  rw [at_offset_set_offset]
  split
  · subst_vars
    rw [h] at hj ⊢
    simp only [Option.map_some', Option.some.injEq] at hj ⊢
    exact hp hj
  · exact hj

theorem keeps_pucch_modify_offset {c : Nat} (cl : cell_t) (k : Nat)
    (f : cell_slot_resource_allocator → cell_slot_resource_allocator)
    (hf : ∀ sa, has_pucch_of c (f sa) = has_pucch_of c sa) :
    keeps_pucch_of c cl.cell_alloc (cl.modify_offset k f).cell_alloc := by
  intro j hj
  rw [modify_offset_cell_alloc]
  split
  · cases hsa : cl.cell_alloc.at_offset j with
    | none => rw [hsa] at hj; cases hj
    | some sa =>
      rw [hsa] at hj
      simp only [Option.map_some', Option.some.injEq] at hj ⊢
      rw [hf]
      exact hj
  · exact hj

/-- A request to the UCI allocator, for any C-RNTI, keeps a PUCCH grant for the C-RNTI `c`
in every slot that holds one. -/
theorem alloc_uci_harq_ue_keeps_pucch {uci : uci_allocator} {r : cell_resource_allocator}
    {crnti k0 k1 : Nat} {res : uci_allocation × uci_allocator × cell_resource_allocator}
    (h : alloc_uci_harq_ue uci r crnti k0 k1 = some res) (c : Nat) :
    keeps_pucch_of c r res.2.2 := by
  unfold alloc_uci_harq_ue at h
  cases hsa : r.at_offset (k0 + k1) with
  | none => simp [hsa] at h
  | some sa =>
    simp only [hsa] at h
    cases hp : uci.pucch_resource sa.slot crnti (get_scheduled_pdsch_counter_in_ue_uci uci sa crnti) with
    | none =>
      simp only [hp, Option.some.injEq] at h
      subst h
      exact keeps_pucch_refl c r
    | some ri =>
      simp only [hp, Option.some.injEq] at h
      subst h
      refine keeps_pucch_set_offset hsa ?_
      intro hhas
      unfold has_pucch_of at hhas ⊢
      by_cases hc : crnti = c
      · simp [List.any_cons, hc]
      · rw [List.any_eq_true] at hhas
        obtain ⟨q, hq, hqc⟩ := hhas
        have hqc' : q.crnti = c := by simpa using hqc
        rw [List.any_eq_true]
        refine ⟨q, List.mem_cons_of_mem _ (List.mem_filter.mpr ⟨hq, ?_⟩), hqc⟩
        have : ¬ q.crnti = crnti := fun e => hc (e.symm.trans hqc')
        simpa using this

theorem slot_at_set_cell_keeps_pucch {a : ue_cell_grid_allocator} {k : Nat} {c0 c' : cell_t}
    (hc : a.cells.getD k none = some c0) {c : Nat}
    (hkeep : keeps_pucch_of c c0.cell_alloc c'.cell_alloc) (k' j : Nat)
    (h : (a.slot_at k' j).map (has_pucch_of c) = some true) :
    ((a.set_cell k c').slot_at k' j).map (has_pucch_of c) = some true := by
  by_cases hk : k' = k
  · subst hk
    rw [slot_at_of_cell (set_cell_getD_self a _ c' c0 hc)]
    rw [slot_at_of_cell hc] at h
    exact hkeep j h
  · unfold ue_cell_grid_allocator.slot_at at h ⊢
    rw [set_cell_getD_other _ _ _ _ hk]
    exact h

/-- A call of `allocate_dl_grant` that returns, for any UE, keeps a PUCCH grant for the
C-RNTI `c` in every slot that holds one. -/
theorem allocate_dl_grant_keeps_pucch (a : ue_cell_grid_allocator) (g : ue_pdsch_grant) (c : Nat)
    (hx : ∀ ac, (allocate_dl_grant a g).exit ≠ .abort ac) (k j : Nat)
    (h : (a.slot_at k j).map (has_pucch_of c) = some true) :
    ((allocate_dl_grant a g).st.slot_at k j).map (has_pucch_of c) = some true := by
  cases he : (allocate_dl_grant a g).exit with
  | abort ac => exact absurd he (hx ac)
  | failure f =>
    cases hb : f.before_pdcch with
    | true => rw [(allocate_dl_grant_early he hb).1]; exact h
    | false =>
      cases f <;> simp only [alloc_failure.before_pdcch] at hb <;> try cases hb
      · rw [(allocate_dl_grant_no_pdcch he).1]; exact h
      · rw [(allocate_dl_grant_no_pucch he).1]; exact h
      · obtain ⟨ctx, hp, heq⟩ := allocate_dl_grant_late he rfl
        have pre := dl_grant_prechecks_ok hp
        rw [heq] at he ⊢
        unfold dl_grant_alloc at he ⊢
        cases hr : pdcch_candidate ctx.cell.pdcch_sched ctx.pdcch_alloc ctx.u.crnti
            ctx.ss_info.cfg_id g.aggr_lvl with
        | none => simp [alloc_dl_pdcch_ue, hr] at he
        | some cand =>
          simp only [alloc_dl_pdcch_ue, hr] at he ⊢
          obtain ⟨k1, res, uci_calls, hempty, hk1, hres, hs, hst, hcalls, hev⟩ :=
            dl_grant_uci_no_mcs he
          simp only at hres
          rw [hst]
          have h1 := @alloc_uci_harq_ue_keeps_pucch _ _ _ _ _ _ hres c
          have h0 := @same_grants_set_offset c _ 0 _
            ({ ctx.pdcch_alloc with
                dl_res_grid := ⟨span_cells cand.symbols cand.crbs ++
                  ctx.pdcch_alloc.dl_res_grid.cells⟩,
                result.dl.dl_pdcchs := ctx.pdcch_alloc.result.dl.dl_pdcchs ++
                  [⟨ctx.u.crnti, ctx.ss_info.cfg_id, g.aggr_lvl, 0, none⟩] } :
              cell_slot_resource_allocator) pre.h_pdcch_alloc rfl
          exact slot_at_set_cell_keeps_pucch pre.h_cell
            (keeps_pucch_step (keeps_pucch_of_same (same_grants_cancel_last_pdcch _))
              (keeps_pucch_step (keeps_pucch_of_same (same_grants_modify_dl_pdcch _ _))
                (keeps_pucch_step h1 (keeps_pucch_of_same h0)))) k j h
  | success =>
    obtain ⟨ctx, hp, heq⟩ := allocate_dl_grant_ok he
    have pre := dl_grant_prechecks_ok hp
    rw [heq] at he ⊢
    unfold dl_grant_alloc at he ⊢
    cases hr : pdcch_candidate ctx.cell.pdcch_sched ctx.pdcch_alloc ctx.u.crnti
        ctx.ss_info.cfg_id g.aggr_lvl with
    | none => simp [alloc_dl_pdcch_ue, hr] at he
    | some cand =>
      simp only [alloc_dl_pdcch_ue, hr] at he ⊢
      obtain ⟨k1, res, uci_calls, pdsch_cfg, pa2, mcs_tbs, rv, dci, pdsch, hk1, hres, hs, hpa2,
        hcfg, hmcs, hcoll, hrv, hdci, hpdsch, hev, hrun⟩ := dl_grant_uci_done he
      simp only at hres
      rw [hrun]
      have h1 := @alloc_uci_harq_ue_keeps_pucch _ _ _ _ _ _ hres c
      have h0 := @same_grants_set_offset c _ 0 _
        ({ ctx.pdcch_alloc with
            dl_res_grid := ⟨span_cells cand.symbols cand.crbs ++
              ctx.pdcch_alloc.dl_res_grid.cells⟩,
            result.dl.dl_pdcchs := ctx.pdcch_alloc.result.dl.dl_pdcchs ++
              [⟨ctx.u.crnti, ctx.ss_info.cfg_id, g.aggr_lvl, 0, none⟩] } :
          cell_slot_resource_allocator) pre.h_pdcch_alloc rfl
      have hcells : (a.set_ue g.user_ue_index
          (dl_grant_ue g ctx
            ((dl_alloc_harq ctx.h_dl pa2.slot k1 a.expert_cfg.max_nof_harq_retxs
                res.1.dai).save_alloc_params dci.type pdsch)
            pdsch.tb_size_bytes)).cells.getD g.cell_index none = some ctx.cell := by
        rw [set_ue_cells]; exact pre.h_cell
      refine slot_at_set_cell_keeps_pucch hcells ?_ k j ?_
      · exact keeps_pucch_step (keeps_pucch_modify_offset _ _ _ (fun _ => rfl))
          (keeps_pucch_step (keeps_pucch_of_same (same_grants_modify_dl_pdcch _ _))
            (keeps_pucch_step
              (keeps_pucch_of_same (same_grants_modify_offset _ _ _ (fun _ => rfl)))
              (keeps_pucch_step (keeps_pucch_of_same (same_grants_modify_dl_pdcch _ _))
                (keeps_pucch_step h1 (keeps_pucch_of_same h0)))))
      · unfold ue_cell_grid_allocator.slot_at at h ⊢
        rw [set_ue_cells]
        exact h

/-- A call of `allocate_ul_grant` that returns, made for a UE whose C-RNTI is not `c`, keeps
a PUCCH grant for `c` in every slot that holds one. -/
theorem allocate_ul_grant_keeps_pucch (a : ue_cell_grid_allocator) (g : ue_pusch_grant) (c : Nat)
    (hc : ∀ u, a.ues.getD g.user_ue_index none = some u → u.crnti ≠ c)
    (hx : ∀ ac, (allocate_ul_grant a g).exit ≠ .abort ac) (k j : Nat)
    (h : (a.slot_at k j).map (has_pucch_of c) = some true) :
    ((allocate_ul_grant a g).st.slot_at k j).map (has_pucch_of c) = some true := by
  rw [map_has_pucch_of_grants] at h ⊢
  rw [allocate_ul_grant_same_grants a g c hc hx k j]
  exact h

/-! ## UE removal: the scheduling of a slot -/

theorem is_retx_no_ue {a : ue_cell_grid_allocator} {sg : sched_grant}
    (hu : a.ues.getD sg.user_ue_index none = none) : a.is_retx sg = false := by
  cases sg with
  | pdsch g =>
    simp only [sched_grant.user_ue_index] at hu
    simp only [ue_cell_grid_allocator.is_retx, ue_cell_grid_allocator.dl_harq_of,
      ue_cell_grid_allocator.harqs_of, hu, Option.none_bind, Option.map_none']
  | pusch g =>
    simp only [sched_grant.user_ue_index] at hu
    simp only [ue_cell_grid_allocator.is_retx, ue_cell_grid_allocator.ul_harq_of,
      ue_cell_grid_allocator.harqs_of, hu, Option.none_bind, Option.map_none']

/-- A candidate grant whose HARQ process waits for a retransmission belongs to a UE with a
pending retransmission. -/
theorem is_retx_has_pending_retx {a : ue_cell_grid_allocator} {sg : sched_grant} {u : ue}
    (hu : a.ues.getD sg.user_ue_index none = some u) (h : a.is_retx sg = true) :
    u.has_pending_retx = true := by
  cases sg with
  | pdsch g =>
    simp only [sched_grant.user_ue_index] at hu
    simp only [ue_cell_grid_allocator.is_retx, ue_cell_grid_allocator.dl_harq_of,
      ue_cell_grid_allocator.harqs_of, hu, Option.some_bind] at h
    cases hf : u.find_cell g.cell_index with
    | none => simp [hf] at h
    | some cl =>
      simp only [hf, Option.map_some', Option.some_bind, harq_entity.dl_harq] at h
      cases hq : cl.harqs.dl_harqs[g.h_id]? with
      | none => simp [hq] at h
      | some q =>
        simp only [hq] at h
        unfold ue.has_pending_retx
        rw [List.any_eq_true]
        refine ⟨cl, List.mem_of_find?_eq_some hf, ?_⟩
        rw [Bool.or_eq_true, List.any_eq_true]
        exact Or.inl ⟨q, List.mem_iff_getElem?.mpr ⟨_, hq⟩, h⟩
  | pusch g =>
    simp only [sched_grant.user_ue_index] at hu
    simp only [ue_cell_grid_allocator.is_retx, ue_cell_grid_allocator.ul_harq_of,
      ue_cell_grid_allocator.harqs_of, hu, Option.some_bind] at h
    cases hf : u.find_cell g.cell_index with
    | none => simp [hf] at h
    | some cl =>
      simp only [hf, Option.map_some', Option.some_bind, harq_entity.ul_harq] at h
      cases hq : cl.harqs.ul_harqs[g.h_id]? with
      | none => simp [hq] at h
      | some q =>
        simp only [hq] at h
        unfold ue.has_pending_retx
        rw [List.any_eq_true]
        refine ⟨cl, List.mem_of_find?_eq_some hf, ?_⟩
        rw [Bool.or_eq_true, List.any_eq_true, List.any_eq_true]
        exact Or.inr ⟨q, List.mem_iff_getElem?.mpr ⟨_, hq⟩, h⟩

/-- One call of the allocator made by the scheduling of a slot while the removal of the UE
`i` is scheduled, where `i` is the only index of a UE with the C-RNTI `c`. -/
theorem schedule_step_spec (rem : List Nat) (i c : Nat) (hi : i ∈ rem)
    (a : ue_cell_grid_allocator) (sg : sched_grant)
    (hinv : ∀ j u, a.ues.getD j none = some u → u.crnti = c → j = i)
    (hal : schedule_grant_allowed rem a sg = true)
    (hx : ∀ ac, (a.allocate sg).exit ≠ .abort ac) :
    (∀ j u, (a.allocate sg).st.ues.getD j none = some u → u.crnti = c → j = i) ∧
    (∀ k j, ((a.allocate sg).st.slot_at k j).map (new_pdschs_of c) =
      (a.slot_at k j).map (new_pdschs_of c)) ∧
    ((∀ g, sg = .pusch g → g.user_ue_index ≠ i) → ∀ k j,
      (a.slot_at k j).map (has_pucch_of c) = some true →
      ((a.allocate sg).st.slot_at k j).map (has_pucch_of c) = some true) ∧
    ((∀ u, a.ues.getD i none = some u → u.has_pending_retx = false) →
      (a.allocate sg).st.ues.getD i none = a.ues.getD i none ∧
      ∀ k j, ((a.allocate sg).st.slot_at k j).map (grants_of c) =
        (a.slot_at k j).map (grants_of c)) := by
  have hret : sg.user_ue_index = i → a.is_retx sg = true := by
    intro e
    unfold schedule_grant_allowed at hal
    rw [e] at hal
    have h1 : i ∉ rem ∨ a.is_retx sg = true := by simpa using hal
    exact h1.resolve_left (fun h => h hi)
  have hcr : ∀ ues1 : List (Option ue),
      (∀ j, (ues1.getD j none).map (fun u => u.crnti) =
        (a.ues.getD j none).map (fun u => u.crnti)) →
      ∀ j u, ues1.getD j none = some u → u.crnti = c → j = i := by
    intro ues1 h j u hu hc
    have hj := h j
    rw [hu] at hj
    cases hau : a.ues.getD j none with
    | none => rw [hau] at hj; cases hj
    | some u0 =>
      rw [hau] at hj
      simp only [Option.map_some', Option.some.injEq] at hj
      exact hinv j u0 hau (hj ▸ hc)
  have hother : sg.user_ue_index ≠ i →
      ∀ u, a.ues.getD sg.user_ue_index none = some u → u.crnti ≠ c :=
    fun hne u hu hc => hne (hinv _ u hu hc)
  have hidx : (∀ u, a.ues.getD i none = some u → u.has_pending_retx = false) →
      sg.user_ue_index ≠ i := by
    intro hp e
    have hr := hret e
    cases hu : a.ues.getD sg.user_ue_index none with
    | none => rw [is_retx_no_ue hu] at hr; cases hr
    | some u =>
      have h1 := is_retx_has_pending_retx hu hr
      rw [e] at hu
      rw [hp u hu] at h1
      cases h1
  cases sg with
  | pdsch g =>
    have hx1 : ∀ ac, (allocate_dl_grant a g).exit ≠ .abort ac := hx
    refine ⟨hcr _ (fun j => (allocate_dl_grant_ues a g hx1 j).1),
      allocate_dl_grant_new_pdschs a g c ?_ hx1,
      fun _ => allocate_dl_grant_keeps_pucch a g c hx1,
      fun hp => ⟨(allocate_dl_grant_ues a g hx1 i).2 (Ne.symm (hidx hp)),
        fun k j => allocate_dl_grant_same_grants a g c (hother (hidx hp)) hx1 k j⟩⟩
    intro u h hu hc hh
    have hr := hret (hinv _ u hu hc)
    simp only [ue_cell_grid_allocator.is_retx, hh] at hr
    unfold dl_harq_process.empty
    have hs : h.state = harq_state.pending_retx := by simpa using hr
    rw [hs]
    rfl
  | pusch g =>
    have hx1 : ∀ ac, (allocate_ul_grant a g).exit ≠ .abort ac := hx
    exact ⟨hcr _ (fun j => (allocate_ul_grant_ues a g hx1 j).1),
      allocate_ul_grant_new_pdschs a g c hx1,
      fun hne => allocate_ul_grant_keeps_pucch a g c (hother (hne g rfl)) hx1,
      fun hp => ⟨(allocate_ul_grant_ues a g hx1 i).2 (Ne.symm (hidx hp)),
        fun k j => allocate_ul_grant_same_grants a g c (hother (hidx hp)) hx1 k j⟩⟩

/-- The scheduling of a slot while the removal of the UE `i` is scheduled, where `i` is the
only index of a UE with the C-RNTI `c`: for every list of candidate grants, no PDSCH
grant of a new transmission for `c` is added to any slot; when no candidate is a PUSCH
grant for the UE, every slot that holds a PUCCH grant for `c` still holds one; and when
no HARQ process of the UE waits for a retransmission, the PDSCH grants and the PUCCH
grants that carry `c` are in every slot as they were. -/
theorem schedule_grants_spec (rem : List Nat) (i c : Nat) (hi : i ∈ rem) :
    ∀ (gs : List sched_grant) (a : ue_cell_grid_allocator),
      (∀ j u, a.ues.getD j none = some u → u.crnti = c → j = i) →
      (schedule_grants rem a gs).aborted = false →
      (∀ k j, ((schedule_grants rem a gs).st.slot_at k j).map (new_pdschs_of c) =
        (a.slot_at k j).map (new_pdschs_of c)) ∧
      ((∀ g, sched_grant.pusch g ∈ gs → g.user_ue_index ≠ i) → ∀ k j,
        (a.slot_at k j).map (has_pucch_of c) = some true →
        ((schedule_grants rem a gs).st.slot_at k j).map (has_pucch_of c) = some true) ∧
      ((∀ u, a.ues.getD i none = some u → u.has_pending_retx = false) → ∀ k j,
        ((schedule_grants rem a gs).st.slot_at k j).map (grants_of c) =
          (a.slot_at k j).map (grants_of c)) := by
  intro gs
  induction gs with
  | nil =>
    intro a _ _
    exact ⟨fun _ _ => rfl, fun _ _ _ h => h, fun _ _ _ => rfl⟩
  | cons sg gs ih =>
    intro a hinv hab
    cases hal : schedule_grant_allowed rem a sg with
    | false =>
      have e : schedule_grants rem a (sg :: gs) = schedule_grants rem a gs := by
        rw [schedule_grants]
        simp only [hal, Bool.false_eq_true, if_false]
      rw [e] at hab ⊢
      obtain ⟨i1, i2, i3⟩ := ih a hinv hab
      exact ⟨i1, fun h => i2 (fun g hg => h g (List.mem_cons_of_mem _ hg)), i3⟩
    | true =>
      have key : (∀ ac, (a.allocate sg).exit ≠ .abort ac) →
          schedule_grants rem a (sg :: gs) = schedule_grants rem (a.allocate sg).st gs →
          (∀ k j, ((schedule_grants rem a (sg :: gs)).st.slot_at k j).map (new_pdschs_of c) =
            (a.slot_at k j).map (new_pdschs_of c)) ∧
          ((∀ g, sched_grant.pusch g ∈ sg :: gs → g.user_ue_index ≠ i) → ∀ k j,
            (a.slot_at k j).map (has_pucch_of c) = some true →
            ((schedule_grants rem a (sg :: gs)).st.slot_at k j).map (has_pucch_of c) =
              some true) ∧
          ((∀ u, a.ues.getD i none = some u → u.has_pending_retx = false) → ∀ k j,
            ((schedule_grants rem a (sg :: gs)).st.slot_at k j).map (grants_of c) =
              (a.slot_at k j).map (grants_of c)) := by
        intro hx e
        rw [e] at hab ⊢
        obtain ⟨s1, s2, s3, s4⟩ := schedule_step_spec rem i c hi a sg hinv hal hx
        obtain ⟨i1, i2, i3⟩ := ih (a.allocate sg).st s1 hab
        refine ⟨fun k j => (i1 k j).trans (s2 k j),
          fun h k j hh => i2 (fun g hg => h g (List.mem_cons_of_mem _ hg)) k j
            (s3 (fun g eg => h g (eg ▸ List.mem_cons_self _ _)) k j hh),
          fun hp k j => ?_⟩
        obtain ⟨t1, t2⟩ := s4 hp
        exact (i3 (fun u hu => hp u (t1 ▸ hu)) k j).trans (t2 k j)
      cases hexit : (a.allocate sg).exit with
      | abort ac =>
        rw [schedule_grants] at hab
        simp only [hal, if_true, hexit] at hab
        cases hab
      | failure f =>
        refine key (by rw [hexit]; intro ac h; cases h) ?_
        rw [schedule_grants]
        simp only [hal, if_true, hexit]
      | success =>
        refine key (by rw [hexit]; intro ac h; cases h) ?_
        rw [schedule_grants]
        simp only [hal, if_true, hexit]

/-- The scheduling of a slot by a scheduler whose repository has the removal of the UE `i`
scheduled, with an allocator that works on the UEs of this repository. -/
theorem schedule_grants_pending (i : Nat) (s : ue_scheduler) (a : ue_cell_grid_allocator)
    (c : Nat) (gs : List sched_grant) (hues : a.ues = s.event_mng.ue_db.ues)
    (hi : i ∈ s.event_mng.ue_db.ues_to_rem)
    (hinv : ∀ j u, s.event_mng.ue_db.get j = some u → u.crnti = c → j = i)
    (hab : (schedule_grants s.event_mng.ue_db.ues_to_rem a gs).aborted = false) :
    (∀ k j, ((schedule_grants s.event_mng.ue_db.ues_to_rem a gs).st.slot_at k j).map
        (new_pdschs_of c) = (a.slot_at k j).map (new_pdschs_of c)) ∧
    ((∀ g, sched_grant.pusch g ∈ gs → g.user_ue_index ≠ i) → ∀ k j,
      (a.slot_at k j).map (has_pucch_of c) = some true →
      ((schedule_grants s.event_mng.ue_db.ues_to_rem a gs).st.slot_at k j).map
        (has_pucch_of c) = some true) ∧
    ((∀ u, s.event_mng.ue_db.get i = some u → u.has_pending_retx = false) → ∀ k j,
      ((schedule_grants s.event_mng.ue_db.ues_to_rem a gs).st.slot_at k j).map (grants_of c) =
        (a.slot_at k j).map (grants_of c)) := by
  have hget : ∀ j, s.event_mng.ue_db.get j = a.ues.getD j none := by
    intro j
    rw [hues]
    rfl
  obtain ⟨h1, h2, h3⟩ := schedule_grants_spec s.event_mng.ue_db.ues_to_rem i c hi gs a
    (fun j u hu hc => hinv j u ((hget j).trans hu) hc) hab
  exact ⟨h1, h2, fun hp => h3 (fun u hu => hp u ((hget i).trans hu))⟩

/-- In the scenario of the scheduling, the UE 0 is the only UE with the C-RNTI 17921. -/
theorem demo_rem_scheduler_crnti (j : Nat) (u : ue)
    (hu : demo_rem_scheduler.event_mng.ue_db.get j = some u) (hc : u.crnti = 17921) : j = 0 := by
  rcases j with _ | _ | j
  · rfl
  · have h2 : (demo_rem_scheduler.event_mng.ue_db.get 1).map (fun u => u.crnti) = some 17922 := by
      decide
    rw [hu] at h2
    simp only [Option.map_some', Option.some.injEq] at h2
    omega
  · have h3 : demo_rem_scheduler.event_mng.ue_db.get (j + 2) = none := rfl
    rw [h3] at hu
    cases hu

/-- In the scenario of the scheduling, no HARQ process of the UE 0 waits for a
retransmission. -/
theorem demo_rem_scheduler_no_retx (u : ue)
    (hu : demo_rem_scheduler.event_mng.ue_db.get 0 = some u) : u.has_pending_retx = false := by
  have h2 : (demo_rem_scheduler.event_mng.ue_db.get 0).map (fun u => u.has_pending_retx) =
      some false := by decide
  rw [hu] at h2
  simpa using h2

/-- In the scenario of the scheduling, no candidate is a PUSCH grant. -/
theorem demo_rem_grants_no_pusch (g : ue_pusch_grant) (hg : sched_grant.pusch g ∈ demo_rem_grants) :
    g.user_ue_index ≠ 0 := by
  simp [demo_rem_grants] at hg

/-- In the scenario of the scheduling, no call of the allocator aborts. -/
theorem demo_rem_not_aborted :
    (schedule_grants demo_rem_scheduler.event_mng.ue_db.ues_to_rem demo_rem_alloc
      demo_rem_grants).aborted = false := by decide

/-- In the scenario of the scheduling, the slot of offset 4 holds a PUCCH grant of the
UE 0 before the scheduling. -/
theorem demo_rem_pucch : (demo_rem_alloc.slot_at 0 4).map (has_pucch_of 17921) = some true := by
  decide

/-- In the scenario of the scheduling, only the candidate of the UE 1 is granted. -/
theorem demo_rem_scheduled :
    ((schedule_grants [0] demo_rem_alloc demo_rem_grants).st.slot_at 0 0).map
      (fun sa => sa.result.dl.ue_grants.map (fun x => (x.pdsch_cfg.rnti, x.nof_retxs))) =
        some [(17921, 0), (17922, 0)] := by decide

/-- In the scenario of the scheduling, the PUCCH grant of the UE 0 stays next to the new one
of the UE 1. -/
theorem demo_rem_scheduled_pucch :
    ((schedule_grants [0] demo_rem_alloc demo_rem_grants).st.slot_at 0 4).map
      (fun sa => sa.result.ul.pucchs.map (fun q => q.crnti)) = some [17922, 17921] := by decide

/-- Without the scheduled removal, the candidate of the UE 0 is granted. -/
theorem demo_rem_unscheduled :
    ((schedule_grants [] demo_rem_alloc (demo_rem_grants.take 1)).st.slot_at 0 0).map
      (fun sa => sa.result.dl.ue_grants.map (fun x => (x.pdsch_cfg.rnti, x.nof_retxs))) =
        some [(17921, 0), (17921, 0)] := by decide

/-- The allocator alone grants a PDSCH on the HARQ process that waits for the HARQ-ACK. -/
theorem demo_rem_waiting_granted :
    (allocate_dl_grant demo_rem_alloc (demo_dl_grant 0 ⟨10, 20⟩)).exit = .success := by decide

/-- With the scheduled removal, a candidate on the HARQ process that waits for the HARQ-ACK
is not handed to the allocator. -/
theorem demo_rem_waiting_dropped :
    ((schedule_grants [0] demo_rem_alloc [.pdsch (demo_dl_grant 0 ⟨10, 20⟩)]).st.slot_at 0 0).map
      (fun sa => sa.result.dl.ue_grants.map (fun x => (x.pdsch_cfg.rnti, x.nof_retxs))) =
        some [(17921, 0)] := by decide

/-! ## C23: the deletion of a UE is notified once -/

/-- C23, on the model of the repository and of the slot of the scheduler taken from the
specification (the events are processed, then the repository passes the slot boundary,
where it deletes the UEs scheduled for removal that have no outstanding HARQ process
and notifies each deletion upstream).  (1) The closure of a removal request for a UE
that the repository does not hold leaves the event manager as it is, and when the UE
is neither held nor scheduled for removal, the request followed by a slot notifies
nothing for it.  (2) In a slot whose events are processed without failure, the deletion
of the UE is notified once more exactly when, at the slot boundary, its removal is
scheduled and it has no outstanding HARQ process; a UE with an outstanding HARQ
process stays and stays scheduled.  (3) A removal request for a UE of the cell, pushed
when no event is pending, and the next slot: without outstanding HARQ process the
deletion is notified once in this slot and the UE is gone; with one, nothing is
notified and the UE stays scheduled for removal.  (4) Once the UE is gone, a slot
whose events do not create it again notifies nothing more for it and leaves it gone.
(5) A call of `allocate_dl_grant` or `allocate_ul_grant` that returns, made for a UE with
another C-RNTI, leaves the PDSCH grants and the PUCCH grants of the C-RNTI in every
slot as they are.  (6) On the model of the scheduling of a slot taken from the
specification (a candidate grant for a UE scheduled for removal is handed to the
allocator only when its HARQ process waits for a retransmission), with an allocator
that works on the UEs of the repository, while the removal of the UE is scheduled and
no other UE has its C-RNTI: whatever the candidate grants are, a scheduling that is not
aborted adds no PDSCH grant of a new transmission for the C-RNTI to any slot; when no
candidate is a PUSCH grant for the UE, every slot that holds a PUCCH grant for the
C-RNTI still holds one; and when no HARQ process of the UE waits for a retransmission,
no PDSCH grant at all is added for the C-RNTI and its PUCCH grants are in every slot as
they were. -/
theorem ue_removal_notified_once (i : Nat) :
    ((∀ m : ue_event_manager, m.ue_db.contains i = false →
        m.run_common_callback (.ue_removal i) = m) ∧
      (∀ (s : ue_scheduler) (sl : slot_point) (cell : Nat),
        s.event_mng.ue_db.gone i → s.event_mng.no_creation_of i →
        (({ s with event_mng := s.event_mng.handle_ue_removal_request i } :
            ue_scheduler).run_slot sl cell).deleted.count i = s.deleted.count i ∧
        (({ s with event_mng := s.event_mng.handle_ue_removal_request i } :
            ue_scheduler).run_slot sl cell).event_mng.ue_db.gone i)) ∧
    (∀ (s : ue_scheduler) (sl : slot_point) (cell : Nat),
      (s.event_mng.run sl cell).failed = false →
      (s.run_slot sl cell).deleted.count i = s.deleted.count i +
        (if i ∈ (s.event_mng.run sl cell).ue_db.ues_to_rem ∧
            (s.event_mng.run sl cell).ue_db.removable i = true then 1 else 0) ∧
      (s.run_slot sl cell).event_mng.ue_db.get i =
        (if i ∈ (s.event_mng.run sl cell).ue_db.ues_to_rem ∧
            (s.event_mng.run sl cell).ue_db.removable i = true then none
          else (s.event_mng.run sl cell).ue_db.get i) ∧
      (i ∈ (s.run_slot sl cell).event_mng.ue_db.ues_to_rem ↔
        i ∈ (s.event_mng.run sl cell).ue_db.ues_to_rem ∧
          ∃ u, (s.event_mng.run sl cell).ue_db.get i = some u ∧
            u.has_outstanding_harq = true)) ∧
    (∀ (s : ue_scheduler) (sl : slot_point) (cell : Nat) (u : ue) (pcell : ue_cell),
      s.event_mng.failed = false → s.event_mng.cell_check_fails cell = false →
      s.event_mng.common_events.pending_events = [] →
      (s.event_mng.cell_specific_events cell).pending_events = [] →
      s.event_mng.last_sl ≠ some sl → i ≠ MAX_NOF_DU_UES →
      s.event_mng.ue_db.get i = some u → u.get_pcell = some pcell → pcell.cell_index = cell →
      (u.has_outstanding_harq = false →
        (({ s with event_mng := s.event_mng.handle_ue_removal_request i } :
            ue_scheduler).run_slot sl cell).deleted.count i = s.deleted.count i + 1 ∧
        (({ s with event_mng := s.event_mng.handle_ue_removal_request i } :
            ue_scheduler).run_slot sl cell).event_mng.ue_db.gone i) ∧
      (u.has_outstanding_harq = true →
        (({ s with event_mng := s.event_mng.handle_ue_removal_request i } :
            ue_scheduler).run_slot sl cell).deleted.count i = s.deleted.count i ∧
        (({ s with event_mng := s.event_mng.handle_ue_removal_request i } :
            ue_scheduler).run_slot sl cell).event_mng.ue_db.get i = some u ∧
        i ∈ (({ s with event_mng := s.event_mng.handle_ue_removal_request i } :
            ue_scheduler).run_slot sl cell).event_mng.ue_db.ues_to_rem)) ∧
    (∀ (s : ue_scheduler) (sl : slot_point) (cell : Nat),
      s.event_mng.ue_db.gone i → s.event_mng.no_creation_of i →
      (s.run_slot sl cell).deleted.count i = s.deleted.count i ∧
      (s.run_slot sl cell).event_mng.ue_db.gone i) ∧
    (∀ (a : ue_cell_grid_allocator) (c : Nat),
      (∀ g : ue_pdsch_grant,
        (∀ u, a.ues.getD g.user_ue_index none = some u → u.crnti ≠ c) →
        (∀ ac, (allocate_dl_grant a g).exit ≠ .abort ac) →
        ∀ k j, ((allocate_dl_grant a g).st.slot_at k j).map (grants_of c) =
          (a.slot_at k j).map (grants_of c)) ∧
      (∀ g : ue_pusch_grant,
        (∀ u, a.ues.getD g.user_ue_index none = some u → u.crnti ≠ c) →
        (∀ ac, (allocate_ul_grant a g).exit ≠ .abort ac) →
        ∀ k j, ((allocate_ul_grant a g).st.slot_at k j).map (grants_of c) =
          (a.slot_at k j).map (grants_of c))) ∧
    (∀ (s : ue_scheduler) (a : ue_cell_grid_allocator) (c : Nat) (gs : List sched_grant),
      a.ues = s.event_mng.ue_db.ues → i ∈ s.event_mng.ue_db.ues_to_rem →
      (∀ j u, s.event_mng.ue_db.get j = some u → u.crnti = c → j = i) →
      (schedule_grants s.event_mng.ue_db.ues_to_rem a gs).aborted = false →
      (∀ k j, ((schedule_grants s.event_mng.ue_db.ues_to_rem a gs).st.slot_at k j).map
          (new_pdschs_of c) = (a.slot_at k j).map (new_pdschs_of c)) ∧
      ((∀ g, sched_grant.pusch g ∈ gs → g.user_ue_index ≠ i) → ∀ k j,
        (a.slot_at k j).map (has_pucch_of c) = some true →
        ((schedule_grants s.event_mng.ue_db.ues_to_rem a gs).st.slot_at k j).map
          (has_pucch_of c) = some true) ∧
      ((∀ u, s.event_mng.ue_db.get i = some u → u.has_pending_retx = false) → ∀ k j,
        ((schedule_grants s.event_mng.ue_db.ues_to_rem a gs).st.slot_at k j).map
          (grants_of c) = (a.slot_at k j).map (grants_of c))) := by
  refine ⟨⟨fun m h => (run_ue_removal_callback m i).1 h, fun s sl cell hg hc => ?_⟩,
    fun s sl cell hf => run_slot_spec s sl cell i hf,
    fun s sl cell u pcell hf hcell hp hcs hsl hi hu hpc hci =>
      removal_request_run_slot s i sl cell u pcell hf hcell hp hcs hsl hi hu hpc hci,
    fun s sl cell hg hc => run_slot_gone s sl cell i hg hc,
    fun a c => ⟨fun g h1 h2 k j => allocate_dl_grant_same_grants a g c h1 h2 k j,
      fun g h1 h2 k j => allocate_ul_grant_same_grants a g c h1 h2 k j⟩,
    fun s a c gs h1 h2 h3 h4 => schedule_grants_pending i s a c gs h1 h2 h3 h4⟩
  have hc' : (s.event_mng.handle_ue_removal_request i).no_creation_of i := by
    intro ev hev cb hcb
    have hev' : ev ∈ (s.event_mng.common_events.pending_events ++
        [⟨i, some (.ue_removal i), s.event_mng.next_seq⟩]) ++
        s.event_mng.common_events.current_events := hev
    simp only [List.mem_append, List.mem_singleton] at hev'
    rcases hev' with (h1 | h1) | h1
    · exact hc ev (List.mem_append_left _ h1) cb hcb
    · rw [h1] at hcb
      simp only [Option.some.injEq] at hcb
      rw [← hcb]
      rfl
    · exact hc ev (List.mem_append_right _ h1) cb hcb
  exact run_slot_gone ({ s with event_mng := s.event_mng.handle_ue_removal_request i } :
    ue_scheduler) sl cell i hg hc'

/-- C23 in the scenario, for UE 7 of cell 0.  Without HARQ process in use, the slot after
the removal request notifies the deletion, and the slot after that notifies nothing more.
With a HARQ process in use, two slots pass without notification; after the HARQ-ACK is
received the next slot notifies the deletion, and a later removal request for the UE,
which no longer exists, changes nothing.  A removal request for a UE that never existed
leaves the manager as it is.  In the scenario of the scheduling, the UE 0 with the C-RNTI
17921 holds a PDSCH grant in the slot of offset 0 and a PUCCH grant in the slot of
offset 4, its HARQ process 0 waits for the HARQ-ACK and its removal is scheduled: of the
candidates, a new transmission for the UE 0 and one for the UE 1, only the second is
granted, the slot of offset 4 keeps the PUCCH grant of the UE 0 and the slot of offset 0
holds no further PDSCH grant for it; without the scheduled removal the first candidate
is granted, and the allocator alone grants a PDSCH on the HARQ process that waits for
the HARQ-ACK. -/
theorem ue_removal_notified_once_demo :
    (demo_scheduler.exec [.request (.ue_creation_request ⟨7, 17921, [0]⟩), .run_slot ⟨1, 0⟩ 0,
      .request (.ue_removal_request 7), .run_slot ⟨1, 1⟩ 0, .run_slot ⟨1, 2⟩ 0]).deleted = [7] ∧
    (demo_busy_scheduler.exec [.request (.ue_creation_request ⟨7, 17921, [0]⟩),
      .run_slot ⟨1, 0⟩ 0, .request (.ue_removal_request 7), .run_slot ⟨1, 1⟩ 0,
      .run_slot ⟨1, 2⟩ 0]).deleted = [] ∧
    (demo_busy_scheduler.exec [.request (.ue_creation_request ⟨7, 17921, [0]⟩),
      .run_slot ⟨1, 0⟩ 0, .request (.ue_removal_request 7), .run_slot ⟨1, 1⟩ 0,
      .run_slot ⟨1, 2⟩ 0,
      .request (.uci_indication
        ⟨0, ⟨1, 2⟩, [⟨7, 17921, .uci_pucch_f0_or_f1_pdu false [.ack] none⟩]⟩),
      .run_slot ⟨1, 3⟩ 0, .run_slot ⟨1, 4⟩ 0, .request (.ue_removal_request 7),
      .run_slot ⟨1, 5⟩ 0]).deleted = [7] ∧
    demo_event_manager.ue_db.contains 7 = false ∧
    demo_event_manager.run_common_callback (.ue_removal 7) = demo_event_manager ∧
    (demo_scheduler.exec [.request (.ue_creation_request ⟨7, 17921, [0]⟩),
      .run_slot ⟨1, 0⟩ 0]).event_mng.ue_db.get 7 = some (demo_ue_methods.make_ue ⟨7, 17921, [0]⟩) ∧
    (({ (demo_scheduler.exec [.request (.ue_creation_request ⟨7, 17921, [0]⟩),
            .run_slot ⟨1, 0⟩ 0]) with
          event_mng := (demo_scheduler.exec [.request (.ue_creation_request ⟨7, 17921, [0]⟩),
            .run_slot ⟨1, 0⟩ 0]).event_mng.handle_ue_removal_request 7 } :
        ue_scheduler).run_slot ⟨1, 1⟩ 0).deleted.count 7 =
      (demo_scheduler.exec [.request (.ue_creation_request ⟨7, 17921, [0]⟩),
        .run_slot ⟨1, 0⟩ 0]).deleted.count 7 + 1 ∧
    ((schedule_grants [0] demo_rem_alloc demo_rem_grants).st.slot_at 0 0).map
      (fun sa => sa.result.dl.ue_grants.map (fun x => (x.pdsch_cfg.rnti, x.nof_retxs))) =
        some [(17921, 0), (17922, 0)] ∧
    ((schedule_grants [0] demo_rem_alloc demo_rem_grants).st.slot_at 0 4).map
      (fun sa => sa.result.ul.pucchs.map (fun q => q.crnti)) = some [17922, 17921] ∧
    ((schedule_grants [] demo_rem_alloc (demo_rem_grants.take 1)).st.slot_at 0 0).map
      (fun sa => sa.result.dl.ue_grants.map (fun x => (x.pdsch_cfg.rnti, x.nof_retxs))) =
        some [(17921, 0), (17921, 0)] ∧
    (allocate_dl_grant demo_rem_alloc (demo_dl_grant 0 ⟨10, 20⟩)).exit = .success ∧
    ((schedule_grants [0] demo_rem_alloc [.pdsch (demo_dl_grant 0 ⟨10, 20⟩)]).st.slot_at 0 0).map
      (fun sa => sa.result.dl.ue_grants.map (fun x => (x.pdsch_cfg.rnti, x.nof_retxs))) =
        some [(17921, 0)] ∧
    ((schedule_grants demo_rem_scheduler.event_mng.ue_db.ues_to_rem demo_rem_alloc
        demo_rem_grants).st.slot_at 0 0).map (new_pdschs_of 17921) =
      (demo_rem_alloc.slot_at 0 0).map (new_pdschs_of 17921) ∧
    ((schedule_grants demo_rem_scheduler.event_mng.ue_db.ues_to_rem demo_rem_alloc
        demo_rem_grants).st.slot_at 0 4).map (has_pucch_of 17921) = some true ∧
    ((schedule_grants demo_rem_scheduler.event_mng.ue_db.ues_to_rem demo_rem_alloc
        demo_rem_grants).st.slot_at 0 0).map (grants_of 17921) =
      (demo_rem_alloc.slot_at 0 0).map (grants_of 17921) :=
  ⟨by decide, by decide, by decide, by decide,
    (ue_removal_notified_once 7).1.1 demo_event_manager (by decide), rfl,
    (((ue_removal_notified_once 7).2.2.1
      (demo_scheduler.exec [.request (.ue_creation_request ⟨7, 17921, [0]⟩), .run_slot ⟨1, 0⟩ 0])
      ⟨1, 1⟩ 0 (demo_ue_methods.make_ue ⟨7, 17921, [0]⟩) (demo_em_ue_cell 7 0 17921)
      rfl rfl rfl rfl (by decide) (by decide) rfl rfl rfl).1 rfl).1,
    demo_rem_scheduled, demo_rem_scheduled_pucch, demo_rem_unscheduled, demo_rem_waiting_granted,
    demo_rem_waiting_dropped,
    ((ue_removal_notified_once 0).2.2.2.2.2 demo_rem_scheduler demo_rem_alloc 17921
      demo_rem_grants rfl (by decide) demo_rem_scheduler_crnti demo_rem_not_aborted).1 0 0,
    ((ue_removal_notified_once 0).2.2.2.2.2 demo_rem_scheduler demo_rem_alloc 17921
      demo_rem_grants rfl (by decide) demo_rem_scheduler_crnti demo_rem_not_aborted).2.1
      demo_rem_grants_no_pusch 0 4 demo_rem_pucch,
    ((ue_removal_notified_once 0).2.2.2.2.2 demo_rem_scheduler demo_rem_alloc 17921
      demo_rem_grants rfl (by decide) demo_rem_scheduler_crnti demo_rem_not_aborted).2.2
      demo_rem_scheduler_no_retx 0 0⟩

end srsran
